import Mathlib

/-!
# K2 access method of chogori-opengauss: scan-key classification, key binding,
# record serialisation and the single-row write analysis

A shallow embedding of

* `src/gausskernel/storage/access/k2/k2catam.cpp` (scan plan, scan-key
  classification, key binding),
* `src/gausskernel/storage/access/k2/storage.cpp` (SKV serialisation),
* `src/gausskernel/storage/access/k2/k2_plan.cpp` (single-row modify analysis),

followed by theorems about these definitions.

Conventions.  C arrays indexed by a loop counter are lists; `Datum`
(`uintptr_t`) is a natural number below `2 ^ 64`; `AttrNumber` (`int16`) and
`int` are integers.  `Assert(...)` is PostgreSQL's debugging assertion, which
expands to nothing unless `USE_ASSERT_CHECKING` is defined; the embedding is of
the production build, so an `Assert` contributes no behaviour (each one is
recorded in a comment where the source has it).
-/

namespace K2

/-! ## PostgreSQL constants used by the sources

These come from PostgreSQL headers (`access/skey.h`, `access/stratnum.h`,
`postgres_ext.h`, `catalog/pg_type.h`) that the sources include. -/

/-- The `AttrNumber` type of PostgreSQL (`int16`). -/
abbrev AttrNumber := Int

/-- The `Datum` type of PostgreSQL (`uintptr_t`, 64 bits). -/
abbrev Datum := Nat

/-- The `Oid` type of PostgreSQL (`unsigned int`). -/
abbrev Oid := Nat

/-- The constant `InvalidOid`. -/
def InvalidOid : Oid := 0

/-- The constant `InvalidStrategy` of `access/stratnum.h`. -/
def InvalidStrategy : Nat := 0
/-- The constant `BTLessStrategyNumber`. -/
def BTLessStrategyNumber : Nat := 1
/-- The constant `BTLessEqualStrategyNumber`. -/
def BTLessEqualStrategyNumber : Nat := 2
/-- The constant `BTEqualStrategyNumber`. -/
def BTEqualStrategyNumber : Nat := 3
/-- The constant `BTGreaterEqualStrategyNumber`. -/
def BTGreaterEqualStrategyNumber : Nat := 4
/-- The constant `BTGreaterStrategyNumber`. -/
def BTGreaterStrategyNumber : Nat := 5

/-- The flag `SK_ISNULL` of `access/skey.h`: the key argument is NULL. -/
def SK_ISNULL : Nat := 0x0001
/-- The flag `SK_SEARCHARRAY`: the key is `col = ANY (array)`. -/
def SK_SEARCHARRAY : Nat := 0x0020
/-- The flag `SK_SEARCHNULL`: the key is `col IS NULL`. -/
def SK_SEARCHNULL : Nat := 0x0040
/-- The flag `SK_SEARCHNOTNULL`: the key is `col IS NOT NULL`. -/
def SK_SEARCHNOTNULL : Nat := 0x0080

/-- The fields of `ScanKeyData` that the access method reads.  `sk_func` and
`sk_collation` only matter to the local re-check and are not part of a key
here. -/
structure ScanKeyData where
  sk_flags : Nat
  sk_attno : AttrNumber
  sk_strategy : Nat
  sk_argument : Datum
deriving DecidableEq, Repr, Inhabited

/-! ## Scan-key classification (`k2catam.cpp`, lines 547-625) -/

/-- The function `cam_should_pushdown_op`: the scan plan and the attribute
number are parameters of the source function that its body never reads. -/
def cam_should_pushdown_op (attnum : AttrNumber) (op_strategy : Nat) : Bool :=
  if op_strategy = BTEqualStrategyNumber then true
  else if op_strategy = BTLessStrategyNumber then true
  else if op_strategy = BTLessEqualStrategyNumber then true
  else if op_strategy = BTGreaterEqualStrategyNumber then true
  else if op_strategy = BTGreaterStrategyNumber then true
  else false

/-- The function `IsBasicOpSearch`. -/
def IsBasicOpSearch (sk_flags : Nat) : Bool :=
  sk_flags == 0 || sk_flags == SK_ISNULL

/-- The function `IsSearchNull`. -/
def IsSearchNull (sk_flags : Nat) : Bool :=
  sk_flags == (SK_ISNULL ||| SK_SEARCHNULL)

/-- The function `IsSearchArray`. -/
def IsSearchArray (sk_flags : Nat) : Bool :=
  sk_flags == SK_SEARCHARRAY

/-- The function `ShouldPushdownScanKey`.  `isSystemRelation` is the value of
`IsSystemRelation(relation)`; `attnum` and `is_primary_key` are passed by the
caller exactly as in the source.  The two `Assert`s of the source
(`sk_strategy == InvalidStrategy` for a null search,
`sk_strategy == BTEqualStrategyNumber` for an array search) have no effect in
the production build. -/
def ShouldPushdownScanKey (isSystemRelation : Bool) (attnum : AttrNumber)
    (key : ScanKeyData) (is_primary_key : Bool) : Bool :=
  if isSystemRelation then
    IsBasicOpSearch key.sk_flags && key.sk_strategy == BTEqualStrategyNumber
  else
    if IsBasicOpSearch key.sk_flags then
      cam_should_pushdown_op attnum key.sk_strategy
    else if IsSearchNull key.sk_flags then
      true
    else if IsSearchArray key.sk_flags then
      true
    else
      false

/-! ## Data model of a scan (`k2catam.cpp`, `pg_gate_api.h`) -/

/-- The constraint kinds of `K2PgConstraintType` that the access method uses. -/
inductive K2PgConstraintType where
  | K2PG_CONSTRAINT_EQ
  | K2PG_CONSTRAINT_BETWEEN
  | K2PG_CONSTRAINT_IN
  | K2PG_CONSTRAINT_GTE
  | K2PG_CONSTRAINT_GT
  | K2PG_CONSTRAINT_LT
  | K2PG_CONSTRAINT_LTE
deriving DecidableEq, Repr, Inhabited

/-- The struct `K2PgConstant`. -/
structure K2PgConstant where
  type_id : Oid
  attr_size : Int
  attr_byvalue : Bool
  datum : Datum
  is_null : Bool
deriving DecidableEq, Repr, Inhabited

/-- The struct `K2PgConstraintDef`. -/
structure K2PgConstraintDef where
  attr_num : Int
  constraint : K2PgConstraintType
  constants : List K2PgConstant
deriving DecidableEq, Repr, Inhabited

/-- The fields of `FormData_pg_attribute` that the access method reads. -/
structure FormData_pg_attribute where
  atttypid : Oid
  attlen : Int
  attbyval : Bool
  attisdropped : Bool
deriving DecidableEq, Repr, Inhabited

/-- A tuple descriptor: `natts` is the length of the list and
`TupleDescAttr(desc, i)` its `i`-th entry. -/
abbrev TupleDesc := List FormData_pg_attribute

/-- The macro `TupleDescAttr`.  Reading past `natts` is outside the contract of
the source; the embedding then reads a zeroed attribute. -/
def TupleDescAttr (desc : TupleDesc) (i : Int) : FormData_pg_attribute :=
  desc.getD i.toNat default

/-- The fields of `FormData_pg_index` that the access method reads;
`indkey` is `indkey.values`. -/
structure FormData_pg_index where
  indisprimary : Bool
  indisunique : Bool
  indnatts : Nat
  indkey : List AttrNumber
deriving DecidableEq, Repr, Inhabited

/-- The part of a relation cache entry (`RelationData`) that the access method
reads: `rd_id` is `RelationGetRelid`, `rd_att` is `RelationGetDescr`,
`relhasoids` is `rd_rel->relhasoids`, `rd_index` is NULL (`none`) for a table,
and `isSystemRelation` is the value of `IsSystemRelation(relation)`. -/
structure RelationData where
  rd_id : Oid
  isSystemRelation : Bool
  relhasoids : Bool
  rd_att : TupleDesc
  rd_index : Option FormData_pg_index
deriving DecidableEq, Repr, Inhabited

/-- The expression `index->rd_index->indisprimary` (an index relation always
has `rd_index`). -/
def RelationData.indisprimary (index : RelationData) : Bool :=
  (index.rd_index.getD default).indisprimary

/-- The expression `index->rd_index->indkey.values[i]`.  An index outside the
array is outside the contract of the source; the embedding then reads 0 (or
entry 0 for a negative index). -/
def RelationData.indkey_values (index : RelationData) (i : Int) : AttrNumber :=
  (index.rd_index.getD default).indkey.getD i.toNat 0

/-- A bitmap set of non-negative integers (`Bitmapset *`). -/
abbrev Bitmapset := Finset Nat

/-- The struct `K2PgSelectIndexParams`. -/
structure K2PgSelectIndexParams where
  index_oid : Oid
  index_only_scan : Bool
  use_secondary_index : Bool
deriving DecidableEq, Repr, Inhabited

/-- The struct `K2PgSelectLimitParams`. -/
structure K2PgSelectLimitParams where
  limit_count : Int
  limit_offset : Int
  limit_use_default : Bool
deriving DecidableEq, Repr, Inhabited

/-- The struct `CamScanDescData`; `nkeys` is the length of `key`, and
`handle` is NULL (`none`) until `PgGate_NewSelect` has returned one. -/
structure CamScanDescData where
  key : List ScanKeyData
  tableOid : Oid
  index : Option RelationData
  target_desc : TupleDesc
  target_key_attnums : List AttrNumber
  prepare_params : K2PgSelectIndexParams
  exec_params : K2PgSelectLimitParams
  handle : Option Nat
  constraints : List K2PgConstraintDef
  targets_attrnum : List Int
  is_exec_done : Bool
deriving DecidableEq, Repr

/-- The number of keys of a scan (`camScan->nkeys`). -/
def CamScanDescData.nkeys (camScan : CamScanDescData) : Nat := camScan.key.length

/-- The struct `CamScanPlanData`.  The arrays `bind_key_attnums` and
`target_key_attnums` are lists holding the `nkeys` entries the code writes. -/
structure CamScanPlanData where
  target_relation : RelationData
  primary_key : Bitmapset
  nonprimary_key : Bitmapset
  sk_cols : Bitmapset
  bind_desc : TupleDesc
  bind_key_attnums : List AttrNumber

/-- The errors that end a scan-open: the `ereport(ERROR, ...)` of
`camBeginScan` and a failed status handed to `HandleK2PgStatus`. -/
inductive ScanError where
  | too_many_columns
  | gate_status (pg_code : Int)
deriving DecidableEq, Repr

/-- The collaborators of the access method that are declared outside these
sources: the K2 PG gate, the attribute-number-to-bitmap-index helper of
`k2pg_aux`, the array helpers of PostgreSQL, and the constants of
`k2pg_aux.h`/`sysattr.h`. -/
structure PgGate where
  K2PG_MAX_SCAN_KEYS : Nat
  ObjectIdAttributeNumber : AttrNumber
  K2PgTupleIdAttributeNumber : AttrNumber
  K2PgIdxBaseTupleIdAttributeNumber : AttrNumber
  K2PgAttnumToBmsIndex : RelationData → AttrNumber → Nat
  K2PgGetDatabaseOid : RelationData → Oid
  PgGate_GetTableDesc : Oid → Oid → Except ScanError Nat
  PgGate_GetColumnInfo : Nat → AttrNumber → Except ScanError Bool
  PgGate_NewSelect : Oid → Oid → K2PgSelectIndexParams → Except ScanError Nat
  deconstruct_array : Datum → List (Datum × Bool)
  _bt_sort_array_elements : Option RelationData → ScanKeyData → List Datum → List Datum

/-- The type oid `OIDOID` of `catalog/pg_type.h`. -/
def OIDOID : Oid := 26

/-! ## Scan plan (`k2catam.cpp`, lines 75-152 and 428-545) -/

/-- The function `camCheckPrimaryKeyAttribute`. -/
def camCheckPrimaryKeyAttribute (env : PgGate) (scan_plan : CamScanPlanData)
    (k2pg_table_desc : Nat) (attnum : AttrNumber) : Except ScanError CamScanPlanData :=
  match env.PgGate_GetColumnInfo k2pg_table_desc attnum with
  | .error e => .error e
  | .ok is_primary =>
    let idx := env.K2PgAttnumToBmsIndex scan_plan.target_relation attnum
    if is_primary then
      .ok { scan_plan with primary_key := insert idx scan_plan.primary_key }
    else
      .ok scan_plan

/-- The attribute loop of `camLoadTableInfo`, over the attribute numbers still
to visit. -/
def camLoadTableInfo_loop (env : PgGate) (k2pg_table_desc : Nat) :
    List AttrNumber → CamScanPlanData → Except ScanError CamScanPlanData
  | [], scan_plan => .ok scan_plan
  | attnum :: rest, scan_plan =>
    match camCheckPrimaryKeyAttribute env scan_plan k2pg_table_desc attnum with
    | .error e => .error e
    | .ok scan_plan1 => camLoadTableInfo_loop env k2pg_table_desc rest scan_plan1

/-- The function `camLoadTableInfo`. -/
def camLoadTableInfo (env : PgGate) (relation : RelationData)
    (scan_plan : CamScanPlanData) : Except ScanError CamScanPlanData :=
  let dboid := env.K2PgGetDatabaseOid relation
  let relid := relation.rd_id
  match env.PgGate_GetTableDesc dboid relid with
  | .error e => .error e
  | .ok k2pg_table_desc =>
    match camLoadTableInfo_loop env k2pg_table_desc
        ((List.range relation.rd_att.length).map (fun (n : Nat) => (n : Int) + 1)) scan_plan with
    | .error e => .error e
    | .ok scan_plan1 =>
      if relation.relhasoids then
        camCheckPrimaryKeyAttribute env scan_plan1 k2pg_table_desc env.ObjectIdAttributeNumber
      else
        .ok scan_plan1

/-- The function `cam_get_att_type_info`, returning
`(atttypid, att_size, att_byval)`. -/
def cam_get_att_type_info (bind_desc : TupleDesc) (attnum : AttrNumber) : Oid × Int × Bool :=
  if attnum > 0 then
    let tup_desc := TupleDescAttr bind_desc (attnum - 1)
    (tup_desc.atttypid, tup_desc.attlen, tup_desc.attbyval)
  else
    (OIDOID, 4, true)

/-- The body of the key loop of `camSetupScanPlan` for one key: the pair
`(target_key_attnums[i], bind_key_attnums[i])`. -/
def camSetupScanPlan_keyAttnums (index : Option RelationData) (index_only_scan : Bool)
    (key_i : ScanKeyData) : AttrNumber × AttrNumber :=
  match index with
  | none => (key_i.sk_attno, key_i.sk_attno)
  | some idx =>
    if idx.indisprimary then
      (idx.indkey_values (key_i.sk_attno - 1), idx.indkey_values (key_i.sk_attno - 1))
    else if index_only_scan then
      (key_i.sk_attno, key_i.sk_attno)
    else
      (idx.indkey_values (key_i.sk_attno - 1), key_i.sk_attno)

/-- The function `camSetupScanPlan`: it fills the scan plan (zeroed first) and
the scan descriptor. -/
def camSetupScanPlan (env : PgGate) (relation : RelationData) (index : Option RelationData)
    (xs_want_itup : Bool) (camScan : CamScanDescData) :
    Except ScanError (CamScanDescData × CamScanPlanData) :=
  let camScan1 : CamScanDescData := { camScan with index := index }
  let camScan2 : CamScanDescData :=
    match index with
    | some idx =>
      { camScan1 with prepare_params :=
          { index_oid := idx.rd_id
            index_only_scan := xs_want_itup
            use_secondary_index := !idx.indisprimary } }
    | none => camScan1
  let zeroed (target_relation : RelationData) : CamScanPlanData :=
    { target_relation := target_relation, primary_key := ∅, nonprimary_key := ∅,
      sk_cols := ∅, bind_desc := [], bind_key_attnums := [] }
  let loaded : Except ScanError (CamScanDescData × CamScanPlanData) :=
    match index with
    | none =>
      match camLoadTableInfo env relation (zeroed relation) with
      | .error e => .error e
      | .ok scan_plan =>
        .ok ({ camScan2 with target_desc := relation.rd_att },
             { scan_plan with bind_desc := relation.rd_att })
    | some idx =>
      if idx.indisprimary then
        match camLoadTableInfo env relation (zeroed relation) with
        | .error e => .error e
        | .ok scan_plan =>
          .ok ({ camScan2 with target_desc := relation.rd_att },
               { scan_plan with bind_desc := relation.rd_att })
      else
        let target_relation := if camScan2.prepare_params.index_only_scan then idx else relation
        match camLoadTableInfo env idx (zeroed target_relation) with
        | .error e => .error e
        | .ok scan_plan =>
          .ok ({ camScan2 with target_desc := target_relation.rd_att },
               { scan_plan with bind_desc := idx.rd_att })
  match loaded with
  | .error e => .error e
  | .ok (camScan3, scan_plan) =>
    let attnums := camScan3.key.map
      (camSetupScanPlan_keyAttnums index camScan3.prepare_params.index_only_scan)
    .ok ({ camScan3 with target_key_attnums := attnums.map Prod.fst },
         { scan_plan with bind_key_attnums := attnums.map Prod.snd })

/-! ## Scan keys: set-up and binding (`k2catam.cpp`, lines 154-272 and 627-910) -/

/-- The function `int_compar_cb`, the comparator handed to `qsort`. -/
def int_compar_cb (k1 k2 : Int) : Int :=
  if k1 < k2 then -1
  else if k1 > k2 then 1
  else 0

/-- The library call `qsort(offsets, noffsets, sizeof(int), int_compar_cb)`: the
array sorted in the order of the comparator.  Two integers that compare equal
are the same integer, so the sorted array does not depend on the sorting
algorithm. -/
def qsort (compar : Int → Int → Int) (offsets : List Int) : List Int :=
  offsets.insertionSort (fun a b => compar a b ≤ 0)

/-- The loop of `camSetupScanKeys` over the key positions still to visit,
returning `(camScan->exec_params, scan_plan->sk_cols)`. -/
def camSetupScanKeys_loop (env : PgGate) (relation : RelationData) (key : List ScanKeyData)
    (scan_plan : CamScanPlanData) :
    List Nat → K2PgSelectLimitParams → Bitmapset → K2PgSelectLimitParams × Bitmapset
  | [], exec_params, sk_cols => (exec_params, sk_cols)
  | i :: rest, exec_params, sk_cols =>
    if scan_plan.bind_key_attnums.getD i 0 = (InvalidOid : Int) then
      (exec_params, sk_cols)
    else
      let idx := env.K2PgAttnumToBmsIndex scan_plan.target_relation
        (scan_plan.bind_key_attnums.getD i 0)
      let is_primary_key : Bool := decide (idx ∈ scan_plan.primary_key)
      if !ShouldPushdownScanKey relation.isSystemRelation (scan_plan.bind_key_attnums.getD i 0)
          (key.getD i default) is_primary_key then
        if !exec_params.limit_use_default then
          camSetupScanKeys_loop env relation key scan_plan rest
            { exec_params with limit_count := -1 } sk_cols
        else
          camSetupScanKeys_loop env relation key scan_plan rest exec_params sk_cols
      else
        camSetupScanKeys_loop env relation key scan_plan rest exec_params (insert idx sk_cols)

/-- The function `camSetupScanKeys`. -/
def camSetupScanKeys (env : PgGate) (relation : RelationData) (index : Option RelationData)
    (camScan : CamScanDescData) (scan_plan : CamScanPlanData) :
    CamScanDescData × CamScanPlanData :=
  let r := camSetupScanKeys_loop env relation camScan.key scan_plan
    (List.range camScan.nkeys) camScan.exec_params scan_plan.sk_cols
  ({ camScan with exec_params := r.1 }, { scan_plan with sk_cols := r.2 })

/-- The function `camBindColumn`, acting on the vector `camScan->constraints`. -/
def camBindColumn (constraints : List K2PgConstraintDef) (bind_desc : TupleDesc)
    (attnum : AttrNumber) (value : Datum) (is_null : Bool) : List K2PgConstraintDef :=
  let info := cam_get_att_type_info bind_desc attnum
  let constant : K2PgConstant :=
    { type_id := info.1, attr_size := info.2.1, attr_byvalue := info.2.2,
      datum := value, is_null := is_null }
  constraints ++ [{ attr_num := attnum, constraint := .K2PG_CONSTRAINT_EQ,
                    constants := [constant] }]

/-- The function `camBindColumnCondInequal`. -/
def camBindColumnCondInequal (constraints : List K2PgConstraintDef) (bind_desc : TupleDesc)
    (attnum : AttrNumber) (value : Datum) (is_null : Bool) (type : K2PgConstraintType) :
    List K2PgConstraintDef :=
  let info := cam_get_att_type_info bind_desc attnum
  let constant : K2PgConstant :=
    { type_id := info.1, attr_size := info.2.1, attr_byvalue := info.2.2,
      datum := value, is_null := is_null }
  constraints ++ [{ attr_num := attnum, constraint := type, constants := [constant] }]

/-- The function `camBindColumnCondBetween`.  No function of `k2catam.cpp`
calls it. -/
def camBindColumnCondBetween (constraints : List K2PgConstraintDef) (bind_desc : TupleDesc)
    (attnum : AttrNumber) (start_valid : Bool) (value : Datum) (end_valid : Bool)
    (value_end : Datum) : List K2PgConstraintDef :=
  let info := cam_get_att_type_info bind_desc attnum
  let start : K2PgConstant :=
    { type_id := info.1, attr_size := info.2.1, attr_byvalue := info.2.2,
      datum := value, is_null := !start_valid }
  let end_const : K2PgConstant :=
    { type_id := info.1, attr_size := info.2.1, attr_byvalue := info.2.2,
      datum := value_end, is_null := !end_valid }
  constraints ++ [{ attr_num := attnum, constraint := .K2PG_CONSTRAINT_BETWEEN,
                    constants := [start, end_const] }]

/-- The function `camBindColumnCondIn`; `values` holds the `nvalues` elements. -/
def camBindColumnCondIn (constraints : List K2PgConstraintDef) (bind_desc : TupleDesc)
    (attnum : AttrNumber) (values : List Datum) : List K2PgConstraintDef :=
  let info := cam_get_att_type_info bind_desc attnum
  let constants : List K2PgConstant := values.map (fun v =>
    { type_id := info.1, attr_size := info.2.1, attr_byvalue := info.2.2,
      datum := v, is_null := false })
  constraints ++ [{ attr_num := attnum, constraint := .K2PG_CONSTRAINT_IN,
                    constants := constants }]

/-- The system-relation branch of `camBindScanKeys`: the loop over the key
positions still to visit. -/
def camBindScanKeys_system (env : PgGate) (relation : RelationData) (key : List ScanKeyData)
    (scan_plan : CamScanPlanData) :
    List Nat → List K2PgConstraintDef → List K2PgConstraintDef
  | [], constraints => constraints
  | i :: rest, constraints =>
    let idx := env.K2PgAttnumToBmsIndex relation (scan_plan.bind_key_attnums.getD i 0)
    if idx ∈ scan_plan.sk_cols then
      let is_null : Bool := ((key.getD i default).sk_flags &&& SK_ISNULL) == SK_ISNULL
      camBindScanKeys_system env relation key scan_plan rest
        (camBindColumn constraints scan_plan.bind_desc (scan_plan.bind_key_attnums.getD i 0)
          (key.getD i default).sk_argument is_null)
    else
      camBindScanKeys_system env relation key scan_plan rest constraints

/-- The first loop of the user-relation branch of `camBindScanKeys`: the
largest bitmap index of a key in use (`max_idx` before the increment). -/
def camBindScanKeys_maxIdx (env : PgGate) (relation : RelationData)
    (scan_plan : CamScanPlanData) : List Nat → Nat → Nat
  | [], max_idx => max_idx
  | i :: rest, max_idx =>
    let idx := env.K2PgAttnumToBmsIndex relation (scan_plan.bind_key_attnums.getD i 0)
    if ¬ idx ∈ scan_plan.sk_cols then
      camBindScanKeys_maxIdx env relation scan_plan rest max_idx
    else if max_idx < idx then
      camBindScanKeys_maxIdx env relation scan_plan rest idx
    else
      camBindScanKeys_maxIdx env relation scan_plan rest max_idx

/-- The second loop of the user-relation branch of `camBindScanKeys`: it fills
`offsets` (a key position `i` is stored as `-i` for an equality or IS NULL key
and as `i` for an array or range key).  The source has
`Assert(IsSearchNull(sk_flags))` in the `InvalidStrategy` case, which falls
through to the equality case. -/
def camBindScanKeys_offsets (env : PgGate) (relation : RelationData) (key : List ScanKeyData)
    (scan_plan : CamScanPlanData) : List Nat → List Int → List Int
  | [], offsets => offsets
  | i :: rest, offsets =>
    let idx := env.K2PgAttnumToBmsIndex relation (scan_plan.bind_key_attnums.getD i 0)
    if ¬ idx ∈ scan_plan.sk_cols then
      camBindScanKeys_offsets env relation key scan_plan rest offsets
    else
      let k := key.getD i default
      if k.sk_strategy = InvalidStrategy ∨ k.sk_strategy = BTEqualStrategyNumber then
        if IsBasicOpSearch k.sk_flags || IsSearchNull k.sk_flags then
          camBindScanKeys_offsets env relation key scan_plan rest (offsets ++ [-(i : Int)])
        else if IsSearchArray k.sk_flags then
          camBindScanKeys_offsets env relation key scan_plan rest (offsets ++ [(i : Int)])
        else
          camBindScanKeys_offsets env relation key scan_plan rest offsets
      else if k.sk_strategy = BTGreaterEqualStrategyNumber
          ∨ k.sk_strategy = BTGreaterStrategyNumber
          ∨ k.sk_strategy = BTLessStrategyNumber
          ∨ k.sk_strategy = BTLessEqualStrategyNumber then
        camBindScanKeys_offsets env relation key scan_plan rest (offsets ++ [(i : Int)])
      else
        camBindScanKeys_offsets env relation key scan_plan rest offsets

/-- The loop of `camBindScanKeys` that restores the negated offsets: it negates
the leading negative entries and stops at the first entry that is not
negative. -/
def camBindScanKeys_restore : List Int → List Int
  | [] => []
  | o :: rest => if o < 0 then (-o) :: camBindScanKeys_restore rest else o :: rest

/-- The binding loop of the user-relation branch of `camBindScanKeys`, over the
offsets still to visit; it threads the scratch array `is_column_bound` and the
vector `camScan->constraints`. -/
def camBindScanKeys_bind (env : PgGate) (relation : RelationData)
    (index : Option RelationData) (key : List ScanKeyData) (scan_plan : CamScanPlanData) :
    List Int → List Bool → List K2PgConstraintDef → List K2PgConstraintDef
  | [], _, constraints => constraints
  | o :: rest, is_column_bound, constraints =>
    let i := o.toNat
    let attnum := scan_plan.bind_key_attnums.getD i 0
    let idx := env.K2PgAttnumToBmsIndex relation attnum
    if is_column_bound.getD idx false then
      camBindScanKeys_bind env relation index key scan_plan rest is_column_bound constraints
    else
      let is_primary_key : Bool := decide (idx ∈ scan_plan.primary_key)
      let k := key.getD i default
      let is_null : Bool := (k.sk_flags &&& SK_ISNULL) == SK_ISNULL
      if k.sk_strategy = InvalidStrategy ∨ k.sk_strategy = BTEqualStrategyNumber then
        if IsBasicOpSearch k.sk_flags || IsSearchNull k.sk_flags then
          camBindScanKeys_bind env relation index key scan_plan rest
            (is_column_bound.set idx true)
            (camBindColumn constraints scan_plan.bind_desc attnum k.sk_argument is_null)
        else if IsSearchArray k.sk_flags && is_primary_key then
          let elems := env.deconstruct_array k.sk_argument
          let elem_values := (elems.filter (fun e => !e.2)).map Prod.fst
          if elem_values.length = 0 then
            camBindScanKeys_bind env relation index key scan_plan rest is_column_bound
              constraints
          else
            camBindScanKeys_bind env relation index key scan_plan rest
              (is_column_bound.set idx true)
              (camBindColumnCondIn constraints scan_plan.bind_desc attnum
                (env._bt_sort_array_elements index k elem_values))
        else
          camBindScanKeys_bind env relation index key scan_plan rest is_column_bound constraints
      else if k.sk_strategy = BTGreaterEqualStrategyNumber then
        camBindScanKeys_bind env relation index key scan_plan rest
          (is_column_bound.set idx true)
          (camBindColumnCondInequal constraints scan_plan.bind_desc attnum k.sk_argument
            is_null .K2PG_CONSTRAINT_GTE)
      else if k.sk_strategy = BTGreaterStrategyNumber then
        camBindScanKeys_bind env relation index key scan_plan rest
          (is_column_bound.set idx true)
          (camBindColumnCondInequal constraints scan_plan.bind_desc attnum k.sk_argument
            is_null .K2PG_CONSTRAINT_GT)
      else if k.sk_strategy = BTLessStrategyNumber then
        camBindScanKeys_bind env relation index key scan_plan rest
          (is_column_bound.set idx true)
          (camBindColumnCondInequal constraints scan_plan.bind_desc attnum k.sk_argument
            is_null .K2PG_CONSTRAINT_LT)
      else if k.sk_strategy = BTLessEqualStrategyNumber then
        camBindScanKeys_bind env relation index key scan_plan rest
          (is_column_bound.set idx true)
          (camBindColumnCondInequal constraints scan_plan.bind_desc attnum k.sk_argument
            is_null .K2PG_CONSTRAINT_LTE)
      else
        camBindScanKeys_bind env relation index key scan_plan rest is_column_bound constraints

/-- One iteration of the binding loop of `camBindScanKeys`, read off its body:
the constraint that the iteration for the offset `o` appends, if it appends
one (it then also sets `is_column_bound[idx]`).  The theorem
`camBindScanKeys_bind_cons` relates it to `camBindScanKeys_bind`. -/
def camBindScanKeys_bindStep (env : PgGate) (relation : RelationData)
    (index : Option RelationData) (key : List ScanKeyData) (scan_plan : CamScanPlanData)
    (o : Int) (is_column_bound : List Bool) : Option K2PgConstraintDef :=
  let i := o.toNat
  let attnum := scan_plan.bind_key_attnums.getD i 0
  let idx := env.K2PgAttnumToBmsIndex relation attnum
  let info := cam_get_att_type_info scan_plan.bind_desc attnum
  let k := key.getD i default
  let is_null : Bool := (k.sk_flags &&& SK_ISNULL) == SK_ISNULL
  let constant : K2PgConstant :=
    { type_id := info.1, attr_size := info.2.1, attr_byvalue := info.2.2,
      datum := k.sk_argument, is_null := is_null }
  if is_column_bound.getD idx false then none
  else if k.sk_strategy = InvalidStrategy ∨ k.sk_strategy = BTEqualStrategyNumber then
    if IsBasicOpSearch k.sk_flags || IsSearchNull k.sk_flags then
      some { attr_num := attnum, constraint := .K2PG_CONSTRAINT_EQ, constants := [constant] }
    else if IsSearchArray k.sk_flags && decide (idx ∈ scan_plan.primary_key) then
      let elem_values :=
        ((env.deconstruct_array k.sk_argument).filter (fun e => !e.2)).map Prod.fst
      if elem_values.length = 0 then none
      else
        some { attr_num := attnum, constraint := .K2PG_CONSTRAINT_IN,
               constants := (env._bt_sort_array_elements index k elem_values).map (fun v =>
                 { type_id := info.1, attr_size := info.2.1, attr_byvalue := info.2.2,
                   datum := v, is_null := false }) }
    else none
  else if k.sk_strategy = BTGreaterEqualStrategyNumber then
    some { attr_num := attnum, constraint := .K2PG_CONSTRAINT_GTE, constants := [constant] }
  else if k.sk_strategy = BTGreaterStrategyNumber then
    some { attr_num := attnum, constraint := .K2PG_CONSTRAINT_GT, constants := [constant] }
  else if k.sk_strategy = BTLessStrategyNumber then
    some { attr_num := attnum, constraint := .K2PG_CONSTRAINT_LT, constants := [constant] }
  else if k.sk_strategy = BTLessEqualStrategyNumber then
    some { attr_num := attnum, constraint := .K2PG_CONSTRAINT_LTE, constants := [constant] }
  else none

/-- The user-relation branch of `camBindScanKeys`. -/
def camBindScanKeys_user (env : PgGate) (relation : RelationData)
    (index : Option RelationData) (key : List ScanKeyData) (scan_plan : CamScanPlanData)
    (constraints : List K2PgConstraintDef) : List K2PgConstraintDef :=
  let max_idx := camBindScanKeys_maxIdx env relation scan_plan (List.range key.length) 0 + 1
  let is_column_bound := List.replicate max_idx false
  let offsets := camBindScanKeys_offsets env relation key scan_plan (List.range key.length) []
  let offsets := camBindScanKeys_restore (qsort int_compar_cb offsets)
  camBindScanKeys_bind env relation index key scan_plan offsets is_column_bound constraints

/-- The function `camBindScanKeys`. -/
def camBindScanKeys (env : PgGate) (relation : RelationData) (index : Option RelationData)
    (camScan : CamScanDescData) (scan_plan : CamScanPlanData) :
    Except ScanError CamScanDescData :=
  let dboid := env.K2PgGetDatabaseOid relation
  let relid := relation.rd_id
  match env.PgGate_NewSelect dboid relid camScan.prepare_params with
  | .error e => .error e
  | .ok handle =>
    if relation.isSystemRelation then
      .ok { camScan with
            handle := some handle
            constraints := camBindScanKeys_system env relation camScan.key scan_plan
              (List.range camScan.nkeys) camScan.constraints }
    else
      .ok { camScan with
            handle := some handle
            constraints := camBindScanKeys_user env relation index camScan.key scan_plan
              camScan.constraints }

/-- The function `camAddTargetColumn`, acting on `camScan->targets_attrnum`. -/
def camAddTargetColumn (target_desc : TupleDesc) (targets_attrnum : List Int)
    (attnum : AttrNumber) : List Int :=
  if attnum > 0 ∧ (TupleDescAttr target_desc (attnum - 1)).attisdropped then
    targets_attrnum
  else
    targets_attrnum ++ [attnum]

/-- The function `camSetupTargets`. -/
def camSetupTargets (env : PgGate) (index : Option RelationData) (camScan : CamScanDescData)
    (scan_plan : CamScanPlanData) : CamScanDescData :=
  let add := camAddTargetColumn camScan.target_desc
  let t0 := camScan.targets_attrnum
  let t1 := if scan_plan.target_relation.relhasoids then add t0 env.ObjectIdAttributeNumber
            else t0
  let t2 :=
    if camScan.prepare_params.index_only_scan
        && (index.getD default).indisprimary then
      ((List.range (index.getD default |>.rd_index.getD default).indnatts).map
        (fun (i : Nat) => (index.getD default).indkey_values (i : Int))).foldl add t1
    else
      ((List.range camScan.target_desc.length).map (fun (n : Nat) => (n : Int) + 1)).foldl add t1
  let t3 :=
    if scan_plan.target_relation.rd_index.isSome then
      add t2 env.K2PgIdxBaseTupleIdAttributeNumber
    else
      let t := add t2 env.K2PgTupleIdAttributeNumber
      match index with
      | some idx => if !idx.indisprimary then add t env.K2PgIdxBaseTupleIdAttributeNumber else t
      | none => t
  { camScan with targets_attrnum := t3 }

/-- The scan descriptor that `palloc0` returns in `camBeginScan`, with the
copied keys and the table oid filled in. -/
def camBeginScan_init (relation : RelationData) (key : List ScanKeyData) : CamScanDescData :=
  { key := key, tableOid := relation.rd_id, index := none, target_desc := [],
    target_key_attnums := [],
    prepare_params := { index_oid := 0, index_only_scan := false, use_secondary_index := false },
    exec_params := { limit_count := 0, limit_offset := 0, limit_use_default := false },
    handle := none, constraints := [], targets_attrnum := [], is_exec_done := false }

/-- The function `camBeginScan`; `nkeys` is the length of `key`. -/
def camBeginScan (env : PgGate) (relation : RelationData) (index : Option RelationData)
    (xs_want_itup : Bool) (key : List ScanKeyData) : Except ScanError CamScanDescData :=
  if key.length > env.K2PG_MAX_SCAN_KEYS then
    .error .too_many_columns
  else
    match camSetupScanPlan env relation index xs_want_itup (camBeginScan_init relation key) with
    | .error e => .error e
    | .ok (camScan1, scan_plan1) =>
      let r := camSetupScanKeys env relation index camScan1 scan_plan1
      match camBindScanKeys env relation index r.1 r.2 with
      | .error e => .error e
      | .ok camScan3 => .ok (camSetupTargets env index camScan3 r.2)

/-! ## Concrete relations and collaborators used by the closed statements -/

/-- The type oid `INT4OID` of `catalog/pg_type.h`. -/
def INT4OID : Oid := 23

/-- A collaborator set-up in which every gate call succeeds, column 1 of every
table is its only primary-key column, bitmap indexes are attribute numbers
shifted by 10, and array arguments are empty. -/
def exampleGate : PgGate :=
  { K2PG_MAX_SCAN_KEYS := 64
    ObjectIdAttributeNumber := -2
    K2PgTupleIdAttributeNumber := -8
    K2PgIdxBaseTupleIdAttributeNumber := -9
    K2PgAttnumToBmsIndex := fun _ attnum => (attnum + 10).toNat
    K2PgGetDatabaseOid := fun _ => 1
    PgGate_GetTableDesc := fun _ relid => .ok relid
    PgGate_GetColumnInfo := fun _ attnum => .ok (attnum == 1)
    PgGate_NewSelect := fun _ _ _ => .ok 7
    deconstruct_array := fun _ => []
    _bt_sort_array_elements := fun _ _ values => values }

/-- A user table with two `int4` columns; column 1 (`x`) is the primary key. -/
def exampleUserTable : RelationData :=
  { rd_id := 16384, isSystemRelation := false, relhasoids := false,
    rd_att := [{ atttypid := INT4OID, attlen := 4, attbyval := true, attisdropped := false },
               { atttypid := INT4OID, attlen := 4, attbyval := true, attisdropped := false }],
    rd_index := none }

/-- A system table with the same two columns. -/
def exampleSystemTable : RelationData :=
  { exampleUserTable with rd_id := 1259, isSystemRelation := true }

/-- The scan keys `x >= 5` and `x < 10` on column 1, both with flags 0. -/
def exampleRangeKeys : List ScanKeyData :=
  [{ sk_flags := 0, sk_attno := 1, sk_strategy := BTGreaterEqualStrategyNumber,
     sk_argument := 5 },
   { sk_flags := 0, sk_attno := 1, sk_strategy := BTLessStrategyNumber, sk_argument := 10 }]

/-- The scan plan that `camSetupScanPlan` and `camSetupScanKeys` build for a
sequential scan of the example user table with `exampleRangeKeys`: column 1
has bitmap index 11, is the primary key and is in use. -/
def exampleScanPlan : CamScanPlanData :=
  { target_relation := exampleUserTable, primary_key := {11}, nonprimary_key := ∅,
    sk_cols := {11}, bind_desc := exampleUserTable.rd_att, bind_key_attnums := [1, 1] }

/-! ## SKV serialisation (`storage.cpp`) -/

/-- The type oids of `catalog/pg_type.h` that `storage.cpp` tests. -/
def VARCHAROID : Oid := 1043
/-- The type oid of `bpchar`. -/
def BPCHAROID : Oid := 1042
/-- The type oid of `text`. -/
def TEXTOID : Oid := 25
/-- The type oid of `clob`. -/
def CLOBOID : Oid := 90
/-- The type oid of `bytea`. -/
def BYTEAOID : Oid := 17
/-- The type oid of `"char"`. -/
def CHAROID : Oid := 18
/-- The type oid of `int1`. -/
def INT1OID : Oid := 5545
/-- The type oid of `int2`. -/
def INT2OID : Oid := 21
/-- The type oid of `date`. -/
def DATEOID : Oid := 1082
/-- The type oid of `int8`. -/
def INT8OID : Oid := 20
/-- The type oid of `timestamp`. -/
def TIMESTAMPOID : Oid := 1114
/-- The type oid of `timestamptz`. -/
def TIMESTAMPTZOID : Oid := 1184
/-- The type oid of `time`. -/
def TIMEOID : Oid := 1083
/-- The type oid of `interval`. -/
def INTERVALOID : Oid := 1186
/-- The type oid of `float4`. -/
def FLOAT4OID : Oid := 700
/-- The type oid of `float8`. -/
def FLOAT8OID : Oid := 701

/-- The error code `ERRCODE_SUCCESSFUL_COMPLETION` (`MAKE_SQLSTATE` of `00000`). -/
def ERRCODE_SUCCESSFUL_COMPLETION : Int := 0
/-- The error code `ERRCODE_INTERNAL_ERROR` (`MAKE_SQLSTATE` of `XX000`). -/
def ERRCODE_INTERNAL_ERROR : Int := 2600

/-- The function `isStringType`. -/
def isStringType (oid : Oid) : Bool :=
  oid == VARCHAROID || oid == BPCHAROID || oid == TEXTOID || oid == CLOBOID || oid == BYTEAOID

/-- The function `is1ByteIntType`. -/
def is1ByteIntType (oid : Oid) : Bool :=
  oid == CHAROID || oid == INT1OID

/-- The function `is2ByteIntType`. -/
def is2ByteIntType (oid : Oid) : Bool :=
  oid == INT2OID

/-- The function `is4ByteIntType`. -/
def is4ByteIntType (oid : Oid) : Bool :=
  oid == INT4OID || oid == DATEOID

/-- The function `is8ByteIntType`. -/
def is8ByteIntType (oid : Oid) : Bool :=
  oid == INT8OID || oid == TIMESTAMPOID || oid == TIMESTAMPTZOID || oid == TIMEOID
    || oid == INTERVALOID

/-- The C conversion of an unsigned word to the signed integer type of `w`
bits (`(int8_t)`, `(int16_t)`, `(int32_t)`, `(int64_t)`): two's complement. -/
def toSigned (w : Nat) (n : Nat) : Int :=
  if n % 2 ^ w < 2 ^ (w - 1) then (n % 2 ^ w : Nat) else (n % 2 ^ w : Nat) - (2 ^ w : Nat)

/-- A detoasted variable-length datum (`struct varlena` with a 4-byte header):
`vl_len_` holds the `VARHDRSZ` header bytes and `vl_dat` the payload. -/
structure Varlena where
  vl_len_ : Nat × Nat × Nat × Nat
  vl_dat : List Nat
deriving DecidableEq, Repr, Inhabited

/-- The constant `VARHDRSZ`. -/
def VARHDRSZ : Nat := 4

/-- The macro `VARSIZE` on a detoasted datum: header plus payload length. -/
def VARSIZE (v : Varlena) : Nat := VARHDRSZ + v.vl_dat.length

/-- The bytes of a detoasted datum from its first header byte on. -/
def Varlena.bytes (v : Varlena) : List Nat :=
  [v.vl_len_.1, v.vl_len_.2.1, v.vl_len_.2.2.1, v.vl_len_.2.2.2] ++ v.vl_dat

/-- The macro `VARDATA`: the bytes after the header. -/
def VARDATA (v : Varlena) : List Nat := v.bytes.drop VARHDRSZ

/-- The field types of an SKV schema that the serialiser produces. -/
inductive FieldType where
  | STRING
  | INT16T
  | INT32T
  | INT64T
  | FLOAT
  | DOUBLE
  | BOOL
  | NOT_KNOWN
deriving DecidableEq, Repr, Inhabited

/-- One serialised field of an SKV record: the null marker or a type-tagged
value.  A `float`/`double` is given by its IEEE-754 bit pattern. -/
inductive SKVField where
  | null
  | string (bytes : List Nat)
  | int16 (v : Int)
  | int32 (v : Int)
  | int64 (v : Int)
  | float (bits : Nat)
  | double (bits : Nat)
deriving DecidableEq, Repr, Inhabited

/-- The schema field type of a typed value (`TToFieldType<T>()`); the null
marker has none. -/
def SKVField.fieldType : SKVField → Option FieldType
  | .null => none
  | .string _ => some .STRING
  | .int16 _ => some .INT16T
  | .int32 _ => some .INT32T
  | .int64 _ => some .INT64T
  | .float _ => some .FLOAT
  | .double _ => some .DOUBLE

/-- The part of `skv::http::dto::Schema` that the serialiser reads: the
declared type of each field and the list `partitionKeyFields`. -/
structure Schema where
  fields : List FieldType
  partitionKeyFields : List Nat
deriving DecidableEq, Repr, Inhabited

/-- Modelled from the spec: `skv::http::dto::SKVRecordBuilder`
(`skvhttp/dto/SKVRecord.h`) is not among the sources.  Following §4.1 and §6
(a record is the sequence of its fields in schema order, each either a null
marker or a type-tagged value, and a codec operation fails when the value does
not match the declared type), a builder is its schema together with the fields
written so far. -/
structure SKVRecordBuilder where
  schema : Schema
  written : List SKVField
deriving DecidableEq, Repr, Inhabited

/-- How a serialisation step can fail: a C++ exception thrown by the record
builder (`what` is its message), or a datum that the code treats as a pointer
to a variable-length value although no such value is stored at that address
(the dereference in `DatumGetByteaP`/`VARSIZE` is then undefined). -/
inductive SerializeFault where
  | exception (what : String)
  | invalid_datum_pointer
deriving DecidableEq, Repr, Inhabited

/-- Modelled from the spec: `SKVRecordBuilder::serializeNull` writes the null
marker for the next schema field and throws when the schema has no further
field. -/
def SKVRecordBuilder.serializeNull (builder : SKVRecordBuilder) :
    Except SerializeFault SKVRecordBuilder :=
  if builder.written.length < builder.schema.fields.length then
    .ok { builder with written := builder.written ++ [SKVField.null] }
  else
    .error (.exception "Schema not followed in record serialization")

/-- Modelled from the spec: `SKVRecordBuilder::serializeNext<T>` writes a typed
value for the next schema field and throws when the schema has no further
field or declares another type for it. -/
def SKVRecordBuilder.serializeNext (builder : SKVRecordBuilder) (value : SKVField) :
    Except SerializeFault SKVRecordBuilder :=
  if builder.schema.fields[builder.written.length]? = value.fieldType
      ∧ value.fieldType ≠ none then
    .ok { builder with written := builder.written ++ [value] }
  else
    .error (.exception "Schema not followed in record serialization")

/-- The function `serializePGConstToK2SKV`.  `pg_detoast_datum` stands for
`DatumGetByteaP` as used by `UntoastedDatum`: the detoasted variable-length
value stored at the address that the datum holds, if there is one. -/
def serializePGConstToK2SKV (pg_detoast_datum : Datum → Option Varlena)
    (builder : SKVRecordBuilder) (constant : K2PgConstant) :
    Except SerializeFault SKVRecordBuilder :=
  if constant.is_null then
    builder.serializeNull
  else if isStringType constant.type_id then
    match pg_detoast_datum constant.datum with
    | none => .error .invalid_datum_pointer
    | some data =>
      let size := VARSIZE data
      let src := VARDATA data
      builder.serializeNext (.string (src.take (size - VARHDRSZ)))
  else if is1ByteIntType constant.type_id then
    let byte := toSigned 8 (constant.datum &&& 0x000000ff)
    builder.serializeNext (.int16 byte)
  else if is2ByteIntType constant.type_id then
    let byte2 := toSigned 16 (constant.datum &&& 0x0000ffff)
    builder.serializeNext (.int16 byte2)
  else if is4ByteIntType constant.type_id then
    let byte4 := toSigned 32 (constant.datum &&& 0xffffffff)
    builder.serializeNext (.int32 byte4)
  else if is8ByteIntType constant.type_id then
    let byte8 := toSigned 64 constant.datum
    builder.serializeNext (.int64 byte8)
  else if constant.type_id = FLOAT4OID then
    let fbytes := (constant.datum &&& 0xffffffff) % 2 ^ 32
    builder.serializeNext (.float fbytes)
  else if constant.type_id = FLOAT8OID then
    builder.serializeNext (.double (constant.datum % 2 ^ 64))
  else
    match pg_detoast_datum constant.datum with
    | none => .error .invalid_datum_pointer
    | some data =>
      let size := VARSIZE data
      builder.serializeNext (.string (data.bytes.take size))

/-- The field that `serializePGConstToK2SKV` hands to the builder, read off
its branches (`none` when the datum is dereferenced and is not the address of
a variable-length value).  The theorem `serializePGConstToK2SKV_eq` relates
the two. -/
def encodePGConst (pg_detoast_datum : Datum → Option Varlena) (constant : K2PgConstant) :
    Option SKVField :=
  if constant.is_null then some .null
  else if isStringType constant.type_id then
    (pg_detoast_datum constant.datum).map
      (fun data => .string ((VARDATA data).take (VARSIZE data - VARHDRSZ)))
  else if is1ByteIntType constant.type_id then
    some (.int16 (toSigned 8 (constant.datum &&& 0x000000ff)))
  else if is2ByteIntType constant.type_id then
    some (.int16 (toSigned 16 (constant.datum &&& 0x0000ffff)))
  else if is4ByteIntType constant.type_id then
    some (.int32 (toSigned 32 (constant.datum &&& 0xffffffff)))
  else if is8ByteIntType constant.type_id then some (.int64 (toSigned 64 constant.datum))
  else if constant.type_id = FLOAT4OID then
    some (.float ((constant.datum &&& 0xffffffff) % 2 ^ 32))
  else if constant.type_id = FLOAT8OID then some (.double (constant.datum % 2 ^ 64))
  else
    (pg_detoast_datum constant.datum).map
      (fun data => .string (data.bytes.take (VARSIZE data)))

/-- The value of a column as the executor holds it: the datum word of a
by-value type, or the payload bytes of a variable-length type. -/
inductive RawValue where
  | word (datum : Datum)
  | bytes (payload : List Nat)
deriving DecidableEq, Repr, Inhabited

/-- Modelled from the spec: the decoder `decode(EncodedValue, expected_type_id)
-> (raw_value, is_null)` of §4.1 is not among the sources.  It inverts the
encoding rules of §4.1 by logical type class: the null marker decodes to a
null value; a string-like type takes the bare payload bytes; a 1-byte integer
type narrows the 16-bit encoding to one byte, a 2-byte type takes the 16-bit,
a 4-byte integer or date type the 32-bit and an 8-byte integer or time type
the 64-bit encoding as the datum word; `float4`/`float8` take the bit pattern;
any other type takes the bytes as they are.  A field of another kind than the
type class expects is a decoding error (`none`). -/
def decode (value : SKVField) (expected_type_id : Oid) : Option (RawValue × Bool) :=
  match value with
  | .null => some (.word 0, true)
  | .string b => if isStringType expected_type_id then some (.bytes b, false)
      else if is1ByteIntType expected_type_id || is2ByteIntType expected_type_id
        || is4ByteIntType expected_type_id || is8ByteIntType expected_type_id
        || expected_type_id == FLOAT4OID || expected_type_id == FLOAT8OID then none
      else some (.bytes b, false)
  | .int16 v =>
      if isStringType expected_type_id then none
      else if is1ByteIntType expected_type_id then some (.word (v % 2 ^ 8).toNat, false)
      else if is2ByteIntType expected_type_id then some (.word (v % 2 ^ 16).toNat, false)
      else none
  | .int32 v =>
      if isStringType expected_type_id || is1ByteIntType expected_type_id
        || is2ByteIntType expected_type_id then none
      else if is4ByteIntType expected_type_id then some (.word (v % 2 ^ 32).toNat, false)
      else none
  | .int64 v =>
      if isStringType expected_type_id || is1ByteIntType expected_type_id
        || is2ByteIntType expected_type_id || is4ByteIntType expected_type_id then none
      else if is8ByteIntType expected_type_id then some (.word (v % 2 ^ 64).toNat, false)
      else none
  | .float bits =>
      if isStringType expected_type_id || is1ByteIntType expected_type_id
        || is2ByteIntType expected_type_id || is4ByteIntType expected_type_id
        || is8ByteIntType expected_type_id then none
      else if expected_type_id = FLOAT4OID then some (.word bits, false)
      else none
  | .double bits =>
      if isStringType expected_type_id || is1ByteIntType expected_type_id
        || is2ByteIntType expected_type_id || is4ByteIntType expected_type_id
        || is8ByteIntType expected_type_id || expected_type_id == FLOAT4OID then none
      else if expected_type_id = FLOAT8OID then some (.word bits, false)
      else none

/-- The struct `K2PgAttributeDef`. -/
structure K2PgAttributeDef where
  attr_num : Int
  value : K2PgConstant
deriving DecidableEq, Repr, Inhabited

/-- The struct `K2PgStatus`. -/
structure K2PgStatus where
  pg_code : Int
  k2_code : Int
  msg : String
  detail : String
deriving DecidableEq, Repr, Inhabited

/-- The constant `K2PgStatus::OK`. -/
def K2PgStatus.OK : K2PgStatus :=
  { pg_code := ERRCODE_SUCCESSFUL_COMPLETION, k2_code := 200, msg := "", detail := "" }

/-- The first loop of `serializePgAttributesToSKV` (and of
`makeSKVBuilderWithKeysSerialized`): it fills `attr_map`, a map from schema
offset to constant, from the attributes still to visit.  `attr_num_to_index`
is the `find` of the given map; schema offsets and loop indexes are far below
`2 ^ 31`, so the conversions between `uint32_t`, `size_t` and the `int` key of
`attr_map` do not change them. -/
def serializePgAttributesToSKV_attr_map (attr_num_to_index : Int → Option Nat) :
    List K2PgAttributeDef → (Nat → Option K2PgConstant) → (Nat → Option K2PgConstant)
  | [], attr_map => attr_map
  | attr :: rest, attr_map =>
    match attr_num_to_index attr.attr_num with
    | some offset =>
      serializePgAttributesToSKV_attr_map attr_num_to_index rest
        (fun i => if i = offset then some attr.value else attr_map i)
    | none => serializePgAttributesToSKV_attr_map attr_num_to_index rest attr_map

/-- The field loop inside the `try` block of `serializePgAttributesToSKV`, over
the schema offsets still to visit; a fault ends it. -/
def serializePgAttributesToSKV_fields (pg_detoast_datum : Datum → Option Varlena)
    (attr_map : Nat → Option K2PgConstant) :
    List Nat → SKVRecordBuilder → Except SerializeFault SKVRecordBuilder
  | [], builder => .ok builder
  | i :: rest, builder =>
    match attr_map i with
    | none =>
      match builder.serializeNull with
      | .error e => .error e
      | .ok builder1 =>
        serializePgAttributesToSKV_fields pg_detoast_datum attr_map rest builder1
    | some constant =>
      match serializePGConstToK2SKV pg_detoast_datum builder constant with
      | .error e => .error e
      | .ok builder1 =>
        serializePgAttributesToSKV_fields pg_detoast_datum attr_map rest builder1

/-- The builder as the field loop of `serializePgAttributesToSKV` leaves it,
whether the loop runs to its end or a step throws: the builder is passed by
reference, so the fields written before a throw stay in it (the step that
throws writes nothing). -/
def serializePgAttributesToSKV_fields_left (pg_detoast_datum : Datum → Option Varlena)
    (attr_map : Nat → Option K2PgConstant) :
    List Nat → SKVRecordBuilder → SKVRecordBuilder
  | [], builder => builder
  | i :: rest, builder =>
    match attr_map i with
    | none =>
      match builder.serializeNull with
      | .error _ => builder
      | .ok builder1 =>
        serializePgAttributesToSKV_fields_left pg_detoast_datum attr_map rest builder1
    | some constant =>
      match serializePGConstToK2SKV pg_detoast_datum builder constant with
      | .error _ => builder
      | .ok builder1 =>
        serializePgAttributesToSKV_fields_left pg_detoast_datum attr_map rest builder1

/-- The function `serializePgAttributesToSKV`.  It returns the status together
with the builder after the call; when an exception is caught this is the
builder with the fields written before the throw (`left`).  The result is
`none` when the run dereferences a datum that is not the address of a
variable-length value, which no `catch` handles.  `K2_FIELD_OFFSET` is the
constant of that name, declared outside these sources. -/
def serializePgAttributesToSKV (K2_FIELD_OFFSET : Nat)
    (pg_detoast_datum : Datum → Option Varlena)
    (builder : SKVRecordBuilder) (table_id index_id : Int) (attrs : List K2PgAttributeDef)
    (attr_num_to_index : Int → Option Nat) : Option (K2PgStatus × SKVRecordBuilder) :=
  let attr_map := serializePgAttributesToSKV_attr_map attr_num_to_index attrs (fun _ => none)
  let tried : Except SerializeFault SKVRecordBuilder :=
    match builder.serializeNext (.int32 table_id) with
    | .error e => .error e
    | .ok builder1 =>
      match builder1.serializeNext (.int32 index_id) with
      | .error e => .error e
      | .ok builder2 =>
        serializePgAttributesToSKV_fields pg_detoast_datum attr_map
          (List.range' K2_FIELD_OFFSET (builder2.schema.fields.length - K2_FIELD_OFFSET))
          builder2
  let left : SKVRecordBuilder :=
    match builder.serializeNext (.int32 table_id) with
    | .error _ => builder
    | .ok builder1 =>
      match builder1.serializeNext (.int32 index_id) with
      | .error _ => builder1
      | .ok builder2 =>
        serializePgAttributesToSKV_fields_left pg_detoast_datum attr_map
          (List.range' K2_FIELD_OFFSET (builder2.schema.fields.length - K2_FIELD_OFFSET))
          builder2
  match tried with
  | .ok builder3 => some (K2PgStatus.OK, builder3)
  | .error (.exception what) =>
    some ({ pg_code := ERRCODE_INTERNAL_ERROR, k2_code := 0,
            msg := "Serialization error in serializePgAttributesToSKV", detail := what },
          left)
  | .error .invalid_datum_pointer => none

/-- A memory in which the datum 4096 points to the detoasted text value `hi`
(header bytes 24, 0, 0, 0 and payload bytes 104, 105) and no other datum is
the address of a variable-length value. -/
def exampleDetoast : Datum → Option Varlena :=
  fun d => if d = 4096 then some { vl_len_ := (24, 0, 0, 0), vl_dat := [104, 105] } else none

/-- A schema of four fields: the two 32-bit identifiers, an `int4` column and a
`text` column. -/
def exampleSchema : Schema :=
  { fields := [.INT32T, .INT32T, .INT32T, .STRING], partitionKeyFields := [0, 1, 2] }

/-- The attributes `a1 = -5` (`int4`) and `a2 = 'hi'` (`text`), the second
listed first. -/
def exampleAttrs : List K2PgAttributeDef :=
  [{ attr_num := 2, value := { type_id := TEXTOID, attr_size := -1, attr_byvalue := false,
                               datum := 4096, is_null := false } },
   { attr_num := 1, value := { type_id := INT4OID, attr_size := 4, attr_byvalue := true,
                               datum := 4294967291, is_null := false } }]

/-- The attribute-number-to-offset map that sends attribute 1 to offset 2 and
attribute 2 to offset 3. -/
def exampleAttrNumToIndex : Int → Option Nat :=
  fun a => if a = 1 then some 2 else if a = 2 then some 3 else none

/-! ## Single-row modify analysis (`k2_plan.cpp`, lines 361-452) -/

/-- The enum `ParamKind` of `nodes/primnodes.h`. -/
inductive ParamKind where
  | PARAM_EXTERN
  | PARAM_EXEC
  | PARAM_SUBLINK
deriving DecidableEq, Repr, Inhabited

/-- The expression nodes that `k2_plan.cpp` tells apart, with the fields it
reads; `Other` stands for a node with any other tag. -/
inductive Expr where
  | Const (consttype : Oid) (constvalue : Datum) (constisnull : Bool)
  | Var (varattno : AttrNumber)
  | Param (paramkind : ParamKind) (paramid : Int) (paramtype : Oid)
  | RelabelType (arg : Expr)
  | FuncExpr (funcid : Oid) (args : List Expr)
  | OpExpr (opfuncid : Oid) (args : List Expr)
  | Other (tag : Nat)
deriving Repr, Inhabited

/-- The enum `CmdType` of `nodes/nodes.h`. -/
inductive CmdType where
  | CMD_UNKNOWN
  | CMD_SELECT
  | CMD_UPDATE
  | CMD_INSERT
  | CMD_DELETE
  | CMD_MERGE
  | CMD_UTILITY
  | CMD_NOTHING
deriving DecidableEq, Repr, Inhabited

/-- The plan nodes that `k2_plan.cpp` tells apart.  `BaseResult` is the result
node that evaluates one row of expressions (the plan of a one-row VALUES
list), `ValuesScan` scans a VALUES list given as rows of expressions,
`ModifyTable` carries `operation`, `resultRelations`, `plan.initPlan` and
`plans`, and `OtherPlan` is a plan node with any other tag. -/
inductive Plan where
  | BaseResult (targetlist : List Expr)
  | ValuesScan (values_lists : List (List Expr))
  | ModifyTable (operation : CmdType) (resultRelations : List Nat) (initPlan : List Plan)
      (plans : List Plan)
  | OtherPlan (tag : Nat)
deriving Repr, Inhabited

/-- The fields of `PlannedStmt` that `K2PgIsSingleRowModify` reads; `planTree`
is NULL (`none`) or a plan. -/
structure PlannedStmt where
  planTree : Option Plan
deriving Repr, Inhabited

/-- The function `ModifyTableIsSingleRowWrite`, on the fields of the
`ModifyTable` node.  The `T_Result` case of the `switch` is commented out in
the source, so a `BaseResult` source falls to `default`.  Both arms of the
`switch` return, so the `return true` that follows it in the source is never
reached; `linitial(plans)` is the head of a list of length 1. -/
def ModifyTableIsSingleRowWrite (operation : CmdType) (resultRelations : List Nat)
    (initPlan : List Plan) (plans : List Plan) : Bool :=
  if operation ≠ .CMD_INSERT ∧ operation ≠ .CMD_UPDATE ∧ operation ≠ .CMD_DELETE then
    false
  else if resultRelations.length ≠ 1 then
    false
  else if !initPlan.isEmpty then
    false
  else if plans.length ≠ 1 then
    false
  else
    match plans.headD (.OtherPlan 0) with
    | .ValuesScan _ => false
    | _ => false

/-- The function `K2PgIsSingleRowModify`. -/
def K2PgIsSingleRowModify (pstmt : PlannedStmt) : Bool :=
  match pstmt.planTree with
  | some (.ModifyTable operation resultRelations initPlan plans) =>
    ModifyTableIsSingleRowWrite operation resultRelations initPlan plans
  | _ => false

/-- The plan of `INSERT INTO t VALUES (1, $1)`: one result relation, no
init-plan, and as single data source a result node over one row made of a
constant and an external bind parameter. -/
def exampleSingleRowInsert : PlannedStmt :=
  { planTree := some (.ModifyTable .CMD_INSERT [16384] []
      [.BaseResult [.Const INT4OID 1 false, .Param .PARAM_EXTERN 1 INT4OID]]) }

/-- The same statement with its single row given as a values scan. -/
def exampleSingleRowValuesScan : PlannedStmt :=
  { planTree := some (.ModifyTable .CMD_INSERT [16384] []
      [.ValuesScan [[.Const INT4OID 1 false, .Param .PARAM_EXTERN 1 INT4OID]]]) }

/-- The plan of `INSERT INTO t VALUES (1, $1), (2, $2)`: the data source is a
values scan over two rows. -/
def exampleTwoRowInsert : PlannedStmt :=
  { planTree := some (.ModifyTable .CMD_INSERT [16384] []
      [.ValuesScan [[.Const INT4OID 1 false, .Param .PARAM_EXTERN 1 INT4OID],
                    [.Const INT4OID 2 false, .Param .PARAM_EXTERN 2 INT4OID]]]) }

/-! ## Key classes of the binding order (`k2catam.cpp`, lines 733-759) -/

/-- The keys that the second loop of the user branch of `camBindScanKeys`
stores negated in `offsets` and that its binding loop binds with
`camBindColumn`: strategy `InvalidStrategy` or Equal with basic flags (an
equality, the argument possibly flagged NULL) or null-search flags (IS NULL). -/
def ScanKeyData.isEqualityKey (k : ScanKeyData) : Bool :=
  (k.sk_strategy == InvalidStrategy || k.sk_strategy == BTEqualStrategyNumber)
    && (IsBasicOpSearch k.sk_flags || IsSearchNull k.sk_flags)

/-- The collaborators of `exampleGate`, with an array datum 8192 that holds the
two non-null elements 1 and 2. -/
def exampleArrayGate : PgGate :=
  { exampleGate with
    deconstruct_array := fun d => if d = 8192 then [(1, false), (2, false)] else [] }

/-- The array-membership key `x = ANY (array 8192)` on column 1. -/
def exampleArrayKey : ScanKeyData :=
  { sk_flags := SK_SEARCHARRAY, sk_attno := 1, sk_strategy := BTEqualStrategyNumber,
    sk_argument := 8192 }

/-- The range key `x < 10` on column 1, with flags 0. -/
def exampleLessKey : ScanKeyData :=
  { sk_flags := 0, sk_attno := 1, sk_strategy := BTLessStrategyNumber, sk_argument := 10 }

/-- The equality key `x = 7` on column 1, with flags 0. -/
def exampleEqualKey : ScanKeyData :=
  { sk_flags := 0, sk_attno := 1, sk_strategy := BTEqualStrategyNumber, sk_argument := 7 }

/-- The scan keys `x = 7`, `x = ANY (array 8192)` and `x < 10` on column 1, the
equality key at position 0. -/
def exampleMixedKeys : List ScanKeyData :=
  [exampleEqualKey, exampleArrayKey, exampleLessKey]

/-- The scan plan of a sequential scan of the example user table with three
keys on column 1 (bitmap index 11), which is the primary key and in use. -/
def exampleScanPlan3 : CamScanPlanData :=
  { target_relation := exampleUserTable, primary_key := {11}, nonprimary_key := ∅,
    sk_cols := {11}, bind_desc := exampleUserTable.rd_att, bind_key_attnums := [1, 1, 1] }

/-! ## Fetching rows and re-checking them locally (`k2catam.cpp`) -/

/-- The struct `K2PgSysColumns` that `PgGate_DmlFetch` fills in; the pointers
`k2pgctid` and `k2pgbasectid` are addresses, 0 being NULL. -/
structure K2PgSysColumns where
  oid : Oid
  k2pgctid : Nat
  k2pgbasectid : Nat
deriving DecidableEq, Repr, Inhabited

/-- One row as `PgGate_DmlFetch` hands it over: the `values` and `nulls` arrays
and the system columns. -/
structure K2Row where
  values : List Datum
  nulls : List Bool
  syscols : K2PgSysColumns
deriving DecidableEq, Repr, Inhabited

/-- The part of `HeapTupleData` that the scan writes after `heap_form_tuple`:
the formed attribute data (`values`, `nulls`), the oid set by
`HeapTupleSetOid`, and the fields `t_k2pgctid` and `t_tableOid`. -/
structure HeapTupleData where
  values : List Datum
  nulls : List Bool
  t_oid : Oid
  t_k2pgctid : Datum
  t_tableOid : Oid
deriving DecidableEq, Repr, Inhabited

/-- The result of a select statement still held by the remote store: the
outcomes of the `PgGate_DmlFetch` calls to come, one entry per call, each a
status error or a row.  When the list is used up the store reports
`has_data = false`. -/
abbrev RemoteResult := List (Except ScanError K2Row)

/-- The collaborators of the fetch path.  `PgGate_ExecSelect` takes the result
held by the store before the call and gives the one held after it (or a status
error); `FunctionCall2Coll i` is the call
`FunctionCall2Coll(&key[i].sk_func, key[i].sk_collation, ·, ·)`. -/
structure PgExec where
  PgGate_ExecSelect : Option Nat → List K2PgConstraintDef → List Int → Bool →
    K2PgSelectLimitParams → RemoteResult → Except ScanError RemoteResult
  heap_form_tuple : TupleDesc → List Datum → List Bool → HeapTupleData
  heap_getattr : HeapTupleData → AttrNumber → TupleDesc → Datum × Bool
  FunctionCall2Coll : Nat → Datum → Datum → Datum
  DatumGetBool : Datum → Bool

/-- Modelled from the spec: the remote result is a finite sequence of rows,
and `PgGate_DmlFetch` hands over the next one, or `has_data = false` (`none`)
when the sequence is used up; a status error is raised by `HandleK2PgStatus`. -/
def PgGate_DmlFetch (remote : RemoteResult) : Except ScanError (Option K2Row × RemoteResult) :=
  match remote with
  | [] => .ok (none, [])
  | .error e :: _ => .error e
  | .ok row :: rest => .ok (some row, rest)

/-- The block `if (!camScan->is_exec_done)` of `camFetchNextHeapTuple`. -/
def camFetchNextHeapTuple_exec (env : PgExec) (camScan : CamScanDescData)
    (is_forward_scan : Bool) (remote : RemoteResult) :
    Except ScanError (CamScanDescData × RemoteResult) :=
  if !camScan.is_exec_done then
    match env.PgGate_ExecSelect camScan.handle camScan.constraints camScan.targets_attrnum
        is_forward_scan camScan.exec_params remote with
    | .error e => .error e
    | .ok remote1 => .ok ({ camScan with is_exec_done := true }, remote1)
  else
    .ok (camScan, remote)

/-- The block `if (has_data)` of `camFetchNextHeapTuple`: the tuple formed from
a fetched row. -/
def camFetchNextHeapTuple_tuple (env : PgExec) (camScan : CamScanDescData) (row : K2Row) :
    HeapTupleData :=
  let tuple := env.heap_form_tuple camScan.target_desc row.values row.nulls
  let tuple := if row.syscols.oid ≠ InvalidOid then { tuple with t_oid := row.syscols.oid }
               else tuple
  let tuple := if row.syscols.k2pgctid ≠ 0 then { tuple with t_k2pgctid := row.syscols.k2pgctid }
               else tuple
  if camScan.tableOid ≠ InvalidOid then { tuple with t_tableOid := camScan.tableOid }
  else tuple

/-- The function `camFetchNextHeapTuple`: the tuple (NULL is `none`), the scan
descriptor and the remote result after the call. -/
def camFetchNextHeapTuple (env : PgExec) (camScan : CamScanDescData) (is_forward_scan : Bool)
    (remote : RemoteResult) :
    Except ScanError (Option HeapTupleData × CamScanDescData × RemoteResult) :=
  match camFetchNextHeapTuple_exec env camScan is_forward_scan remote with
  | .error e => .error e
  | .ok (camScan1, remote1) =>
    match PgGate_DmlFetch remote1 with
    | .error e => .error e
    | .ok (none, remote2) => .ok (none, camScan1, remote2)
    | .ok (some row, remote2) =>
      .ok (some (camFetchNextHeapTuple_tuple env camScan1 row), camScan1, remote2)

/-- The loop of `heaptuple_matches_key` over the key positions still to visit;
the second argument and the second component of the result are `*recheck`. -/
def heaptuple_matches_key_loop (env : PgExec) (tup : HeapTupleData) (tupdesc : TupleDesc)
    (key : List ScanKeyData) (sk_attno : List AttrNumber) : List Nat → Bool → Bool × Bool
  | [], recheck => (true, recheck)
  | i :: rest, recheck =>
    if sk_attno.getD i 0 = (InvalidOid : Int) then
      (true, recheck)
    else
      let r := env.heap_getattr tup (sk_attno.getD i 0) tupdesc
      let res_datum := r.1
      let is_null := r.2
      if (key.getD i default).sk_flags &&& SK_SEARCHNULL ≠ 0 then
        if is_null then heaptuple_matches_key_loop env tup tupdesc key sk_attno rest recheck
        else (false, recheck)
      else if (key.getD i default).sk_flags &&& SK_SEARCHNOTNULL ≠ 0 then
        if !is_null then heaptuple_matches_key_loop env tup tupdesc key sk_attno rest recheck
        else (false, recheck)
      else if (key.getD i default).sk_flags ≠ 0 then
        heaptuple_matches_key_loop env tup tupdesc key sk_attno rest true
      else if is_null then
        (false, recheck)
      else
        let matches_ := env.DatumGetBool
          (env.FunctionCall2Coll i res_datum (key.getD i default).sk_argument)
        if !matches_ then (false, recheck)
        else heaptuple_matches_key_loop env tup tupdesc key sk_attno rest recheck

/-- The function `heaptuple_matches_key`: the returned boolean and the value
left in `*recheck`. -/
def heaptuple_matches_key (env : PgExec) (tup : HeapTupleData) (tupdesc : TupleDesc)
    (nkeys : Nat) (key : List ScanKeyData) (sk_attno : List AttrNumber) : Bool × Bool :=
  heaptuple_matches_key_loop env tup tupdesc key sk_attno (List.range nkeys) false

/-- The `while` loop of `cam_getnext_heaptuple`, run for at most `fuel`
fetches (`none` when the fuel runs out first).  The result is the returned
tuple (NULL is `none`), `*recheck`, the scan descriptor and the remote result
after the call. -/
def cam_getnext_heaptuple_loop (env : PgExec) (is_forward_scan : Bool) (nkeys : Nat)
    (key : List ScanKeyData) (sk_attno : List AttrNumber) :
    Nat → CamScanDescData → Bool → RemoteResult →
      Option (Except ScanError (Option HeapTupleData × Bool × CamScanDescData × RemoteResult))
  | 0, _, _, _ => none
  | fuel + 1, camScan, recheck, remote =>
    match camFetchNextHeapTuple env camScan is_forward_scan remote with
    | .error e => some (.error e)
    | .ok (none, camScan1, remote1) => some (.ok (none, recheck, camScan1, remote1))
    | .ok (some tup, camScan1, remote1) =>
      let m := heaptuple_matches_key env tup camScan1.target_desc nkeys key sk_attno
      if m.1 then some (.ok (some tup, m.2, camScan1, remote1))
      else cam_getnext_heaptuple_loop env is_forward_scan nkeys key sk_attno fuel camScan1 m.2
        remote1

/-- The function `cam_getnext_heaptuple`, with the value of `*recheck` before
the call, the result held by the remote store, and a bound `fuel` on the
number of fetches. -/
def cam_getnext_heaptuple (env : PgExec) (camScan : CamScanDescData) (is_forward_scan : Bool)
    (recheck : Bool) (remote : RemoteResult) (fuel : Nat) :
    Option (Except ScanError (Option HeapTupleData × Bool × CamScanDescData × RemoteResult)) :=
  cam_getnext_heaptuple_loop env is_forward_scan camScan.nkeys camScan.key
    camScan.target_key_attnums fuel camScan recheck remote

/-- Fetch collaborators for the closed statements: `PgGate_ExecSelect` succeeds
and leaves the stored result as it is, a heap tuple holds the fetched values,
attribute `n` is read from slot `n - 1`, the comparison of every key is
`>` on naturals, and a datum is true when it is not 0. -/
def exampleExec : PgExec :=
  { PgGate_ExecSelect := fun _ _ _ _ _ remote => .ok remote
    heap_form_tuple := fun _ values nulls =>
      { values := values, nulls := nulls, t_oid := 0, t_k2pgctid := 0, t_tableOid := 0 }
    heap_getattr := fun tup attnum _ =>
      (tup.values.getD (attnum - 1).toNat 0, tup.nulls.getD (attnum - 1).toNat true)
    FunctionCall2Coll := fun _ a b => if a > b then 1 else 0
    DatumGetBool := fun d => d != 0 }

/-- The scan key `x > 5` on column 1 with flags 0. -/
def exampleGreaterKey : ScanKeyData :=
  { sk_flags := 0, sk_attno := 1, sk_strategy := BTGreaterStrategyNumber, sk_argument := 5 }

/-- A row with the single column value `v`. -/
def exampleRow (v : Datum) : K2Row :=
  { values := [v], nulls := [false], syscols := { oid := 0, k2pgctid := 0, k2pgbasectid := 0 } }

/-- The scan descriptor that `camBeginScan` returns for a sequential scan of
the example system table with the key `x > 5`: no constraint is bound and
the select statement has not been executed yet. -/
def exampleGreaterScan : CamScanDescData :=
  { camBeginScan_init exampleSystemTable [exampleGreaterKey] with
    target_desc := exampleSystemTable.rd_att, target_key_attnums := [1], handle := some 7,
    exec_params := { limit_count := -1, limit_offset := 0, limit_use_default := false },
    targets_attrnum := [1, 2, -8] }

/-! ## Selectivity of index clauses (`k2catam.cpp`) -/

/-- The function `camIndexEvalClauseSelectivity`.  The four selectivity macros
are parameters. -/
def camIndexEvalClauseSelectivity {α : Type} (K2PG_FULL_SCAN_SELECTIVITY
    K2PG_SINGLE_ROW_SELECTIVITY K2PG_SINGLE_KEY_SELECTIVITY K2PG_HASH_SCAN_SELECTIVITY : α)
    (qual_cols : Bitmapset) (is_unique_idx : Bool) (nonprimary_key primary_key : Bitmapset) : α :=
  if decide (qual_cols = ∅) || !decide (nonprimary_key ⊆ qual_cols) then
    K2PG_FULL_SCAN_SELECTIVITY
  else if decide (primary_key ⊆ qual_cols) then
    if is_unique_idx then K2PG_SINGLE_ROW_SELECTIVITY else K2PG_SINGLE_KEY_SELECTIVITY
  else
    K2PG_HASH_SCAN_SELECTIVITY

/-- A secondary (non-primary, non-unique) index of the example user table on
its column 2, with one `int4` index column. -/
def exampleSecondaryIndex : RelationData :=
  { rd_id := 16390, isSystemRelation := false, relhasoids := false,
    rd_att := [{ atttypid := INT4OID, attlen := 4, attbyval := true, attisdropped := false }],
    rd_index := some { indisprimary := false, indisunique := false, indnatts := 1,
                       indkey := [2] } }

/-- The scan key `= 7` on index column 1 with flags 0. -/
def exampleIndexKey : ScanKeyData :=
  { sk_flags := 0, sk_attno := 1, sk_strategy := BTEqualStrategyNumber, sk_argument := 7 }

/-- The scan descriptor that `camSetupScanPlan` builds for a scan of the
example user table through `exampleSecondaryIndex` that returns base rows
(`xs_want_itup` false) with the key `exampleIndexKey`. -/
def exampleIndexScan : CamScanDescData :=
  { camBeginScan_init exampleUserTable [exampleIndexKey] with
    index := some exampleSecondaryIndex
    prepare_params := { index_oid := 16390, index_only_scan := false,
                        use_secondary_index := true }
    target_desc := exampleUserTable.rd_att
    target_key_attnums := [2] }

/-- The scan plan that `camSetupScanPlan` builds for the same scan. -/
def exampleIndexPlan : CamScanPlanData :=
  { target_relation := exampleUserTable, primary_key := {11}, nonprimary_key := ∅,
    sk_cols := ∅, bind_desc := exampleSecondaryIndex.rd_att, bind_key_attnums := [1] }

/-- The example collaborators with room for a single scan key. -/
def exampleSmallGate : PgGate :=
  { exampleGate with K2PG_MAX_SCAN_KEYS := 1 }

/-! ## Concrete constants and builders for the encodings -/

/-- A builder over `exampleSchema` in which the two identifier fields are
written, so that the `int4` field is next. -/
def exampleBuilderAtInt4 : SKVRecordBuilder :=
  { schema := exampleSchema, written := [.int32 16384, .int32 0] }

/-- A builder over `exampleSchema` in which the first three fields are written,
so that the `text` field is next. -/
def exampleBuilderAtText : SKVRecordBuilder :=
  { schema := exampleSchema, written := [.int32 16384, .int32 0, .int32 (-5)] }

/-- The non-null `int4` constant with datum `2 ^ 32 - 5` (the value -5). -/
def exampleInt4Constant : K2PgConstant :=
  { type_id := INT4OID, attr_size := 4, attr_byvalue := true, datum := 4294967291,
    is_null := false }

/-- The non-null `text` constant whose datum 4096 points to the value `hi`. -/
def exampleTextConstant : K2PgConstant :=
  { type_id := TEXTOID, attr_size := -1, attr_byvalue := false, datum := 4096,
    is_null := false }

/-- The non-null `float4` constant with the bit pattern of 1.0. -/
def exampleFloat4Constant : K2PgConstant :=
  { type_id := FLOAT4OID, attr_size := 4, attr_byvalue := true, datum := 1065353216,
    is_null := false }

/-- A schema whose third field is a single-precision float. -/
def exampleFloatSchema : Schema :=
  { fields := [.INT32T, .INT32T, .FLOAT], partitionKeyFields := [0, 1, 2] }

/-- A builder over `exampleFloatSchema` in which the float field is next. -/
def exampleBuilderAtFloat : SKVRecordBuilder :=
  { schema := exampleFloatSchema, written := [.int32 16384, .int32 0] }

/-- The non-null constant that `camBindColumn` builds through
`cam_get_att_type_info` for a system column (attribute number at most 0):
type `oid`, four bytes, passed by value; here the oid 1259. -/
def exampleOidConstant : K2PgConstant :=
  { type_id := OIDOID, attr_size := 4, attr_byvalue := true, datum := 1259, is_null := false }

/-! ## Status conversion and record construction (`storage.cpp`) -/

/-- The error code `ERRCODE_SNAPSHOT_INVALID` (`MAKE_SQLSTATE` of `72000`). -/
def ERRCODE_SNAPSHOT_INVALID : Int := 135
/-- The error code `ERRCODE_T_R_SERIALIZATION_FAILURE` (`MAKE_SQLSTATE` of
`40001`). -/
def ERRCODE_T_R_SERIALIZATION_FAILURE : Int := 16777220
/-- The error code `ERRCODE_UNIQUE_VIOLATION` (`MAKE_SQLSTATE` of `23505`). -/
def ERRCODE_UNIQUE_VIOLATION : Int := 83906754

/-- The function `K2CodeToPGCode`. -/
def K2CodeToPGCode (k2code : Int) : Int :=
  if k2code = 200 ∨ k2code = 201 ∨ k2code = 202 then ERRCODE_SUCCESSFUL_COMPLETION
  else if k2code = 400 then ERRCODE_INTERNAL_ERROR
  else if k2code = 403 then ERRCODE_SNAPSHOT_INVALID
  else if k2code = 404 then ERRCODE_SUCCESSFUL_COMPLETION
  else if k2code = 405 ∨ k2code = 406 ∨ k2code = 408 then ERRCODE_INTERNAL_ERROR
  else if k2code = 409 then ERRCODE_T_R_SERIALIZATION_FAILURE
  else if k2code = 410 then ERRCODE_INTERNAL_ERROR
  else if k2code = 412 then ERRCODE_UNIQUE_VIOLATION
  else ERRCODE_INTERNAL_ERROR

/-- The part of `skv::http::Status` that the sources read. -/
structure Status where
  code : Int
  message : String
deriving DecidableEq, Repr, Inhabited

/-- The method `is2xxOK` of `skv::http::Status`, declared outside these
sources: the code lies in the range 200 to 299. -/
def Status.is2xxOK (status : Status) : Bool :=
  decide (200 ≤ status.code ∧ status.code < 300)

/-- The function `K2StatusToK2PgStatus`. -/
def K2StatusToK2PgStatus (status : Status) : K2PgStatus :=
  { pg_code := K2CodeToPGCode status.code, k2_code := status.code, msg := status.message,
    detail := "" }

/-- The methods of `k2pg::catalog::SqlCatalogClient` that `storage.cpp` calls;
each returns its status together with the values it stores through its
reference arguments, which are read only after a 2xx status. -/
structure SqlCatalogClient where
  GetCollectionNameAndSchemaName : Oid → Oid → Status × String × String
  GetAttrNumToSKVOffset : Oid → Oid → Status × (Int → Option Nat)
  GetBaseTableOID : Oid → Oid → Status × Nat

/-- The other collaborators of `storage.cpp`: the constants `K2_FIELD_OFFSET`
and `K2PgTupleIdAttributeNumber`, the detoasting of a datum (see
`serializePGConstToK2SKV`), `k2pg::TXMgr.GetSchema`, and the decoding of a
MessagePack buffer into the storage of a record (`MPackReader::read`). -/
structure StorageEnv where
  K2_FIELD_OFFSET : Nat
  K2PgTupleIdAttributeNumber : Int
  pg_detoast_datum : Datum → Option Varlena
  GetSchema : String → String → Status × Schema
  MPackReader_read : List Nat → List SKVField

/-- Modelled from the spec: `skv::http::dto::SKVRecord` is not among the
sources; following §4.1 a record is its schema together with its fields in
schema order, each the null marker or a type-tagged value. -/
structure SKVRecord where
  schema : Schema
  storage : List SKVField
deriving DecidableEq, Repr, Inhabited

/-- The function `getSKVBuilder`: the status and the `builder` argument after
the call (NULL is `none`).  The collection name that the builder also holds is
not part of `SKVRecordBuilder` here. -/
def getSKVBuilder (env : StorageEnv) (database_oid table_oid : Oid)
    (catalog : SqlCatalogClient) (builder : Option SKVRecordBuilder) :
    K2PgStatus × Option SKVRecordBuilder :=
  let named := catalog.GetCollectionNameAndSchemaName database_oid table_oid
  if !named.1.is2xxOK then
    (K2StatusToK2PgStatus named.1, builder)
  else
    let got := env.GetSchema named.2.1 named.2.2
    if !got.1.is2xxOK then
      (K2StatusToK2PgStatus got.1, builder)
    else
      (K2PgStatus.OK, some { schema := got.2, written := [] })

/-- The function `tupleIDDatumToSKVRecord`; `none` when the datum is not the
address of a variable-length value. -/
def tupleIDDatumToSKVRecord (env : StorageEnv) (tuple_id : Datum) (schema : Schema) :
    Option SKVRecord :=
  match env.pg_detoast_datum tuple_id with
  | none => none
  | some data =>
    let size := VARSIZE data - VARHDRSZ
    let src := VARDATA data
    some { schema := schema, storage := env.MPackReader_read (src.take size) }

/-- Modelled from the spec: `SKVRecord::deserializeNext<int32_t>` at field `i`
gives the value of a 32-bit field, no value (`none`) for the null marker, and
throws for a field of another type or past the end. -/
def SKVRecord.deserializeNext_int32 (source : SKVRecord) (i : Nat) :
    Except SerializeFault (Option Int) :=
  match source.storage[i]? with
  | some (.int32 v) => .ok (some v)
  | some .null => .ok none
  | _ => .error (.exception "Type mismatch in record deserialization")

/-- The field loop of `serializeKeysFromSKVRecord` over the positions of the
source record still to visit (`visitNextField`; reading past the end throws). -/
def serializeKeysFromSKVRecord_fields (source : SKVRecord) :
    List Nat → SKVRecordBuilder → Except SerializeFault SKVRecordBuilder
  | [], builder => .ok builder
  | i :: rest, builder =>
    match source.storage[i]? with
    | none => .error (.exception "Schema not followed in record deserialization")
    | some .null =>
      match builder.serializeNull with
      | .error e => .error e
      | .ok builder1 => serializeKeysFromSKVRecord_fields source rest builder1
    | some value =>
      match builder.serializeNext value with
      | .error e => .error e
      | .ok builder1 => serializeKeysFromSKVRecord_fields source rest builder1

/-- The builder as the field loop of `serializeKeysFromSKVRecord` leaves it,
whether the loop runs to its end or a step throws: the fields written before a
throw stay in the builder, which is passed by reference. -/
def serializeKeysFromSKVRecord_fields_left (source : SKVRecord) :
    List Nat → SKVRecordBuilder → SKVRecordBuilder
  | [], builder => builder
  | i :: rest, builder =>
    match source.storage[i]? with
    | none => builder
    | some .null =>
      match builder.serializeNull with
      | .error _ => builder
      | .ok builder1 => serializeKeysFromSKVRecord_fields_left source rest builder1
    | some value =>
      match builder.serializeNext value with
      | .error _ => builder
      | .ok builder1 => serializeKeysFromSKVRecord_fields_left source rest builder1

/-- The function `serializeKeysFromSKVRecord`: the status and the builder after
the call; when an exception is caught this is the builder with the fields
written before the throw.  The result is `none` when an identifier field of
the source holds no value and the empty `std::optional` is dereferenced. -/
def serializeKeysFromSKVRecord (K2_FIELD_OFFSET : Nat) (source : SKVRecord)
    (builder : SKVRecordBuilder) : Option (K2PgStatus × SKVRecordBuilder) :=
  let caught (what : String) (left : SKVRecordBuilder) :
      Option (K2PgStatus × SKVRecordBuilder) :=
    some ({ pg_code := ERRCODE_INTERNAL_ERROR, k2_code := 0,
            msg := "Serialization error in serializeKeysFromSKVRecord", detail := what },
          left)
  let finish (tried : Except SerializeFault SKVRecordBuilder) (left : SKVRecordBuilder) :
      Option (K2PgStatus × SKVRecordBuilder) :=
    match tried with
    | .ok builder3 => some (K2PgStatus.OK, builder3)
    | .error (.exception what) => caught what left
    | .error .invalid_datum_pointer => none
  match source.deserializeNext_int32 0 with
  | .error (.exception what) => caught what builder
  | .error .invalid_datum_pointer => none
  | .ok none => none
  | .ok (some table_id) =>
    match builder.serializeNext (.int32 table_id) with
    | .error e => finish (.error e) builder
    | .ok builder1 =>
      match source.deserializeNext_int32 1 with
      | .error (.exception what) => caught what builder1
      | .error .invalid_datum_pointer => none
      | .ok none => none
      | .ok (some index_id) =>
        match builder1.serializeNext (.int32 index_id) with
        | .error e => finish (.error e) builder1
        | .ok builder2 =>
          finish (serializeKeysFromSKVRecord_fields source
            (List.range' 2 (source.schema.partitionKeyFields.length - K2_FIELD_OFFSET))
            builder2)
            (serializeKeysFromSKVRecord_fields_left source
              (List.range' 2 (source.schema.partitionKeyFields.length - K2_FIELD_OFFSET))
              builder2)

/-- The first loop of `makeSKVBuilderWithKeysSerialized` over the columns still
to visit: `(record, use_tupleID)` after it, or the status it returns early; the
result is `none` when a NULL builder or an invalid datum is dereferenced. -/
def makeSKVBuilderWithKeysSerialized_tupleID (env : StorageEnv) (database_oid table_oid : Oid)
    (catalog : SqlCatalogClient) :
    List K2PgAttributeDef → SKVRecord → Bool → Option (Except K2PgStatus (SKVRecord × Bool))
  | [], record, use_tupleID => some (.ok (record, use_tupleID))
  | column :: rest, record, use_tupleID =>
    if column.attr_num = env.K2PgTupleIdAttributeNumber then
      let made := getSKVBuilder env database_oid table_oid catalog none
      if made.1.pg_code ≠ ERRCODE_SUCCESSFUL_COMPLETION then
        some (.error made.1)
      else
        match made.2 with
        | none => none
        | some builder =>
          match tupleIDDatumToSKVRecord env column.value.datum builder.schema with
          | none => none
          | some record1 =>
            makeSKVBuilderWithKeysSerialized_tupleID env database_oid table_oid catalog rest
              record1 true
    else
      makeSKVBuilderWithKeysSerialized_tupleID env database_oid table_oid catalog rest record
        use_tupleID

/-- The function `makeSKVBuilderWithKeysSerialized`: the status and the
`builder` argument after the call.  When an exception is caught the caller gets
the error status, and the builder holds the fields written before the throw;
the result is `none` when a NULL builder or an invalid datum is dereferenced. -/
def makeSKVBuilderWithKeysSerialized (env : StorageEnv) (database_oid table_oid : Oid)
    (catalog : SqlCatalogClient) (columns : List K2PgAttributeDef)
    (builder : Option SKVRecordBuilder) : Option (K2PgStatus × Option SKVRecordBuilder) :=
  match makeSKVBuilderWithKeysSerialized_tupleID env database_oid table_oid catalog columns
      default false with
  | none => none
  | some (.error status) => some (status, builder)
  | some (.ok (record, use_tupleID)) =>
    let made := getSKVBuilder env database_oid table_oid catalog builder
    if made.1.pg_code ≠ ERRCODE_SUCCESSFUL_COMPLETION then
      some (made.1, made.2)
    else if use_tupleID then
      match made.2 with
      | none => none
      | some builder0 =>
        match serializeKeysFromSKVRecord env.K2_FIELD_OFFSET record builder0 with
        | none => none
        | some (status, builder1) =>
          if status.pg_code ≠ ERRCODE_SUCCESSFUL_COMPLETION then some (status, some builder1)
          else some (K2PgStatus.OK, some builder1)
    else
      let offsets := catalog.GetAttrNumToSKVOffset database_oid table_oid
      if !offsets.1.is2xxOK then
        some (K2StatusToK2PgStatus offsets.1, made.2)
      else
        let attr_map := serializePgAttributesToSKV_attr_map offsets.2 columns (fun _ => none)
        let base := catalog.GetBaseTableOID database_oid table_oid
        if !base.1.is2xxOK then
          some (K2StatusToK2PgStatus base.1, made.2)
        else
          let base_table_oid := base.2
          let index_id := if base_table_oid = table_oid then 0 else table_oid
          match made.2 with
          | none => none
          | some builder0 =>
            let tried : Except SerializeFault SKVRecordBuilder :=
              match builder0.serializeNext (.int32 (toSigned 32 base_table_oid)) with
              | .error e => .error e
              | .ok builder1 =>
                match builder1.serializeNext (.int32 (toSigned 32 index_id)) with
                | .error e => .error e
                | .ok builder2 =>
                  serializePgAttributesToSKV_fields env.pg_detoast_datum attr_map
                    (List.range' env.K2_FIELD_OFFSET
                      (builder2.schema.partitionKeyFields.length - env.K2_FIELD_OFFSET))
                    builder2
            let left : SKVRecordBuilder :=
              match builder0.serializeNext (.int32 (toSigned 32 base_table_oid)) with
              | .error _ => builder0
              | .ok builder1 =>
                match builder1.serializeNext (.int32 (toSigned 32 index_id)) with
                | .error _ => builder1
                | .ok builder2 =>
                  serializePgAttributesToSKV_fields_left env.pg_detoast_datum attr_map
                    (List.range' env.K2_FIELD_OFFSET
                      (builder2.schema.partitionKeyFields.length - env.K2_FIELD_OFFSET))
                    builder2
            match tried with
            | .ok builder3 => some (K2PgStatus.OK, some builder3)
            | .error (.exception what) =>
              some ({ pg_code := ERRCODE_INTERNAL_ERROR, k2_code := 0,
                      msg := "Serialization error in serializePgAttributesToSKV",
                      detail := what },
                    some left)
            | .error .invalid_datum_pointer => none

/-- Modelled from the spec: `SKVRecordBuilder::build` gives the record made of
the schema and the fields written so far. -/
def SKVRecordBuilder.build (builder : SKVRecordBuilder) : SKVRecord :=
  { schema := builder.schema, storage := builder.written }

/-- The function `makeSKVRecordFromK2PgAttributes`: the status and the `record`
argument after the call; `none` when a NULL builder or an invalid datum is
dereferenced.  The `uint32_t` identifiers are converted to `int32_t` at the
call of `serializePgAttributesToSKV`. -/
def makeSKVRecordFromK2PgAttributes (env : StorageEnv) (database_oid table_oid : Oid)
    (catalog : SqlCatalogClient) (columns : List K2PgAttributeDef) (record : SKVRecord) :
    Option (K2PgStatus × SKVRecord) :=
  let offsets := catalog.GetAttrNumToSKVOffset database_oid table_oid
  if !offsets.1.is2xxOK then
    some (K2StatusToK2PgStatus offsets.1, record)
  else
    let base := catalog.GetBaseTableOID database_oid table_oid
    if !base.1.is2xxOK then
      some (K2StatusToK2PgStatus base.1, record)
    else
      let base_table_oid := base.2
      let index_id := if base_table_oid = table_oid then 0 else table_oid
      let made := getSKVBuilder env database_oid table_oid catalog none
      if made.1.pg_code ≠ ERRCODE_SUCCESSFUL_COMPLETION then
        some (made.1, record)
      else
        match made.2 with
        | none => none
        | some builder =>
          match serializePgAttributesToSKV env.K2_FIELD_OFFSET env.pg_detoast_datum builder
              (toSigned 32 base_table_oid) (toSigned 32 index_id) columns offsets.2 with
          | none => none
          | some (status, builder1) =>
            if status.pg_code ≠ ERRCODE_SUCCESSFUL_COMPLETION then some (status, record)
            else some (K2PgStatus.OK, builder1.build)

/-- A catalog in which every call succeeds, every table has the schema names
`db` and `tbl` and the attribute offsets of `exampleAttrNumToIndex`, and the
index 16390 belongs to the base table 16384. -/
def exampleCatalog : SqlCatalogClient :=
  { GetCollectionNameAndSchemaName := fun _ _ => ({ code := 200, message := "" }, "db", "tbl")
    GetAttrNumToSKVOffset := fun _ _ => ({ code := 200, message := "" }, exampleAttrNumToIndex)
    GetBaseTableOID := fun _ table_oid =>
      ({ code := 200, message := "" }, if table_oid = 16390 then 16384 else table_oid) }

/-- Storage collaborators with `K2_FIELD_OFFSET = 2`, the memory of
`exampleDetoast` and the schema `exampleSchema` for every table. -/
def exampleStorage : StorageEnv :=
  { K2_FIELD_OFFSET := 2
    K2PgTupleIdAttributeNumber := -8
    pg_detoast_datum := exampleDetoast
    GetSchema := fun _ _ => ({ code := 200, message := "" }, exampleSchema)
    MPackReader_read := fun _ => [] }

/-! ## Expression analysis for single-row modify (`k2_plan.cpp`, lines 227-359) -/

/-- The errors that `k2_plan.cpp` raises with `elog(ERROR, ...)`. -/
inductive PlanError where
  | cache_lookup_failed (funcid : Oid)
  | invalid_parameter
  | invalid_expression
deriving DecidableEq, Repr, Inhabited

/-- The constant `PROVOLATILE_IMMUTABLE` of `catalog/pg_proc.h`. -/
def PROVOLATILE_IMMUTABLE : Char := 'i'

/-- The function `IsSupportedK2FunctionId`; of the `pg_proc` row only the
volatility is carried. -/
def IsSupportedK2FunctionId (funcid : Oid) (provolatile : Char) : Bool :=
  false

mutual
/-- The function `K2PgAnalyzeExpression`.  `pg_proc funcid` is the `provolatile`
field of the row that `SearchSysCache1(PROCOID, funcid)` finds (`none` when the
tuple is not valid); the two booleans passed in are `*has_vars` and
`*has_k2_unsupported_funcs` before the call, and the result is the returned
boolean with the two flags after the call. -/
def K2PgAnalyzeExpression (pg_proc : Oid → Option Char) (target_attnum : AttrNumber) :
    Expr → Bool → Bool → Except PlanError (Bool × Bool × Bool)
  | .Const _ _ _, has_vars, has_k2_unsupported_funcs =>
    .ok (true, has_vars, has_k2_unsupported_funcs)
  | .Var varattno, _, has_k2_unsupported_funcs =>
    .ok (decide (varattno = target_attnum), true, has_k2_unsupported_funcs)
  | .Param paramkind _ _, has_vars, has_k2_unsupported_funcs =>
    .ok (decide (paramkind = .PARAM_EXTERN), has_vars, has_k2_unsupported_funcs)
  | .RelabelType arg, has_vars, has_k2_unsupported_funcs =>
    K2PgAnalyzeExpression pg_proc target_attnum arg has_vars has_k2_unsupported_funcs
  | .FuncExpr funcid args, has_vars, has_k2_unsupported_funcs =>
    match pg_proc funcid with
    | none => .error (.cache_lookup_failed funcid)
    | some provolatile =>
      if provolatile ≠ PROVOLATILE_IMMUTABLE then
        .ok (false, has_vars, has_k2_unsupported_funcs)
      else
        K2PgAnalyzeExpression_args pg_proc target_attnum args has_vars
          (if !IsSupportedK2FunctionId funcid provolatile then true
           else has_k2_unsupported_funcs)
  | .OpExpr opfuncid args, has_vars, has_k2_unsupported_funcs =>
    match pg_proc opfuncid with
    | none => .error (.cache_lookup_failed opfuncid)
    | some provolatile =>
      if provolatile ≠ PROVOLATILE_IMMUTABLE then
        .ok (false, has_vars, has_k2_unsupported_funcs)
      else
        K2PgAnalyzeExpression_args pg_proc target_attnum args has_vars
          (if !IsSupportedK2FunctionId opfuncid provolatile then true
           else has_k2_unsupported_funcs)
  | .Other _, has_vars, has_k2_unsupported_funcs =>
    .ok (false, has_vars, has_k2_unsupported_funcs)
/-- The `foreach` loop of `K2PgAnalyzeExpression` over the arguments still to
visit; it returns false at the first argument that is not accepted. -/
def K2PgAnalyzeExpression_args (pg_proc : Oid → Option Char) (target_attnum : AttrNumber) :
    List Expr → Bool → Bool → Except PlanError (Bool × Bool × Bool)
  | [], has_vars, has_k2_unsupported_funcs => .ok (true, has_vars, has_k2_unsupported_funcs)
  | expr :: rest, has_vars, has_k2_unsupported_funcs =>
    match K2PgAnalyzeExpression pg_proc target_attnum expr has_vars
        has_k2_unsupported_funcs with
    | .error e => .error e
    | .ok (false, has_vars1, has_k2_unsupported_funcs1) =>
      .ok (false, has_vars1, has_k2_unsupported_funcs1)
    | .ok (true, has_vars1, has_k2_unsupported_funcs1) =>
      K2PgAnalyzeExpression_args pg_proc target_attnum rest has_vars1
        has_k2_unsupported_funcs1
end

/-- The function `K2PgIsSupportedSingleRowModifyAssignExpr`: the returned
boolean and `*needs_pushdown` after the call. -/
def K2PgIsSupportedSingleRowModifyAssignExpr (pg_proc : Oid → Option Char) (expr : Expr)
    (target_attnum : AttrNumber) : Except PlanError (Bool × Bool) :=
  match K2PgAnalyzeExpression pg_proc target_attnum expr false false with
  | .error e => .error e
  | .ok (is_basic_expr, has_vars, has_k2_unsupported_funcs) =>
    if !is_basic_expr then .ok (false, false)
    else if !has_vars then .ok (true, false)
    else if has_vars && !has_k2_unsupported_funcs then .ok (true, true)
    else .ok (false, false)

/-- The expressions that the specification calls basic with respect to a
target column: constants, external bind parameters, a `RelabelType` around a
basic argument, references to the target column, and calls of immutable
functions or operators all of whose arguments are basic. -/
inductive IsBasicExpr (pg_proc : Oid → Option Char) (target_attnum : AttrNumber) :
    Expr → Prop where
  | const (consttype : Oid) (constvalue : Datum) (constisnull : Bool) :
      IsBasicExpr pg_proc target_attnum (.Const consttype constvalue constisnull)
  | param (paramid : Int) (paramtype : Oid) :
      IsBasicExpr pg_proc target_attnum (.Param .PARAM_EXTERN paramid paramtype)
  | relabel (arg : Expr) :
      IsBasicExpr pg_proc target_attnum arg →
      IsBasicExpr pg_proc target_attnum (.RelabelType arg)
  | target :
      IsBasicExpr pg_proc target_attnum (.Var target_attnum)
  | func (funcid : Oid) (args : List Expr) :
      pg_proc funcid = some PROVOLATILE_IMMUTABLE →
      (∀ a ∈ args, IsBasicExpr pg_proc target_attnum a) →
      IsBasicExpr pg_proc target_attnum (.FuncExpr funcid args)
  | op (opfuncid : Oid) (args : List Expr) :
      pg_proc opfuncid = some PROVOLATILE_IMMUTABLE →
      (∀ a ∈ args, IsBasicExpr pg_proc target_attnum a) →
      IsBasicExpr pg_proc target_attnum (.OpExpr opfuncid args)

mutual
/-- Whether an expression contains a reference to the column `attnum`. -/
def Expr.referencesColumn (attnum : AttrNumber) : Expr → Bool
  | .Const _ _ _ => false
  | .Var varattno => decide (varattno = attnum)
  | .Param _ _ _ => false
  | .RelabelType arg => arg.referencesColumn attnum
  | .FuncExpr _ args => Expr.referencesColumn_args attnum args
  | .OpExpr _ args => Expr.referencesColumn_args attnum args
  | .Other _ => false
/-- Whether one of the listed expressions contains a reference to the column
`attnum`. -/
def Expr.referencesColumn_args (attnum : AttrNumber) : List Expr → Bool
  | [] => false
  | e :: rest => e.referencesColumn attnum || Expr.referencesColumn_args attnum rest
end

mutual
/-- Whether an expression contains a function or operator call. -/
def Expr.containsCall : Expr → Bool
  | .Const _ _ _ => false
  | .Var _ => false
  | .Param _ _ _ => false
  | .RelabelType arg => arg.containsCall
  | .FuncExpr _ _ => true
  | .OpExpr _ _ => true
  | .Other _ => false
/-- Whether one of the listed expressions contains a function or operator
call. -/
def Expr.containsCall_args : List Expr → Bool
  | [] => false
  | e :: rest => e.containsCall || Expr.containsCall_args rest
end

mutual
/-- Whether every function or operator called in an expression has a row in
`pg_proc`. -/
def Expr.callsKnown (pg_proc : Oid → Option Char) : Expr → Bool
  | .Const _ _ _ => true
  | .Var _ => true
  | .Param _ _ _ => true
  | .RelabelType arg => arg.callsKnown pg_proc
  | .FuncExpr funcid args => (pg_proc funcid).isSome && Expr.callsKnown_args pg_proc args
  | .OpExpr opfuncid args => (pg_proc opfuncid).isSome && Expr.callsKnown_args pg_proc args
  | .Other _ => true
/-- Whether every function or operator called in the listed expressions has a
row in `pg_proc`. -/
def Expr.callsKnown_args (pg_proc : Oid → Option Char) : List Expr → Bool
  | [] => true
  | e :: rest => e.callsKnown pg_proc && Expr.callsKnown_args pg_proc rest
end

/-- A `pg_proc` in which function 177 (`int4pl`) is immutable, function 1598
(`random`) is volatile, and no other function has a row. -/
def examplePgProc : Oid → Option Char :=
  fun funcid => if funcid = 177 then some 'i' else if funcid = 1598 then some 'v' else none

/-- The expression `x + 1` over the column with attribute number 2, as an
operator call of `int4pl`. -/
def exampleIncrement : Expr :=
  .OpExpr 177 [.Var 2, .Const INT4OID 1 false]

/-- The expression `$1 + 1` with an external bind parameter. -/
def exampleParamSum : Expr :=
  .OpExpr 177 [.Param .PARAM_EXTERN 1 INT4OID, .Const INT4OID 1 false]

/-- The scan key `id = 42` on column 1 with flags 0. -/
def exampleIdKey : ScanKeyData :=
  { sk_flags := 0, sk_attno := 1, sk_strategy := BTEqualStrategyNumber, sk_argument := 42 }

/-- The scan descriptor that `camBeginScan` returns for a sequential scan of
the example user table with the key `id = 42` on its primary-key column. -/
def exampleIdScan : CamScanDescData :=
  { camBeginScan_init exampleUserTable [exampleIdKey] with
    target_desc := exampleUserTable.rd_att, target_key_attnums := [1], handle := some 7,
    constraints := [{ attr_num := 1, constraint := .K2PG_CONSTRAINT_EQ,
                      constants := [{ type_id := INT4OID, attr_size := 4, attr_byvalue := true,
                                      datum := 42, is_null := false }] }],
    targets_attrnum := [1, 2, -8] }

/-! ## Primary-key attributes of a relation (`k2_plan.cpp`, lines 478-523) -/

/-- The attribute loop of `K2PgAllPrimaryKeysProvided`, over the attribute
numbers still to visit: it collects `primary_key_attrs`; a failed status of
`PgGate_GetColumnInfo` is raised as an error. -/
def K2PgAllPrimaryKeysProvided_loop (env : PgGate) (k2pg_tabledesc : Nat) :
    List AttrNumber → Bitmapset → Except ScanError Bitmapset
  | [], primary_key_attrs => .ok primary_key_attrs
  | attnum :: rest, primary_key_attrs =>
    match env.PgGate_GetColumnInfo k2pg_tabledesc attnum with
    | .error e => .error e
    | .ok is_primary =>
      if is_primary then
        K2PgAllPrimaryKeysProvided_loop env k2pg_tabledesc rest
          (insert attnum.toNat primary_key_attrs)
      else
        K2PgAllPrimaryKeysProvided_loop env k2pg_tabledesc rest primary_key_attrs

/-- The function `K2PgAllPrimaryKeysProvided`.  `RelationIdGetRelation` is the
relation cache look-up, and `RelationGetNumberOfAttributes` is the length of
the descriptor of the relation. -/
def K2PgAllPrimaryKeysProvided (env : PgGate) (RelationIdGetRelation : Oid → RelationData)
    (relid : Oid) (attrs : Bitmapset) : Except ScanError Bool :=
  if attrs = ∅ then
    .ok false
  else
    let rel := RelationIdGetRelation relid
    let dboid := env.K2PgGetDatabaseOid rel
    let natts := rel.rd_att.length
    match env.PgGate_GetTableDesc dboid relid with
    | .error e => .error e
    | .ok k2pg_tabledesc =>
      match K2PgAllPrimaryKeysProvided_loop env k2pg_tabledesc
          ((List.range natts).map (fun (n : Nat) => (n : Int) + 1)) ∅ with
      | .error e => .error e
      | .ok primary_key_attrs => .ok (decide (attrs = primary_key_attrs))

/-- Whether the table descriptor reports the attribute as primary. -/
def reportsPrimary (env : PgGate) (k2pg_tabledesc : Nat) (attnum : AttrNumber) : Bool :=
  match env.PgGate_GetColumnInfo k2pg_tabledesc attnum with
  | .ok true => true
  | _ => false

/-- The set of attribute numbers in `1..natts` that the table descriptor
reports as primary. -/
def reportedPrimaryKey (env : PgGate) (k2pg_tabledesc : Nat) (natts : Nat) : Bitmapset :=
  (Finset.Icc 1 natts).filter (fun n => reportsPrimary env k2pg_tabledesc (n : Int) = true)

/-! ## Re-checking index tuples (`k2catam.cpp`, lines 1086-1140) -/

/-- The part of `IndexTupleData` that the scan fills: the formed attribute data
and the field `t_k2pgctid`. -/
structure IndexTupleData where
  values : List Datum
  nulls : List Bool
  t_k2pgctid : Datum
deriving DecidableEq, Repr, Inhabited

/-- The loop of `indextuple_matches_key` over the key positions still to visit;
`index_getattr` is the macro of that name, and the second argument and the
second component of the result are `*recheck`. -/
def indextuple_matches_key_loop (env : PgExec)
    (index_getattr : IndexTupleData → AttrNumber → TupleDesc → Datum × Bool)
    (tup : IndexTupleData) (tupdesc : TupleDesc) (key : List ScanKeyData)
    (sk_attno : List AttrNumber) : List Nat → Bool → Bool × Bool
  | [], recheck => (true, recheck)
  | i :: rest, recheck =>
    if sk_attno.getD i 0 = (InvalidOid : Int) then
      (true, recheck)
    else
      let r := index_getattr tup (sk_attno.getD i 0) tupdesc
      let res_datum := r.1
      let is_null := r.2
      if (key.getD i default).sk_flags &&& SK_SEARCHNULL ≠ 0 then
        if is_null then
          indextuple_matches_key_loop env index_getattr tup tupdesc key sk_attno rest recheck
        else (false, recheck)
      else if (key.getD i default).sk_flags &&& SK_SEARCHNOTNULL ≠ 0 then
        if !is_null then
          indextuple_matches_key_loop env index_getattr tup tupdesc key sk_attno rest recheck
        else (false, recheck)
      else if (key.getD i default).sk_flags ≠ 0 then
        indextuple_matches_key_loop env index_getattr tup tupdesc key sk_attno rest true
      else if is_null then
        (false, recheck)
      else
        let matches_ := env.DatumGetBool
          (env.FunctionCall2Coll i res_datum (key.getD i default).sk_argument)
        if !matches_ then (false, recheck)
        else
          indextuple_matches_key_loop env index_getattr tup tupdesc key sk_attno rest recheck

/-- The function `indextuple_matches_key`: the returned boolean and the value
left in `*recheck`. -/
def indextuple_matches_key (env : PgExec)
    (index_getattr : IndexTupleData → AttrNumber → TupleDesc → Datum × Bool)
    (tup : IndexTupleData) (tupdesc : TupleDesc) (nkeys : Nat) (key : List ScanKeyData)
    (sk_attno : List AttrNumber) : Bool × Bool :=
  indextuple_matches_key_loop env index_getattr tup tupdesc key sk_attno (List.range nkeys)
    false

/-- The keys that reach the third test of the loop of `heaptuple_matches_key`
and pass it: the flags are not 0 and hold neither `SK_SEARCHNULL` nor
`SK_SEARCHNOTNULL`. -/
def ScanKeyData.hasOtherFlags (k : ScanKeyData) : Bool :=
  decide (k.sk_flags &&& SK_SEARCHNULL = 0) && decide (k.sk_flags &&& SK_SEARCHNOTNULL = 0)
    && decide (k.sk_flags ≠ 0)

/-- The key positions that the loop of `heaptuple_matches_key` can reach: the
positions below `nkeys` before the first one whose attribute number is 0. -/
def keysBeforeInvalid (nkeys : Nat) (sk_attno : List AttrNumber) : List Nat :=
  (List.range nkeys).takeWhile (fun i => decide (sk_attno.getD i 0 ≠ (InvalidOid : Int)))

/-- The accessor of the closed statements for index tuples: attribute `n` is
read from slot `n - 1`. -/
def exampleIndexGetattr : IndexTupleData → AttrNumber → TupleDesc → Datum × Bool :=
  fun tup attnum _ =>
    (tup.values.getD (attnum - 1).toNat 0, tup.nulls.getD (attnum - 1).toNat true)

/-- The keys `x = ANY (array 8192)` and `x > 5` on column 1. -/
def exampleArrayAndGreaterKeys : List ScanKeyData :=
  [exampleArrayKey, exampleGreaterKey]

/-- A heap tuple whose single column holds `v`. -/
def exampleHeapTuple (v : Datum) : HeapTupleData :=
  { values := [v], nulls := [false], t_oid := 0, t_k2pgctid := 0, t_tableOid := 0 }

/-- The equality key `x = 9` on column 1, with flags 0. -/
def exampleEqualKey9 : ScanKeyData :=
  { sk_flags := 0, sk_attno := 1, sk_strategy := BTEqualStrategyNumber, sk_argument := 9 }

/-- The scan keys `x = 7` (position 0) and `x = 9` (position 1) on column 1. -/
def exampleTwoEqualKeys : List ScanKeyData :=
  [exampleEqualKey, exampleEqualKey9]

/-- The flag `SK_ROW_HEADER` of `access/skey.h`: the key is the header of a
row comparison and `sk_argument` points to the member keys. -/
def SK_ROW_HEADER : Nat := 0x0004

/-- The scan keys `x = 5` and `x < 7` on column 1, both with flags 0. -/
def exampleEqualAndLessKeys : List ScanKeyData :=
  [{ sk_flags := 0, sk_attno := 1, sk_strategy := BTEqualStrategyNumber, sk_argument := 5 },
   { sk_flags := 0, sk_attno := 1, sk_strategy := BTLessStrategyNumber, sk_argument := 7 }]

/-- The header key of the row comparison `(x, ...) < (...)` on column 1, whose
argument is the address 4096 of the member keys. -/
def exampleRowHeaderKey : ScanKeyData :=
  { sk_flags := SK_ROW_HEADER, sk_attno := 1, sk_strategy := BTLessStrategyNumber,
    sk_argument := 4096 }

/-- The scan key `x > 0` on column 1 with flags 0. -/
def examplePositiveKey : ScanKeyData :=
  { sk_flags := 0, sk_attno := 1, sk_strategy := BTGreaterStrategyNumber, sk_argument := 0 }

/-- The collaborators of `exampleGate`, with `deconstruct_array` returning the
two null elements of the array `{NULL, NULL}`. -/
def exampleNullArrayGate : PgGate :=
  { exampleGate with deconstruct_array := fun _ => [(0, true), (0, true)] }

/-- The scan descriptor that `camBeginScan` returns for a sequential scan of
the example user table with the key `x = ANY ('{NULL, NULL}')`: no constraint
is bound and the select statement has not been executed yet. -/
def exampleNullArrayScan : CamScanDescData :=
  { camBeginScan_init exampleUserTable [exampleArrayKey] with
    target_desc := exampleUserTable.rd_att, target_key_attnums := [1], handle := some 7,
    targets_attrnum := [1, 2, -8] }

/-- The scan descriptor `exampleNullArrayScan` after the select statement has
been executed. -/
def exampleNullArrayScanDone : CamScanDescData :=
  { exampleNullArrayScan with is_exec_done := true }

/-- The heap tuple that the scan of the example user table forms from the row
holding `v`. -/
def exampleFetchedTuple (v : Datum) : HeapTupleData :=
  { values := [v], nulls := [false], t_oid := 0, t_k2pgctid := 0, t_tableOid := 16384 }

/-! ## Expressions of a WHERE clause (`k2_plan.cpp`, lines 49-120) -/

mutual
/-- The function `K2PgIsSupportedSingleRowModifyWhereExpr`.  `pg_proc funcid`
is the `provolatile` field of the row that `SearchSysCache1(PROCOID, funcid)`
finds (`none` when the tuple is not valid); a `Var` node takes the `default`
case of the switch, like every node with another tag. -/
def K2PgIsSupportedSingleRowModifyWhereExpr (pg_proc : Oid → Option Char) :
    Expr → Except PlanError Bool
  | .Const _ _ _ => .ok true
  | .Param paramkind _ _ => .ok (decide (paramkind = .PARAM_EXTERN))
  | .RelabelType arg => K2PgIsSupportedSingleRowModifyWhereExpr pg_proc arg
  | .FuncExpr funcid args =>
    match pg_proc funcid with
    | none => .error (.cache_lookup_failed funcid)
    | some provolatile =>
      if provolatile ≠ PROVOLATILE_IMMUTABLE then .ok false
      else K2PgIsSupportedSingleRowModifyWhereExpr_args pg_proc args
  | .OpExpr opfuncid args =>
    match pg_proc opfuncid with
    | none => .error (.cache_lookup_failed opfuncid)
    | some provolatile =>
      if provolatile ≠ PROVOLATILE_IMMUTABLE then .ok false
      else K2PgIsSupportedSingleRowModifyWhereExpr_args pg_proc args
  | .Var _ => .ok false
  | .Other _ => .ok false
/-- The `foreach` loop of `K2PgIsSupportedSingleRowModifyWhereExpr` over the
arguments still to visit; it returns false at the first argument that is not
accepted. -/
def K2PgIsSupportedSingleRowModifyWhereExpr_args (pg_proc : Oid → Option Char) :
    List Expr → Except PlanError Bool
  | [] => .ok true
  | expr :: rest =>
    match K2PgIsSupportedSingleRowModifyWhereExpr pg_proc expr with
    | .error e => .error e
    | .ok false => .ok false
    | .ok true => K2PgIsSupportedSingleRowModifyWhereExpr_args pg_proc rest
end

mutual
/-- Whether an expression contains a `Var` node. -/
def Expr.containsVar : Expr → Bool
  | .Const _ _ _ => false
  | .Var _ => true
  | .Param _ _ _ => false
  | .RelabelType arg => arg.containsVar
  | .FuncExpr _ args => Expr.containsVar_args args
  | .OpExpr _ args => Expr.containsVar_args args
  | .Other _ => false
/-- Whether one of the listed expressions contains a `Var` node. -/
def Expr.containsVar_args : List Expr → Bool
  | [] => false
  | e :: rest => e.containsVar || Expr.containsVar_args rest
end

/-! ## Instantiating bind parameters (`k2_plan.cpp`, lines 122-225) -/

/-- The flag `PARAM_FLAG_CONST` of `nodes/params.h`. -/
def PARAM_FLAG_CONST : Nat := 0x0001

/-- The macro `OidIsValid`. -/
def OidIsValid (objectId : Oid) : Bool := objectId != InvalidOid

/-- The struct `ParamExternData` of `nodes/params.h`. -/
structure ParamExternData where
  value : Datum
  isnull : Bool
  pflags : Nat
  ptype : Oid
deriving DecidableEq, Repr, Inhabited

/-- The part of `ParamListInfoData` that `k2_plan.cpp` reads: the array `params`
and the hook `paramFetch` (`none` is NULL), which is called with the list and a
parameter id and may write into the array. -/
structure ParamListInfoData where
  params : List ParamExternData
  paramFetch : Option (List ParamExternData → Int → List ParamExternData)

/-- The two type-cache and datum functions that the instantiation calls:
`get_typlenbyval` gives `(typLen, typByVal)` of a type and `datumCopy` the
address of a fresh copy of a by-reference value. -/
structure DatumEnv where
  get_typlenbyval : Oid → Int × Bool
  datumCopy : Datum → Bool → Int → Datum

/-- The ways in which `K2PgExprInstantiateParams` does not return: an error
raised with `elog(ERROR, ...)`, the store `*parent_var = const_expr` through a
NULL `parent_var`, and a read of `paramLI->params[paramid - 1]` outside the
array. -/
inductive InstantiateFault where
  | raised (e : PlanError)
  | null_parent_var
  | params_out_of_bounds
deriving DecidableEq, Repr, Inhabited

mutual
/-- The function `K2PgExprInstantiateParamsInternal`.  The list is
`paramLI->params`, threaded because the hook may write into it; the boolean
says whether `parent_var` is not NULL; the result is the expression that
stands in the slot of `expr` after the call (the node itself with its argument
slots rewritten, or the new `Const` stored through `parent_var`). -/
def K2PgExprInstantiateParamsInternal (env : DatumEnv)
    (paramFetch : Option (List ParamExternData → Int → List ParamExternData)) :
    Expr → List ParamExternData → Bool →
      Except InstantiateFault (Expr × List ParamExternData)
  | .Const consttype constvalue constisnull, params, _ =>
    .ok (.Const consttype constvalue constisnull, params)
  | .Var varattno, params, _ => .ok (.Var varattno, params)
  | .Param _ paramid paramtype, params, parent_var =>
    if paramid - 1 < 0 ∨ (params.length : Int) ≤ paramid - 1 then
      .error .params_out_of_bounds
    else
      let params1 :=
        match paramFetch with
        | some hook =>
          if !OidIsValid (params.getD (paramid - 1).toNat default).ptype then
            hook params paramid
          else params
        | none => params
      match params1.get? (paramid - 1).toNat with
      | none => .error .params_out_of_bounds
      | some prm =>
        if !OidIsValid prm.ptype || prm.ptype != paramtype
            || (prm.pflags &&& PARAM_FLAG_CONST) == 0 then
          .error (.raised .invalid_parameter)
        else
          let typLen := (env.get_typlenbyval paramtype).1
          let typByVal := (env.get_typlenbyval paramtype).2
          let pval := if prm.isnull || typByVal then prm.value
                      else env.datumCopy prm.value typByVal typLen
          if parent_var then .ok (.Const paramtype pval prm.isnull, params1)
          else .error .null_parent_var
  | .RelabelType arg, params, _ =>
    match K2PgExprInstantiateParamsInternal env paramFetch arg params true with
    | .error e => .error e
    | .ok (arg1, params1) => .ok (.RelabelType arg1, params1)
  | .FuncExpr funcid args, params, _ =>
    match K2PgExprInstantiateParamsInternal_args env paramFetch args params with
    | .error e => .error e
    | .ok (args1, params1) => .ok (.FuncExpr funcid args1, params1)
  | .OpExpr opfuncid args, params, _ =>
    match K2PgExprInstantiateParamsInternal_args env paramFetch args params with
    | .error e => .error e
    | .ok (args1, params1) => .ok (.OpExpr opfuncid args1, params1)
  | .Other _, _, _ => .error (.raised .invalid_expression)
/-- The `foreach` loops of `K2PgExprInstantiateParamsInternal` over the
argument cells still to visit; `parent_var` is the address of the cell. -/
def K2PgExprInstantiateParamsInternal_args (env : DatumEnv)
    (paramFetch : Option (List ParamExternData → Int → List ParamExternData)) :
    List Expr → List ParamExternData →
      Except InstantiateFault (List Expr × List ParamExternData)
  | [], params => .ok ([], params)
  | arg :: rest, params =>
    match K2PgExprInstantiateParamsInternal env paramFetch arg params true with
    | .error e => .error e
    | .ok (arg1, params1) =>
      match K2PgExprInstantiateParamsInternal_args env paramFetch rest params1 with
      | .error e => .error e
      | .ok (rest1, params2) => .ok (arg1 :: rest1, params2)
end

/-- The function `K2PgExprInstantiateParams`: the expression and the parameter
list after the call (`none` is a NULL `paramLI`). -/
def K2PgExprInstantiateParams (env : DatumEnv) (expr : Expr)
    (paramLI : Option ParamListInfoData) :
    Except InstantiateFault (Expr × Option ParamListInfoData) :=
  match paramLI with
  | none => .ok (expr, none)
  | some li =>
    match K2PgExprInstantiateParamsInternal env li.paramFetch expr li.params false with
    | .error e => .error e
    | .ok (expr1, params1) => .ok (expr1, some { li with params := params1 })

/-- Whether an expression is a `Param` node itself. -/
def Expr.isParam : Expr → Bool
  | .Param _ _ _ => true
  | _ => false

mutual
/-- Whether an expression contains a `Param` node. -/
def Expr.containsParam : Expr → Bool
  | .Const _ _ _ => false
  | .Var _ => false
  | .Param _ _ _ => true
  | .RelabelType arg => arg.containsParam
  | .FuncExpr _ args => Expr.containsParam_args args
  | .OpExpr _ args => Expr.containsParam_args args
  | .Other _ => false
/-- Whether one of the listed expressions contains a `Param` node. -/
def Expr.containsParam_args : List Expr → Bool
  | [] => false
  | e :: rest => e.containsParam || Expr.containsParam_args rest
end

mutual
/-- The expressions of the specification of the instantiation: built from
`Const`, `Var`, `Param`, `RelabelType`, `FuncExpr` and `OpExpr` nodes, every
`Param` referring to an entry of `params` that has a valid type equal to the
type of the `Param` and is flagged constant. -/
def Expr.paramsUsable (params : List ParamExternData) : Expr → Bool
  | .Const _ _ _ => true
  | .Var _ => true
  | .Param _ paramid paramtype =>
    decide (0 ≤ paramid - 1) && decide (paramid - 1 < (params.length : Int))
      && OidIsValid (params.getD (paramid - 1).toNat default).ptype
      && (params.getD (paramid - 1).toNat default).ptype == paramtype
      && (params.getD (paramid - 1).toNat default).pflags &&& PARAM_FLAG_CONST != 0
  | .RelabelType arg => arg.paramsUsable params
  | .FuncExpr _ args => Expr.paramsUsable_args params args
  | .OpExpr _ args => Expr.paramsUsable_args params args
  | .Other _ => false
/-- The same for every expression of a list. -/
def Expr.paramsUsable_args (params : List ParamExternData) : List Expr → Bool
  | [] => true
  | e :: rest => e.paramsUsable params && Expr.paramsUsable_args params rest
end

mutual
/-- The result that the specification gives for the instantiation: every
`Param` is replaced by a `Const` with the type of the `Param` and the value and
null flag of its parameter (the value is copied with `datumCopy` when it is
neither null nor passed by value). -/
def Expr.instantiated (env : DatumEnv) (params : List ParamExternData) : Expr → Expr
  | .Const consttype constvalue constisnull => .Const consttype constvalue constisnull
  | .Var varattno => .Var varattno
  | .Param _ paramid paramtype =>
    .Const paramtype
      (if (params.getD (paramid - 1).toNat default).isnull
          || (env.get_typlenbyval paramtype).2 then
        (params.getD (paramid - 1).toNat default).value
       else env.datumCopy (params.getD (paramid - 1).toNat default).value
         (env.get_typlenbyval paramtype).2 (env.get_typlenbyval paramtype).1)
      (params.getD (paramid - 1).toNat default).isnull
  | .RelabelType arg => .RelabelType (arg.instantiated env params)
  | .FuncExpr funcid args => .FuncExpr funcid (Expr.instantiated_args env params args)
  | .OpExpr opfuncid args => .OpExpr opfuncid (Expr.instantiated_args env params args)
  | .Other tag => .Other tag
/-- The same for every expression of a list. -/
def Expr.instantiated_args (env : DatumEnv) (params : List ParamExternData) :
    List Expr → List Expr
  | [] => []
  | e :: rest => e.instantiated env params :: Expr.instantiated_args env params rest
end

/-- A type cache in which `int4` has length 4 and is passed by value and every
other type is a by-reference type of variable length, with a `datumCopy` that
returns an address 4096 above the one it copies from. -/
def exampleDatumEnv : DatumEnv :=
  { get_typlenbyval := fun t => if t = INT4OID then (4, true) else (-1, false)
    datumCopy := fun d _ _ => d + 4096 }

/-- A parameter list with the one constant `int4` parameter `$1 = 42` and no
hook. -/
def exampleParamList : ParamListInfoData :=
  { params := [{ value := 42, isnull := false, pflags := PARAM_FLAG_CONST, ptype := INT4OID }]
    paramFetch := none }

/-- The expression `$1`, a single external bind parameter of type `int4`. -/
def exampleSingleParam : Expr :=
  .Param .PARAM_EXTERN 1 INT4OID

/-! ## System-table scans (`k2catam.cpp`, lines 1187-1250) -/

/-- The part of `SysScanDescData` that `cam_systable_beginscan` fills; the
snapshot is a handle. -/
structure SysScanDescData where
  heap_rel : RelationData
  snapshot : Nat
  k2scan : CamScanDescData
deriving DecidableEq, Repr

/-- The ways in which `cam_systable_beginscan` raises an error: its own
`elog(ERROR, "column is not in index")`, or an error of `camBeginScan`. -/
inductive SysScanError where
  | column_not_in_index
  | scan (e : ScanError)
deriving DecidableEq, Repr

/-- The macro `IndexRelationGetNumberOfAttributes`. -/
def IndexRelationGetNumberOfAttributes (index : RelationData) : Nat :=
  (index.rd_index.getD default).indnatts

/-- The inner loop of `cam_systable_beginscan` over the index positions `j`
still to visit: the position at which the loop breaks, or `none` when it runs
to the end (`j == IndexRelationGetNumberOfAttributes(index)`). -/
def cam_systable_beginscan_column (index : RelationData) (sk_attno : AttrNumber) :
    List Nat → Option Nat
  | [] => none
  | j :: rest =>
    if sk_attno = index.indkey_values (j : Int) then some j
    else cam_systable_beginscan_column index sk_attno rest

/-- The outer loop of `cam_systable_beginscan` over the keys still to visit:
the keys with their attribute numbers changed to index column numbers. -/
def cam_systable_beginscan_keys (index : RelationData) :
    List ScanKeyData → Except SysScanError (List ScanKeyData)
  | [] => .ok []
  | k :: rest =>
    match cam_systable_beginscan_column index k.sk_attno
        (List.range (IndexRelationGetNumberOfAttributes index)) with
    | none => .error .column_not_in_index
    | some j =>
      match cam_systable_beginscan_keys index rest with
      | .error e => .error e
      | .ok rest1 => .ok ({ k with sk_attno := (j : Int) + 1 } :: rest1)

/-- The function `cam_systable_beginscan`; `nkeys` is the length of `key`.
`IgnoreSystemIndexes` is the session setting of that name, and
`RelationIdGetRelation` opens the index, which exists.  The scan descriptor
holds the key array after the loop in `k2scan.key`. -/
def cam_systable_beginscan (env : PgGate) (IgnoreSystemIndexes : Bool)
    (ReindexIsProcessingIndex : Oid → Bool) (RelationIdGetRelation : Oid → RelationData)
    (relation : RelationData) (indexId : Oid) (indexOK : Bool) (snapshot : Nat)
    (key : List ScanKeyData) : Except SysScanError SysScanDescData :=
  let index : Option RelationData :=
    if indexOK && !IgnoreSystemIndexes && !ReindexIsProcessingIndex indexId then
      if (RelationIdGetRelation indexId).indisprimary then none
      else some (RelationIdGetRelation indexId)
    else none
  let key1 : Except SysScanError (List ScanKeyData) :=
    match index with
    | some idx => cam_systable_beginscan_keys idx key
    | none => .ok key
  match key1 with
  | .error e => .error e
  | .ok key2 =>
    match camBeginScan env relation index false key2 with
    | .error e => .error (.scan e)
    | .ok camScan => .ok { heap_rel := relation, snapshot := snapshot, k2scan := camScan }

/-- The scan key `= 5` on heap column 2 with flags 0. -/
def exampleHeapColumnKey : ScanKeyData :=
  { sk_flags := 0, sk_attno := 2, sk_strategy := BTEqualStrategyNumber, sk_argument := 5 }

/-- The key positions at which the loop of `heaptuple_matches_key` calls
`heap_getattr`, in order: the loop examines the attribute of position `i`
unless it has stopped before, at an attribute number 0 or at a key that
rejects the row. -/
def heaptuple_matches_key_examined (env : PgExec) (tup : HeapTupleData) (tupdesc : TupleDesc)
    (key : List ScanKeyData) (sk_attno : List AttrNumber) : List Nat → List Nat
  | [] => []
  | i :: rest =>
    if sk_attno.getD i 0 = (InvalidOid : Int) then []
    else
      let r := env.heap_getattr tup (sk_attno.getD i 0) tupdesc
      let res_datum := r.1
      let is_null := r.2
      if (key.getD i default).sk_flags &&& SK_SEARCHNULL ≠ 0 then
        if is_null then i :: heaptuple_matches_key_examined env tup tupdesc key sk_attno rest
        else [i]
      else if (key.getD i default).sk_flags &&& SK_SEARCHNOTNULL ≠ 0 then
        if !is_null then
          i :: heaptuple_matches_key_examined env tup tupdesc key sk_attno rest
        else [i]
      else if (key.getD i default).sk_flags ≠ 0 then
        i :: heaptuple_matches_key_examined env tup tupdesc key sk_attno rest
      else if is_null then [i]
      else
        let matches_ := env.DatumGetBool
          (env.FunctionCall2Coll i res_datum (key.getD i default).sk_argument)
        if !matches_ then [i]
        else i :: heaptuple_matches_key_examined env tup tupdesc key sk_attno rest

/-- An index tuple with the two values 3 and 2. -/
def exampleWideIndexTuple : IndexTupleData :=
  { values := [3, 2], nulls := [false, false], t_k2pgctid := 0 }

/-- The constant that `camBindColumn` builds for a key on an `interval` column:
the type is passed by reference with length 16, and the datum 8192 is the
address of the value. -/
def exampleIntervalConstant : K2PgConstant :=
  { type_id := INTERVALOID, attr_size := 16, attr_byvalue := false, datum := 8192,
    is_null := false }

/-! # Theorems -/

/-! ## Scan-key classification -/

/-- The result of `ShouldPushdownScanKey` does not depend on the attribute
number or on the primary-key flag it is given. -/
theorem ShouldPushdownScanKey_irrelevant (sys : Bool) (a b : AttrNumber) (key : ScanKeyData)
    (p q : Bool) :
    ShouldPushdownScanKey sys a key p = ShouldPushdownScanKey sys b key q := by
  simp [ShouldPushdownScanKey, cam_should_pushdown_op]

/-- The user-relation branch of `camBindScanKeys_offsets` and the classifier
read the key flags through these three predicates; a flag word satisfies at
most one of them. -/
theorem flag_patterns_disjoint (f : Nat) :
    (IsBasicOpSearch f = true → IsSearchNull f = false ∧ IsSearchArray f = false) ∧
    (IsSearchNull f = true → IsSearchArray f = false) := by
  simp only [IsBasicOpSearch, IsSearchNull, IsSearchArray, SK_ISNULL, SK_SEARCHNULL,
    SK_SEARCHARRAY, Bool.or_eq_true, beq_iff_eq, beq_eq_false_iff_ne]
  refine ⟨?_, ?_⟩
  · rintro (h | h) <;> subst h <;> decide
  · intro h; subst h; decide

/-- C7 (as stated, refuted): on a system relation an Equal key whose flags are
`SK_ISNULL` (so the flags are not 0) is classified pushdownable. -/
theorem C7_counterexample :
    ShouldPushdownScanKey true 1
        { sk_flags := SK_ISNULL, sk_attno := 1, sk_strategy := BTEqualStrategyNumber,
          sk_argument := 0 } true = true
      ∧ SK_ISNULL ≠ 0 := by
  decide

/-- C7 (amended): for a system relation `ShouldPushdownScanKey` returns true
exactly when the key's strategy is Equal and its flags are basic, that is
`sk_flags` is 0 or `SK_ISNULL`; every other key is classified not
pushdownable. -/
theorem C7_system_pushdown_iff (attnum : AttrNumber) (key : ScanKeyData)
    (is_primary_key : Bool) :
    ShouldPushdownScanKey true attnum key is_primary_key = true ↔
      key.sk_strategy = BTEqualStrategyNumber ∧
        (key.sk_flags = 0 ∨ key.sk_flags = SK_ISNULL) := by
  simp only [ShouldPushdownScanKey, IsBasicOpSearch, if_true, Bool.and_eq_true,
    Bool.or_eq_true, beq_iff_eq]
  tauto

/-- C8: for a user relation and a key with basic flags (`sk_flags` is 0 or
`SK_ISNULL`), `ShouldPushdownScanKey` returns true exactly when the strategy
is Equal, Less, LessEqual, GreaterEqual or Greater, for every attribute number
and key role. -/
theorem C8_user_basic_pushdown_iff (attnum : AttrNumber) (key : ScanKeyData)
    (is_primary_key : Bool) (hbasic : key.sk_flags = 0 ∨ key.sk_flags = SK_ISNULL) :
    ShouldPushdownScanKey false attnum key is_primary_key = true ↔
      (key.sk_strategy = BTEqualStrategyNumber ∨ key.sk_strategy = BTLessStrategyNumber ∨
        key.sk_strategy = BTLessEqualStrategyNumber ∨
        key.sk_strategy = BTGreaterEqualStrategyNumber ∨
        key.sk_strategy = BTGreaterStrategyNumber) := by
  have hb : IsBasicOpSearch key.sk_flags = true := by
    simp only [IsBasicOpSearch, Bool.or_eq_true, beq_iff_eq]; exact hbasic
  simp only [ShouldPushdownScanKey, hb, if_true, cam_should_pushdown_op]
  constructor
  · intro h
    by_contra hne
    simp only [not_or] at hne
    obtain ⟨h1, h2, h3, h4, h5⟩ := hne
    simp [h1, h2, h3, h4, h5] at h
  · rintro (h | h | h | h | h) <;> rw [h] <;> decide

/-- C8 at a concrete key: `x <= 7` with a NULL-flagged argument on column 2 of
a user relation. -/
theorem C8_user_basic_pushdown_iff_witness :
    ((SK_ISNULL = 0 ∨ SK_ISNULL = SK_ISNULL) ∧
      (ShouldPushdownScanKey false 2
          { sk_flags := SK_ISNULL, sk_attno := 2, sk_strategy := BTLessEqualStrategyNumber,
            sk_argument := 7 } false = true ↔
        (BTLessEqualStrategyNumber = BTEqualStrategyNumber ∨
          BTLessEqualStrategyNumber = BTLessStrategyNumber ∨
          BTLessEqualStrategyNumber = BTLessEqualStrategyNumber ∨
          BTLessEqualStrategyNumber = BTGreaterEqualStrategyNumber ∨
          BTLessEqualStrategyNumber = BTGreaterStrategyNumber))) :=
  ⟨Or.inr rfl,
    C8_user_basic_pushdown_iff 2
      { sk_flags := SK_ISNULL, sk_attno := 2, sk_strategy := BTLessEqualStrategyNumber,
        sk_argument := 7 } false (Or.inr rfl)⟩

/-- C9 (the code at the failing input): for a user relation an array-search
key is classified pushdownable whatever the primary-key flag, in particular
with `is_primary_key = false`; opening a scan with the single array key
`y = ANY (...)` on the non-key column 2 of the example user table leaves
`limit_count` at 0 (nothing was counted as rejected) and binds no constraint. -/
theorem C9_array_key_on_non_primary_column :
    (∀ (attnum sk_attno : AttrNumber) (sk_strategy : Nat) (sk_argument : Datum)
        (is_primary_key : Bool),
        ShouldPushdownScanKey false attnum
          { sk_flags := SK_SEARCHARRAY, sk_attno := sk_attno, sk_strategy := sk_strategy,
            sk_argument := sk_argument } is_primary_key = true)
      ∧ ((camBeginScan exampleGate exampleUserTable none false
            [{ sk_flags := SK_SEARCHARRAY, sk_attno := 2,
               sk_strategy := BTEqualStrategyNumber, sk_argument := 0 }]).toOption.map
          (fun camScan => (camScan.exec_params.limit_count, camScan.constraints)))
        = some (0, []) := by
  refine ⟨?_, by decide⟩
  intro attnum sk_attno sk_strategy sk_argument is_primary_key
  simp [ShouldPushdownScanKey, IsBasicOpSearch, IsSearchNull, IsSearchArray, SK_SEARCHARRAY,
    SK_ISNULL, SK_SEARCHNULL]

/-- C10: for a user relation, a key whose flags match none of the three
recognised patterns (basic, null search, array search) is classified not
pushdownable whatever its strategy, and a null-search key is classified
pushdownable whatever its strategy. -/
theorem C10_user_other_flags (attnum : AttrNumber) (key : ScanKeyData)
    (is_primary_key : Bool) :
    ((IsBasicOpSearch key.sk_flags = false ∧ IsSearchNull key.sk_flags = false ∧
        IsSearchArray key.sk_flags = false) →
      ShouldPushdownScanKey false attnum key is_primary_key = false) ∧
    (key.sk_flags = (SK_ISNULL ||| SK_SEARCHNULL) →
      ShouldPushdownScanKey false attnum key is_primary_key = true) := by
  constructor
  · rintro ⟨h1, h2, h3⟩
    simp [ShouldPushdownScanKey, h1, h2, h3]
  · intro h
    have h2 : IsSearchNull key.sk_flags = true := by simp [IsSearchNull, h]
    have h1 : IsBasicOpSearch key.sk_flags = false :=
      by
        cases hb : IsBasicOpSearch key.sk_flags
        · rfl
        · exact absurd h2 (by simp [((flag_patterns_disjoint key.sk_flags).1 hb).1])
    simp [ShouldPushdownScanKey, h1, h2]

/-- C10 at concrete keys: an IS NOT NULL key (flags
`SK_ISNULL | SK_SEARCHNOTNULL`, here with strategy Equal) is not pushdownable,
and an IS NULL key (flags `SK_ISNULL | SK_SEARCHNULL`, strategy
`InvalidStrategy`) is. -/
theorem C10_user_other_flags_witness :
    ShouldPushdownScanKey false 1
        { sk_flags := SK_ISNULL ||| SK_SEARCHNOTNULL, sk_attno := 1,
          sk_strategy := BTEqualStrategyNumber, sk_argument := 0 } true = false
      ∧ ShouldPushdownScanKey false 1
        { sk_flags := SK_ISNULL ||| SK_SEARCHNULL, sk_attno := 1,
          sk_strategy := InvalidStrategy, sk_argument := 0 } true = true :=
  ⟨(C10_user_other_flags 1
      { sk_flags := SK_ISNULL ||| SK_SEARCHNOTNULL, sk_attno := 1,
        sk_strategy := BTEqualStrategyNumber, sk_argument := 0 } true).1
      ⟨by decide, by decide, by decide⟩,
    (C10_user_other_flags 1
      { sk_flags := SK_ISNULL ||| SK_SEARCHNULL, sk_attno := 1,
        sk_strategy := InvalidStrategy, sk_argument := 0 } true).2 rfl⟩

/-! ## Set-up of the scan keys and the result-count limit -/

/-- The loop of `camSetupScanKeys` never changes `limit_use_default`. -/
theorem camSetupScanKeys_loop_limit_use_default (env : PgGate) (relation : RelationData)
    (key : List ScanKeyData) (scan_plan : CamScanPlanData) (is : List Nat) :
    ∀ (e : K2PgSelectLimitParams) (cols : Bitmapset),
      (camSetupScanKeys_loop env relation key scan_plan is e cols).1.limit_use_default
        = e.limit_use_default := by
  induction is with
  | nil => intro e cols; rfl
  | cons i rest ih =>
    intro e cols
    simp only [camSetupScanKeys_loop]
    split
    · rfl
    · split
      · split
        · rw [ih]
        · rw [ih]
      · rw [ih]

/-- Once `limit_count` is -1 the loop of `camSetupScanKeys` leaves it at -1. -/
theorem camSetupScanKeys_loop_keeps_unlimited (env : PgGate) (relation : RelationData)
    (key : List ScanKeyData) (scan_plan : CamScanPlanData) (is : List Nat) :
    ∀ (e : K2PgSelectLimitParams) (cols : Bitmapset), e.limit_count = -1 →
      (camSetupScanKeys_loop env relation key scan_plan is e cols).1.limit_count = -1 := by
  induction is with
  | nil => intro e cols h; exact h
  | cons i rest ih =>
    intro e cols h
    simp only [camSetupScanKeys_loop]
    split
    · exact h
    · split
      · split
        · exact ih _ _ rfl
        · exact ih _ _ h
      · exact ih _ _ h

/-- If the loop of `camSetupScanKeys` runs over the positions `s, s+1, ...`,
starts with `limit_use_default` false, reaches position `i` (no earlier bind
attribute number is `InvalidOid`) and the key at `i` is rejected, then it ends
with `limit_count = -1`. -/
theorem camSetupScanKeys_loop_rejected (env : PgGate) (relation : RelationData)
    (key : List ScanKeyData) (scan_plan : CamScanPlanData) (i : Nat)
    (hrej : ∀ a p, ShouldPushdownScanKey relation.isSystemRelation a (key.getD i default) p
      = false) :
    ∀ (n s : Nat) (e : K2PgSelectLimitParams) (cols : Bitmapset),
      e.limit_use_default = false → s ≤ i → i < s + n →
      (∀ j, s ≤ j → j ≤ i → scan_plan.bind_key_attnums.getD j 0 ≠ 0) →
      (camSetupScanKeys_loop env relation key scan_plan (List.range' s n) e cols).1.limit_count
        = -1 := by
  intro n
  induction n with
  | zero => intro s e cols _ h1 h2; omega
  | succ n ih =>
    intro s e cols he h1 h2 hv
    have hs : scan_plan.bind_key_attnums.getD s 0 ≠ 0 := hv s (le_refl s) h1
    simp only [List.range'_succ, camSetupScanKeys_loop, InvalidOid, Nat.cast_zero, hs, if_false]
    by_cases hsi : s = i
    · subst hsi
      simp only [hrej, Bool.not_false, if_true, he]
      exact camSetupScanKeys_loop_keeps_unlimited env relation key scan_plan _ _ _ rfl
    · have hlt : s + 1 ≤ i := by omega
      have hv2 : ∀ j, s + 1 ≤ j → j ≤ i → scan_plan.bind_key_attnums.getD j 0 ≠ 0 :=
        fun j hj1 hj2 => hv j (by omega) hj2
      split
      · split
        · exact ih (s + 1) _ _ he hlt (by omega) hv2
        · exact ih (s + 1) _ _ he hlt (by omega) hv2
      · exact ih (s + 1) _ _ he hlt (by omega) hv2

/-- The attribute numbers that `camSetupScanPlan` computes for a scan without
an index do not depend on the index-only flag. -/
theorem camSetupScanPlan_keyAttnums_none (b c : Bool) (k : ScanKeyData) :
    camSetupScanPlan_keyAttnums none b k = camSetupScanPlan_keyAttnums none c k := rfl

/-- What `camSetupScanPlan` leaves in the scan descriptor and the scan plan
when it succeeds. -/
theorem camSetupScanPlan_ok (env : PgGate) (relation : RelationData)
    (index : Option RelationData) (xs_want_itup : Bool) (camScan c1 : CamScanDescData)
    (p1 : CamScanPlanData)
    (h : camSetupScanPlan env relation index xs_want_itup camScan = .ok (c1, p1)) :
    c1.key = camScan.key ∧ c1.exec_params = camScan.exec_params ∧
      c1.constraints = camScan.constraints ∧ p1.sk_cols = ∅ ∧
      p1.bind_key_attnums = camScan.key.map
        (fun k => (camSetupScanPlan_keyAttnums index xs_want_itup k).2) ∧
      c1.target_key_attnums = camScan.key.map
        (fun k => (camSetupScanPlan_keyAttnums index xs_want_itup k).1) := by
  have hsk : ∀ (rel : RelationData) (z q : CamScanPlanData),
      camLoadTableInfo env rel z = .ok q → q.sk_cols = z.sk_cols := by
    intro rel z q hq
    have hcheck : ∀ (z q : CamScanPlanData) (d : Nat) (a : AttrNumber),
        camCheckPrimaryKeyAttribute env z d a = .ok q → q.sk_cols = z.sk_cols := by
      intro z q d a hc
      simp only [camCheckPrimaryKeyAttribute] at hc
      split at hc
      · cases hc
      · split at hc <;> cases hc <;> rfl
    have hloop : ∀ (d : Nat) (l : List AttrNumber) (z q : CamScanPlanData),
        camLoadTableInfo_loop env d l z = .ok q → q.sk_cols = z.sk_cols := by
      intro d l
      induction l with
      | nil => intro z q hl; simp only [camLoadTableInfo_loop] at hl; cases hl; rfl
      | cons a rest ih =>
        intro z q hl
        simp only [camLoadTableInfo_loop] at hl
        split at hl
        · cases hl
        · rename_i z1 hz1
          rw [ih z1 q hl, hcheck z z1 d a hz1]
    simp only [camLoadTableInfo] at hq
    split at hq
    · cases hq
    · rename_i d hd
      split at hq
      · cases hq
      · rename_i z1 hz1
        split at hq
        · rw [hcheck z1 q d _ hq, hloop d _ z z1 hz1]
        · cases hq; exact hloop d _ z _ hz1
  cases index with
  | none =>
    simp only [camSetupScanPlan] at h
    split at h
    · cases h
    · rename_i c3 p3 hl
      split at hl
      · cases hl
      · rename_i q hq
        cases hl; cases h
        refine ⟨rfl, rfl, rfl, ?_, ?_, ?_⟩
        · exact hsk _ _ _ hq
        · simp only [List.map_map]; rfl
        · simp only [List.map_map]; rfl
  | some idx =>
    simp only [camSetupScanPlan] at h
    split at h
    · cases h
    · rename_i c3 p3 hl
      split at hl
      · split at hl
        · cases hl
        · rename_i q hq
          cases hl; cases h
          refine ⟨rfl, rfl, rfl, ?_, ?_, ?_⟩
          · exact hsk _ _ _ hq
          · simp only [List.map_map]; rfl
          · simp only [List.map_map]; rfl
      · split at hl
        · cases hl
        · rename_i q hq
          cases hl; cases h
          refine ⟨rfl, rfl, rfl, ?_, ?_, ?_⟩
          · exact hsk _ _ _ hq
          · simp only [List.map_map]; rfl
          · simp only [List.map_map]; rfl

/-- Reading position `j` of a mapped list. -/
theorem getD_map_of_lt {α β : Type} (f : α → β) (l : List α) (j : Nat) (a : α) (b : β)
    (hj : j < l.length) : (l.map f).getD j b = f (l.getD j a) := by
  simp [List.getD_eq_getElem?_getD, List.getElem?_map, List.getElem?_eq_getElem hj]

/-- A successful `camBindScanKeys` changes only the statement handle and the
constraint vector of the scan descriptor. -/
theorem camBindScanKeys_ok (env : PgGate) (relation : RelationData)
    (index : Option RelationData) (camScan c3 : CamScanDescData) (scan_plan : CamScanPlanData)
    (h : camBindScanKeys env relation index camScan scan_plan = .ok c3) :
    c3.exec_params = camScan.exec_params ∧ c3.key = camScan.key ∧
      c3.constraints =
        (if relation.isSystemRelation then
          camBindScanKeys_system env relation camScan.key scan_plan
            (List.range camScan.key.length) camScan.constraints
        else
          camBindScanKeys_user env relation index camScan.key scan_plan camScan.constraints) := by
  simp only [camBindScanKeys] at h
  split at h
  · cases h
  · split at h
    · rename_i hsys
      cases h
      exact ⟨rfl, rfl, by simp [hsys, CamScanDescData.nkeys]⟩
    · rename_i hsys
      cases h
      exact ⟨rfl, rfl, by simp [hsys]⟩

/-- The steps of `camBeginScan` after `camSetupScanKeys` leave `exec_params`
as `camSetupScanKeys` set it, and `camSetupScanKeys` starts from the zeroed
`exec_params` of the fresh scan descriptor. -/
theorem camBeginScan_exec_params (env : PgGate) (relation : RelationData)
    (index : Option RelationData) (xs_want_itup : Bool) (key : List ScanKeyData)
    (camScan : CamScanDescData)
    (hopen : camBeginScan env relation index xs_want_itup key = .ok camScan) :
    ∃ scan_plan : CamScanPlanData,
      scan_plan.bind_key_attnums
          = key.map (fun k => (camSetupScanPlan_keyAttnums index xs_want_itup k).2) ∧
      camScan.exec_params
          = (camSetupScanKeys_loop env relation key scan_plan (List.range key.length)
              { limit_count := 0, limit_offset := 0, limit_use_default := false }
              scan_plan.sk_cols).1 := by
  simp only [camBeginScan] at hopen
  split at hopen
  · cases hopen
  · split at hopen
    · cases hopen
    · rename_i c1 p1 hplan
      obtain ⟨hkey, hexec, -, -, hbind, -⟩ :=
        camSetupScanPlan_ok env relation index xs_want_itup _ c1 p1 hplan
      split at hopen
      · cases hopen
      · rename_i c3 hc3
        cases hopen
        obtain ⟨he3, -, -⟩ := camBindScanKeys_ok env relation index _ c3 _ hc3
        refine ⟨p1, hbind, ?_⟩
        simp only [camSetupTargets, he3, camSetupScanKeys, CamScanDescData.nkeys, hkey, hexec]
        rfl

/-- C3 (as stated, refuted): a sequential scan of the example user table is
opened with two keys, the first with attribute number 0 (`InvalidOid`), the
second an IS NOT NULL key that `ShouldPushdownScanKey` rejects; the loop of
`camSetupScanKeys` stops at the first key and `limit_count` stays 0. -/
theorem C3_counterexample :
    ShouldPushdownScanKey exampleUserTable.isSystemRelation 1
        { sk_flags := SK_ISNULL ||| SK_SEARCHNOTNULL, sk_attno := 1,
          sk_strategy := InvalidStrategy, sk_argument := 0 } true = false
      ∧ (camBeginScan exampleGate exampleUserTable none false
            [{ sk_flags := 0, sk_attno := 0, sk_strategy := BTEqualStrategyNumber,
               sk_argument := 5 },
             { sk_flags := SK_ISNULL ||| SK_SEARCHNOTNULL, sk_attno := 1,
               sk_strategy := InvalidStrategy, sk_argument := 0 }]).toOption.map
          (fun camScan => camScan.exec_params.limit_count) = some 0 := by
  decide

/-- C3 (amended): for every scan opened by `camBeginScan`, if the key at some
position `i` is rejected by `ShouldPushdownScanKey` and no key at a position
up to `i` has the bind attribute number `InvalidOid` (0), then the scan ends
with `exec_params.limit_count = -1`, the value `camSetupScanKeys` gave it. -/
theorem C3_rejected_key_disables_limit (env : PgGate) (relation : RelationData)
    (index : Option RelationData) (xs_want_itup : Bool) (key : List ScanKeyData)
    (camScan : CamScanDescData)
    (hopen : camBeginScan env relation index xs_want_itup key = .ok camScan)
    (i : Nat) (hi : i < key.length)
    (hreach : ∀ j, j ≤ i →
      (camSetupScanPlan_keyAttnums index xs_want_itup (key.getD j default)).2 ≠ 0)
    (attnum : AttrNumber) (is_primary_key : Bool)
    (hrej : ShouldPushdownScanKey relation.isSystemRelation attnum (key.getD i default)
      is_primary_key = false) :
    camScan.exec_params.limit_count = -1 := by
  obtain ⟨scan_plan, hbind, hexec⟩ :=
    camBeginScan_exec_params env relation index xs_want_itup key camScan hopen
  rw [hexec, List.range_eq_range']
  apply camSetupScanKeys_loop_rejected env relation key scan_plan i
  · intro a p
    rw [ShouldPushdownScanKey_irrelevant _ a attnum _ p is_primary_key]
    exact hrej
  · rfl
  · exact Nat.zero_le i
  · omega
  · intro j _ hj
    rw [hbind, getD_map_of_lt _ key j default 0 (by omega)]
    exact hreach j hj

/-- C3 (amended) at a concrete scan: the example user table with the keys
`x = 5` and `y IS NOT NULL`; the second key is rejected. -/
theorem C3_rejected_key_disables_limit_witness :
    (camBeginScan exampleGate exampleUserTable none false
        [{ sk_flags := 0, sk_attno := 1, sk_strategy := BTEqualStrategyNumber,
           sk_argument := 5 },
         { sk_flags := SK_ISNULL ||| SK_SEARCHNOTNULL, sk_attno := 2,
           sk_strategy := InvalidStrategy, sk_argument := 0 }]).toOption.map
      (fun camScan => camScan.exec_params.limit_count) = some (-1) := by
  cases h : camBeginScan exampleGate exampleUserTable none false
        [{ sk_flags := 0, sk_attno := 1, sk_strategy := BTEqualStrategyNumber,
           sk_argument := 5 },
         { sk_flags := SK_ISNULL ||| SK_SEARCHNOTNULL, sk_attno := 2,
           sk_strategy := InvalidStrategy, sk_argument := 0 }] with
  | error e =>
    have hsome : (camBeginScan exampleGate exampleUserTable none false
        [{ sk_flags := 0, sk_attno := 1, sk_strategy := BTEqualStrategyNumber,
           sk_argument := 5 },
         { sk_flags := SK_ISNULL ||| SK_SEARCHNOTNULL, sk_attno := 2,
           sk_strategy := InvalidStrategy, sk_argument := 0 }]).toOption.isSome = true := by
      decide
    rw [h] at hsome
    exact absurd hsome (by simp [Except.toOption])
  | ok camScan =>
    have := C3_rejected_key_disables_limit exampleGate exampleUserTable none false _ camScan h 1
      (by decide) (by decide) 2 false (by decide)
    simp [Except.toOption, this]

/-! ## Binding of the scan keys -/

/-- One iteration of the binding loop, in terms of `camBindScanKeys_bindStep`. -/
theorem camBindScanKeys_bind_cons (env : PgGate) (relation : RelationData)
    (index : Option RelationData) (key : List ScanKeyData) (scan_plan : CamScanPlanData)
    (o : Int) (rest : List Int) (b : List Bool) (cs : List K2PgConstraintDef) :
    camBindScanKeys_bind env relation index key scan_plan (o :: rest) b cs =
      match camBindScanKeys_bindStep env relation index key scan_plan o b with
      | none => camBindScanKeys_bind env relation index key scan_plan rest b cs
      | some c =>
        camBindScanKeys_bind env relation index key scan_plan rest
          (b.set (env.K2PgAttnumToBmsIndex relation
            (scan_plan.bind_key_attnums.getD o.toNat 0)) true) (cs ++ [c]) := by
  simp only [camBindScanKeys_bind, camBindScanKeys_bindStep, camBindColumn,
    camBindColumnCondInequal, camBindColumnCondIn]
  split_ifs <;> rfl

/-- What `camBindScanKeys_bindStep` returns when it returns a constraint: the
column was not bound yet and the constraint is on the bind attribute number of
the key at the offset. -/
theorem camBindScanKeys_bindStep_some (env : PgGate) (relation : RelationData)
    (index : Option RelationData) (key : List ScanKeyData) (scan_plan : CamScanPlanData)
    (o : Int) (b : List Bool) (c : K2PgConstraintDef)
    (h : camBindScanKeys_bindStep env relation index key scan_plan o b = some c) :
    b.getD (env.K2PgAttnumToBmsIndex relation (scan_plan.bind_key_attnums.getD o.toNat 0))
        false = false ∧
      c.attr_num = scan_plan.bind_key_attnums.getD o.toNat 0 := by
  by_cases hb : b.getD (env.K2PgAttnumToBmsIndex relation
      (scan_plan.bind_key_attnums.getD o.toNat 0)) false = true
  · have hnone : camBindScanKeys_bindStep env relation index key scan_plan o b = none := by
      simp only [camBindScanKeys_bindStep, hb, if_true]
    rw [hnone] at h
    cases h
  · refine ⟨by simpa using hb, ?_⟩
    simp only [camBindScanKeys_bindStep] at h
    split_ifs at h <;> (cases h; rfl)

/-- The binding loop only appends to the constraint vector it is given. -/
theorem camBindScanKeys_bind_append (env : PgGate) (relation : RelationData)
    (index : Option RelationData) (key : List ScanKeyData) (scan_plan : CamScanPlanData)
    (offsets : List Int) :
    ∀ (b : List Bool) (cs : List K2PgConstraintDef),
      camBindScanKeys_bind env relation index key scan_plan offsets b cs =
        cs ++ camBindScanKeys_bind env relation index key scan_plan offsets b [] := by
  induction offsets with
  | nil => intro b cs; simp [camBindScanKeys_bind]
  | cons o rest ih =>
    intro b cs
    rw [camBindScanKeys_bind_cons, camBindScanKeys_bind_cons]
    cases camBindScanKeys_bindStep env relation index key scan_plan o b with
    | none => exact ih b cs
    | some c =>
      simp only [List.nil_append]
      rw [ih _ (cs ++ [c]), ih _ [c], List.append_assoc]

/-- Reading a scratch array of flags after one of its cells was set. -/
theorem getD_set_true (b : List Bool) (i j : Nat) (h : b.getD j false = true) :
    (b.set i true).getD j false = true := by
  rw [List.getD_eq_getElem?_getD] at h ⊢
  rw [List.getElem?_set]
  split_ifs with h1 h2
  · rfl
  · subst h1
    rw [List.getElem?_eq_none (by omega)] at h
    simp at h
  · exact h

/-- Reading the cell of a scratch array that was just set, when it is inside
the array. -/
theorem getD_set_self (b : List Bool) (i : Nat) (h : i < b.length) :
    (b.set i true).getD i false = true := by
  rw [List.getD_eq_getElem?_getD, List.getElem?_set]
  simp [h]

/-- The invariant of the binding loop: if every constraint already in the
vector is on a column marked in `is_column_bound`, no two of them are on the
same attribute number, and the columns of the remaining offsets lie inside
`is_column_bound`, then no two constraints of the final vector are on the same
attribute number. -/
theorem camBindScanKeys_bind_nodup (env : PgGate) (relation : RelationData)
    (index : Option RelationData) (key : List ScanKeyData) (scan_plan : CamScanPlanData)
    (offsets : List Int) :
    ∀ (b : List Bool) (cs : List K2PgConstraintDef),
      (∀ c ∈ cs, b.getD (env.K2PgAttnumToBmsIndex relation c.attr_num) false = true) →
      (cs.map (fun c => c.attr_num)).Nodup →
      (∀ o ∈ offsets, env.K2PgAttnumToBmsIndex relation
          (scan_plan.bind_key_attnums.getD o.toNat 0) < b.length) →
      ((camBindScanKeys_bind env relation index key scan_plan offsets b cs).map
        (fun c => c.attr_num)).Nodup := by
  induction offsets with
  | nil => intro b cs _ hnd _; simpa [camBindScanKeys_bind] using hnd
  | cons o rest ih =>
    intro b cs hinv hnd hlen
    rw [camBindScanKeys_bind_cons]
    cases hstep : camBindScanKeys_bindStep env relation index key scan_plan o b with
    | none =>
      exact ih b cs hinv hnd (fun o1 ho1 => hlen o1 (List.mem_cons_of_mem _ ho1))
    | some c =>
      obtain ⟨hfree, hattr⟩ :=
        camBindScanKeys_bindStep_some env relation index key scan_plan o b c hstep
      have hin := hlen o (List.mem_cons_self _ _)
      apply ih
      · intro c1 hc1
        rcases List.mem_append.1 hc1 with h1 | h1
        · exact getD_set_true b _ _ (hinv c1 h1)
        · rw [List.mem_singleton] at h1
          subst h1
          rw [hattr]
          exact getD_set_self b _ hin
      · rw [List.map_append, List.nodup_append]
        refine ⟨hnd, by simp, ?_⟩
        intro a ha1 ha2
        simp only [List.map_cons, List.map_nil, List.mem_singleton] at ha2
        obtain ⟨c1, hc1, rfl⟩ := List.mem_map.1 ha1
        have := hinv c1 hc1
        rw [ha2, hattr, hfree] at this
        cases this
      · intro o1 ho1
        rw [List.length_set]
        exact hlen o1 (List.mem_cons_of_mem _ ho1)

/-- The comparator `int_compar_cb` orders integers by `≤`. -/
theorem int_compar_cb_le_zero_iff (a b : Int) : int_compar_cb a b ≤ 0 ↔ a ≤ b := by
  unfold int_compar_cb
  split_ifs <;> omega

/-- The array that `qsort` returns is a permutation of its argument. -/
theorem qsort_perm (l : List Int) : (qsort int_compar_cb l).Perm l :=
  List.perm_insertionSort _ l

/-- The array that `qsort` returns is in ascending order. -/
theorem qsort_sorted (l : List Int) : (qsort int_compar_cb l).Sorted (fun a b => a ≤ b) := by
  haveI : IsTotal Int (fun a b => int_compar_cb a b ≤ 0) :=
    ⟨fun a b => by
      simp only [int_compar_cb_le_zero_iff]
      exact le_total a b⟩
  haveI : IsTrans Int (fun a b => int_compar_cb a b ≤ 0) :=
    ⟨fun a b c => by
      simp only [int_compar_cb_le_zero_iff]
      exact le_trans⟩
  have h := List.sorted_insertionSort (fun a b => int_compar_cb a b ≤ 0) l
  unfold qsort
  exact h.imp (fun {a b} hab => (int_compar_cb_le_zero_iff a b).1 hab)

/-- On an array in ascending order the restoring loop leaves no negative entry,
and each entry it leaves is an entry of the array or the negation of one. -/
theorem camBindScanKeys_restore_sorted (l : List Int) (hs : l.Sorted (fun a b => a ≤ b)) :
    ∀ o ∈ camBindScanKeys_restore l, 0 ≤ o ∧ (o ∈ l ∨ -o ∈ l) := by
  induction l with
  | nil => intro o ho; simp [camBindScanKeys_restore] at ho
  | cons a rest ih =>
    intro o ho
    rw [List.sorted_cons] at hs
    simp only [camBindScanKeys_restore] at ho
    split_ifs at ho with ha
    · rcases List.mem_cons.1 ho with h | h
      · subst h
        exact ⟨by omega, Or.inr (by simp)⟩
      · obtain ⟨h0, h1⟩ := ih hs.2 o h
        exact ⟨h0, h1.imp (List.mem_cons_of_mem _) (List.mem_cons_of_mem _)⟩
    · rcases List.mem_cons.1 ho with h | h
      · subst h
        exact ⟨by omega, Or.inl (List.mem_cons_self _ _)⟩
      · have := hs.1 o h
        exact ⟨by omega, Or.inl (List.mem_cons_of_mem _ h)⟩

/-- The first loop of the user branch returns at least its starting value. -/
theorem camBindScanKeys_maxIdx_ge (env : PgGate) (relation : RelationData)
    (scan_plan : CamScanPlanData) (is : List Nat) :
    ∀ m, m ≤ camBindScanKeys_maxIdx env relation scan_plan is m := by
  induction is with
  | nil => intro m; exact le_refl m
  | cons i rest ih =>
    intro m
    simp only [camBindScanKeys_maxIdx]
    split_ifs <;> first
      | exact ih m
      | exact le_trans (le_of_lt ‹_›) (ih _)

/-- The first loop of the user branch returns a bound on the bitmap index of
every visited key whose column is in `sk_cols`. -/
theorem camBindScanKeys_maxIdx_bound (env : PgGate) (relation : RelationData)
    (scan_plan : CamScanPlanData) (is : List Nat) :
    ∀ m, ∀ i ∈ is,
      env.K2PgAttnumToBmsIndex relation (scan_plan.bind_key_attnums.getD i 0)
          ∈ scan_plan.sk_cols →
      env.K2PgAttnumToBmsIndex relation (scan_plan.bind_key_attnums.getD i 0)
        ≤ camBindScanKeys_maxIdx env relation scan_plan is m := by
  induction is with
  | nil => intro m i hi; simp at hi
  | cons j rest ih =>
    intro m i hi hsel
    simp only [camBindScanKeys_maxIdx]
    rcases List.mem_cons.1 hi with h | h
    · subst h
      simp only [hsel, not_true_eq_false, if_false]
      split_ifs <;> first
        | exact camBindScanKeys_maxIdx_ge env relation scan_plan rest _
        | exact le_trans (not_lt.1 ‹_›) (camBindScanKeys_maxIdx_ge env relation scan_plan rest m)
    · split_ifs <;> first
        | exact ih m i h hsel
        | exact ih _ i h hsel

/-- Every entry that the second loop of the user branch adds to `offsets` is
`i` or `-i` for a visited key position `i` whose column is in `sk_cols`. -/
theorem camBindScanKeys_offsets_mem (env : PgGate) (relation : RelationData)
    (key : List ScanKeyData) (scan_plan : CamScanPlanData) (is : List Nat) :
    ∀ (acc : List Int), ∀ o ∈ camBindScanKeys_offsets env relation key scan_plan is acc,
      o ∈ acc ∨ ∃ i ∈ is,
        env.K2PgAttnumToBmsIndex relation (scan_plan.bind_key_attnums.getD i 0)
            ∈ scan_plan.sk_cols ∧ (o = (i : Int) ∨ o = -(i : Int)) := by
  induction is with
  | nil => intro acc o ho; exact Or.inl ho
  | cons j rest ih =>
    intro acc o ho
    have hrest : ∀ acc1, o ∈ camBindScanKeys_offsets env relation key scan_plan rest acc1 →
        (∀ x ∈ acc1, x ∈ acc ∨ (env.K2PgAttnumToBmsIndex relation
          (scan_plan.bind_key_attnums.getD j 0) ∈ scan_plan.sk_cols ∧
            (x = (j : Int) ∨ x = -(j : Int)))) →
        o ∈ acc ∨ ∃ i ∈ j :: rest,
          env.K2PgAttnumToBmsIndex relation (scan_plan.bind_key_attnums.getD i 0)
            ∈ scan_plan.sk_cols ∧ (o = (i : Int) ∨ o = -(i : Int)) := by
      intro acc1 h1 hacc
      rcases ih acc1 o h1 with h | ⟨i, hi, hsel, hio⟩
      · rcases hacc o h with h2 | ⟨hsel, hio⟩
        · exact Or.inl h2
        · exact Or.inr ⟨j, List.mem_cons_self _ _, hsel, hio⟩
      · exact Or.inr ⟨i, List.mem_cons_of_mem _ hi, hsel, hio⟩
    by_cases hsel : env.K2PgAttnumToBmsIndex relation
        (scan_plan.bind_key_attnums.getD j 0) ∈ scan_plan.sk_cols
    · simp only [camBindScanKeys_offsets, hsel, not_true_eq_false, if_false] at ho
      split_ifs at ho <;> first
        | exact hrest acc ho (fun x hx => Or.inl hx)
        | (refine hrest _ ho (fun x hx => ?_)
           rcases List.mem_append.1 hx with h | h
           · exact Or.inl h
           · have hx1 := List.mem_singleton.1 h
             first
               | exact Or.inr ⟨hsel, Or.inl hx1⟩
               | exact Or.inr ⟨hsel, Or.inr hx1⟩)
    · simp only [camBindScanKeys_offsets, hsel, not_false_eq_true, if_true] at ho
      exact hrest acc ho (fun x hx => Or.inl hx)

/-- Every offset that the binding loop of the user branch visits is the
position of a key whose column is in `sk_cols`, so its bitmap index lies inside
the scratch array `is_column_bound`. -/
theorem camBindScanKeys_user_offsets_in_bounds (env : PgGate) (relation : RelationData)
    (key : List ScanKeyData) (scan_plan : CamScanPlanData) :
    ∀ o ∈ camBindScanKeys_restore (qsort int_compar_cb
        (camBindScanKeys_offsets env relation key scan_plan (List.range key.length) [])),
      env.K2PgAttnumToBmsIndex relation (scan_plan.bind_key_attnums.getD o.toNat 0)
        < camBindScanKeys_maxIdx env relation scan_plan (List.range key.length) 0 + 1 := by
  intro o ho
  obtain ⟨h0, hmem⟩ := camBindScanKeys_restore_sorted _ (qsort_sorted _) o ho
  have hsrc : ∃ i ∈ List.range key.length,
      env.K2PgAttnumToBmsIndex relation (scan_plan.bind_key_attnums.getD i 0)
        ∈ scan_plan.sk_cols ∧ o.toNat = i := by
    rcases hmem with h | h
    · rcases camBindScanKeys_offsets_mem env relation key scan_plan _ [] o
          ((qsort_perm _).mem_iff.1 h) with h1 | ⟨i, hi, hsel, hio⟩
      · simp at h1
      · exact ⟨i, hi, hsel, by omega⟩
    · rcases camBindScanKeys_offsets_mem env relation key scan_plan _ [] (-o)
          ((qsort_perm _).mem_iff.1 h) with h1 | ⟨i, hi, hsel, hio⟩
      · simp at h1
      · exact ⟨i, hi, hsel, by omega⟩
  obtain ⟨i, hi, hsel, hio⟩ := hsrc
  rw [hio]
  exact Nat.lt_succ_of_le (camBindScanKeys_maxIdx_bound env relation scan_plan _ 0 i hi hsel)

/-- The user branch of `camBindScanKeys` appends a list of constraints no two
of which are on the same attribute number. -/
theorem camBindScanKeys_user_nodup (env : PgGate) (relation : RelationData)
    (index : Option RelationData) (key : List ScanKeyData) (scan_plan : CamScanPlanData)
    (cs : List K2PgConstraintDef) :
    ∃ appended : List K2PgConstraintDef,
      camBindScanKeys_user env relation index key scan_plan cs = cs ++ appended ∧
      (appended.map (fun c => c.attr_num)).Nodup := by
  refine ⟨camBindScanKeys_user env relation index key scan_plan [], ?_, ?_⟩
  · simp only [camBindScanKeys_user]
    exact camBindScanKeys_bind_append env relation index key scan_plan _ _ cs
  · simp only [camBindScanKeys_user]
    apply camBindScanKeys_bind_nodup
    · intro c hc; simp at hc
    · simp
    · intro o ho
      rw [List.length_replicate]
      exact camBindScanKeys_user_offsets_in_bounds env relation key scan_plan o ho

/-- C1 (as stated, refuted): a sequential scan of the example system table with
the two equality keys `x = 5` and `x = 10` on column 1 binds two constraints
with `attr_num = 1`. -/
theorem C1_counterexample :
    (camBeginScan exampleGate exampleSystemTable none false
        [{ sk_flags := 0, sk_attno := 1, sk_strategy := BTEqualStrategyNumber,
           sk_argument := 5 },
         { sk_flags := 0, sk_attno := 1, sk_strategy := BTEqualStrategyNumber,
           sk_argument := 10 }]).toOption.map
      (fun camScan => camScan.constraints.map (fun c => c.attr_num)) = some [1, 1]
    ∧ ¬ ([1, 1] : List Int).Nodup := by
  decide

/-- C1 (amended): for every user (non-system) relation, every scan plan and
every list of scan keys, the constraint list that `camBindScanKeys` appends to
the scan contains no two constraints with the same `attr_num`. -/
theorem C1_user_constraints_distinct (env : PgGate) (relation : RelationData)
    (index : Option RelationData) (camScan c3 : CamScanDescData)
    (scan_plan : CamScanPlanData) (huser : relation.isSystemRelation = false)
    (h : camBindScanKeys env relation index camScan scan_plan = .ok c3) :
    ∃ appended : List K2PgConstraintDef,
      c3.constraints = camScan.constraints ++ appended ∧
      (appended.map (fun c => c.attr_num)).Nodup := by
  obtain ⟨-, -, hcs⟩ := camBindScanKeys_ok env relation index camScan c3 scan_plan h
  rw [hcs, huser]
  simp only [Bool.false_eq_true, if_false]
  exact camBindScanKeys_user_nodup env relation index camScan.key scan_plan camScan.constraints

/-- C1 (amended) at a concrete scan: the example user table with the keys
`x >= 5` and `x < 10`. -/
theorem C1_user_constraints_distinct_witness :
    ∃ appended : List K2PgConstraintDef,
      ({ camBeginScan_init exampleUserTable exampleRangeKeys with
          handle := some 7
          constraints := camBindScanKeys_user exampleGate exampleUserTable none
            exampleRangeKeys exampleScanPlan [] } : CamScanDescData).constraints
        = (camBeginScan_init exampleUserTable exampleRangeKeys).constraints ++ appended ∧
      (appended.map (fun c => c.attr_num)).Nodup :=
  C1_user_constraints_distinct exampleGate exampleUserTable none
    (camBeginScan_init exampleUserTable exampleRangeKeys) _ exampleScanPlan rfl rfl

/-- C2 (as stated, refuted): a sequential scan of the example user table, whose
column 1 (`x`) is the primary key, with the keys `x >= 5` and `x < 10` binds
the single constraint `GTE [5]` on `x`, which is not the constraint
`BETWEEN [5, 10]` that `camBindColumnCondBetween` would build. -/
theorem C2_counterexample :
    (camBeginScan exampleGate exampleUserTable none false exampleRangeKeys).toOption.map
        (fun camScan => camScan.constraints)
      = some [{ attr_num := 1, constraint := .K2PG_CONSTRAINT_GTE,
                constants := [{ type_id := INT4OID, attr_size := 4, attr_byvalue := true,
                                datum := 5, is_null := false }] }]
    ∧ (camBeginScan exampleGate exampleUserTable none false exampleRangeKeys).toOption.map
        (fun camScan => camScan.constraints)
      ≠ some (camBindColumnCondBetween [] exampleUserTable.rd_att 1 true 5 true 10) := by
  decide

/-- C2 (amended): for a user table and a column `x` in use for the scan (in
particular a primary-key column), binding the two basic scan keys `x >= lo`
and `x < hi` (flags 0, strategies GreaterEqual and Less, in this order) makes
`camBindScanKeys` append exactly one constraint on `x`: kind GTE with the
single non-null constant `lo`.  The key `x < hi` is skipped because the column
is already bound. -/
theorem C2_range_pair_binds_first_key (env : PgGate) (relation : RelationData)
    (index : Option RelationData) (camScan c3 : CamScanDescData)
    (scan_plan : CamScanPlanData) (x a1 a2 : AttrNumber) (lo hi : Datum)
    (huser : relation.isSystemRelation = false)
    (hkeys : camScan.key =
      [{ sk_flags := 0, sk_attno := a1, sk_strategy := BTGreaterEqualStrategyNumber,
         sk_argument := lo },
       { sk_flags := 0, sk_attno := a2, sk_strategy := BTLessStrategyNumber,
         sk_argument := hi }])
    (hbind : scan_plan.bind_key_attnums = [x, x])
    (hsel : env.K2PgAttnumToBmsIndex relation x ∈ scan_plan.sk_cols)
    (h : camBindScanKeys env relation index camScan scan_plan = .ok c3) :
    c3.constraints = camScan.constraints ++
      [{ attr_num := x, constraint := .K2PG_CONSTRAINT_GTE,
         constants := [{ type_id := (cam_get_att_type_info scan_plan.bind_desc x).1,
                         attr_size := (cam_get_att_type_info scan_plan.bind_desc x).2.1,
                         attr_byvalue := (cam_get_att_type_info scan_plan.bind_desc x).2.2,
                         datum := lo, is_null := false }] }] := by
  obtain ⟨-, -, hcs⟩ := camBindScanKeys_ok env relation index camScan c3 scan_plan h
  rw [hcs, huser, hkeys]
  simp only [Bool.false_eq_true, if_false, camBindScanKeys_user, List.length_cons,
    List.length_nil]
  have hr : List.range (0 + 1 + 1) = [0, 1] := rfl
  rw [hr]
  have hmax : camBindScanKeys_maxIdx env relation scan_plan [0, 1] 0
      = env.K2PgAttnumToBmsIndex relation x := by
    simp only [camBindScanKeys_maxIdx, hbind, List.getD_cons_zero, List.getD_cons_succ, hsel,
      not_true_eq_false, if_false]
    split_ifs <;> omega
  have hoff : camBindScanKeys_offsets env relation
      [{ sk_flags := 0, sk_attno := a1, sk_strategy := BTGreaterEqualStrategyNumber,
         sk_argument := lo },
       { sk_flags := 0, sk_attno := a2, sk_strategy := BTLessStrategyNumber,
         sk_argument := hi }] scan_plan [0, 1] [] = [0, 1] := by
    simp [camBindScanKeys_offsets, hbind, hsel, BTGreaterEqualStrategyNumber,
      BTLessStrategyNumber, InvalidStrategy, BTEqualStrategyNumber, BTGreaterStrategyNumber]
  have hq : camBindScanKeys_restore (qsort int_compar_cb [0, 1]) = [0, 1] := by decide
  rw [hmax, hoff, hq]
  have hb0 : (List.replicate (env.K2PgAttnumToBmsIndex relation x + 1) false).getD
      (env.K2PgAttnumToBmsIndex relation x) false = false := by
    simp [List.getD_eq_getElem?_getD, List.getElem?_replicate]
  have hb1 : ((List.replicate (env.K2PgAttnumToBmsIndex relation x + 1) false).set
      (env.K2PgAttnumToBmsIndex relation x) true).getD
      (env.K2PgAttnumToBmsIndex relation x) false = true :=
    getD_set_self _ _ (by simp)
  have hstep0 : camBindScanKeys_bindStep env relation index
      [{ sk_flags := 0, sk_attno := a1, sk_strategy := BTGreaterEqualStrategyNumber,
         sk_argument := lo },
       { sk_flags := 0, sk_attno := a2, sk_strategy := BTLessStrategyNumber,
         sk_argument := hi }] scan_plan 0
      (List.replicate (env.K2PgAttnumToBmsIndex relation x + 1) false)
      = some ⟨x, .K2PG_CONSTRAINT_GTE,
          [⟨(cam_get_att_type_info scan_plan.bind_desc x).1,
            (cam_get_att_type_info scan_plan.bind_desc x).2.1,
            (cam_get_att_type_info scan_plan.bind_desc x).2.2, lo, false⟩]⟩ := by
    simp only [camBindScanKeys_bindStep, hbind, Int.toNat_zero, List.getD_cons_zero, hb0]
    simp [BTGreaterEqualStrategyNumber, InvalidStrategy, BTEqualStrategyNumber, SK_ISNULL]
  have hstep1 : camBindScanKeys_bindStep env relation index
      [{ sk_flags := 0, sk_attno := a1, sk_strategy := BTGreaterEqualStrategyNumber,
         sk_argument := lo },
       { sk_flags := 0, sk_attno := a2, sk_strategy := BTLessStrategyNumber,
         sk_argument := hi }] scan_plan 1
      ((List.replicate (env.K2PgAttnumToBmsIndex relation x + 1) false).set
        (env.K2PgAttnumToBmsIndex relation x) true) = none := by
    have h1 : (1 : Int).toNat = 1 := rfl
    simp only [camBindScanKeys_bindStep, hbind, h1, List.getD_cons_succ, List.getD_cons_zero,
      hb1, if_true]
  rw [camBindScanKeys_bind_cons, hstep0]
  simp only [hbind, Int.toNat_zero, List.getD_cons_zero]
  rw [camBindScanKeys_bind_cons, hstep1]
  simp only [camBindScanKeys_bind]

/-- C2 (amended) at the example user table with `x >= 5` and `x < 10`. -/
theorem C2_range_pair_binds_first_key_witness :
    ({ camBeginScan_init exampleUserTable exampleRangeKeys with
        handle := some 7
        constraints := camBindScanKeys_user exampleGate exampleUserTable none
          exampleRangeKeys exampleScanPlan [] } : CamScanDescData).constraints
      = (camBeginScan_init exampleUserTable exampleRangeKeys).constraints ++
        [{ attr_num := 1, constraint := .K2PG_CONSTRAINT_GTE,
           constants := [{ type_id := INT4OID, attr_size := 4, attr_byvalue := true,
                           datum := 5, is_null := false }] }] :=
  C2_range_pair_binds_first_key exampleGate exampleUserTable none
    (camBeginScan_init exampleUserTable exampleRangeKeys) _ exampleScanPlan 1 1 1 5 10
    rfl rfl rfl (by decide) rfl

/-! ## SKV serialisation -/

/-- Masking with `2 ^ n - 1` leaves a word below `2 ^ n` unchanged. -/
theorem and_mask_of_lt (d n : Nat) (h : d < 2 ^ n) : d &&& (2 ^ n - 1) = d := by
  rw [Nat.and_pow_two_sub_one_eq_mod, Nat.mod_eq_of_lt h]

/-- Reading a signed `w`-bit integer back as an unsigned `w`-bit word gives
the word it was converted from. -/
theorem toSigned_mod (w n : Nat) (h : n < 2 ^ w) :
    ((toSigned w n) % ((2 : Int) ^ w)).toNat = n := by
  have hp : (0 : Int) < (2 : Int) ^ w := by positivity
  have hc : ((2 ^ w : Nat) : Int) = (2 : Int) ^ w := by push_cast; rfl
  unfold toSigned
  rw [Nat.mod_eq_of_lt h]
  split_ifs
  · rw [Int.emod_eq_of_lt (by omega) (by rw [← hc]; exact_mod_cast h)]
    simp
  · rw [hc, Int.sub_emod, Int.emod_self, sub_zero, Int.emod_emod_of_dvd _ (dvd_refl _),
      Int.emod_eq_of_lt (by omega) (by rw [← hc]; exact_mod_cast h)]
    simp

/-- The builder call that `serializePGConstToK2SKV` makes, in terms of
`encodePGConst`. -/
theorem serializePGConstToK2SKV_eq (pg_detoast_datum : Datum → Option Varlena)
    (builder : SKVRecordBuilder) (constant : K2PgConstant) :
    serializePGConstToK2SKV pg_detoast_datum builder constant =
      if constant.is_null then builder.serializeNull
      else
        match encodePGConst pg_detoast_datum constant with
        | none => .error .invalid_datum_pointer
        | some value => builder.serializeNext value := by
  simp only [serializePGConstToK2SKV, encodePGConst]
  split_ifs <;> first
    | rfl
    | (cases pg_detoast_datum constant.datum <;> rfl)

/-- A successful `serializeNull` appends the null marker and keeps the schema. -/
theorem serializeNull_ok (b b1 : SKVRecordBuilder) (h : b.serializeNull = .ok b1) :
    b1.written = b.written ++ [SKVField.null] ∧ b1.schema = b.schema := by
  simp only [SKVRecordBuilder.serializeNull] at h
  split_ifs at h
  cases h
  exact ⟨rfl, rfl⟩

/-- A successful `serializeNext` appends the value and keeps the schema. -/
theorem serializeNext_ok (b b1 : SKVRecordBuilder) (v : SKVField)
    (h : b.serializeNext v = .ok b1) :
    b1.written = b.written ++ [v] ∧ b1.schema = b.schema := by
  simp only [SKVRecordBuilder.serializeNext] at h
  split_ifs at h
  cases h
  exact ⟨rfl, rfl⟩

/-- A successful `serializePGConstToK2SKV` appends exactly the field
`encodePGConst` and keeps the schema. -/
theorem serializePGConstToK2SKV_ok (pg_detoast_datum : Datum → Option Varlena)
    (b b1 : SKVRecordBuilder) (constant : K2PgConstant)
    (h : serializePGConstToK2SKV pg_detoast_datum b constant = .ok b1) :
    ∃ value, encodePGConst pg_detoast_datum constant = some value ∧
      b1.written = b.written ++ [value] ∧ b1.schema = b.schema := by
  rw [serializePGConstToK2SKV_eq] at h
  by_cases hn : constant.is_null = true
  · rw [if_pos hn] at h
    exact ⟨SKVField.null, by simp [encodePGConst, hn], serializeNull_ok b b1 h⟩
  · rw [if_neg hn] at h
    cases henc : encodePGConst pg_detoast_datum constant with
    | none => rw [henc] at h; cases h
    | some value =>
      rw [henc] at h
      exact ⟨value, rfl, serializeNext_ok b b1 value h⟩

/-- The type classes of `storage.cpp` are pairwise disjoint. -/
theorem type_classes_disjoint (t : Oid) :
    (is1ByteIntType t = true → isStringType t = false) ∧
    (is2ByteIntType t = true → isStringType t = false ∧ is1ByteIntType t = false) ∧
    (is4ByteIntType t = true →
      isStringType t = false ∧ is1ByteIntType t = false ∧ is2ByteIntType t = false) ∧
    (is8ByteIntType t = true →
      isStringType t = false ∧ is1ByteIntType t = false ∧ is2ByteIntType t = false ∧
        is4ByteIntType t = false) := by
  simp only [is1ByteIntType, is2ByteIntType, is4ByteIntType, is8ByteIntType, isStringType,
    Bool.or_eq_true, beq_iff_eq]
  refine ⟨?_, ?_, ?_, ?_⟩
  · rintro (h | h) <;> subst h <;> decide
  · rintro h; subst h; decide
  · rintro (h | h) <;> subst h <;> decide
  · rintro ((((h | h) | h) | h) | h) <;> subst h <;> decide

/-- C4: for a non-null constant, a successful `serializePGConstToK2SKV` appends
exactly one field, the one `encodePGConst` gives.  Decoding that field as the
constant's type gives back the value with the null flag false: for every
string-like type whose datum points to a variable-length value (the value
being its payload), for every 1/2/4-byte integer or date type, every 8-byte
integer or time type passed by value, and `float4`/`float8` (the value being
a datum word in the range of the type).  For a type in none of these classes
whose datum points to a variable-length value, the emitted bytes are all
`VARSIZE` bytes of that value, header included.  For `interval`, which
`is8ByteIntType` lists although an interval is a 16-byte value passed by
reference, the round trip fails: whatever the memory holds, the emitted field
is the datum word itself, which is the address of the value, and decoding
gives back that address. -/
theorem C4_codec_round_trip (pg_detoast_datum : Datum → Option Varlena)
    (constant : K2PgConstant) (hnn : constant.is_null = false) :
    (∀ b b1 : SKVRecordBuilder,
        serializePGConstToK2SKV pg_detoast_datum b constant = .ok b1 →
        ∃ value, encodePGConst pg_detoast_datum constant = some value ∧
          b1.written = b.written ++ [value]) ∧
    (isStringType constant.type_id = true →
      ∀ data, pg_detoast_datum constant.datum = some data →
      ∃ value, encodePGConst pg_detoast_datum constant = some value ∧
        decode value constant.type_id = some (.bytes data.vl_dat, false)) ∧
    (is1ByteIntType constant.type_id = true → constant.datum < 2 ^ 8 →
      ∃ value, encodePGConst pg_detoast_datum constant = some value ∧
        decode value constant.type_id = some (.word constant.datum, false)) ∧
    (is2ByteIntType constant.type_id = true → constant.datum < 2 ^ 16 →
      ∃ value, encodePGConst pg_detoast_datum constant = some value ∧
        decode value constant.type_id = some (.word constant.datum, false)) ∧
    (is4ByteIntType constant.type_id = true → constant.datum < 2 ^ 32 →
      ∃ value, encodePGConst pg_detoast_datum constant = some value ∧
        decode value constant.type_id = some (.word constant.datum, false)) ∧
    (is8ByteIntType constant.type_id = true → constant.type_id ≠ INTERVALOID →
      constant.attr_byvalue = true → constant.datum < 2 ^ 64 →
      ∃ value, encodePGConst pg_detoast_datum constant = some value ∧
        decode value constant.type_id = some (.word constant.datum, false)) ∧
    (constant.type_id = FLOAT4OID → constant.datum < 2 ^ 32 →
      ∃ value, encodePGConst pg_detoast_datum constant = some value ∧
        decode value constant.type_id = some (.word constant.datum, false)) ∧
    (constant.type_id = FLOAT8OID → constant.datum < 2 ^ 64 →
      ∃ value, encodePGConst pg_detoast_datum constant = some value ∧
        decode value constant.type_id = some (.word constant.datum, false)) ∧
    ((isStringType constant.type_id = false ∧ is1ByteIntType constant.type_id = false ∧
        is2ByteIntType constant.type_id = false ∧ is4ByteIntType constant.type_id = false ∧
        is8ByteIntType constant.type_id = false ∧ constant.type_id ≠ FLOAT4OID ∧
        constant.type_id ≠ FLOAT8OID) →
      ∀ data, pg_detoast_datum constant.datum = some data →
      encodePGConst pg_detoast_datum constant = some (.string data.bytes) ∧
        data.bytes.length = VARSIZE data) ∧
    (constant.type_id = INTERVALOID → constant.datum < 2 ^ 64 →
      (∀ memory : Datum → Option Varlena,
        encodePGConst memory constant = some (.int64 (toSigned 64 constant.datum))) ∧
      decode (.int64 (toSigned 64 constant.datum)) constant.type_id
        = some (.word constant.datum, false)) := by
  obtain ⟨d1, d2, d4, d8⟩ := type_classes_disjoint constant.type_id
  have hlen : ∀ data : Varlena, data.bytes.length = VARSIZE data := by
    intro data
    simp [Varlena.bytes, VARSIZE, VARHDRSZ]; omega
  refine ⟨?_, ?_, ?_, ?_, ?_, ?_, ?_, ?_, ?_, ?_⟩
  · intro b b1 h
    obtain ⟨value, hv, hw, -⟩ := serializePGConstToK2SKV_ok pg_detoast_datum b b1 constant h
    exact ⟨value, hv, hw⟩
  · intro hs data hdata
    refine ⟨.string data.vl_dat, ?_, ?_⟩
    · simp [encodePGConst, hnn, hs, hdata, VARDATA, VARSIZE, VARHDRSZ, Varlena.bytes]
    · simp [decode, hs]
  · intro h1 hd
    have hm := and_mask_of_lt constant.datum 8 hd
    norm_num at hm
    have hr := toSigned_mod 8 constant.datum hd
    refine ⟨.int16 (toSigned 8 constant.datum), ?_, ?_⟩
    · simp only [encodePGConst, hnn, d1 h1, h1, Bool.false_eq_true, if_false, if_true, hm]
    · simp only [decode, d1 h1, h1, Bool.false_eq_true, if_false, if_true, hr]
  · intro h2 hd
    have hm := and_mask_of_lt constant.datum 16 hd
    norm_num at hm
    have hr := toSigned_mod 16 constant.datum hd
    refine ⟨.int16 (toSigned 16 constant.datum), ?_, ?_⟩
    · simp only [encodePGConst, hnn, (d2 h2).1, (d2 h2).2, h2, Bool.false_eq_true, if_false,
        if_true, hm]
    · simp only [decode, (d2 h2).1, (d2 h2).2, h2, Bool.false_eq_true, if_false, if_true, hr]
  · intro h4 hd
    have hm := and_mask_of_lt constant.datum 32 hd
    norm_num at hm
    have hr := toSigned_mod 32 constant.datum hd
    refine ⟨.int32 (toSigned 32 constant.datum), ?_, ?_⟩
    · simp only [encodePGConst, hnn, (d4 h4).1, (d4 h4).2.1, (d4 h4).2.2, h4,
        Bool.false_eq_true, if_false, if_true, hm]
    · simp only [decode, (d4 h4).1, (d4 h4).2.1, (d4 h4).2.2, h4, Bool.false_eq_true,
        if_false, if_true, hr, Bool.or_self]
  · intro h8 _ _ hd
    have hr := toSigned_mod 64 constant.datum hd
    refine ⟨.int64 (toSigned 64 constant.datum), ?_, ?_⟩
    · simp only [encodePGConst, hnn, (d8 h8).1, (d8 h8).2.1, (d8 h8).2.2.1, (d8 h8).2.2.2, h8,
        Bool.false_eq_true, if_false, if_true]
    · simp only [decode, (d8 h8).1, (d8 h8).2.1, (d8 h8).2.2.1, (d8 h8).2.2.2, h8,
        Bool.false_eq_true, if_false, if_true, hr, Bool.or_self]
  · intro hf hd
    have hm := and_mask_of_lt constant.datum 32 hd
    norm_num at hm
    have e0 : isStringType FLOAT4OID = false := by decide
    have e1 : is1ByteIntType FLOAT4OID = false := by decide
    have e2 : is2ByteIntType FLOAT4OID = false := by decide
    have e4 : is4ByteIntType FLOAT4OID = false := by decide
    have e8 : is8ByteIntType FLOAT4OID = false := by decide
    refine ⟨.float constant.datum, ?_, ?_⟩
    · simp [encodePGConst, hnn, hf, e0, e1, e2, e4, e8, hm, Nat.mod_eq_of_lt hd]
      norm_num at hd
      exact hd
    · simp [decode, hf, e0, e1, e2, e4, e8]
  · intro hf hd
    have e0 : isStringType FLOAT8OID = false := by decide
    have e1 : is1ByteIntType FLOAT8OID = false := by decide
    have e2 : is2ByteIntType FLOAT8OID = false := by decide
    have e4 : is4ByteIntType FLOAT8OID = false := by decide
    have e8 : is8ByteIntType FLOAT8OID = false := by decide
    have ne4 : FLOAT8OID ≠ FLOAT4OID := by decide
    refine ⟨.double constant.datum, ?_, ?_⟩
    · simp [encodePGConst, hnn, hf, e0, e1, e2, e4, e8, ne4, Nat.mod_eq_of_lt hd]
      norm_num at hd
      exact hd
    · simp [decode, hf, e0, e1, e2, e4, e8, ne4]
  · rintro ⟨e0, e1, e2, e4, e8, ne4, ne8⟩ data hdata
    refine ⟨?_, hlen data⟩
    simp only [encodePGConst, hnn, e0, e1, e2, e4, e8, ne4, ne8, Bool.false_eq_true, if_false,
      hdata, Option.map_some', ← hlen data, List.take_length]
  · intro hi hd
    have h8 : is8ByteIntType constant.type_id = true := by rw [hi]; decide
    have hr := toSigned_mod 64 constant.datum hd
    refine ⟨fun memory => ?_, ?_⟩
    · simp only [encodePGConst, hnn, (d8 h8).1, (d8 h8).2.1, (d8 h8).2.2.1, (d8 h8).2.2.2, h8,
        Bool.false_eq_true, if_false, if_true]
    · simp only [decode, (d8 h8).1, (d8 h8).2.1, (d8 h8).2.2.1, (d8 h8).2.2.2, h8,
        Bool.false_eq_true, if_false, if_true, hr, Bool.or_self]

/-- C4 at concrete constants: the `int4` value -5 (datum word `0xFFFFFFFB`) is
emitted as the 32-bit integer -5 and decodes to the same word, the text value
`hi` is emitted as its two payload bytes and decodes to them, and the interval
constant whose value lies at the address 8192 is emitted as the 64-bit integer
8192 whatever the memory holds. -/
theorem C4_codec_round_trip_witness :
    (encodePGConst exampleDetoast
        { type_id := INT4OID, attr_size := 4, attr_byvalue := true, datum := 4294967291,
          is_null := false } = some (.int32 (-5)) ∧
      ∃ value, encodePGConst exampleDetoast
          { type_id := INT4OID, attr_size := 4, attr_byvalue := true, datum := 4294967291,
            is_null := false } = some value ∧
        decode value INT4OID = some (.word 4294967291, false)) ∧
    (∃ value, encodePGConst exampleDetoast
        { type_id := TEXTOID, attr_size := -1, attr_byvalue := false, datum := 4096,
          is_null := false } = some value ∧
      decode value TEXTOID = some (.bytes [104, 105], false)) ∧
    ((∀ memory : Datum → Option Varlena, encodePGConst memory exampleIntervalConstant
        = some (.int64 (toSigned 64 exampleIntervalConstant.datum))) ∧
      decode (.int64 (toSigned 64 exampleIntervalConstant.datum))
        exampleIntervalConstant.type_id = some (.word exampleIntervalConstant.datum, false)) :=
  ⟨⟨by decide,
    (C4_codec_round_trip exampleDetoast
      { type_id := INT4OID, attr_size := 4, attr_byvalue := true, datum := 4294967291,
        is_null := false } rfl).2.2.2.2.1 (by decide) (by decide)⟩,
   (C4_codec_round_trip exampleDetoast
      { type_id := TEXTOID, attr_size := -1, attr_byvalue := false, datum := 4096,
        is_null := false } rfl).2.1 (by decide)
      { vl_len_ := (24, 0, 0, 0), vl_dat := [104, 105] } rfl,
   (C4_codec_round_trip exampleDetoast exampleIntervalConstant rfl).2.2.2.2.2.2.2.2.2
      rfl (by decide)⟩

/-- The map `attr_map` that the first loop of `serializePgAttributesToSKV`
builds: an offset is mapped to the value of the last listed attribute whose
attribute number is sent to that offset. -/
theorem serializePgAttributesToSKV_attr_map_eq (attr_num_to_index : Int → Option Nat)
    (attrs : List K2PgAttributeDef) :
    ∀ (attr_map : Nat → Option K2PgConstant) (i : Nat),
      serializePgAttributesToSKV_attr_map attr_num_to_index attrs attr_map i =
        match attrs.reverse.find? (fun a => attr_num_to_index a.attr_num == some i) with
        | some a => some a.value
        | none => attr_map i := by
  induction attrs with
  | nil => intro attr_map i; rfl
  | cons a rest ih =>
    intro attr_map i
    simp only [serializePgAttributesToSKV_attr_map, List.reverse_cons, List.find?_append]
    cases hrest : rest.reverse.find? (fun a => attr_num_to_index a.attr_num == some i) with
    | some b =>
      cases ha : attr_num_to_index a.attr_num with
      | some offset => simp [ih, hrest]
      | none => simp [ih, hrest]
    | none =>
      cases ha : attr_num_to_index a.attr_num with
      | some offset =>
        by_cases hio : offset = i
        · subst hio; simp [ih, hrest, ha]
        · have hio2 : ¬ i = offset := fun h => hio h.symm
          simp [ih, hrest, ha, hio, hio2]
      | none => simp [ih, hrest, ha]

/-- A successful run of the field loop of `serializePgAttributesToSKV` appends
one field per visited offset, in order: the null marker when `attr_map` has no
entry for the offset and the encoding of the entry otherwise. -/
theorem serializePgAttributesToSKV_fields_ok (pg_detoast_datum : Datum → Option Varlena)
    (attr_map : Nat → Option K2PgConstant) (is : List Nat) :
    ∀ (b b1 : SKVRecordBuilder),
      serializePgAttributesToSKV_fields pg_detoast_datum attr_map is b = .ok b1 →
      ∃ fields : List SKVField, b1.written = b.written ++ fields ∧
        fields.map some = is.map (fun i =>
          match attr_map i with
          | none => some SKVField.null
          | some constant => encodePGConst pg_detoast_datum constant) := by
  induction is with
  | nil =>
    intro b b1 h
    simp only [serializePgAttributesToSKV_fields] at h
    cases h
    exact ⟨[], by simp, rfl⟩
  | cons i rest ih =>
    intro b b1 h
    simp only [serializePgAttributesToSKV_fields] at h
    cases hm : attr_map i with
    | none =>
      rw [hm] at h
      simp only at h
      cases hs : b.serializeNull with
      | error e => rw [hs] at h; cases h
      | ok b2 =>
        rw [hs] at h
        simp only at h
        obtain ⟨fields, hw, hf⟩ := ih b2 b1 h
        refine ⟨SKVField.null :: fields, ?_, ?_⟩
        · rw [hw, (serializeNull_ok b b2 hs).1]; simp
        · simp [hf, hm]
    | some constant =>
      rw [hm] at h
      simp only at h
      cases hs : serializePGConstToK2SKV pg_detoast_datum b constant with
      | error e => rw [hs] at h; cases h
      | ok b2 =>
        rw [hs] at h
        simp only at h
        obtain ⟨fields, hw, hf⟩ := ih b2 b1 h
        obtain ⟨value, hv, hw2, -⟩ :=
          serializePGConstToK2SKV_ok pg_detoast_datum b b2 constant hs
        refine ⟨value :: fields, ?_, ?_⟩
        · rw [hw, hw2]; simp
        · simp [hf, hm, hv]

/-- C5: a successful `serializePgAttributesToSKV` appends to the record exactly
these fields in this order: the `Int32` `table_id`, the `Int32` `index_id`,
then one field for each schema offset `i` from `K2_FIELD_OFFSET` up to
`fields.size() - 1` in increasing order, which is the null marker when no
supplied attribute is mapped to offset `i` and otherwise the
`serializePGConstToK2SKV` encoding of the attribute mapped to `i` (the last
such attribute in the list when several are). -/
theorem C5_record_layout (K2_FIELD_OFFSET : Nat) (pg_detoast_datum : Datum → Option Varlena)
    (builder builder1 : SKVRecordBuilder) (table_id index_id : Int)
    (attrs : List K2PgAttributeDef) (attr_num_to_index : Int → Option Nat)
    (status : K2PgStatus)
    (hrun : serializePgAttributesToSKV K2_FIELD_OFFSET pg_detoast_datum builder table_id
      index_id attrs attr_num_to_index = some (status, builder1))
    (hok : status.pg_code = ERRCODE_SUCCESSFUL_COMPLETION) :
    ∃ fields : List SKVField,
      builder1.written =
        builder.written ++ [SKVField.int32 table_id, SKVField.int32 index_id] ++ fields ∧
      fields.map some =
        (List.range' K2_FIELD_OFFSET (builder.schema.fields.length - K2_FIELD_OFFSET)).map
          (fun i =>
            match attrs.reverse.find? (fun a => attr_num_to_index a.attr_num == some i) with
            | none => some SKVField.null
            | some a => encodePGConst pg_detoast_datum a.value) := by
  have hbad : ∀ (what : String) (b : SKVRecordBuilder),
      (some (({ pg_code := ERRCODE_INTERNAL_ERROR, k2_code := 0,
                msg := "Serialization error in serializePgAttributesToSKV",
                detail := what } : K2PgStatus), b) = some (status, builder1)) → False := by
    intro what b h
    simp only [Option.some.injEq, Prod.mk.injEq] at h
    rw [← h.1] at hok
    exact absurd hok (show ERRCODE_INTERNAL_ERROR ≠ ERRCODE_SUCCESSFUL_COMPLETION by decide)
  simp only [serializePgAttributesToSKV] at hrun
  cases h1 : builder.serializeNext (.int32 table_id) with
  | error e =>
    rw [h1] at hrun
    cases e with
    | exception what => exact absurd hrun (hbad what _)
    | invalid_datum_pointer => cases hrun
  | ok b1 =>
    rw [h1] at hrun
    simp only at hrun
    cases h2 : b1.serializeNext (.int32 index_id) with
    | error e =>
      rw [h2] at hrun
      cases e with
      | exception what => exact absurd hrun (hbad what _)
      | invalid_datum_pointer => cases hrun
    | ok b2 =>
      rw [h2] at hrun
      simp only at hrun
      obtain ⟨hw1, hs1⟩ := serializeNext_ok builder b1 _ h1
      obtain ⟨hw2, hs2⟩ := serializeNext_ok b1 b2 _ h2
      cases h3 : serializePgAttributesToSKV_fields pg_detoast_datum
          (serializePgAttributesToSKV_attr_map attr_num_to_index attrs (fun _ => none))
          (List.range' K2_FIELD_OFFSET (b2.schema.fields.length - K2_FIELD_OFFSET)) b2 with
      | error e =>
        rw [h3] at hrun
        cases e with
        | exception what => exact absurd hrun (hbad what _)
        | invalid_datum_pointer => cases hrun
      | ok b3 =>
        rw [h3] at hrun
        simp only [Option.some.injEq, Prod.mk.injEq] at hrun
        obtain ⟨fields, hw3, hf⟩ :=
          serializePgAttributesToSKV_fields_ok pg_detoast_datum _ _ b2 b3 h3
        refine ⟨fields, ?_, ?_⟩
        · rw [← hrun.2, hw3, hw2, hw1]
          simp
        · rw [hf, hs2, hs1]
          apply List.map_congr_left
          intro i _
          rw [serializePgAttributesToSKV_attr_map_eq]
          cases attrs.reverse.find? (fun a => attr_num_to_index a.attr_num == some i) <;> rfl

/-- C5 at a concrete record: the example schema and attributes with table id
16384 and index id 0; the run succeeds and writes the two identifiers, the
`int4` value -5 and the text `hi`. -/
theorem C5_record_layout_witness :
    ∃ fields : List SKVField,
      ({ schema := exampleSchema,
         written := [SKVField.int32 16384, SKVField.int32 0, SKVField.int32 (-5),
                     SKVField.string [104, 105]] } : SKVRecordBuilder).written
        = ({ schema := exampleSchema, written := [] } : SKVRecordBuilder).written
          ++ [SKVField.int32 16384, SKVField.int32 0] ++ fields ∧
      fields.map some =
        (List.range' 2 (exampleSchema.fields.length - 2)).map
          (fun i =>
            match exampleAttrs.reverse.find?
                (fun a => exampleAttrNumToIndex a.attr_num == some i) with
            | none => some SKVField.null
            | some a => encodePGConst exampleDetoast a.value) :=
  C5_record_layout 2 exampleDetoast { schema := exampleSchema, written := [] }
    { schema := exampleSchema,
      written := [SKVField.int32 16384, SKVField.int32 0, SKVField.int32 (-5),
                  SKVField.string [104, 105]] }
    16384 0 exampleAttrs exampleAttrNumToIndex K2PgStatus.OK (by decide) rfl

/-! ## Single-row modify analysis -/

/-- C6 (the code at the failing input): `K2PgIsSingleRowModify` returns false
for every planned statement; in particular for the INSERT plan with one result
relation, no init-plan and a one-row source of a constant and an external bind
parameter (given as a result node or as a values scan), as well as for the
two-row INSERT. -/
theorem C6_single_row_modify_is_never_true :
    (∀ pstmt : PlannedStmt, K2PgIsSingleRowModify pstmt = false) ∧
      K2PgIsSingleRowModify exampleSingleRowInsert = false ∧
      K2PgIsSingleRowModify exampleSingleRowValuesScan = false ∧
      K2PgIsSingleRowModify exampleTwoRowInsert = false := by
  have hall : ∀ pstmt : PlannedStmt, K2PgIsSingleRowModify pstmt = false := by
    intro pstmt
    unfold K2PgIsSingleRowModify
    split
    · unfold ModifyTableIsSingleRowWrite
      split_ifs <;> first | rfl | (split <;> rfl)
    · rfl
  exact ⟨hall, hall _, hall _, hall _⟩

/-! ## Priority of equality keys in the binding order -/

/-- On an array in ascending order the restoring loop replaces every entry by
its absolute value. -/
theorem camBindScanKeys_restore_eq_map (l : List Int) (hs : l.Sorted (fun a b => a ≤ b)) :
    camBindScanKeys_restore l = l.map (fun s => if s < 0 then -s else s) := by
  induction l with
  | nil => rfl
  | cons a rest ih =>
    rw [List.sorted_cons] at hs
    simp only [camBindScanKeys_restore, List.map_cons]
    split_ifs with ha
    · rw [ih hs.2]
    · congr 1
      symm
      refine (List.map_congr_left (fun s hsmem => ?_)).trans (List.map_id rest)
      have := hs.1 s hsmem
      rw [if_neg (by omega)]
      rfl

/-- Every entry that the second loop of the user branch adds to `offsets` is
`-i` for the position `i` of an equality key, or `i` for the position of a key
that is not one; in both cases the column of the key is in `sk_cols`. -/
theorem camBindScanKeys_offsets_origin (env : PgGate) (relation : RelationData)
    (key : List ScanKeyData) (scan_plan : CamScanPlanData) (is : List Nat) :
    ∀ (acc : List Int), ∀ o ∈ camBindScanKeys_offsets env relation key scan_plan is acc,
      o ∈ acc ∨ ∃ i ∈ is,
        env.K2PgAttnumToBmsIndex relation (scan_plan.bind_key_attnums.getD i 0)
            ∈ scan_plan.sk_cols ∧
        (((key.getD i default).isEqualityKey = true ∧ o = -(i : Int)) ∨
          ((key.getD i default).isEqualityKey = false ∧ o = (i : Int))) := by
  induction is with
  | nil => intro acc o ho; exact Or.inl ho
  | cons j rest ih =>
    intro acc o ho
    have hrest : ∀ acc1, o ∈ camBindScanKeys_offsets env relation key scan_plan rest acc1 →
        (∀ x ∈ acc1, x ∈ acc ∨ (env.K2PgAttnumToBmsIndex relation
          (scan_plan.bind_key_attnums.getD j 0) ∈ scan_plan.sk_cols ∧
            (((key.getD j default).isEqualityKey = true ∧ x = -(j : Int)) ∨
              ((key.getD j default).isEqualityKey = false ∧ x = (j : Int))))) →
        o ∈ acc ∨ ∃ i ∈ j :: rest,
          env.K2PgAttnumToBmsIndex relation (scan_plan.bind_key_attnums.getD i 0)
            ∈ scan_plan.sk_cols ∧
          (((key.getD i default).isEqualityKey = true ∧ o = -(i : Int)) ∨
            ((key.getD i default).isEqualityKey = false ∧ o = (i : Int))) := by
      intro acc1 h1 hacc
      rcases ih acc1 o h1 with h | ⟨i, hi, hsel, hio⟩
      · rcases hacc o h with h2 | ⟨hsel, hio⟩
        · exact Or.inl h2
        · exact Or.inr ⟨j, List.mem_cons_self _ _, hsel, hio⟩
      · exact Or.inr ⟨i, List.mem_cons_of_mem _ hi, hsel, hio⟩
    by_cases hsel : env.K2PgAttnumToBmsIndex relation
        (scan_plan.bind_key_attnums.getD j 0) ∈ scan_plan.sk_cols
    · simp only [camBindScanKeys_offsets, hsel, not_true_eq_false, if_false] at ho
      by_cases hst : (key.getD j default).sk_strategy = InvalidStrategy
          ∨ (key.getD j default).sk_strategy = BTEqualStrategyNumber
      · rw [if_pos hst] at ho
        by_cases hfl : (IsBasicOpSearch (key.getD j default).sk_flags
            || IsSearchNull (key.getD j default).sk_flags) = true
        · rw [if_pos hfl] at ho
          have heq : (key.getD j default).isEqualityKey = true := by
            simp only [ScanKeyData.isEqualityKey, Bool.and_eq_true, Bool.or_eq_true,
              beq_iff_eq]
            exact ⟨hst, by simpa using hfl⟩
          refine hrest _ ho (fun x hx => ?_)
          rcases List.mem_append.1 hx with h | h
          · exact Or.inl h
          · exact Or.inr ⟨hsel, Or.inl ⟨heq, List.mem_singleton.1 h⟩⟩
        · rw [if_neg hfl] at ho
          have hne : (key.getD j default).isEqualityKey = false := by
            simp only [ScanKeyData.isEqualityKey, Bool.and_eq_false_iff]
            exact Or.inr (by simpa using hfl)
          split_ifs at ho
          · refine hrest _ ho (fun x hx => ?_)
            rcases List.mem_append.1 hx with h | h
            · exact Or.inl h
            · exact Or.inr ⟨hsel, Or.inr ⟨hne, List.mem_singleton.1 h⟩⟩
          · exact hrest acc ho (fun x hx => Or.inl hx)
      · rw [if_neg hst] at ho
        have hne : (key.getD j default).isEqualityKey = false := by
          simp only [ScanKeyData.isEqualityKey, Bool.and_eq_false_iff]
          refine Or.inl ?_
          simp only [not_or] at hst
          simp only [Bool.or_eq_false_iff, beq_eq_false_iff_ne]
          exact ⟨hst.1, hst.2⟩
        split_ifs at ho
        · refine hrest _ ho (fun x hx => ?_)
          rcases List.mem_append.1 hx with h | h
          · exact Or.inl h
          · exact Or.inr ⟨hsel, Or.inr ⟨hne, List.mem_singleton.1 h⟩⟩
        · exact hrest acc ho (fun x hx => Or.inl hx)
    · simp only [camBindScanKeys_offsets, hsel, not_false_eq_true, if_true] at ho
      exact hrest acc ho (fun x hx => Or.inl hx)

/-- The second loop of the user branch keeps what `offsets` already holds. -/
theorem camBindScanKeys_offsets_acc (env : PgGate) (relation : RelationData)
    (key : List ScanKeyData) (scan_plan : CamScanPlanData) (is : List Nat) :
    ∀ (acc : List Int), ∀ o ∈ acc,
      o ∈ camBindScanKeys_offsets env relation key scan_plan is acc := by
  induction is with
  | nil => intro acc o ho; exact ho
  | cons j rest ih =>
    intro acc o ho
    simp only [camBindScanKeys_offsets]
    split_ifs <;> first
      | exact ih _ o ho
      | exact ih _ o (List.mem_append_left _ ho)

/-- The second loop of the user branch stores `-i` for every visited position
`i` of an equality key whose column is in `sk_cols`. -/
theorem camBindScanKeys_offsets_complete (env : PgGate) (relation : RelationData)
    (key : List ScanKeyData) (scan_plan : CamScanPlanData) (is : List Nat) :
    ∀ (acc : List Int), ∀ i ∈ is,
      env.K2PgAttnumToBmsIndex relation (scan_plan.bind_key_attnums.getD i 0)
          ∈ scan_plan.sk_cols →
      (key.getD i default).isEqualityKey = true →
      -(i : Int) ∈ camBindScanKeys_offsets env relation key scan_plan is acc := by
  induction is with
  | nil => intro acc i hi; simp at hi
  | cons j rest ih =>
    intro acc i hi hsel heq
    rcases List.mem_cons.1 hi with h | h
    · subst h
      simp only [ScanKeyData.isEqualityKey, Bool.and_eq_true, Bool.or_eq_true,
        beq_iff_eq] at heq
      have hfl : (IsBasicOpSearch (key.getD i default).sk_flags
          || IsSearchNull (key.getD i default).sk_flags) = true := by simpa using heq.2
      simp only [camBindScanKeys_offsets, hsel, not_true_eq_false, if_false, heq.1, if_true,
        hfl]
      exact camBindScanKeys_offsets_acc env relation key scan_plan rest _ _ (by simp)
    · simp only [camBindScanKeys_offsets]
      split_ifs <;> exact ih _ i h hsel heq

/-- Filtering a one-element list whose element passes the test. -/
theorem filter_singleton_pos {α : Type} (p : α → Bool) (a : α) (h : p a = true) :
    [a].filter p = [a] := by
  simp [h]

/-- Filtering a one-element list whose element fails the test. -/
theorem filter_singleton_neg {α : Type} (p : α → Bool) (a : α) (h : p a = false) :
    [a].filter p = [] := by
  simp [h]

/-- Setting one cell of a scratch array of flags leaves the other cells as
they were. -/
theorem getD_set_ne (b : List Bool) (i j : Nat) (h : i ≠ j) :
    (b.set i true).getD j false = b.getD j false := by
  rw [List.getD_eq_getElem?_getD, List.getD_eq_getElem?_getD, List.getElem?_set_ne h]

/-- The constraint that `camBindColumn` builds for the key at position `i`. -/
theorem camBindScanKeys_bindStep_equality (env : PgGate) (relation : RelationData)
    (index : Option RelationData) (key : List ScanKeyData) (scan_plan : CamScanPlanData)
    (o : Int) (b : List Bool)
    (hfree : b.getD (env.K2PgAttnumToBmsIndex relation
      (scan_plan.bind_key_attnums.getD o.toNat 0)) false = false)
    (heq : (key.getD o.toNat default).isEqualityKey = true) :
    camBindScanKeys_bindStep env relation index key scan_plan o b =
      some ⟨scan_plan.bind_key_attnums.getD o.toNat 0, .K2PG_CONSTRAINT_EQ,
        [⟨(cam_get_att_type_info scan_plan.bind_desc
              (scan_plan.bind_key_attnums.getD o.toNat 0)).1,
          (cam_get_att_type_info scan_plan.bind_desc
              (scan_plan.bind_key_attnums.getD o.toNat 0)).2.1,
          (cam_get_att_type_info scan_plan.bind_desc
              (scan_plan.bind_key_attnums.getD o.toNat 0)).2.2,
          (key.getD o.toNat default).sk_argument,
          ((key.getD o.toNat default).sk_flags &&& SK_ISNULL) == SK_ISNULL⟩]⟩ := by
  simp only [ScanKeyData.isEqualityKey, Bool.and_eq_true, Bool.or_eq_true, beq_iff_eq] at heq
  have hfl : (IsBasicOpSearch (key.getD o.toNat default).sk_flags
      || IsSearchNull (key.getD o.toNat default).sk_flags) = true := by
    simp only [Bool.or_eq_true]; exact heq.2
  simp only [camBindScanKeys_bindStep, hfree, Bool.false_eq_true, if_false, heq.1, if_true, hfl]

/-- A column that is already marked in `is_column_bound` gets no constraint
from the binding loop. -/
theorem camBindScanKeys_bind_bound_column (env : PgGate) (relation : RelationData)
    (index : Option RelationData) (key : List ScanKeyData) (scan_plan : CamScanPlanData)
    (X : Nat) (offsets : List Int) :
    ∀ (b : List Bool), b.getD X false = true →
      (camBindScanKeys_bind env relation index key scan_plan offsets b []).filter
        (fun c => decide (env.K2PgAttnumToBmsIndex relation c.attr_num = X)) = [] := by
  induction offsets with
  | nil => intro b _; simp [camBindScanKeys_bind]
  | cons o rest ih =>
    intro b hb
    rw [camBindScanKeys_bind_cons]
    cases hstep : camBindScanKeys_bindStep env relation index key scan_plan o b with
    | none => exact ih b hb
    | some c =>
      obtain ⟨hfree, hattr⟩ :=
        camBindScanKeys_bindStep_some env relation index key scan_plan o b c hstep
      have hne : env.K2PgAttnumToBmsIndex relation c.attr_num ≠ X := by
        intro hX
        rw [hattr] at hX
        rw [hX, hb] at hfree
        cases hfree
      simp only [List.nil_append]
      rw [camBindScanKeys_bind_append, List.filter_append, ih _ (getD_set_true b _ X hb)]
      have hc : (fun c1 : K2PgConstraintDef =>
          decide (env.K2PgAttnumToBmsIndex relation c1.attr_num = X)) c = false := by
        simpa using hne
      rw [filter_singleton_neg _ c hc, List.append_nil]

/-- The first offset of a column decides its constraint: if no earlier offset
is on column `X`, the column is not yet bound, and the iteration for the
offset `o` on column `X` appends `c` whenever the column is not bound, then `c`
is the only constraint on column `X` that the binding loop appends. -/
theorem camBindScanKeys_bind_first_for_column (env : PgGate) (relation : RelationData)
    (index : Option RelationData) (key : List ScanKeyData) (scan_plan : CamScanPlanData)
    (X : Nat) (o : Int) (post : List Int) (c : K2PgConstraintDef)
    (ho : env.K2PgAttnumToBmsIndex relation (scan_plan.bind_key_attnums.getD o.toNat 0) = X)
    (hstep : ∀ b : List Bool, b.getD X false = false →
      camBindScanKeys_bindStep env relation index key scan_plan o b = some c)
    (pre : List Int) :
    ∀ (b : List Bool),
      (∀ q ∈ pre, env.K2PgAttnumToBmsIndex relation
        (scan_plan.bind_key_attnums.getD q.toNat 0) ≠ X) →
      X < b.length → b.getD X false = false →
      (camBindScanKeys_bind env relation index key scan_plan (pre ++ o :: post) b []).filter
        (fun c1 => decide (env.K2PgAttnumToBmsIndex relation c1.attr_num = X)) = [c] := by
  induction pre with
  | nil =>
    intro b _ hlen hfree
    obtain ⟨-, hattr⟩ :=
      camBindScanKeys_bindStep_some env relation index key scan_plan o b c (hstep b hfree)
    rw [List.nil_append, camBindScanKeys_bind_cons, hstep b hfree]
    simp only [List.nil_append]
    rw [camBindScanKeys_bind_append, List.filter_append, ho,
      camBindScanKeys_bind_bound_column env relation index key scan_plan X post _
        (getD_set_self b X hlen)]
    have hc : (fun c1 : K2PgConstraintDef =>
        decide (env.K2PgAttnumToBmsIndex relation c1.attr_num = X)) c = true := by
      show decide (env.K2PgAttnumToBmsIndex relation c.attr_num = X) = true
      rw [hattr]; exact decide_eq_true ho
    rw [filter_singleton_pos _ c hc, List.append_nil]
  | cons q pre1 ih =>
    intro b hpre hlen hfree
    have hq := hpre q (List.mem_cons_self _ _)
    have hpre1 : ∀ q1 ∈ pre1, env.K2PgAttnumToBmsIndex relation
        (scan_plan.bind_key_attnums.getD q1.toNat 0) ≠ X :=
      fun q1 h1 => hpre q1 (List.mem_cons_of_mem _ h1)
    rw [List.cons_append, camBindScanKeys_bind_cons]
    cases hs : camBindScanKeys_bindStep env relation index key scan_plan q b with
    | none => exact ih b hpre1 hlen hfree
    | some c1 =>
      obtain ⟨-, hattr⟩ :=
        camBindScanKeys_bindStep_some env relation index key scan_plan q b c1 hs
      simp only [List.nil_append]
      rw [camBindScanKeys_bind_append, List.filter_append,
        ih _ hpre1 (by rw [List.length_set]; exact hlen)
          (by rw [getD_set_ne b _ X hq]; exact hfree)]
      have hc : (fun c2 : K2PgConstraintDef =>
          decide (env.K2PgAttnumToBmsIndex relation c2.attr_num = X)) c1 = false := by
        show decide (env.K2PgAttnumToBmsIndex relation c1.attr_num = X) = false
        rw [hattr]; exact decide_eq_false hq
      rw [filter_singleton_neg _ c1 hc, List.nil_append]

/-- Every offset that the binding loop of the user branch visits is the
position of a key of the scan whose column is in `sk_cols`. -/
theorem camBindScanKeys_user_offsets_are_positions (env : PgGate) (relation : RelationData)
    (key : List ScanKeyData) (scan_plan : CamScanPlanData) :
    ∀ o ∈ camBindScanKeys_restore (qsort int_compar_cb
        (camBindScanKeys_offsets env relation key scan_plan (List.range key.length) [])),
      0 ≤ o ∧ o.toNat < key.length ∧
        env.K2PgAttnumToBmsIndex relation (scan_plan.bind_key_attnums.getD o.toNat 0)
          ∈ scan_plan.sk_cols := by
  intro o ho
  obtain ⟨h0, hmem⟩ := camBindScanKeys_restore_sorted _ (qsort_sorted _) o ho
  have hsrc : ∃ i ∈ List.range key.length,
      env.K2PgAttnumToBmsIndex relation (scan_plan.bind_key_attnums.getD i 0)
        ∈ scan_plan.sk_cols ∧ o.toNat = i := by
    rcases hmem with h | h
    · rcases camBindScanKeys_offsets_mem env relation key scan_plan _ [] o
          ((qsort_perm _).mem_iff.1 h) with h1 | ⟨i, hi, hsel, hio⟩
      · simp at h1
      · exact ⟨i, hi, hsel, by omega⟩
    · rcases camBindScanKeys_offsets_mem env relation key scan_plan _ [] (-o)
          ((qsort_perm _).mem_iff.1 h) with h1 | ⟨i, hi, hsel, hio⟩
      · simp at h1
      · exact ⟨i, hi, hsel, by omega⟩
  obtain ⟨i, hi, hsel, hio⟩ := hsrc
  rw [hio]
  exact ⟨h0, List.mem_range.1 hi, hsel⟩

/-- In the order in which the binding loop of the user branch visits the keys,
no key that is not an equality key stands before an equality key. -/
theorem camBindScanKeys_user_order (env : PgGate) (relation : RelationData)
    (key : List ScanKeyData) (scan_plan : CamScanPlanData) :
    (camBindScanKeys_restore (qsort int_compar_cb
        (camBindScanKeys_offsets env relation key scan_plan (List.range key.length) []))).Pairwise
      (fun a b => (key.getD b.toNat default).isEqualityKey = true →
        (key.getD a.toNat default).isEqualityKey = true) := by
  rw [camBindScanKeys_restore_eq_map _ (qsort_sorted _), List.pairwise_map]
  refine List.Pairwise.imp_of_mem ?_ (qsort_sorted _)
  intro a b ha hb hab hEb
  have hoa := camBindScanKeys_offsets_origin env relation key scan_plan _ [] a
    ((qsort_perm _).mem_iff.1 ha)
  have hob := camBindScanKeys_offsets_origin env relation key scan_plan _ [] b
    ((qsort_perm _).mem_iff.1 hb)
  rcases hob with hb0 | ⟨ib, -, -, hib⟩
  · simp at hb0
  rcases hoa with ha0 | ⟨ia, -, -, hia⟩
  · simp at ha0
  have hbn : (if b < 0 then -b else b).toNat = ib := by
    rcases hib with ⟨-, h⟩ | ⟨-, h⟩ <;> split_ifs <;> omega
  have han : (if a < 0 then -a else a).toNat = ia := by
    rcases hia with ⟨-, h⟩ | ⟨-, h⟩ <;> split_ifs <;> omega
  rw [hbn] at hEb
  rw [han]
  rcases hia with ⟨hEa, -⟩ | ⟨hEa, haeq⟩
  · exact hEa
  · rcases hib with ⟨-, hbeq⟩ | ⟨hnb, -⟩
    · have hiab : ia = ib := by omega
      rw [hiab]; exact hEb
    · rw [hEb] at hnb; cases hnb

/-- In a list in which no entry outside a class stands before an entry of the
class, the first entry on a column that carries an entry of the class is
itself of the class. -/
theorem exists_first_on_column (f : Int → Nat) (E : Int → Prop) (X : Nat) (L : List Int) :
    L.Pairwise (fun a b => E b → E a) →
    ∀ p ∈ L, f p = X → E p →
    ∃ pre o post, L = pre ++ o :: post ∧ (∀ q ∈ pre, f q ≠ X) ∧ f o = X ∧ E o := by
  induction L with
  | nil => intro _ p hp; simp at hp
  | cons a rest ih =>
    intro hpw p hp hpX hE
    rw [List.pairwise_cons] at hpw
    by_cases ha : f a = X
    · refine ⟨[], a, rest, rfl, by simp, ha, ?_⟩
      rcases List.mem_cons.1 hp with h | h
      · rw [← h]; exact hE
      · exact hpw.1 p h hE
    · have hprest : p ∈ rest := by
        rcases List.mem_cons.1 hp with h | h
        · rw [h] at hpX; exact absurd hpX ha
        · exact h
      obtain ⟨pre, o, post, hL, hpre, ho, hEo⟩ := ih hpw.2 p hprest hpX hE
      refine ⟨a :: pre, o, post, by rw [hL]; rfl, ?_, ho, hEo⟩
      intro q hq
      rcases List.mem_cons.1 hq with h | h
      · rw [h]; exact ha
      · exact hpre q h

/-- C11: for a user table, when a column selected for binding carries an
equality or IS NULL key at some position `p` (position 0 included), the
constraints that `camBindScanKeys` appends hold exactly one constraint for
that column, and it is the EQ constraint that `camBindColumn` builds from an
equality or IS NULL key `q` of that column, whatever other keys the column
carries and wherever they stand. -/
theorem C11_equality_key_binds_first (env : PgGate) (relation : RelationData)
    (index : Option RelationData) (camScan c3 : CamScanDescData)
    (scan_plan : CamScanPlanData) (p : Nat)
    (huser : relation.isSystemRelation = false)
    (h : camBindScanKeys env relation index camScan scan_plan = .ok c3)
    (hp : p < camScan.key.length)
    (hsel : env.K2PgAttnumToBmsIndex relation (scan_plan.bind_key_attnums.getD p 0)
      ∈ scan_plan.sk_cols)
    (heq : (camScan.key.getD p default).isEqualityKey = true) :
    ∃ (appended : List K2PgConstraintDef) (q : Nat),
      c3.constraints = camScan.constraints ++ appended ∧
      q < camScan.key.length ∧
      (camScan.key.getD q default).isEqualityKey = true ∧
      env.K2PgAttnumToBmsIndex relation (scan_plan.bind_key_attnums.getD q 0) =
        env.K2PgAttnumToBmsIndex relation (scan_plan.bind_key_attnums.getD p 0) ∧
      appended.filter (fun c => decide (env.K2PgAttnumToBmsIndex relation c.attr_num =
          env.K2PgAttnumToBmsIndex relation (scan_plan.bind_key_attnums.getD p 0))) =
        camBindColumn [] scan_plan.bind_desc (scan_plan.bind_key_attnums.getD q 0)
          (camScan.key.getD q default).sk_argument
          (((camScan.key.getD q default).sk_flags &&& SK_ISNULL) == SK_ISNULL) := by
  obtain ⟨-, -, hcs⟩ := camBindScanKeys_ok env relation index camScan c3 scan_plan h
  rw [huser] at hcs
  simp only [Bool.false_eq_true, if_false] at hcs
  have hpO : -(p : Int) ∈ camBindScanKeys_offsets env relation camScan.key scan_plan
      (List.range camScan.key.length) [] :=
    camBindScanKeys_offsets_complete env relation camScan.key scan_plan _ [] p
      (List.mem_range.2 hp) hsel heq
  have hpL : (p : Int) ∈ camBindScanKeys_restore (qsort int_compar_cb
      (camBindScanKeys_offsets env relation camScan.key scan_plan
        (List.range camScan.key.length) [])) := by
    rw [camBindScanKeys_restore_eq_map _ (qsort_sorted _)]
    refine List.mem_map.2 ⟨-(p : Int), (qsort_perm _).mem_iff.2 hpO, ?_⟩
    split_ifs <;> omega
  obtain ⟨pre, o, post, hL, hpre, ho, hEo⟩ :=
    exists_first_on_column
      (fun l => env.K2PgAttnumToBmsIndex relation (scan_plan.bind_key_attnums.getD l.toNat 0))
      (fun l => (camScan.key.getD l.toNat default).isEqualityKey = true)
      (env.K2PgAttnumToBmsIndex relation (scan_plan.bind_key_attnums.getD p 0)) _
      (camBindScanKeys_user_order env relation camScan.key scan_plan) (p : Int) hpL
      (by simp) (by simpa using heq)
  have hoL : o ∈ camBindScanKeys_restore (qsort int_compar_cb
      (camBindScanKeys_offsets env relation camScan.key scan_plan
        (List.range camScan.key.length) [])) := by
    rw [hL]; simp
  obtain ⟨-, hoq, -⟩ :=
    camBindScanKeys_user_offsets_are_positions env relation camScan.key scan_plan o hoL
  have hbound := camBindScanKeys_user_offsets_in_bounds env relation camScan.key scan_plan o hoL
  refine ⟨camBindScanKeys_bind env relation index camScan.key scan_plan
      (camBindScanKeys_restore (qsort int_compar_cb
        (camBindScanKeys_offsets env relation camScan.key scan_plan
          (List.range camScan.key.length) [])))
      (List.replicate (camBindScanKeys_maxIdx env relation scan_plan
        (List.range camScan.key.length) 0 + 1) false) [], o.toNat, ?_, hoq, hEo, ho, ?_⟩
  · rw [hcs]
    exact camBindScanKeys_bind_append env relation index camScan.key scan_plan _ _ _
  · rw [hL]
    refine camBindScanKeys_bind_first_for_column env relation index camScan.key scan_plan
      _ o post _ ho ?_ pre _ hpre ?_ ?_
    · intro b hb
      have hfree : b.getD (env.K2PgAttnumToBmsIndex relation
          (scan_plan.bind_key_attnums.getD o.toNat 0)) false = false := by
        have ho1 : env.K2PgAttnumToBmsIndex relation
            (scan_plan.bind_key_attnums.getD o.toNat 0) =
            env.K2PgAttnumToBmsIndex relation (scan_plan.bind_key_attnums.getD p 0) := ho
        rw [ho1]; exact hb
      rw [camBindScanKeys_bindStep_equality env relation index camScan.key scan_plan o b
        hfree hEo]
    · rw [List.length_replicate]
      have ho1 : env.K2PgAttnumToBmsIndex relation
          (scan_plan.bind_key_attnums.getD o.toNat 0) =
          env.K2PgAttnumToBmsIndex relation (scan_plan.bind_key_attnums.getD p 0) := ho
      rw [← ho1]; exact hbound
    · simp only [List.getD_eq_getElem?_getD, List.getElem?_replicate]
      split_ifs <;> rfl

/-- C11 at a concrete scan: the example user table with the keys `x = 7`,
`x = ANY (...)` and `x < 10` on its primary-key column, the equality key at
position 0. -/
theorem C11_equality_key_binds_first_witness :
    ∃ (appended : List K2PgConstraintDef) (q : Nat),
      ({ camBeginScan_init exampleUserTable exampleMixedKeys with
          handle := some 7
          constraints := camBindScanKeys_user exampleArrayGate exampleUserTable none
            exampleMixedKeys exampleScanPlan3 [] } : CamScanDescData).constraints
        = (camBeginScan_init exampleUserTable exampleMixedKeys).constraints ++ appended ∧
      q < (camBeginScan_init exampleUserTable exampleMixedKeys).key.length ∧
      ((camBeginScan_init exampleUserTable exampleMixedKeys).key.getD q default).isEqualityKey
        = true ∧
      exampleArrayGate.K2PgAttnumToBmsIndex exampleUserTable
          (exampleScanPlan3.bind_key_attnums.getD q 0) =
        exampleArrayGate.K2PgAttnumToBmsIndex exampleUserTable
          (exampleScanPlan3.bind_key_attnums.getD 0 0) ∧
      appended.filter (fun c => decide (exampleArrayGate.K2PgAttnumToBmsIndex exampleUserTable
          c.attr_num = exampleArrayGate.K2PgAttnumToBmsIndex exampleUserTable
            (exampleScanPlan3.bind_key_attnums.getD 0 0))) =
        camBindColumn [] exampleScanPlan3.bind_desc (exampleScanPlan3.bind_key_attnums.getD q 0)
          ((camBeginScan_init exampleUserTable exampleMixedKeys).key.getD q default).sk_argument
          ((((camBeginScan_init exampleUserTable exampleMixedKeys).key.getD q default).sk_flags
            &&& SK_ISNULL) == SK_ISNULL) :=
  C11_equality_key_binds_first exampleArrayGate exampleUserTable none
    (camBeginScan_init exampleUserTable exampleMixedKeys) _ exampleScanPlan3 0
    rfl rfl (by decide) (by decide) (by decide)

/-! ## Array key against range key -/

/-- C12: on the example user table, whose column 1 (`x`) is the primary key, the
scan with the keys `x < 10` and `x = ANY ({1, 2})` in this order binds the
range key as `LT [10]` and no IN constraint, while the same two keys in the
other order bind the array as `IN [1, 2]`: the array key has no priority over
the range key, the one that comes first in the key list wins. -/
theorem C12_array_key_loses_to_earlier_range_key :
    (camBeginScan exampleArrayGate exampleUserTable none false
        [exampleLessKey, exampleArrayKey]).toOption.map (fun camScan => camScan.constraints)
      = some [{ attr_num := 1, constraint := .K2PG_CONSTRAINT_LT,
                constants := [{ type_id := INT4OID, attr_size := 4, attr_byvalue := true,
                                datum := 10, is_null := false }] }]
    ∧ (camBeginScan exampleArrayGate exampleUserTable none false
        [exampleArrayKey, exampleLessKey]).toOption.map (fun camScan => camScan.constraints)
      = some [{ attr_num := 1, constraint := .K2PG_CONSTRAINT_IN,
                constants := [{ type_id := INT4OID, attr_size := 4, attr_byvalue := true,
                                datum := 1, is_null := false },
                              { type_id := INT4OID, attr_size := 4, attr_byvalue := true,
                                datum := 2, is_null := false }] }] := by
  decide

/-! ## Fetching and local re-check -/

/-- Once the select statement has been executed, `camFetchNextHeapTuple` on a
used-up result returns NULL and changes nothing. -/
theorem camFetchNextHeapTuple_done_nil (env : PgExec) (camScan : CamScanDescData)
    (is_forward_scan : Bool) (hdone : camScan.is_exec_done = true) :
    camFetchNextHeapTuple env camScan is_forward_scan [] = .ok (none, camScan, []) := by
  simp [camFetchNextHeapTuple, camFetchNextHeapTuple_exec, hdone, PgGate_DmlFetch]

/-- Once the select statement has been executed, `camFetchNextHeapTuple` takes
the next row off the result and returns the tuple formed from it. -/
theorem camFetchNextHeapTuple_done_cons (env : PgExec) (camScan : CamScanDescData)
    (is_forward_scan : Bool) (hdone : camScan.is_exec_done = true) (row : K2Row)
    (rest : RemoteResult) :
    camFetchNextHeapTuple env camScan is_forward_scan (.ok row :: rest) =
      .ok (some (camFetchNextHeapTuple_tuple env camScan row), camScan, rest) := by
  simp [camFetchNextHeapTuple, camFetchNextHeapTuple_exec, hdone, PgGate_DmlFetch]

/-- What the execute block of `camFetchNextHeapTuple` leaves behind when it
succeeds: the statement is marked executed, the other fields of the scan
descriptor are unchanged, and a fetch from the state before the block is a
fetch from the state after it. -/
theorem camFetchNextHeapTuple_exec_ok (env : PgExec) (camScan camScan1 : CamScanDescData)
    (is_forward_scan : Bool) (remote remote1 : RemoteResult)
    (h : camFetchNextHeapTuple_exec env camScan is_forward_scan remote = .ok (camScan1, remote1)) :
    camScan1 = { camScan with is_exec_done := true } ∧
      camFetchNextHeapTuple env camScan is_forward_scan remote =
        camFetchNextHeapTuple env camScan1 is_forward_scan remote1 := by
  by_cases hdone : camScan.is_exec_done = true
  · simp only [camFetchNextHeapTuple_exec, hdone, Bool.not_true, Bool.false_eq_true,
      if_false, Except.ok.injEq, Prod.mk.injEq] at h
    obtain ⟨h1, h2⟩ := h
    subst h1; subst h2
    refine ⟨?_, rfl⟩
    cases camScan
    simp only at hdone
    subst hdone
    rfl
  · have hd : camScan.is_exec_done = false := by simpa using hdone
    simp only [camFetchNextHeapTuple_exec, hd, Bool.not_false, if_true] at h
    split at h
    · cases h
    · rename_i r hr
      simp only [Except.ok.injEq, Prod.mk.injEq] at h
      obtain ⟨h1, h2⟩ := h
      subst h1; subst h2
      refine ⟨rfl, ?_⟩
      simp [camFetchNextHeapTuple, camFetchNextHeapTuple_exec, hd, hr]

/-- The loop of `cam_getnext_heaptuple` on a result of rows, after the select
statement has been executed: with more fuel than rows it returns the first
tuple that `heaptuple_matches_key` accepts and leaves the rows behind it. -/
theorem cam_getnext_heaptuple_loop_rows (env : PgExec) (is_forward_scan : Bool) (nkeys : Nat)
    (key : List ScanKeyData) (sk_attno : List AttrNumber) (camScan : CamScanDescData)
    (hdone : camScan.is_exec_done = true) :
    ∀ (rows : List K2Row) (fuel : Nat) (recheck : Bool), rows.length < fuel →
      ∃ recheck1 : Bool,
        cam_getnext_heaptuple_loop env is_forward_scan nkeys key sk_attno fuel camScan recheck
            (rows.map Except.ok) =
          some (.ok ((rows.map (camFetchNextHeapTuple_tuple env camScan)).find?
              (fun t => (heaptuple_matches_key env t camScan.target_desc nkeys key sk_attno).1),
            recheck1, camScan,
            ((rows.dropWhile (fun r => !(heaptuple_matches_key env
                (camFetchNextHeapTuple_tuple env camScan r) camScan.target_desc nkeys key
                sk_attno).1)).drop 1).map Except.ok)) := by
  intro rows
  induction rows with
  | nil =>
    intro fuel recheck hfuel
    obtain ⟨f, rfl⟩ : ∃ f, fuel = f + 1 := ⟨fuel - 1, by simp at hfuel; omega⟩
    refine ⟨recheck, ?_⟩
    simp only [List.map_nil, cam_getnext_heaptuple_loop,
      camFetchNextHeapTuple_done_nil env camScan is_forward_scan hdone]
    rfl
  | cons r rs ih =>
    intro fuel recheck hfuel
    obtain ⟨f, rfl⟩ : ∃ f, fuel = f + 1 := ⟨fuel - 1, by simp at hfuel; omega⟩
    have hf : rs.length < f := by simp at hfuel; omega
    simp only [List.map_cons, cam_getnext_heaptuple_loop,
      camFetchNextHeapTuple_done_cons env camScan is_forward_scan hdone]
    by_cases hacc : (heaptuple_matches_key env (camFetchNextHeapTuple_tuple env camScan r)
        camScan.target_desc nkeys key sk_attno).1 = true
    · refine ⟨(heaptuple_matches_key env (camFetchNextHeapTuple_tuple env camScan r)
        camScan.target_desc nkeys key sk_attno).2, ?_⟩
      simp [hacc, List.find?_cons, List.dropWhile_cons]
    · have hrej : (heaptuple_matches_key env (camFetchNextHeapTuple_tuple env camScan r)
          camScan.target_desc nkeys key sk_attno).1 = false := by simpa using hacc
      obtain ⟨recheck1, h1⟩ := ih f (heaptuple_matches_key env
        (camFetchNextHeapTuple_tuple env camScan r) camScan.target_desc nkeys key sk_attno).2 hf
      refine ⟨recheck1, ?_⟩
      simp only [hrej, Bool.false_eq_true, if_false, h1, List.find?_cons, List.dropWhile_cons,
        Bool.not_false, if_true]

/-- C13: when the remote result, once the select statement has been executed,
is the finite sequence `rows`, `cam_getnext_heaptuple` (given more fuel than
there are rows) returns the tuple of the first row, in fetch order, that
`heaptuple_matches_key` accepts, leaves in the store exactly the rows behind
that row (every row before it has been consumed and discarded), and returns
NULL exactly when no row of the sequence is accepted, the sequence then being
used up. -/
theorem C13_getnext_returns_first_accepted_row (env : PgExec)
    (camScan camScan1 : CamScanDescData) (is_forward_scan recheck : Bool)
    (remote : RemoteResult) (rows : List K2Row) (fuel : Nat)
    (hexec : camFetchNextHeapTuple_exec env camScan is_forward_scan remote
      = .ok (camScan1, rows.map Except.ok))
    (hfuel : rows.length < fuel) :
    ∃ recheck1 : Bool,
      cam_getnext_heaptuple env camScan is_forward_scan recheck remote fuel =
        some (.ok ((rows.map (camFetchNextHeapTuple_tuple env camScan)).find?
            (fun t => (heaptuple_matches_key env t camScan.target_desc camScan.nkeys
              camScan.key camScan.target_key_attnums).1),
          recheck1, camScan1,
          ((rows.dropWhile (fun r => !(heaptuple_matches_key env
              (camFetchNextHeapTuple_tuple env camScan r) camScan.target_desc camScan.nkeys
              camScan.key camScan.target_key_attnums).1)).drop 1).map Except.ok)) ∧
      ((rows.map (camFetchNextHeapTuple_tuple env camScan)).find?
            (fun t => (heaptuple_matches_key env t camScan.target_desc camScan.nkeys
              camScan.key camScan.target_key_attnums).1) = none ↔
        (∀ r ∈ rows, (heaptuple_matches_key env (camFetchNextHeapTuple_tuple env camScan r)
            camScan.target_desc camScan.nkeys camScan.key camScan.target_key_attnums).1 = false) ∧
        ((rows.dropWhile (fun r => !(heaptuple_matches_key env
              (camFetchNextHeapTuple_tuple env camScan r) camScan.target_desc camScan.nkeys
              camScan.key camScan.target_key_attnums).1)).drop 1) = []) := by
  obtain ⟨hc1, hfetch⟩ :=
    camFetchNextHeapTuple_exec_ok env camScan camScan1 is_forward_scan remote _ hexec
  have hdone : camScan1.is_exec_done = true := by rw [hc1]
  obtain ⟨f, rfl⟩ : ∃ f, fuel = f + 1 := ⟨fuel - 1, by omega⟩
  obtain ⟨recheck1, h1⟩ := cam_getnext_heaptuple_loop_rows env is_forward_scan camScan.nkeys
    camScan.key camScan.target_key_attnums camScan1 hdone rows (f + 1) recheck hfuel
  have htup : camFetchNextHeapTuple_tuple env camScan1 = camFetchNextHeapTuple_tuple env camScan := by
    rw [hc1]; rfl
  have hdesc : camScan1.target_desc = camScan.target_desc := by rw [hc1]
  rw [htup, hdesc] at h1
  refine ⟨recheck1, ?_, ?_⟩
  · rw [← h1]
    simp only [cam_getnext_heaptuple, cam_getnext_heaptuple_loop, hfetch]
  · rw [List.find?_eq_none]
    constructor
    · intro hall
      have hrej : ∀ r ∈ rows, (heaptuple_matches_key env (camFetchNextHeapTuple_tuple env camScan r)
          camScan.target_desc camScan.nkeys camScan.key camScan.target_key_attnums).1 = false := by
        intro r hr
        have := hall (camFetchNextHeapTuple_tuple env camScan r) (List.mem_map_of_mem _ hr)
        simpa using this
      refine ⟨hrej, ?_⟩
      have hdrop : rows.dropWhile (fun r => !(heaptuple_matches_key env
          (camFetchNextHeapTuple_tuple env camScan r) camScan.target_desc camScan.nkeys
          camScan.key camScan.target_key_attnums).1) = [] := by
        rw [List.dropWhile_eq_nil_iff]
        intro r hr
        simp [hrej r hr]
      rw [hdrop]; rfl
    · rintro ⟨hrej, -⟩ t ht
      obtain ⟨r, hr, rfl⟩ := List.mem_map.1 ht
      simp [hrej r hr]

/-- C13 at a concrete scan: the first call on the started example scan, with
the rows 3, 9, 4 under the key `x > 5`; the row 9 is returned, the row 3 is
consumed and the row 4 stays in the store. -/
theorem C13_getnext_returns_first_accepted_row_witness :
    ∃ recheck1 : Bool,
      cam_getnext_heaptuple exampleExec exampleGreaterScan true false
          ([exampleRow 3, exampleRow 9, exampleRow 4].map Except.ok) 4 =
        some (.ok (some (camFetchNextHeapTuple_tuple exampleExec exampleGreaterScan (exampleRow 9)),
          recheck1, { exampleGreaterScan with is_exec_done := true },
          [Except.ok (exampleRow 4)])) :=
  (C13_getnext_returns_first_accepted_row exampleExec exampleGreaterScan
    { exampleGreaterScan with is_exec_done := true } true false ([exampleRow 3, exampleRow 9, exampleRow 4].map Except.ok)
    [exampleRow 3, exampleRow 9, exampleRow 4] 4 rfl (by decide)).imp (fun _ h => h.1)

/-- The function `camFetchNextHeapTuple` leaves the target descriptor of the
scan as it is. -/
theorem camFetchNextHeapTuple_target_desc (env : PgExec) (camScan camScan1 : CamScanDescData)
    (is_forward_scan : Bool) (remote remote1 : RemoteResult) (t : Option HeapTupleData)
    (h : camFetchNextHeapTuple env camScan is_forward_scan remote = .ok (t, camScan1, remote1)) :
    camScan1.target_desc = camScan.target_desc := by
  simp only [camFetchNextHeapTuple] at h
  split at h
  · cases h
  · rename_i c r hexec
    obtain ⟨hc, -⟩ := camFetchNextHeapTuple_exec_ok env camScan c is_forward_scan remote r hexec
    split at h
    · cases h
    · simp only [Except.ok.injEq, Prod.mk.injEq] at h
      rw [← h.2.1, hc]
    · simp only [Except.ok.injEq, Prod.mk.injEq] at h
      rw [← h.2.1, hc]

/-- Every tuple that the loop of `cam_getnext_heaptuple` returns has been
accepted by `heaptuple_matches_key`. -/
theorem cam_getnext_heaptuple_loop_accepts (env : PgExec) (is_forward_scan : Bool) (nkeys : Nat)
    (key : List ScanKeyData) (sk_attno : List AttrNumber) :
    ∀ (fuel : Nat) (camScan : CamScanDescData) (recheck : Bool) (remote : RemoteResult)
      (tup : HeapTupleData) (recheck1 : Bool) (camScan1 : CamScanDescData)
      (remote1 : RemoteResult),
      cam_getnext_heaptuple_loop env is_forward_scan nkeys key sk_attno fuel camScan recheck
          remote = some (.ok (some tup, recheck1, camScan1, remote1)) →
      (heaptuple_matches_key env tup camScan.target_desc nkeys key sk_attno).1 = true := by
  intro fuel
  induction fuel with
  | zero =>
    intro camScan recheck remote tup recheck1 camScan1 remote1 h
    simp [cam_getnext_heaptuple_loop] at h
  | succ f ih =>
    intro camScan recheck remote tup recheck1 camScan1 remote1 h
    simp only [cam_getnext_heaptuple_loop] at h
    split at h
    · simp at h
    · simp at h
    · rename_i t c r hfetch
      have hdesc := camFetchNextHeapTuple_target_desc env camScan c is_forward_scan remote r _
        hfetch
      split at h
      · rename_i hacc
        simp only [Option.some.injEq, Except.ok.injEq, Prod.mk.injEq] at h
        rw [← h.1, ← hdesc]
        exact hacc
      · rw [← hdesc]
        exact ih c _ r tup recheck1 camScan1 remote1 h

/-- A tuple that `heaptuple_matches_key` accepts under a single key with flags
0 on a valid attribute number has a non-null value there for which the
comparison function of the key returns true. -/
theorem heaptuple_matches_key_single_basic (env : PgExec) (tup : HeapTupleData)
    (tupdesc : TupleDesc) (k : ScanKeyData) (sk_attno : List AttrNumber)
    (hflags : k.sk_flags = 0) (hattno : sk_attno.getD 0 0 ≠ 0)
    (h : (heaptuple_matches_key env tup tupdesc 1 [k] sk_attno).1 = true) :
    (env.heap_getattr tup (sk_attno.getD 0 0) tupdesc).2 = false ∧
      env.DatumGetBool (env.FunctionCall2Coll 0
        (env.heap_getattr tup (sk_attno.getD 0 0) tupdesc).1 k.sk_argument) = true := by
  have hrange : List.range 1 = [0] := rfl
  have hk : ([k] : List ScanKeyData).getD 0 default = k := rfl
  have ha : ¬ (sk_attno.getD 0 0 = (InvalidOid : Int)) := hattno
  have hz0 : (0 : Nat) &&& SK_SEARCHNULL = 0 := by decide
  have hz1 : (0 : Nat) &&& SK_SEARCHNOTNULL = 0 := by decide
  simp only [heaptuple_matches_key, hrange, heaptuple_matches_key_loop, hk, hflags, if_neg ha,
    hz0, hz1, ne_eq, not_true_eq_false, if_false] at h
  by_cases hnull : (env.heap_getattr tup (sk_attno.getD 0 0) tupdesc).2 = true
  · rw [if_pos hnull] at h; cases h
  · rw [if_neg hnull] at h
    refine ⟨by simpa using hnull, ?_⟩
    by_cases hm : env.DatumGetBool (env.FunctionCall2Coll 0
        (env.heap_getattr tup (sk_attno.getD 0 0) tupdesc).1 k.sk_argument) = true
    · exact hm
    · have hm1 : env.DatumGetBool (env.FunctionCall2Coll 0
        (env.heap_getattr tup (sk_attno.getD 0 0) tupdesc).1 k.sk_argument) = false := by
        simpa using hm
      rw [hm1] at h
      simp at h

/-- What a successful `camBeginScan` leaves in the scan descriptor: the keys
as given, and the constraints bound by `camBindScanKeys` under the column set
that `camSetupScanKeys` computed from the empty set. -/
theorem camBeginScan_ok (env : PgGate) (relation : RelationData)
    (index : Option RelationData) (xs_want_itup : Bool) (key : List ScanKeyData)
    (camScan : CamScanDescData)
    (hopen : camBeginScan env relation index xs_want_itup key = .ok camScan) :
    ∃ scan_plan : CamScanPlanData,
      scan_plan.sk_cols = ∅ ∧
      scan_plan.bind_key_attnums
          = key.map (fun k => (camSetupScanPlan_keyAttnums index xs_want_itup k).2) ∧
      camScan.key = key ∧
      camScan.constraints =
        (if relation.isSystemRelation then
          camBindScanKeys_system env relation key
            { scan_plan with sk_cols := (camSetupScanKeys_loop env relation key scan_plan
                (List.range key.length)
                { limit_count := 0, limit_offset := 0, limit_use_default := false } ∅).2 }
            (List.range key.length) []
        else
          camBindScanKeys_user env relation index key
            { scan_plan with sk_cols := (camSetupScanKeys_loop env relation key scan_plan
                (List.range key.length)
                { limit_count := 0, limit_offset := 0, limit_use_default := false } ∅).2 }
            []) := by
  simp only [camBeginScan] at hopen
  split at hopen
  · cases hopen
  · split at hopen
    · cases hopen
    · rename_i c1 p1 hplan
      obtain ⟨hkey, hexec, hcons, hsk, hbind, -⟩ :=
        camSetupScanPlan_ok env relation index xs_want_itup _ c1 p1 hplan
      split at hopen
      · cases hopen
      · rename_i c3 hc3
        cases hopen
        obtain ⟨-, hk3, hcs3⟩ := camBindScanKeys_ok env relation index _ c3 _ hc3
        have hk1 : c1.key = key := hkey
        have he1 : c1.exec_params
            = { limit_count := 0, limit_offset := 0, limit_use_default := false } := hexec
        have hc1 : c1.constraints = [] := hcons
        refine ⟨p1, hsk, hbind, ?_, ?_⟩
        · simp only [camSetupTargets, hk3, camSetupScanKeys, hk1]
        · simp only [camSetupTargets, hcs3, camSetupScanKeys, CamScanDescData.nkeys, hk1, he1,
            hc1, hsk]

/-- With no column selected, the system branch of `camBindScanKeys` binds
nothing. -/
theorem camBindScanKeys_system_no_cols (env : PgGate) (relation : RelationData)
    (key : List ScanKeyData) (scan_plan : CamScanPlanData) (hcols : scan_plan.sk_cols = ∅) :
    ∀ (l : List Nat) (constraints : List K2PgConstraintDef),
      camBindScanKeys_system env relation key scan_plan l constraints = constraints := by
  intro l
  induction l with
  | nil => intro constraints; rfl
  | cons i rest ih =>
    intro constraints
    simp only [camBindScanKeys_system, hcols, Finset.not_mem_empty, if_false]
    exact ih constraints

/-- When `ShouldPushdownScanKey` rejects every key, the loop of
`camSetupScanKeys` leaves the column set as it was. -/
theorem camSetupScanKeys_loop_all_rejected (env : PgGate) (relation : RelationData)
    (key : List ScanKeyData) (scan_plan : CamScanPlanData)
    (hrej : ∀ i a p, ShouldPushdownScanKey relation.isSystemRelation a (key.getD i default) p
      = false) :
    ∀ (l : List Nat) (e : K2PgSelectLimitParams) (cols : Bitmapset),
      (camSetupScanKeys_loop env relation key scan_plan l e cols).2 = cols := by
  intro l
  induction l with
  | nil => intro e cols; rfl
  | cons i rest ih =>
    intro e cols
    simp only [camSetupScanKeys_loop, hrej, Bool.not_false, if_true]
    split_ifs <;> first | rfl | exact ih _ _

/-- For a system relation a key whose strategy is not Equal is rejected by
`ShouldPushdownScanKey`. -/
theorem ShouldPushdownScanKey_system_not_equal (a : AttrNumber) (k : ScanKeyData) (p : Bool)
    (h : k.sk_strategy ≠ BTEqualStrategyNumber) :
    ShouldPushdownScanKey true a k p = false := by
  simp only [ShouldPushdownScanKey, if_true, Bool.and_eq_false_iff, beq_eq_false_iff_ne]
  exact Or.inr h

/-- C14: for a system table and the single scan key `x > 5` (flags 0, strategy
Greater) on a column `x` with a valid attribute number in the target relation,
`ShouldPushdownScanKey` rejects the key, `camBeginScan` binds no constraint,
and whatever the remote store returns, every tuple that
`cam_getnext_heaptuple` returns has a non-null `x` for which the comparison
function of the key, applied to `x` and 5, is true. -/
theorem C14_system_greater_key_is_rechecked (env : PgGate) (exec : PgExec)
    (relation : RelationData) (index : Option RelationData) (xs_want_itup : Bool)
    (x : AttrNumber) (camScan : CamScanDescData)
    (hsys : relation.isSystemRelation = true)
    (hopen : camBeginScan env relation index xs_want_itup
      [{ sk_flags := 0, sk_attno := x, sk_strategy := BTGreaterStrategyNumber,
         sk_argument := 5 }] = .ok camScan)
    (hcol : camScan.target_key_attnums.getD 0 0 ≠ 0) :
    (∀ (a : AttrNumber) (p : Bool), ShouldPushdownScanKey relation.isSystemRelation a
      { sk_flags := 0, sk_attno := x, sk_strategy := BTGreaterStrategyNumber,
        sk_argument := 5 } p = false) ∧
    camScan.constraints = [] ∧
    ∀ (is_forward_scan recheck : Bool) (remote : RemoteResult) (fuel : Nat)
      (tup : HeapTupleData) (recheck1 : Bool) (camScan1 : CamScanDescData)
      (remote1 : RemoteResult),
      cam_getnext_heaptuple exec camScan is_forward_scan recheck remote fuel
          = some (.ok (some tup, recheck1, camScan1, remote1)) →
      (exec.heap_getattr tup (camScan.target_key_attnums.getD 0 0) camScan.target_desc).2 = false ∧
      exec.DatumGetBool (exec.FunctionCall2Coll 0
        (exec.heap_getattr tup (camScan.target_key_attnums.getD 0 0) camScan.target_desc).1 5)
          = true := by
  have hrej : ∀ (i : Nat) (a : AttrNumber) (p : Bool),
      ShouldPushdownScanKey relation.isSystemRelation a
        (([{ sk_flags := 0, sk_attno := x, sk_strategy := BTGreaterStrategyNumber,
             sk_argument := 5 }] : List ScanKeyData).getD i default) p = false := by
    intro i a p
    rw [hsys]
    apply ShouldPushdownScanKey_system_not_equal
    cases i with
    | zero =>
      simp only [List.getD_cons_zero]
      show BTGreaterStrategyNumber ≠ BTEqualStrategyNumber
      decide
    | succ n =>
      simp only [List.getD_cons_succ, List.getD_nil]
      show InvalidStrategy ≠ BTEqualStrategyNumber
      decide
  obtain ⟨p1, hsk, -, hkey, hcons⟩ :=
    camBeginScan_ok env relation index xs_want_itup _ camScan hopen
  refine ⟨fun a p => hrej 0 a p, ?_, ?_⟩
  · rw [hcons, hsys]
    simp only [if_true]
    apply camBindScanKeys_system_no_cols
    show (camSetupScanKeys_loop env relation _ p1 _ _ ∅).2 = ∅
    exact camSetupScanKeys_loop_all_rejected env relation _ p1 hrej _ _ _
  · intro is_forward_scan recheck remote fuel tup recheck1 camScan1 remote1 hget
    have hacc := cam_getnext_heaptuple_loop_accepts exec is_forward_scan camScan.nkeys
      camScan.key camScan.target_key_attnums fuel camScan recheck remote tup recheck1 camScan1
      remote1 hget
    rw [CamScanDescData.nkeys, hkey] at hacc
    exact heaptuple_matches_key_single_basic exec tup camScan.target_desc _
      camScan.target_key_attnums rfl hcol hacc

/-- C14 at a concrete scan: the example system table with the key `x > 5` on
column 1 and a store holding the rows 3, 9, 4; no constraint is bound and the
returned tuple (the row 9) passes the comparison. -/
theorem C14_system_greater_key_is_rechecked_witness :
    exampleGreaterScan.constraints = [] ∧
    (exampleExec.heap_getattr
        (camFetchNextHeapTuple_tuple exampleExec exampleGreaterScan (exampleRow 9))
        (exampleGreaterScan.target_key_attnums.getD 0 0) exampleGreaterScan.target_desc).2 = false ∧
    exampleExec.DatumGetBool (exampleExec.FunctionCall2Coll 0
      (exampleExec.heap_getattr
        (camFetchNextHeapTuple_tuple exampleExec exampleGreaterScan (exampleRow 9))
        (exampleGreaterScan.target_key_attnums.getD 0 0) exampleGreaterScan.target_desc).1 5)
      = true :=
  have h := C14_system_greater_key_is_rechecked exampleGate exampleExec exampleSystemTable none
    false 1 exampleGreaterScan rfl rfl (by decide)
  ⟨h.2.1, h.2.2 true false ([exampleRow 3, exampleRow 9, exampleRow 4].map Except.ok) 4
    (camFetchNextHeapTuple_tuple exampleExec exampleGreaterScan (exampleRow 9)) false
    { exampleGreaterScan with is_exec_done := true } [Except.ok (exampleRow 4)] rfl⟩

/-! ## Descriptors and attribute numbers of the scan plan -/

/-- The descriptors that a successful `camSetupScanPlan` leaves in the scan
plan (`bind_desc`) and in the scan descriptor (`target_desc`). -/
theorem camSetupScanPlan_descs (env : PgGate) (relation : RelationData)
    (index : Option RelationData) (xs_want_itup : Bool) (camScan c1 : CamScanDescData)
    (p1 : CamScanPlanData)
    (h : camSetupScanPlan env relation index xs_want_itup camScan = .ok (c1, p1)) :
    p1.bind_desc =
        (match index with
         | none => relation.rd_att
         | some idx => if idx.indisprimary then relation.rd_att else idx.rd_att) ∧
      c1.target_desc =
        (match index with
         | none => relation.rd_att
         | some idx =>
           if idx.indisprimary then relation.rd_att
           else if xs_want_itup then idx.rd_att else relation.rd_att) := by
  cases index with
  | none =>
    simp only [camSetupScanPlan] at h
    split at h
    · cases h
    · rename_i c3 sp hl
      simp only [Except.ok.injEq, Prod.mk.injEq] at h
      obtain ⟨h1, h2⟩ := h
      subst h1; subst h2
      split at hl
      · cases hl
      · simp only [Except.ok.injEq, Prod.mk.injEq] at hl
        obtain ⟨h3, h4⟩ := hl
        subst h3; subst h4
        exact ⟨rfl, rfl⟩
  | some idx =>
    simp only [camSetupScanPlan] at h
    split at h
    · cases h
    · rename_i c3 sp hl
      simp only [Except.ok.injEq, Prod.mk.injEq] at h
      obtain ⟨h1, h2⟩ := h
      subst h1; subst h2
      by_cases hprim : idx.indisprimary = true
      · simp only [hprim, if_true] at hl
        split at hl
        · cases hl
        · simp only [Except.ok.injEq, Prod.mk.injEq] at hl
          obtain ⟨h3, h4⟩ := hl
          subst h3; subst h4
          simp only [hprim, if_true]
          exact ⟨trivial, trivial⟩
      · have hp : idx.indisprimary = false := by simpa using hprim
        simp only [hp, Bool.false_eq_true, if_false] at hl
        split at hl
        · cases hl
        · simp only [Except.ok.injEq, Prod.mk.injEq] at hl
          obtain ⟨h3, h4⟩ := hl
          subst h3; subst h4
          simp only [hp, Bool.false_eq_true, if_false]
          refine ⟨trivial, ?_⟩
          cases xs_want_itup <;> rfl

/-- C15: after a successful `camSetupScanPlan` the bind descriptor is the
descriptor of the index relation when an index is given and it is not primary,
and the descriptor of the base relation when no index is given or the index is
primary; so, the two descriptors being different, it is the index relation's
exactly when an index is given and it is not primary. -/
theorem C15_bind_descriptor (env : PgGate) (relation : RelationData)
    (index : Option RelationData) (xs_want_itup : Bool) (camScan c1 : CamScanDescData)
    (p1 : CamScanPlanData)
    (h : camSetupScanPlan env relation index xs_want_itup camScan = .ok (c1, p1)) :
    (∀ idx, index = some idx → idx.indisprimary = false → p1.bind_desc = idx.rd_att) ∧
    (index = none → p1.bind_desc = relation.rd_att) ∧
    (∀ idx, index = some idx → idx.indisprimary = true → p1.bind_desc = relation.rd_att) ∧
    (∀ idx, index = some idx → idx.rd_att ≠ relation.rd_att →
      (p1.bind_desc = idx.rd_att ↔ idx.indisprimary = false)) := by
  obtain ⟨hb, -⟩ := camSetupScanPlan_descs env relation index xs_want_itup camScan c1 p1 h
  refine ⟨?_, ?_, ?_, ?_⟩
  · intro idx hi hp
    subst hi
    simpa [hp] using hb
  · intro hi
    subst hi
    exact hb
  · intro idx hi hp
    subst hi
    simpa [hp] using hb
  · intro idx hi hne
    subst hi
    cases hp : idx.indisprimary
    · simp only [hp, Bool.false_eq_true, if_false] at hb
      simp [hb]
    · simp only [hp, if_true] at hb
      rw [hb]
      simp only [Bool.true_eq_false, iff_false]
      exact fun heq => hne heq.symm

/-- C15 at a concrete scan: the example user table through its secondary
index. -/
theorem C15_bind_descriptor_witness :
    exampleIndexPlan.bind_desc = exampleSecondaryIndex.rd_att ∧
    (exampleIndexPlan.bind_desc = exampleSecondaryIndex.rd_att ↔
      exampleSecondaryIndex.indisprimary = false) :=
  have h := C15_bind_descriptor exampleGate exampleUserTable (some exampleSecondaryIndex) false
    (camBeginScan_init exampleUserTable [exampleIndexKey]) exampleIndexScan exampleIndexPlan rfl
  ⟨h.1 exampleSecondaryIndex rfl rfl, h.2.2.2 exampleSecondaryIndex rfl (by decide)⟩

/-- C16: after a successful `camSetupScanPlan` the target descriptor is the
descriptor of the index relation when an index is given, is not primary and
`xs_want_itup` is true (then the bind descriptor is the index relation's too);
for a secondary index with `xs_want_itup` false the target descriptor is the
base relation's while the bind descriptor is the index relation's; with no
index or a primary index the target descriptor is the base relation's.  So,
the two descriptors being different, the target descriptor is the index
relation's exactly in the index-only case. -/
theorem C16_target_descriptor (env : PgGate) (relation : RelationData)
    (index : Option RelationData) (xs_want_itup : Bool) (camScan c1 : CamScanDescData)
    (p1 : CamScanPlanData)
    (h : camSetupScanPlan env relation index xs_want_itup camScan = .ok (c1, p1)) :
    (∀ idx, index = some idx → idx.indisprimary = false → xs_want_itup = true →
      c1.target_desc = idx.rd_att ∧ p1.bind_desc = idx.rd_att) ∧
    (∀ idx, index = some idx → idx.indisprimary = false → xs_want_itup = false →
      c1.target_desc = relation.rd_att ∧ p1.bind_desc = idx.rd_att) ∧
    (index = none → c1.target_desc = relation.rd_att) ∧
    (∀ idx, index = some idx → idx.indisprimary = true → c1.target_desc = relation.rd_att) ∧
    (∀ idx, index = some idx → idx.rd_att ≠ relation.rd_att →
      (c1.target_desc = idx.rd_att ↔ idx.indisprimary = false ∧ xs_want_itup = true)) := by
  obtain ⟨hb, ht⟩ := camSetupScanPlan_descs env relation index xs_want_itup camScan c1 p1 h
  refine ⟨?_, ?_, ?_, ?_, ?_⟩
  · intro idx hi hp hx
    subst hi
    exact ⟨by simpa [hp, hx] using ht, by simpa [hp] using hb⟩
  · intro idx hi hp hx
    subst hi
    exact ⟨by simpa [hp, hx] using ht, by simpa [hp] using hb⟩
  · intro hi
    subst hi
    exact ht
  · intro idx hi hp
    subst hi
    simpa [hp] using ht
  · intro idx hi hne
    subst hi
    cases hp : idx.indisprimary <;> cases hx : xs_want_itup <;>
      simp only [hp, hx, Bool.false_eq_true, if_false, if_true] at ht <;> rw [ht] <;>
      simp [Ne.symm hne]

/-- C16 at a concrete scan: the example user table through its secondary
index, returning base rows. -/
theorem C16_target_descriptor_witness :
    (exampleIndexScan.target_desc = exampleUserTable.rd_att ∧
      exampleIndexPlan.bind_desc = exampleSecondaryIndex.rd_att) ∧
    (exampleIndexScan.target_desc = exampleSecondaryIndex.rd_att ↔
      exampleSecondaryIndex.indisprimary = false ∧ false = true) :=
  have h := C16_target_descriptor exampleGate exampleUserTable (some exampleSecondaryIndex) false
    (camBeginScan_init exampleUserTable [exampleIndexKey]) exampleIndexScan exampleIndexPlan rfl
  ⟨h.2.1 exampleSecondaryIndex rfl rfl rfl, h.2.2.2.2 exampleSecondaryIndex rfl (by decide)⟩

/-- Reading `indkey.values[a - 1]` for an attribute number `a` between 1 and
the number of entries of `indkey` reads the entry stored there. -/
theorem indkey_values_in_range (idx : RelationData) (a : Int) (h1 : 1 ≤ a)
    (h2 : a ≤ (idx.rd_index.getD default).indkey.length) :
    (idx.rd_index.getD default).indkey[(a - 1).toNat]? = some (idx.indkey_values (a - 1)) := by
  have h1i : (1 : Int) ≤ a := h1
  have h2i : (a : Int) ≤ (((idx.rd_index.getD default).indkey.length : Nat) : Int) := h2
  have hlt : (a - 1).toNat < (idx.rd_index.getD default).indkey.length := by
    have h3 : ((a - 1).toNat : Int) = a - 1 := Int.toNat_of_nonneg (by omega)
    omega
  unfold RelationData.indkey_values
  rw [List.getD_eq_getElem?_getD, List.getElem?_eq_getElem hlt]
  rfl

/-- C17: for every key `i` of a scan set up by `camSetupScanPlan`, with
`a = key[i].sk_attno`: a sequential scan and an index-only scan on a secondary
index set bind = target = `a`; a primary-index scan sets bind = target =
`indkey[a - 1]`; a secondary-index scan returning base rows sets bind = `a`
and target = `indkey[a - 1]`, where `indkey[a - 1]` is the entry of the index
key array, read in range because `1 ≤ a ≤` the number of index attributes. -/
theorem C17_key_attribute_numbers (env : PgGate) (relation : RelationData)
    (index : Option RelationData) (xs_want_itup : Bool) (camScan c1 : CamScanDescData)
    (p1 : CamScanPlanData)
    (h : camSetupScanPlan env relation index xs_want_itup camScan = .ok (c1, p1))
    (i : Nat) (hi : i < camScan.key.length) :
    (index = none →
      p1.bind_key_attnums.getD i 0 = (camScan.key.getD i default).sk_attno ∧
      c1.target_key_attnums.getD i 0 = (camScan.key.getD i default).sk_attno) ∧
    (∀ idx, index = some idx → idx.indisprimary = true →
      1 ≤ (camScan.key.getD i default).sk_attno →
      (camScan.key.getD i default).sk_attno ≤ (idx.rd_index.getD default).indkey.length →
      ∃ v, (idx.rd_index.getD default).indkey[((camScan.key.getD i default).sk_attno - 1).toNat]?
          = some v ∧
        p1.bind_key_attnums.getD i 0 = v ∧ c1.target_key_attnums.getD i 0 = v) ∧
    (∀ idx, index = some idx → idx.indisprimary = false → xs_want_itup = true →
      p1.bind_key_attnums.getD i 0 = (camScan.key.getD i default).sk_attno ∧
      c1.target_key_attnums.getD i 0 = (camScan.key.getD i default).sk_attno) ∧
    (∀ idx, index = some idx → idx.indisprimary = false → xs_want_itup = false →
      1 ≤ (camScan.key.getD i default).sk_attno →
      (camScan.key.getD i default).sk_attno ≤ (idx.rd_index.getD default).indkey.length →
      ∃ v, (idx.rd_index.getD default).indkey[((camScan.key.getD i default).sk_attno - 1).toNat]?
          = some v ∧
        p1.bind_key_attnums.getD i 0 = (camScan.key.getD i default).sk_attno ∧
        c1.target_key_attnums.getD i 0 = v) := by
  obtain ⟨-, -, -, -, hbind, htarget⟩ :=
    camSetupScanPlan_ok env relation index xs_want_itup camScan c1 p1 h
  have hb : p1.bind_key_attnums.getD i 0 =
      (camSetupScanPlan_keyAttnums index xs_want_itup (camScan.key.getD i default)).2 := by
    rw [hbind]; exact getD_map_of_lt _ _ i default 0 hi
  have ht : c1.target_key_attnums.getD i 0 =
      (camSetupScanPlan_keyAttnums index xs_want_itup (camScan.key.getD i default)).1 := by
    rw [htarget]; exact getD_map_of_lt _ _ i default 0 hi
  rw [hb, ht]
  refine ⟨?_, ?_, ?_, ?_⟩
  · intro hidx
    subst hidx
    exact ⟨rfl, rfl⟩
  · intro idx hidx hp h1 h2
    subst hidx
    refine ⟨idx.indkey_values ((camScan.key.getD i default).sk_attno - 1),
      indkey_values_in_range idx _ h1 h2, ?_, ?_⟩ <;>
      simp only [camSetupScanPlan_keyAttnums, hp, if_true]
  · intro idx hidx hp hx
    subst hidx
    constructor <;>
      simp only [camSetupScanPlan_keyAttnums, hp, hx, Bool.false_eq_true, if_false, if_true]
  · intro idx hidx hp hx h1 h2
    subst hidx
    refine ⟨idx.indkey_values ((camScan.key.getD i default).sk_attno - 1),
      indkey_values_in_range idx _ h1 h2, ?_, ?_⟩ <;>
      simp only [camSetupScanPlan_keyAttnums, hp, hx, Bool.false_eq_true, if_false]

/-- C17 at a concrete scan: the example user table through its secondary index
on column 2, returning base rows, with a key on index column 1: the bind
attribute number is 1 and the target attribute number is 2. -/
theorem C17_key_attribute_numbers_witness :
    ∃ v, (exampleSecondaryIndex.rd_index.getD default).indkey[
          (((camBeginScan_init exampleUserTable [exampleIndexKey]).key.getD 0 default).sk_attno
            - 1).toNat]? = some v ∧
      exampleIndexPlan.bind_key_attnums.getD 0 0 =
        ((camBeginScan_init exampleUserTable [exampleIndexKey]).key.getD 0 default).sk_attno ∧
      exampleIndexScan.target_key_attnums.getD 0 0 = v :=
  (C17_key_attribute_numbers exampleGate exampleUserTable (some exampleSecondaryIndex) false
    (camBeginScan_init exampleUserTable [exampleIndexKey]) exampleIndexScan exampleIndexPlan rfl
    0 (by decide)).2.2.2 exampleSecondaryIndex rfl rfl rfl (by decide) (by decide)

/-! ## Selectivity of index clauses -/

/-- C18: the four selectivity constants being such that only the full-scan one
has the full-scan value, `camIndexEvalClauseSelectivity` returns the full-scan
selectivity exactly when `qual_cols` is empty or `nonprimary_key` is not a
subset of `qual_cols`. -/
theorem C18_full_scan_iff {α : Type} (K2PG_FULL_SCAN_SELECTIVITY K2PG_SINGLE_ROW_SELECTIVITY
    K2PG_SINGLE_KEY_SELECTIVITY K2PG_HASH_SCAN_SELECTIVITY : α)
    (qual_cols : Bitmapset) (is_unique_idx : Bool) (nonprimary_key primary_key : Bitmapset)
    (hrow : K2PG_SINGLE_ROW_SELECTIVITY ≠ K2PG_FULL_SCAN_SELECTIVITY)
    (hkey : K2PG_SINGLE_KEY_SELECTIVITY ≠ K2PG_FULL_SCAN_SELECTIVITY)
    (hhash : K2PG_HASH_SCAN_SELECTIVITY ≠ K2PG_FULL_SCAN_SELECTIVITY) :
    camIndexEvalClauseSelectivity K2PG_FULL_SCAN_SELECTIVITY K2PG_SINGLE_ROW_SELECTIVITY
        K2PG_SINGLE_KEY_SELECTIVITY K2PG_HASH_SCAN_SELECTIVITY qual_cols is_unique_idx
        nonprimary_key primary_key = K2PG_FULL_SCAN_SELECTIVITY ↔
      (qual_cols = ∅ ∨ ¬ nonprimary_key ⊆ qual_cols) := by
  unfold camIndexEvalClauseSelectivity
  by_cases hg : qual_cols = ∅ ∨ ¬ nonprimary_key ⊆ qual_cols
  · have hg1 : (decide (qual_cols = ∅) || !decide (nonprimary_key ⊆ qual_cols)) = true := by
      rcases hg with h | h <;> simp [h]
    rw [if_pos hg1]
    exact ⟨fun _ => hg, fun _ => rfl⟩
  · have hg1 : ¬ (decide (qual_cols = ∅) || !decide (nonprimary_key ⊆ qual_cols)) = true := by
      intro hc
      apply hg
      simp only [Bool.or_eq_true, decide_eq_true_eq, Bool.not_eq_true', decide_eq_false_iff_not]
        at hc
      exact hc
    rw [if_neg hg1]
    constructor
    · intro h
      exfalso
      split_ifs at h
      · exact hrow h
      · exact hkey h
      · exact hhash h
    · intro h
      exact absurd h hg

/-- C18 at concrete sets, with the selectivities 1000, 1, 10 and 100 (in
thousandths): the only key column is bound and the result is not the full-scan
value. -/
theorem C18_full_scan_iff_witness :
    camIndexEvalClauseSelectivity (1000 : Nat) 1 10 100 {11} true ∅ {11} = 1000 ↔
      (({11} : Bitmapset) = ∅ ∨ ¬ (∅ : Bitmapset) ⊆ {11}) :=
  C18_full_scan_iff (1000 : Nat) 1 10 100 {11} true ∅ {11} (by decide) (by decide) (by decide)

/-- C19: whenever `camIndexEvalClauseSelectivity` does not return the full-scan
selectivity, it returns the single-row selectivity if `primary_key` is a
subset of `qual_cols` and the index is unique, the single-key selectivity if
`primary_key` is a subset of `qual_cols` and the index is not unique, and the
hash-scan selectivity otherwise. -/
theorem C19_selectivity_below_full_scan {α : Type} (K2PG_FULL_SCAN_SELECTIVITY
    K2PG_SINGLE_ROW_SELECTIVITY K2PG_SINGLE_KEY_SELECTIVITY K2PG_HASH_SCAN_SELECTIVITY : α)
    (qual_cols : Bitmapset) (is_unique_idx : Bool) (nonprimary_key primary_key : Bitmapset)
    (h : camIndexEvalClauseSelectivity K2PG_FULL_SCAN_SELECTIVITY K2PG_SINGLE_ROW_SELECTIVITY
        K2PG_SINGLE_KEY_SELECTIVITY K2PG_HASH_SCAN_SELECTIVITY qual_cols is_unique_idx
        nonprimary_key primary_key ≠ K2PG_FULL_SCAN_SELECTIVITY) :
    (primary_key ⊆ qual_cols → is_unique_idx = true →
      camIndexEvalClauseSelectivity K2PG_FULL_SCAN_SELECTIVITY K2PG_SINGLE_ROW_SELECTIVITY
        K2PG_SINGLE_KEY_SELECTIVITY K2PG_HASH_SCAN_SELECTIVITY qual_cols is_unique_idx
        nonprimary_key primary_key = K2PG_SINGLE_ROW_SELECTIVITY) ∧
    (primary_key ⊆ qual_cols → is_unique_idx = false →
      camIndexEvalClauseSelectivity K2PG_FULL_SCAN_SELECTIVITY K2PG_SINGLE_ROW_SELECTIVITY
        K2PG_SINGLE_KEY_SELECTIVITY K2PG_HASH_SCAN_SELECTIVITY qual_cols is_unique_idx
        nonprimary_key primary_key = K2PG_SINGLE_KEY_SELECTIVITY) ∧
    (¬ primary_key ⊆ qual_cols →
      camIndexEvalClauseSelectivity K2PG_FULL_SCAN_SELECTIVITY K2PG_SINGLE_ROW_SELECTIVITY
        K2PG_SINGLE_KEY_SELECTIVITY K2PG_HASH_SCAN_SELECTIVITY qual_cols is_unique_idx
        nonprimary_key primary_key = K2PG_HASH_SCAN_SELECTIVITY) := by
  have hg : ¬ (decide (qual_cols = ∅) || !decide (nonprimary_key ⊆ qual_cols)) = true := by
    intro hc
    apply h
    unfold camIndexEvalClauseSelectivity
    rw [if_pos hc]
  unfold camIndexEvalClauseSelectivity
  rw [if_neg hg]
  refine ⟨?_, ?_, ?_⟩
  · intro hsub hu
    rw [if_pos (decide_eq_true hsub), if_pos hu]
  · intro hsub hu
    rw [if_pos (decide_eq_true hsub), hu]
    rfl
  · intro hsub
    rw [if_neg (by simpa using hsub)]

/-- C19 at concrete sets, with the selectivities 1000, 1, 10 and 100 (in
thousandths): a unique index whose only key column is bound gives the
single-row selectivity. -/
theorem C19_selectivity_below_full_scan_witness :
    camIndexEvalClauseSelectivity (1000 : Nat) 1 10 100 {11} true ∅ {11} = 1 :=
  (C19_selectivity_below_full_scan (1000 : Nat) 1 10 100 {11} true ∅ {11} (by decide)).1
    (by decide) rfl

/-! ## The key-count check of `camBeginScan` -/

/-- An error of `camLoadTableInfo` is an error of a gate call: when no gate
call reports too many columns, `camLoadTableInfo` does not either. -/
theorem camLoadTableInfo_error (env : PgGate)
    (hdesc : ∀ d r, env.PgGate_GetTableDesc d r ≠ .error .too_many_columns)
    (hcol : ∀ t a, env.PgGate_GetColumnInfo t a ≠ .error .too_many_columns)
    (relation : RelationData) (scan_plan : CamScanPlanData) :
    camLoadTableInfo env relation scan_plan ≠ .error .too_many_columns := by
  have hcheck : ∀ (z : CamScanPlanData) (d : Nat) (a : AttrNumber),
      camCheckPrimaryKeyAttribute env z d a ≠ .error .too_many_columns := by
    intro z d a hc
    simp only [camCheckPrimaryKeyAttribute] at hc
    split at hc
    · rename_i e he
      cases hc
      exact hcol d a he
    · split at hc <;> cases hc
  have hloop : ∀ (d : Nat) (l : List AttrNumber) (z : CamScanPlanData),
      camLoadTableInfo_loop env d l z ≠ .error .too_many_columns := by
    intro d l
    induction l with
    | nil => intro z hl; simp only [camLoadTableInfo_loop] at hl; cases hl
    | cons a rest ih =>
      intro z hl
      simp only [camLoadTableInfo_loop] at hl
      split at hl
      · rename_i e he
        cases hl
        exact hcheck z d a he
      · exact ih _ hl
  intro h
  simp only [camLoadTableInfo] at h
  split at h
  · rename_i e he
    cases h
    exact hdesc _ _ he
  · split at h
    · rename_i e he
      cases h
      exact hloop _ _ _ he
    · split at h
      · exact hcheck _ _ _ h
      · cases h

/-- An error of `camSetupScanPlan` is an error of a gate call. -/
theorem camSetupScanPlan_error (env : PgGate)
    (hdesc : ∀ d r, env.PgGate_GetTableDesc d r ≠ .error .too_many_columns)
    (hcol : ∀ t a, env.PgGate_GetColumnInfo t a ≠ .error .too_many_columns)
    (relation : RelationData) (index : Option RelationData) (xs_want_itup : Bool)
    (camScan : CamScanDescData) :
    camSetupScanPlan env relation index xs_want_itup camScan ≠ .error .too_many_columns := by
  intro h
  simp only [camSetupScanPlan] at h
  split at h
  · rename_i e hl
    cases h
    split at hl
    · split at hl
      · rename_i e1 he1
        cases hl
        exact camLoadTableInfo_error env hdesc hcol _ _ he1
      · cases hl
    · split at hl
      · split at hl
        · rename_i e1 he1
          cases hl
          exact camLoadTableInfo_error env hdesc hcol _ _ he1
        · cases hl
      · split at hl
        · rename_i e1 he1
          cases hl
          exact camLoadTableInfo_error env hdesc hcol _ _ he1
        · cases hl
  · cases h

/-- An error of `camBindScanKeys` is the error of `PgGate_NewSelect`. -/
theorem camBindScanKeys_error (env : PgGate)
    (hsel : ∀ d r q, env.PgGate_NewSelect d r q ≠ .error .too_many_columns)
    (relation : RelationData) (index : Option RelationData) (camScan : CamScanDescData)
    (scan_plan : CamScanPlanData) :
    camBindScanKeys env relation index camScan scan_plan ≠ .error .too_many_columns := by
  intro h
  simp only [camBindScanKeys] at h
  split at h
  · rename_i e he
    cases h
    exact hsel _ _ _ he
  · split at h <;> cases h

/-- C20: `camBeginScan` fails with the too-many-columns error whenever
`nkeys > K2PG_MAX_SCAN_KEYS`, whatever the gate calls (`PgGate_GetTableDesc`,
`PgGate_GetColumnInfo`, `PgGate_NewSelect`) would return, so that the failure
is decided before any select statement is created and before the keys are
used; when `nkeys ≤ K2PG_MAX_SCAN_KEYS` and no gate call reports that error,
`camBeginScan` does not fail with it. -/
theorem C20_key_count_check (env : PgGate) (relation : RelationData)
    (index : Option RelationData) (xs_want_itup : Bool) (key : List ScanKeyData) :
    (key.length > env.K2PG_MAX_SCAN_KEYS →
      camBeginScan env relation index xs_want_itup key = .error .too_many_columns) ∧
    (key.length ≤ env.K2PG_MAX_SCAN_KEYS →
      (∀ d r, env.PgGate_GetTableDesc d r ≠ .error .too_many_columns) →
      (∀ t a, env.PgGate_GetColumnInfo t a ≠ .error .too_many_columns) →
      (∀ d r q, env.PgGate_NewSelect d r q ≠ .error .too_many_columns) →
      camBeginScan env relation index xs_want_itup key ≠ .error .too_many_columns) := by
  constructor
  · intro hgt
    simp only [camBeginScan, if_pos hgt]
  · intro hle hdesc hcol hsel h
    simp only [camBeginScan, if_neg (Nat.not_lt.2 hle)] at h
    split at h
    · rename_i e he
      cases h
      exact camSetupScanPlan_error env hdesc hcol _ _ _ _ he
    · split at h
      · rename_i e he
        cases h
        exact camBindScanKeys_error env hsel _ _ _ _ he
      · cases h

/-- C20 at concrete scans: with room for one key the two keys of
`exampleRangeKeys` are refused, and with room for 64 keys they are not. -/
theorem C20_key_count_check_witness :
    camBeginScan exampleSmallGate exampleUserTable none false exampleRangeKeys
        = .error .too_many_columns ∧
    camBeginScan exampleGate exampleUserTable none false exampleRangeKeys
        ≠ .error .too_many_columns :=
  ⟨(C20_key_count_check exampleSmallGate exampleUserTable none false exampleRangeKeys).1
      (by decide),
   (C20_key_count_check exampleGate exampleUserTable none false exampleRangeKeys).2
      (by decide) (fun _ _ h => by cases h) (fun _ _ h => by cases h)
      (fun _ _ _ h => by cases h)⟩

/-! ## Encodings per type class -/

/-- The signed reading of the low `w` bits of a word, written out. -/
theorem toSigned_low_bits (w d : Nat) :
    toSigned w (d &&& (2 ^ w - 1)) =
      if d % 2 ^ w < 2 ^ (w - 1) then ((d % 2 ^ w : Nat) : Int)
      else ((d % 2 ^ w : Nat) : Int) - (2 : Int) ^ w := by
  rw [Nat.and_pow_two_sub_one_eq_mod]
  unfold toSigned
  rw [Nat.mod_mod]
  push_cast
  rfl

/-- The signed reading of a word as `w` bits, written out. -/
theorem toSigned_word (w d : Nat) :
    toSigned w d =
      if d % 2 ^ w < 2 ^ (w - 1) then ((d % 2 ^ w : Nat) : Int)
      else ((d % 2 ^ w : Nat) : Int) - (2 : Int) ^ w := by
  unfold toSigned
  push_cast
  rfl

/-- For a non-null constant `serializePGConstToK2SKV` hands the field of
`encodePGConst` to `serializeNext`. -/
theorem serializePGConstToK2SKV_of_encode (pg_detoast_datum : Datum → Option Varlena)
    (builder : SKVRecordBuilder) (constant : K2PgConstant) (value : SKVField)
    (hnn : constant.is_null = false)
    (henc : encodePGConst pg_detoast_datum constant = some value) :
    serializePGConstToK2SKV pg_detoast_datum builder constant = builder.serializeNext value := by
  rw [serializePGConstToK2SKV_eq, hnn, henc]
  rfl

/-- C21: for a non-null constant of an integer class with datum `d`,
`serializePGConstToK2SKV` hands to `serializeNext`: for CHAR and INT1 an Int16
equal to the low 8 bits of `d` read as a signed 8-bit value; for INT2 an Int16
equal to the low 16 bits read as signed; for INT4 and DATE an Int32 equal to
the low 32 bits read as signed; for INT8, TIMESTAMP, TIMESTAMPTZ, TIME and
INTERVAL an Int64 equal to the 64-bit word `d` read as signed. -/
theorem C21_integer_class_encodings (pg_detoast_datum : Datum → Option Varlena)
    (builder : SKVRecordBuilder) (constant : K2PgConstant)
    (hnn : constant.is_null = false) :
    ((constant.type_id = CHAROID ∨ constant.type_id = INT1OID) →
      serializePGConstToK2SKV pg_detoast_datum builder constant =
        builder.serializeNext (.int16
          (if constant.datum % 2 ^ 8 < 2 ^ 7 then ((constant.datum % 2 ^ 8 : Nat) : Int)
           else ((constant.datum % 2 ^ 8 : Nat) : Int) - 2 ^ 8))) ∧
    (constant.type_id = INT2OID →
      serializePGConstToK2SKV pg_detoast_datum builder constant =
        builder.serializeNext (.int16
          (if constant.datum % 2 ^ 16 < 2 ^ 15 then ((constant.datum % 2 ^ 16 : Nat) : Int)
           else ((constant.datum % 2 ^ 16 : Nat) : Int) - 2 ^ 16))) ∧
    ((constant.type_id = INT4OID ∨ constant.type_id = DATEOID) →
      serializePGConstToK2SKV pg_detoast_datum builder constant =
        builder.serializeNext (.int32
          (if constant.datum % 2 ^ 32 < 2 ^ 31 then ((constant.datum % 2 ^ 32 : Nat) : Int)
           else ((constant.datum % 2 ^ 32 : Nat) : Int) - 2 ^ 32))) ∧
    ((constant.type_id = INT8OID ∨ constant.type_id = TIMESTAMPOID ∨
        constant.type_id = TIMESTAMPTZOID ∨ constant.type_id = TIMEOID ∨
        constant.type_id = INTERVALOID) →
      serializePGConstToK2SKV pg_detoast_datum builder constant =
        builder.serializeNext (.int64
          (if constant.datum % 2 ^ 64 < 2 ^ 63 then ((constant.datum % 2 ^ 64 : Nat) : Int)
           else ((constant.datum % 2 ^ 64 : Nat) : Int) - 2 ^ 64))) := by
  have h8 : toSigned 8 (constant.datum &&& 0x000000ff) = _ :=
    toSigned_low_bits 8 constant.datum
  have h16 : toSigned 16 (constant.datum &&& 0x0000ffff) = _ :=
    toSigned_low_bits 16 constant.datum
  have h32 : toSigned 32 (constant.datum &&& 0xffffffff) = _ :=
    toSigned_low_bits 32 constant.datum
  have h64 := toSigned_word 64 constant.datum
  refine ⟨?_, ?_, ?_, ?_⟩
  · intro ht
    apply serializePGConstToK2SKV_of_encode _ _ _ _ hnn
    rw [← h8]
    rcases ht with ht | ht <;>
      simp [encodePGConst, hnn, ht, isStringType, is1ByteIntType, CHAROID, INT1OID, VARCHAROID,
        BPCHAROID, TEXTOID, CLOBOID, BYTEAOID]
  · intro ht
    apply serializePGConstToK2SKV_of_encode _ _ _ _ hnn
    rw [← h16]
    simp [encodePGConst, hnn, ht, isStringType, is1ByteIntType, is2ByteIntType, CHAROID,
      INT1OID, INT2OID, VARCHAROID, BPCHAROID, TEXTOID, CLOBOID, BYTEAOID]
  · intro ht
    apply serializePGConstToK2SKV_of_encode _ _ _ _ hnn
    rw [← h32]
    rcases ht with ht | ht <;>
      simp [encodePGConst, hnn, ht, isStringType, is1ByteIntType, is2ByteIntType,
        is4ByteIntType, CHAROID, INT1OID, INT2OID, INT4OID, DATEOID, VARCHAROID, BPCHAROID,
        TEXTOID, CLOBOID, BYTEAOID]
  · intro ht
    apply serializePGConstToK2SKV_of_encode _ _ _ _ hnn
    rw [← h64]
    rcases ht with ht | ht | ht | ht | ht <;>
      simp [encodePGConst, hnn, ht, isStringType, is1ByteIntType, is2ByteIntType,
        is4ByteIntType, is8ByteIntType, CHAROID, INT1OID, INT2OID, INT4OID, DATEOID, INT8OID,
        TIMESTAMPOID, TIMESTAMPTZOID, TIMEOID, INTERVALOID, VARCHAROID, BPCHAROID, TEXTOID,
        CLOBOID, BYTEAOID]

/-- C21 at a concrete constant: the `int4` datum `2 ^ 32 - 5` is written as the
Int32 value -5. -/
theorem C21_integer_class_encodings_witness :
    serializePGConstToK2SKV exampleDetoast exampleBuilderAtInt4 exampleInt4Constant =
      .ok { exampleBuilderAtInt4 with
            written := exampleBuilderAtInt4.written ++ [.int32 (-5)] } :=
  (C21_integer_class_encodings exampleDetoast exampleBuilderAtInt4 exampleInt4Constant
    rfl).2.2.1 (Or.inl rfl)

/-- The payload of a detoasted value is what `VARDATA` and `VARSIZE` delimit. -/
theorem VARDATA_take (data : Varlena) :
    (VARDATA data).take (VARSIZE data - VARHDRSZ) = data.vl_dat ∧
      data.vl_dat.length = VARSIZE data - VARHDRSZ := by
  have h1 : VARDATA data = data.vl_dat := by
    simp [VARDATA, Varlena.bytes, VARHDRSZ]
  have h2 : VARSIZE data - VARHDRSZ = data.vl_dat.length := by
    simp [VARSIZE]
  rw [h1, h2]
  exact ⟨List.take_length _, rfl⟩

/-- C22: for every null constant `serializePGConstToK2SKV` writes the null
marker whatever the declared type; for a non-null constant of a string-like
type (VARCHAR, BPCHAR, TEXT, CLOB, BYTEA) whose datum points to a
variable-length value it hands one string field to `serializeNext`, whose
bytes are the payload of that value without its header, `VARSIZE - VARHDRSZ`
bytes long. -/
theorem C22_string_and_null_encodings (pg_detoast_datum : Datum → Option Varlena)
    (builder : SKVRecordBuilder) (constant : K2PgConstant) :
    (constant.is_null = true →
      serializePGConstToK2SKV pg_detoast_datum builder constant = builder.serializeNull) ∧
    (constant.is_null = false →
      (constant.type_id = VARCHAROID ∨ constant.type_id = BPCHAROID ∨
        constant.type_id = TEXTOID ∨ constant.type_id = CLOBOID ∨
        constant.type_id = BYTEAOID) →
      ∀ data, pg_detoast_datum constant.datum = some data →
        serializePGConstToK2SKV pg_detoast_datum builder constant =
          builder.serializeNext (.string data.vl_dat) ∧
        data.vl_dat.length = VARSIZE data - VARHDRSZ) := by
  constructor
  · intro hn
    rw [serializePGConstToK2SKV_eq, if_pos hn]
  · intro hnn ht data hdata
    refine ⟨?_, (VARDATA_take data).2⟩
    apply serializePGConstToK2SKV_of_encode _ _ _ _ hnn
    have hs : isStringType constant.type_id = true := by
      rcases ht with ht | ht | ht | ht | ht <;> rw [ht] <;> decide
    simp only [encodePGConst, hnn, Bool.false_eq_true, if_false, hs, if_true, hdata,
      Option.map_some', (VARDATA_take data).1]

/-- C22 at concrete constants: the `text` constant `hi` is written as the two
payload bytes, and a null constant of the same type as the null marker. -/
theorem C22_string_and_null_encodings_witness :
    (serializePGConstToK2SKV exampleDetoast exampleBuilderAtText exampleTextConstant =
        exampleBuilderAtText.serializeNext (.string [104, 105]) ∧
      ([104, 105] : List Nat).length = VARSIZE { vl_len_ := (24, 0, 0, 0), vl_dat := [104, 105] }
        - VARHDRSZ) ∧
    serializePGConstToK2SKV exampleDetoast exampleBuilderAtText
        { exampleTextConstant with is_null := true } = exampleBuilderAtText.serializeNull :=
  ⟨(C22_string_and_null_encodings exampleDetoast exampleBuilderAtText exampleTextConstant).2
      rfl (Or.inr (Or.inr (Or.inl rfl))) { vl_len_ := (24, 0, 0, 0), vl_dat := [104, 105] } rfl,
   (C22_string_and_null_encodings exampleDetoast exampleBuilderAtText
      { exampleTextConstant with is_null := true }).1 rfl⟩

/-- C23: for a non-null FLOAT4 constant with datum `d` the single-precision
value that `serializePGConstToK2SKV` hands to `serializeNext` has the low 32
bits of `d` as its bit pattern, and for a non-null FLOAT8 constant the double
has the 64 bits of `d` as its bit pattern; no numeric conversion takes place. -/
theorem C23_float_encodings (pg_detoast_datum : Datum → Option Varlena)
    (builder : SKVRecordBuilder) (constant : K2PgConstant)
    (hnn : constant.is_null = false) :
    (constant.type_id = FLOAT4OID →
      serializePGConstToK2SKV pg_detoast_datum builder constant =
        builder.serializeNext (.float (constant.datum % 2 ^ 32))) ∧
    (constant.type_id = FLOAT8OID →
      serializePGConstToK2SKV pg_detoast_datum builder constant =
        builder.serializeNext (.double (constant.datum % 2 ^ 64))) := by
  have hmask : (constant.datum &&& 0xffffffff) % 2 ^ 32 = constant.datum % 2 ^ 32 := by
    have h := Nat.and_pow_two_sub_one_eq_mod constant.datum 32
    have h1 : constant.datum &&& 0xffffffff = constant.datum % 2 ^ 32 := h
    rw [h1, Nat.mod_mod]
  constructor
  · intro ht
    apply serializePGConstToK2SKV_of_encode _ _ _ _ hnn
    rw [← hmask]
    simp [encodePGConst, hnn, ht, isStringType, is1ByteIntType, is2ByteIntType,
      is4ByteIntType, is8ByteIntType, CHAROID, INT1OID, INT2OID, INT4OID, DATEOID, INT8OID,
      TIMESTAMPOID, TIMESTAMPTZOID, TIMEOID, INTERVALOID, VARCHAROID, BPCHAROID, TEXTOID,
      CLOBOID, BYTEAOID, FLOAT4OID]
  · intro ht
    apply serializePGConstToK2SKV_of_encode _ _ _ _ hnn
    simp [encodePGConst, hnn, ht, isStringType, is1ByteIntType, is2ByteIntType,
      is4ByteIntType, is8ByteIntType, CHAROID, INT1OID, INT2OID, INT4OID, DATEOID, INT8OID,
      TIMESTAMPOID, TIMESTAMPTZOID, TIMEOID, INTERVALOID, VARCHAROID, BPCHAROID, TEXTOID,
      CLOBOID, BYTEAOID, FLOAT4OID, FLOAT8OID]

/-- C23 at a concrete constant: the `float4` datum with the bit pattern of 1.0
is written as the float with that bit pattern. -/
theorem C23_float_encodings_witness :
    serializePGConstToK2SKV exampleDetoast exampleBuilderAtFloat exampleFloat4Constant =
      .ok { exampleBuilderAtFloat with
            written := exampleBuilderAtFloat.written ++ [.float 1065353216] } :=
  (C23_float_encodings exampleDetoast exampleBuilderAtFloat exampleFloat4Constant rfl).1 rfl

/-- C24: for a non-null constant whose type is in none of the string, integer,
date/time or float classes, `serializePGConstToK2SKV` treats the datum as the
address of a variable-length value.  When the datum is such an address it
hands one string field to `serializeNext`, whose bytes are the whole value,
header included, `VARSIZE` bytes long; when it is not (a constant passed by
value, such as an `oid`), the dereference is invalid and no field is
written. -/
theorem C24_fallback_dereferences_the_datum (pg_detoast_datum : Datum → Option Varlena)
    (builder : SKVRecordBuilder) (constant : K2PgConstant)
    (hnn : constant.is_null = false)
    (hother : isStringType constant.type_id = false ∧ is1ByteIntType constant.type_id = false ∧
      is2ByteIntType constant.type_id = false ∧ is4ByteIntType constant.type_id = false ∧
      is8ByteIntType constant.type_id = false ∧ constant.type_id ≠ FLOAT4OID ∧
      constant.type_id ≠ FLOAT8OID) :
    (∀ data, pg_detoast_datum constant.datum = some data →
      serializePGConstToK2SKV pg_detoast_datum builder constant =
        builder.serializeNext (.string data.bytes) ∧
      data.bytes.length = VARSIZE data) ∧
    (pg_detoast_datum constant.datum = none →
      serializePGConstToK2SKV pg_detoast_datum builder constant
        = .error .invalid_datum_pointer) := by
  obtain ⟨h0, h1, h2, h4, h8, hf4, hf8⟩ := hother
  have hlen : ∀ data : Varlena, data.bytes.length = VARSIZE data := by
    intro data
    simp [Varlena.bytes, VARSIZE, VARHDRSZ]
    omega
  constructor
  · intro data hdata
    refine ⟨?_, hlen data⟩
    apply serializePGConstToK2SKV_of_encode _ _ _ _ hnn
    simp only [encodePGConst, hnn, Bool.false_eq_true, if_false, h0, h1, h2, h4, h8, hf4, hf8,
      hdata, Option.map_some', ← hlen data, List.take_length]
  · intro hnone
    rw [serializePGConstToK2SKV_eq, hnn]
    simp only [Bool.false_eq_true, if_false, encodePGConst, hnn, h0, h1, h2, h4, h8, hf4, hf8,
      hnone, Option.map_none']

/-- C24 at a concrete constant: the by-value `oid` constant 1259, in a memory
where 1259 is not the address of a variable-length value, makes
`serializePGConstToK2SKV` fail on the dereference. -/
theorem C24_fallback_dereferences_the_datum_witness :
    serializePGConstToK2SKV exampleDetoast exampleBuilderAtInt4 exampleOidConstant
      = .error .invalid_datum_pointer :=
  (C24_fallback_dereferences_the_datum exampleDetoast exampleBuilderAtInt4 exampleOidConstant rfl
    (by decide)).2 rfl

/-! ## Identifier fields of a record -/

/-- A status converted from a status that is not 2xx is not `K2PgStatus::OK`. -/
theorem K2StatusToK2PgStatus_ne_OK (status : Status) (h : status.is2xxOK = false) :
    K2StatusToK2PgStatus status ≠ K2PgStatus.OK := by
  intro heq
  have hcode : (K2StatusToK2PgStatus status).k2_code = K2PgStatus.OK.k2_code := by rw [heq]
  have h200 : status.code = 200 := hcode
  rw [Status.is2xxOK, h200] at h
  exact absurd h (by decide)

/-- A builder that `getSKVBuilder` hands over in place of a NULL one is
empty. -/
theorem getSKVBuilder_fresh (env : StorageEnv) (database_oid table_oid : Oid)
    (catalog : SqlCatalogClient) (builder : SKVRecordBuilder)
    (h : (getSKVBuilder env database_oid table_oid catalog none).2 = some builder) :
    builder.written = [] := by
  simp only [getSKVBuilder] at h
  split_ifs at h
  simp only [Option.some.injEq] at h
  rw [← h]

/-- When the two identifier fields and the field loop succeed, the builder has
gained the two identifiers and then the fields of the loop. -/
theorem serializeIdentifiers_ok (pg_detoast_datum : Datum → Option Varlena)
    (attr_map : Nat → Option K2PgConstant) (offsets : SKVRecordBuilder → List Nat)
    (b b3 : SKVRecordBuilder) (table_id index_id : Int)
    (h : (match b.serializeNext (.int32 table_id) with
          | .error e => .error e
          | .ok b1 =>
            match b1.serializeNext (.int32 index_id) with
            | .error e => .error e
            | .ok b2 =>
              serializePgAttributesToSKV_fields pg_detoast_datum attr_map (offsets b2) b2)
        = Except.ok b3) :
    ∃ fields : List SKVField,
      b3.written = b.written ++ [SKVField.int32 table_id, SKVField.int32 index_id] ++ fields := by
  cases h1 : b.serializeNext (.int32 table_id) with
  | error e => rw [h1] at h; cases h
  | ok b1 =>
    rw [h1] at h
    simp only at h
    cases h2 : b1.serializeNext (.int32 index_id) with
    | error e => rw [h2] at h; cases h
    | ok b2 =>
      rw [h2] at h
      simp only at h
      obtain ⟨hw1, -⟩ := serializeNext_ok b b1 _ h1
      obtain ⟨hw2, -⟩ := serializeNext_ok b1 b2 _ h2
      obtain ⟨fields, hw3, -⟩ :=
        serializePgAttributesToSKV_fields_ok pg_detoast_datum _ _ b2 b3 h
      refine ⟨fields, ?_⟩
      rw [hw3, hw2, hw1]
      simp

/-- A successful `serializePgAttributesToSKV` has appended the two identifiers
first. -/
theorem serializePgAttributesToSKV_identifiers (K2_FIELD_OFFSET : Nat)
    (pg_detoast_datum : Datum → Option Varlena) (builder builder1 : SKVRecordBuilder)
    (table_id index_id : Int) (attrs : List K2PgAttributeDef)
    (attr_num_to_index : Int → Option Nat) (status : K2PgStatus)
    (hrun : serializePgAttributesToSKV K2_FIELD_OFFSET pg_detoast_datum builder table_id
      index_id attrs attr_num_to_index = some (status, builder1))
    (hok : status.pg_code = ERRCODE_SUCCESSFUL_COMPLETION) :
    ∃ fields : List SKVField,
      builder1.written =
        builder.written ++ [SKVField.int32 table_id, SKVField.int32 index_id] ++ fields := by
  simp only [serializePgAttributesToSKV] at hrun
  split at hrun
  · rename_i b3 htried
    simp only [Option.some.injEq, Prod.mk.injEq] at hrun
    rw [← hrun.2]
    exact serializeIdentifiers_ok pg_detoast_datum _
      (fun b2 => List.range' K2_FIELD_OFFSET (b2.schema.fields.length - K2_FIELD_OFFSET))
      builder b3 table_id index_id htried
  · simp only [Option.some.injEq, Prod.mk.injEq] at hrun
    rw [← hrun.1] at hok
    exact absurd hok (show ERRCODE_INTERNAL_ERROR ≠ ERRCODE_SUCCESSFUL_COMPLETION by decide)
  · cases hrun

/-- Without a tuple-id column the first loop of
`makeSKVBuilderWithKeysSerialized` changes nothing. -/
theorem makeSKVBuilderWithKeysSerialized_tupleID_none (env : StorageEnv)
    (database_oid table_oid : Oid) (catalog : SqlCatalogClient) :
    ∀ (columns : List K2PgAttributeDef) (record : SKVRecord) (use_tupleID : Bool),
      (∀ c ∈ columns, c.attr_num ≠ env.K2PgTupleIdAttributeNumber) →
      makeSKVBuilderWithKeysSerialized_tupleID env database_oid table_oid catalog columns
        record use_tupleID = some (.ok (record, use_tupleID)) := by
  intro columns
  induction columns with
  | nil => intro record use_tupleID _; rfl
  | cons c rest ih =>
    intro record use_tupleID hno
    have hc : ¬ c.attr_num = env.K2PgTupleIdAttributeNumber := hno c (List.mem_cons_self _ _)
    simp only [makeSKVBuilderWithKeysSerialized_tupleID, if_neg hc]
    exact ih record use_tupleID (fun c1 hc1 => hno c1 (List.mem_cons_of_mem _ hc1))

/-- The signed reading of a word below `2 ^ 31` is the word. -/
theorem toSigned_32_small (n : Nat) (h : n < 2 ^ 31) : toSigned 32 n = (n : Int) := by
  have h1 : n % 2 ^ 32 = n := Nat.mod_eq_of_lt (by omega)
  unfold toSigned
  rw [h1, if_pos (by simpa using h)]

/-- The signed reading of a 32-bit word is 0 only for the word 0. -/
theorem toSigned_32_eq_zero (n : Nat) (h : n < 2 ^ 32) : toSigned 32 n = 0 ↔ n = 0 := by
  have h1 : n % 2 ^ 32 = n := Nat.mod_eq_of_lt h
  unfold toSigned
  rw [h1]
  split_ifs <;> omega

/-- C25: when `makeSKVRecordFromK2PgAttributes` succeeds, and when
`makeSKVBuilderWithKeysSerialized`, called with a NULL builder and without a
tuple-id column, succeeds, the first field written is the 32-bit base table
oid that the catalog resolved and the second field is the 32-bit index
identifier, which is 0 when `table_oid` equals the base table oid and
`table_oid` otherwise; for a valid (non-zero) 32-bit `table_oid` the index
identifier is 0 exactly when `table_oid` equals the base table oid. -/
theorem C25_identifier_fields (env : StorageEnv) (catalog : SqlCatalogClient)
    (database_oid table_oid : Oid) (columns : List K2PgAttributeDef) :
    (∀ record0 record : SKVRecord,
      makeSKVRecordFromK2PgAttributes env database_oid table_oid catalog columns record0
        = some (K2PgStatus.OK, record) →
      ∃ rest, record.storage =
        .int32 (toSigned 32 (catalog.GetBaseTableOID database_oid table_oid).2) ::
        .int32 (toSigned 32 (if (catalog.GetBaseTableOID database_oid table_oid).2 = table_oid
          then 0 else table_oid)) :: rest) ∧
    ((∀ c ∈ columns, c.attr_num ≠ env.K2PgTupleIdAttributeNumber) →
      ∀ builder : SKVRecordBuilder,
      makeSKVBuilderWithKeysSerialized env database_oid table_oid catalog columns none
        = some (K2PgStatus.OK, some builder) →
      ∃ rest, builder.written =
        .int32 (toSigned 32 (catalog.GetBaseTableOID database_oid table_oid).2) ::
        .int32 (toSigned 32 (if (catalog.GetBaseTableOID database_oid table_oid).2 = table_oid
          then 0 else table_oid)) :: rest) ∧
    (0 < table_oid → table_oid < 2 ^ 32 →
      (toSigned 32 (if (catalog.GetBaseTableOID database_oid table_oid).2 = table_oid
          then 0 else table_oid) = 0 ↔
        (catalog.GetBaseTableOID database_oid table_oid).2 = table_oid)) ∧
    ((catalog.GetBaseTableOID database_oid table_oid).2 ≠ table_oid → table_oid < 2 ^ 31 →
      toSigned 32 (if (catalog.GetBaseTableOID database_oid table_oid).2 = table_oid
          then 0 else table_oid) = (table_oid : Int)) ∧
    ((catalog.GetBaseTableOID database_oid table_oid).2 < 2 ^ 31 →
      toSigned 32 (catalog.GetBaseTableOID database_oid table_oid).2
        = ((catalog.GetBaseTableOID database_oid table_oid).2 : Int)) := by
  refine ⟨?_, ?_, ?_, ?_, ?_⟩
  · intro record0 record h
    simp only [makeSKVRecordFromK2PgAttributes] at h
    generalize (if (catalog.GetBaseTableOID database_oid table_oid).2 = table_oid
      then 0 else table_oid) = index_id at h ⊢
    split_ifs at h with h1 h2 h3
    · simp only [Option.some.injEq, Prod.mk.injEq] at h
      exact absurd h.1 (K2StatusToK2PgStatus_ne_OK _ (by simpa using h1))
    · simp only [Option.some.injEq, Prod.mk.injEq] at h
      exact absurd h.1 (K2StatusToK2PgStatus_ne_OK _ (by simpa using h2))
    · simp only [Option.some.injEq, Prod.mk.injEq] at h
      rw [h.1] at h3
      exact absurd rfl h3
    · split at h
      · cases h
      · rename_i builder hmade
        split at h
        · cases h
        · rename_i status builder1 hrun
          split_ifs at h with h4
          · simp only [Option.some.injEq, Prod.mk.injEq] at h
            rw [h.1] at h4
            exact absurd rfl h4
          · simp only [Option.some.injEq, Prod.mk.injEq] at h
            obtain ⟨fields, hw⟩ := serializePgAttributesToSKV_identifiers _ _ _ _ _ _ _ _ _ hrun
              (by simpa using h4)
            rw [getSKVBuilder_fresh env database_oid table_oid catalog builder hmade] at hw
            refine ⟨fields, ?_⟩
            rw [← h.2]
            simpa [SKVRecordBuilder.build] using hw
  · intro hno builder h
    simp only [makeSKVBuilderWithKeysSerialized,
      makeSKVBuilderWithKeysSerialized_tupleID_none env database_oid table_oid catalog columns
        default false hno] at h
    generalize (if (catalog.GetBaseTableOID database_oid table_oid).2 = table_oid
      then 0 else table_oid) = index_id at h ⊢
    simp only [Bool.false_eq_true, if_false] at h
    split_ifs at h with h1 h2 h3
    · simp only [Option.some.injEq, Prod.mk.injEq] at h
      rw [h.1] at h1
      exact absurd rfl h1
    · simp only [Option.some.injEq, Prod.mk.injEq] at h
      exact absurd h.1 (K2StatusToK2PgStatus_ne_OK _ (by simpa using h2))
    · simp only [Option.some.injEq, Prod.mk.injEq] at h
      exact absurd h.1 (K2StatusToK2PgStatus_ne_OK _ (by simpa using h3))
    · split at h
      · cases h
      · rename_i builder0 hmade
        split at h
        · rename_i b3 htried
          simp only [Option.some.injEq, Prod.mk.injEq] at h
          obtain ⟨fields, hw⟩ := serializeIdentifiers_ok env.pg_detoast_datum _
            (fun b2 => List.range' env.K2_FIELD_OFFSET
              (b2.schema.partitionKeyFields.length - env.K2_FIELD_OFFSET))
            builder0 b3 _ _ htried
          rw [getSKVBuilder_fresh env database_oid table_oid catalog builder0 hmade] at hw
          refine ⟨fields, ?_⟩
          rw [← h.2]
          simpa using hw
        · simp only [Option.some.injEq, Prod.mk.injEq] at h
          have hcode := congrArg K2PgStatus.pg_code h.1
          exact absurd hcode (show ERRCODE_INTERNAL_ERROR ≠ ERRCODE_SUCCESSFUL_COMPLETION by decide)
        · cases h
  · intro hpos hlt
    by_cases hb : (catalog.GetBaseTableOID database_oid table_oid).2 = table_oid
    · rw [if_pos hb]
      exact ⟨fun _ => hb, fun _ => rfl⟩
    · rw [if_neg hb, toSigned_32_eq_zero table_oid hlt]
      constructor
      · intro h0; exact absurd h0 (Nat.pos_iff_ne_zero.1 hpos)
      · intro h0; exact absurd h0 hb
  · intro hb hlt
    rw [if_neg hb]
    exact toSigned_32_small table_oid hlt
  · intro hlt
    exact toSigned_32_small _ hlt

/-- C25 at concrete calls: for the index 16390 of the base table 16384 the
record of `makeSKVRecordFromK2PgAttributes` and the builder of
`makeSKVBuilderWithKeysSerialized` start with the fields 16384 and 16390, and
for the base table itself the second field of the record is 0. -/
theorem C25_identifier_fields_witness :
    (∃ rest, ({ schema := exampleSchema,
                storage := [.int32 16384, .int32 16390, .int32 (-5), .string [104, 105]] }
              : SKVRecord).storage = .int32 16384 :: .int32 16390 :: rest) ∧
    (∃ rest, ({ schema := exampleSchema,
                written := [.int32 16384, .int32 16390, .int32 (-5)] }
              : SKVRecordBuilder).written = .int32 16384 :: .int32 16390 :: rest) ∧
    (∃ rest, ({ schema := exampleSchema,
                storage := [.int32 16384, .int32 0, .int32 (-5), .string [104, 105]] }
              : SKVRecord).storage = .int32 16384 :: .int32 0 :: rest) :=
  ⟨(C25_identifier_fields exampleStorage exampleCatalog 1 16390 exampleAttrs).1 default _ rfl,
   (C25_identifier_fields exampleStorage exampleCatalog 1 16390 exampleAttrs).2.1 (by decide) _
     rfl,
   (C25_identifier_fields exampleStorage exampleCatalog 1 16384 exampleAttrs).1 default _ rfl⟩

/-! ## Expression analysis for single-row modify -/

mutual
/-- What a run of `K2PgAnalyzeExpression` tells: when it returns true the
expression is basic, `*has_vars` has been set exactly if the expression
refers to the target column and `*has_k2_unsupported_funcs` exactly if it
contains a call; when it returns false the expression is not basic; when it
raises an error some called function has no row in `pg_proc`. -/
theorem K2PgAnalyzeExpression_spec (pg_proc : Oid → Option Char) (t : AttrNumber) :
    ∀ (e : Expr) (hv hu : Bool),
      (∀ hv1 hu1, K2PgAnalyzeExpression pg_proc t e hv hu = .ok (true, hv1, hu1) →
        IsBasicExpr pg_proc t e ∧ hv1 = (hv || e.referencesColumn t) ∧
          hu1 = (hu || e.containsCall)) ∧
      (∀ hv1 hu1, K2PgAnalyzeExpression pg_proc t e hv hu = .ok (false, hv1, hu1) →
        ¬ IsBasicExpr pg_proc t e) ∧
      (∀ err, K2PgAnalyzeExpression pg_proc t e hv hu = .error err →
        e.callsKnown pg_proc = false)
  | .Const consttype constvalue constisnull, hv, hu => by
    refine ⟨?_, ?_, ?_⟩
    · intro hv1 hu1 h
      simp only [K2PgAnalyzeExpression, Except.ok.injEq, Prod.mk.injEq, true_and] at h
      refine ⟨.const _ _ _, ?_, ?_⟩
      · simp [Expr.referencesColumn, h.1]
      · simp [Expr.containsCall, h.2]
    · intro hv1 hu1 h
      simp [K2PgAnalyzeExpression] at h
    · intro err h
      simp [K2PgAnalyzeExpression] at h
  | .Var varattno, hv, hu => by
    refine ⟨?_, ?_, ?_⟩
    · intro hv1 hu1 h
      simp only [K2PgAnalyzeExpression, Except.ok.injEq, Prod.mk.injEq, decide_eq_true_eq] at h
      obtain ⟨hva, h1, h2⟩ := h
      subst hva
      refine ⟨.target, ?_, ?_⟩
      · simp [Expr.referencesColumn, ← h1]
      · simp [Expr.containsCall, h2]
    · intro hv1 hu1 h
      simp only [K2PgAnalyzeExpression, Except.ok.injEq, Prod.mk.injEq, decide_eq_false_iff_not]
        at h
      intro hb
      cases hb
      exact h.1 rfl
    · intro err h
      simp [K2PgAnalyzeExpression] at h
  | .Param paramkind paramid paramtype, hv, hu => by
    refine ⟨?_, ?_, ?_⟩
    · intro hv1 hu1 h
      simp only [K2PgAnalyzeExpression, Except.ok.injEq, Prod.mk.injEq, decide_eq_true_eq] at h
      obtain ⟨hk, h1, h2⟩ := h
      subst hk
      refine ⟨.param _ _, ?_, ?_⟩
      · simp [Expr.referencesColumn, h1]
      · simp [Expr.containsCall, h2]
    · intro hv1 hu1 h
      simp only [K2PgAnalyzeExpression, Except.ok.injEq, Prod.mk.injEq, decide_eq_false_iff_not]
        at h
      intro hb
      cases hb
      exact h.1 rfl
    · intro err h
      simp [K2PgAnalyzeExpression] at h
  | .RelabelType arg, hv, hu => by
    obtain ⟨ih1, ih2, ih3⟩ := K2PgAnalyzeExpression_spec pg_proc t arg hv hu
    refine ⟨?_, ?_, ?_⟩
    · intro hv1 hu1 h
      simp only [K2PgAnalyzeExpression] at h
      obtain ⟨hb, h1, h2⟩ := ih1 hv1 hu1 h
      exact ⟨.relabel _ hb, by simpa [Expr.referencesColumn] using h1,
        by simpa [Expr.containsCall] using h2⟩
    · intro hv1 hu1 h
      simp only [K2PgAnalyzeExpression] at h
      intro hb
      cases hb with
      | relabel _ hb1 => exact ih2 hv1 hu1 h hb1
    · intro err h
      simp only [K2PgAnalyzeExpression] at h
      simpa [Expr.callsKnown] using ih3 err h
  | .FuncExpr funcid args, hv, hu => by
    cases hp : pg_proc funcid with
    | none =>
      refine ⟨?_, ?_, ?_⟩
      · intro hv1 hu1 h
        simp [K2PgAnalyzeExpression, hp] at h
      · intro hv1 hu1 h
        simp [K2PgAnalyzeExpression, hp] at h
      · intro err _
        simp [Expr.callsKnown, hp]
    | some provolatile =>
      by_cases hi : provolatile = PROVOLATILE_IMMUTABLE
      · subst hi
        obtain ⟨ih1, ih2, ih3⟩ :=
          K2PgAnalyzeExpression_args_spec pg_proc t args hv true
        refine ⟨?_, ?_, ?_⟩
        · intro hv1 hu1 h
          simp only [K2PgAnalyzeExpression, hp, ne_eq, not_true_eq_false, if_false,
            IsSupportedK2FunctionId, Bool.not_false, if_true] at h
          obtain ⟨hb, h1, h2⟩ := ih1 hv1 hu1 h
          refine ⟨.func _ _ hp hb, by simpa [Expr.referencesColumn] using h1, ?_⟩
          simp [Expr.containsCall, h2]
        · intro hv1 hu1 h
          simp only [K2PgAnalyzeExpression, hp, ne_eq, not_true_eq_false, if_false,
            IsSupportedK2FunctionId, Bool.not_false, if_true] at h
          intro hb
          cases hb with
          | func _ _ _ hargs => exact ih2 hv1 hu1 h hargs
        · intro err h
          simp only [K2PgAnalyzeExpression, hp, ne_eq, not_true_eq_false, if_false,
            IsSupportedK2FunctionId, Bool.not_false, if_true] at h
          simp [Expr.callsKnown, ih3 err h]
      · refine ⟨?_, ?_, ?_⟩
        · intro hv1 hu1 h
          simp [K2PgAnalyzeExpression, hp, hi] at h
        · intro hv1 hu1 _ hb
          cases hb with
          | func _ _ hpi _ =>
            rw [hp] at hpi
            exact hi (Option.some.inj hpi)
        · intro err h
          simp [K2PgAnalyzeExpression, hp, hi] at h
  | .OpExpr opfuncid args, hv, hu => by
    cases hp : pg_proc opfuncid with
    | none =>
      refine ⟨?_, ?_, ?_⟩
      · intro hv1 hu1 h
        simp [K2PgAnalyzeExpression, hp] at h
      · intro hv1 hu1 h
        simp [K2PgAnalyzeExpression, hp] at h
      · intro err _
        simp [Expr.callsKnown, hp]
    | some provolatile =>
      by_cases hi : provolatile = PROVOLATILE_IMMUTABLE
      · subst hi
        obtain ⟨ih1, ih2, ih3⟩ :=
          K2PgAnalyzeExpression_args_spec pg_proc t args hv true
        refine ⟨?_, ?_, ?_⟩
        · intro hv1 hu1 h
          simp only [K2PgAnalyzeExpression, hp, ne_eq, not_true_eq_false, if_false,
            IsSupportedK2FunctionId, Bool.not_false, if_true] at h
          obtain ⟨hb, h1, h2⟩ := ih1 hv1 hu1 h
          refine ⟨.op _ _ hp hb, by simpa [Expr.referencesColumn] using h1, ?_⟩
          simp [Expr.containsCall, h2]
        · intro hv1 hu1 h
          simp only [K2PgAnalyzeExpression, hp, ne_eq, not_true_eq_false, if_false,
            IsSupportedK2FunctionId, Bool.not_false, if_true] at h
          intro hb
          cases hb with
          | op _ _ _ hargs => exact ih2 hv1 hu1 h hargs
        · intro err h
          simp only [K2PgAnalyzeExpression, hp, ne_eq, not_true_eq_false, if_false,
            IsSupportedK2FunctionId, Bool.not_false, if_true] at h
          simp [Expr.callsKnown, ih3 err h]
      · refine ⟨?_, ?_, ?_⟩
        · intro hv1 hu1 h
          simp [K2PgAnalyzeExpression, hp, hi] at h
        · intro hv1 hu1 _ hb
          cases hb with
          | op _ _ hpi _ =>
            rw [hp] at hpi
            exact hi (Option.some.inj hpi)
        · intro err h
          simp [K2PgAnalyzeExpression, hp, hi] at h
  | .Other tag, hv, hu => by
    refine ⟨?_, ?_, ?_⟩
    · intro hv1 hu1 h
      simp [K2PgAnalyzeExpression] at h
    · intro hv1 hu1 _ hb
      cases hb
    · intro err h
      simp [K2PgAnalyzeExpression] at h
/-- What a run of the argument loop of `K2PgAnalyzeExpression` tells, in the
same three cases. -/
theorem K2PgAnalyzeExpression_args_spec (pg_proc : Oid → Option Char) (t : AttrNumber) :
    ∀ (l : List Expr) (hv hu : Bool),
      (∀ hv1 hu1, K2PgAnalyzeExpression_args pg_proc t l hv hu = .ok (true, hv1, hu1) →
        (∀ a ∈ l, IsBasicExpr pg_proc t a) ∧ hv1 = (hv || Expr.referencesColumn_args t l) ∧
          hu1 = (hu || Expr.containsCall_args l)) ∧
      (∀ hv1 hu1, K2PgAnalyzeExpression_args pg_proc t l hv hu = .ok (false, hv1, hu1) →
        ¬ ∀ a ∈ l, IsBasicExpr pg_proc t a) ∧
      (∀ err, K2PgAnalyzeExpression_args pg_proc t l hv hu = .error err →
        Expr.callsKnown_args pg_proc l = false)
  | [], hv, hu => by
    refine ⟨?_, ?_, ?_⟩
    · intro hv1 hu1 h
      simp only [K2PgAnalyzeExpression_args, Except.ok.injEq, Prod.mk.injEq, true_and] at h
      refine ⟨by simp, ?_, ?_⟩
      · simp [Expr.referencesColumn_args, h.1]
      · simp [Expr.containsCall_args, h.2]
    · intro hv1 hu1 h
      simp [K2PgAnalyzeExpression_args] at h
    · intro err h
      simp [K2PgAnalyzeExpression_args] at h
  | e :: rest, hv, hu => by
    obtain ⟨ih1, ih2, ih3⟩ := K2PgAnalyzeExpression_spec pg_proc t e hv hu
    cases he : K2PgAnalyzeExpression pg_proc t e hv hu with
    | error err0 =>
      refine ⟨?_, ?_, ?_⟩
      · intro hv1 hu1 h
        simp [K2PgAnalyzeExpression_args, he] at h
      · intro hv1 hu1 h
        simp [K2PgAnalyzeExpression_args, he] at h
      · intro err _
        simp [Expr.callsKnown_args, ih3 err0 he]
    | ok r =>
      obtain ⟨b, hv2, hu2⟩ := r
      cases b with
      | false =>
        refine ⟨?_, ?_, ?_⟩
        · intro hv1 hu1 h
          simp [K2PgAnalyzeExpression_args, he] at h
        · intro hv1 hu1 _ hall
          exact ih2 hv2 hu2 he (hall e (List.mem_cons_self _ _))
        · intro err h
          simp [K2PgAnalyzeExpression_args, he] at h
      | true =>
        obtain ⟨hb, h1, h2⟩ := ih1 hv2 hu2 he
        obtain ⟨jh1, jh2, jh3⟩ := K2PgAnalyzeExpression_args_spec pg_proc t rest hv2 hu2
        refine ⟨?_, ?_, ?_⟩
        · intro hv1 hu1 h
          simp only [K2PgAnalyzeExpression_args, he] at h
          obtain ⟨hall, k1, k2⟩ := jh1 hv1 hu1 h
          refine ⟨?_, ?_, ?_⟩
          · intro a ha
            rcases List.mem_cons.1 ha with ha | ha
            · rw [ha]; exact hb
            · exact hall a ha
          · rw [k1, h1]; simp [Expr.referencesColumn_args, Bool.or_assoc]
          · rw [k2, h2]; simp [Expr.containsCall_args, Bool.or_assoc]
        · intro hv1 hu1 h
          simp only [K2PgAnalyzeExpression_args, he] at h
          intro hall
          exact jh2 hv1 hu1 h (fun a ha => hall a (List.mem_cons_of_mem _ ha))
        · intro err h
          simp only [K2PgAnalyzeExpression_args, he] at h
          simp [Expr.callsKnown_args, jh3 err h]
end

/-- Every listed expression calls known functions only exactly when the list
does. -/
theorem callsKnown_args_iff (pg_proc : Oid → Option Char) (l : List Expr) :
    Expr.callsKnown_args pg_proc l = true ↔ ∀ a ∈ l, a.callsKnown pg_proc = true := by
  induction l with
  | nil => simp [Expr.callsKnown_args]
  | cons e rest ih => simp [Expr.callsKnown_args, ih]

/-- A basic expression calls immutable functions only, each of which has a row
in `pg_proc`. -/
theorem IsBasicExpr.callsKnown {pg_proc : Oid → Option Char} {t : AttrNumber} {e : Expr}
    (h : IsBasicExpr pg_proc t e) : e.callsKnown pg_proc = true := by
  induction h with
  | const consttype constvalue constisnull => rfl
  | param paramid paramtype => rfl
  | relabel arg _ ih => simpa [Expr.callsKnown] using ih
  | target => rfl
  | func funcid args hp _ ih =>
    simp only [Expr.callsKnown, hp, Option.isSome_some, Bool.true_and]
    exact (callsKnown_args_iff pg_proc args).2 ih
  | op opfuncid args hp _ ih =>
    simp only [Expr.callsKnown, hp, Option.isSome_some, Bool.true_and]
    exact (callsKnown_args_iff pg_proc args).2 ih

/-- The three possible outcomes of `K2PgAnalyzeExpression`, as a case
distinction on its result. -/
theorem K2PgAnalyzeExpression_cases (pg_proc : Oid → Option Char) (t : AttrNumber) (e : Expr)
    (hv hu : Bool) :
    (∃ hv1 hu1, K2PgAnalyzeExpression pg_proc t e hv hu = .ok (true, hv1, hu1) ∧
        IsBasicExpr pg_proc t e ∧ hv1 = (hv || e.referencesColumn t) ∧
        hu1 = (hu || e.containsCall)) ∨
      (∃ hv1 hu1, K2PgAnalyzeExpression pg_proc t e hv hu = .ok (false, hv1, hu1) ∧
        ¬ IsBasicExpr pg_proc t e) ∨
      (∃ err, K2PgAnalyzeExpression pg_proc t e hv hu = .error err ∧
        e.callsKnown pg_proc = false ∧ ¬ IsBasicExpr pg_proc t e) := by
  obtain ⟨h1, h2, h3⟩ := K2PgAnalyzeExpression_spec pg_proc t e hv hu
  cases hr : K2PgAnalyzeExpression pg_proc t e hv hu with
  | error err =>
    refine Or.inr (Or.inr ⟨err, rfl, h3 err hr, ?_⟩)
    intro hb
    have := hb.callsKnown
    rw [h3 err hr] at this
    cases this
  | ok r =>
    obtain ⟨b, hv1, hu1⟩ := r
    cases b with
    | true => exact Or.inl ⟨hv1, hu1, rfl, h1 hv1 hu1 hr⟩
    | false => exact Or.inr (Or.inl ⟨hv1, hu1, rfl, h2 hv1 hu1 hr⟩)

/-- C26: `K2PgAnalyzeExpression` returns true exactly for the expressions built
only from constants, external bind parameters, `RelabelType` wrappers around
an accepted argument, references to the target column, and calls of immutable
functions or operators all of whose arguments are accepted.  For every other
expression it returns false, provided every function it calls has a row in
`pg_proc`; the only other outcome is the error raised when the cache lookup
of a called function fails. -/
theorem C26_analysis_accepts_basic_expressions (pg_proc : Oid → Option Char)
    (target_attnum : AttrNumber) (expr : Expr) (has_vars has_k2_unsupported_funcs : Bool) :
    (IsBasicExpr pg_proc target_attnum expr ↔
      ∃ hv1 hu1, K2PgAnalyzeExpression pg_proc target_attnum expr has_vars
        has_k2_unsupported_funcs = .ok (true, hv1, hu1)) ∧
    (¬ IsBasicExpr pg_proc target_attnum expr → expr.callsKnown pg_proc = true →
      ∃ hv1 hu1, K2PgAnalyzeExpression pg_proc target_attnum expr has_vars
        has_k2_unsupported_funcs = .ok (false, hv1, hu1)) ∧
    (∀ err, K2PgAnalyzeExpression pg_proc target_attnum expr has_vars
        has_k2_unsupported_funcs = .error err →
      expr.callsKnown pg_proc = false ∧ ¬ IsBasicExpr pg_proc target_attnum expr) := by
  rcases K2PgAnalyzeExpression_cases pg_proc target_attnum expr has_vars
      has_k2_unsupported_funcs with
    ⟨hv1, hu1, hr, hb, -, -⟩ | ⟨hv1, hu1, hr, hnb⟩ | ⟨err, hr, hk, hnb⟩
  · refine ⟨⟨fun _ => ⟨hv1, hu1, hr⟩, fun _ => hb⟩, fun hnb => absurd hb hnb, ?_⟩
    intro err he
    rw [hr] at he
    cases he
  · refine ⟨⟨fun hb => absurd hb hnb, ?_⟩, fun _ _ => ⟨hv1, hu1, hr⟩, ?_⟩
    · rintro ⟨a, b, hab⟩
      rw [hr] at hab
      simp at hab
    · intro err he
      rw [hr] at he
      cases he
  · refine ⟨⟨fun hb => absurd hb hnb, ?_⟩, ?_, ?_⟩
    · rintro ⟨a, b, hab⟩
      rw [hr] at hab
      cases hab
    · intro _ hk1
      rw [hk] at hk1
      cases hk1
    · intro err1 _
      exact ⟨hk, hnb⟩

/-- C26 at concrete expressions: `x + 1` over the target column 2 is accepted,
and the same expression is rejected when the target column is 3. -/
theorem C26_analysis_accepts_basic_expressions_witness :
    (∃ hv1 hu1, K2PgAnalyzeExpression examplePgProc 2 exampleIncrement false false
      = .ok (true, hv1, hu1)) ∧
    (∃ hv1 hu1, K2PgAnalyzeExpression examplePgProc 3 exampleIncrement false false
      = .ok (false, hv1, hu1)) :=
  ⟨(C26_analysis_accepts_basic_expressions examplePgProc 2 exampleIncrement false false).1.1
      (.op 177 _ rfl (fun a ha => by
        rcases List.mem_cons.1 ha with h | h
        · rw [h]; exact .target
        · rcases List.mem_cons.1 h with h1 | h1
          · rw [h1]; exact .const _ _ _
          · cases h1)),
   (C26_analysis_accepts_basic_expressions examplePgProc 3 exampleIncrement false false).2.1
      (fun hb => by
        cases hb with
        | op _ _ _ hargs =>
          have h2 := hargs (.Var 2) (List.mem_cons_self _ _)
          cases h2)
      rfl⟩

/-- C27: whenever `K2PgIsSupportedSingleRowModifyAssignExpr` returns true,
`*needs_pushdown` is true exactly when the expression contains a reference to
the target column; whenever it returns false, `*needs_pushdown` is false.  It
returns one of the two unless the cache lookup of a called function fails. -/
theorem C27_needs_pushdown_iff_target_reference (pg_proc : Oid → Option Char) (expr : Expr)
    (target_attnum : AttrNumber) :
    (∀ needs_pushdown, K2PgIsSupportedSingleRowModifyAssignExpr pg_proc expr target_attnum
        = .ok (true, needs_pushdown) →
      (needs_pushdown = true ↔ expr.referencesColumn target_attnum = true)) ∧
    (∀ needs_pushdown, K2PgIsSupportedSingleRowModifyAssignExpr pg_proc expr target_attnum
        = .ok (false, needs_pushdown) → needs_pushdown = false) ∧
    (expr.callsKnown pg_proc = true →
      ∃ r needs_pushdown, K2PgIsSupportedSingleRowModifyAssignExpr pg_proc expr target_attnum
        = .ok (r, needs_pushdown)) := by
  rcases K2PgAnalyzeExpression_cases pg_proc target_attnum expr false false with
    ⟨hv1, hu1, hr, -, h1, h2⟩ | ⟨hv1, hu1, hr, -⟩ | ⟨err, hr, hk, -⟩
  · simp only [Bool.false_or] at h1 h2
    subst h1; subst h2
    simp only [K2PgIsSupportedSingleRowModifyAssignExpr, hr, Bool.not_true, Bool.false_eq_true,
      if_false]
    cases href : expr.referencesColumn target_attnum <;>
      cases hcall : expr.containsCall <;> simp
  · simp only [K2PgIsSupportedSingleRowModifyAssignExpr, hr, Bool.not_false, if_true]
    simp
  · simp only [K2PgIsSupportedSingleRowModifyAssignExpr, hr, hk]
    simp

/-- C27 at concrete expressions: the reference to the target column alone is
supported and needs pushdown, and `$1 + 1`, without a reference, is supported
and does not. -/
theorem C27_needs_pushdown_iff_target_reference_witness :
    ((true = true ↔ (Expr.Var 2).referencesColumn 2 = true) ∧
      (false = true ↔ exampleParamSum.referencesColumn 2 = true)) :=
  ⟨(C27_needs_pushdown_iff_target_reference examplePgProc (.Var 2) 2).1 true rfl,
   (C27_needs_pushdown_iff_target_reference examplePgProc exampleParamSum 2).1 false rfl⟩

/-- C28: for every expression that refers to the target column and contains a
function or operator call, `K2PgIsSupportedSingleRowModifyAssignExpr` never
returns true, and it returns false with `*needs_pushdown` false whenever every
called function has a row in `pg_proc`, also when all of them are immutable:
`IsSupportedK2FunctionId` is constantly false. -/
theorem C28_target_reference_with_call_is_unsupported (pg_proc : Oid → Option Char)
    (expr : Expr) (target_attnum : AttrNumber)
    (href : expr.referencesColumn target_attnum = true) (hcall : expr.containsCall = true) :
    (∀ needs_pushdown, K2PgIsSupportedSingleRowModifyAssignExpr pg_proc expr target_attnum
        ≠ .ok (true, needs_pushdown)) ∧
    (expr.callsKnown pg_proc = true →
      K2PgIsSupportedSingleRowModifyAssignExpr pg_proc expr target_attnum
        = .ok (false, false)) ∧
    (∀ funcid provolatile, IsSupportedK2FunctionId funcid provolatile = false) := by
  rcases K2PgAnalyzeExpression_cases pg_proc target_attnum expr false false with
    ⟨hv1, hu1, hr, -, h1, h2⟩ | ⟨hv1, hu1, hr, -⟩ | ⟨err, hr, hk, -⟩
  · simp only [Bool.false_or, href, hcall] at h1 h2
    subst h1; subst h2
    simp [K2PgIsSupportedSingleRowModifyAssignExpr, hr, IsSupportedK2FunctionId]
  · simp [K2PgIsSupportedSingleRowModifyAssignExpr, hr, IsSupportedK2FunctionId]
  · simp [K2PgIsSupportedSingleRowModifyAssignExpr, hr, hk, IsSupportedK2FunctionId]

/-- C28 at a concrete expression: `x + 1` over the target column 2, with the
immutable `int4pl`, is not supported. -/
theorem C28_target_reference_with_call_is_unsupported_witness :
    K2PgIsSupportedSingleRowModifyAssignExpr examplePgProc exampleIncrement 2
      = .ok (false, false) :=
  (C28_target_reference_with_call_is_unsupported examplePgProc exampleIncrement 2 rfl rfl).2.1
    rfl

/-! ## A single equality key, bound and encoded -/

/-- The function `camLoadTableInfo` leaves the target relation of the scan plan
as it is. -/
theorem camLoadTableInfo_target_relation (env : PgGate) (rel : RelationData)
    (z q : CamScanPlanData) (hq : camLoadTableInfo env rel z = .ok q) :
    q.target_relation = z.target_relation := by
  have hcheck : ∀ (z q : CamScanPlanData) (d : Nat) (a : AttrNumber),
      camCheckPrimaryKeyAttribute env z d a = .ok q → q.target_relation = z.target_relation := by
    intro z q d a hc
    simp only [camCheckPrimaryKeyAttribute] at hc
    split at hc
    · cases hc
    · split at hc <;> cases hc <;> rfl
  have hloop : ∀ (d : Nat) (l : List AttrNumber) (z q : CamScanPlanData),
      camLoadTableInfo_loop env d l z = .ok q → q.target_relation = z.target_relation := by
    intro d l
    induction l with
    | nil => intro z q hl; simp only [camLoadTableInfo_loop] at hl; cases hl; rfl
    | cons a rest ih =>
      intro z q hl
      simp only [camLoadTableInfo_loop] at hl
      split at hl
      · cases hl
      · rename_i z1 hz1
        rw [ih z1 q hl, hcheck z z1 d a hz1]
  simp only [camLoadTableInfo] at hq
  split at hq
  · cases hq
  · rename_i d hd
    split at hq
    · cases hq
    · rename_i z1 hz1
      split at hq
      · rw [hcheck z1 q d _ hq, hloop d _ z z1 hz1]
      · cases hq; exact hloop d _ z _ hz1

/-- For a sequential scan and for a scan through the primary index a
successful `camSetupScanPlan` makes the base relation the target relation and
its descriptor the bind descriptor. -/
theorem camSetupScanPlan_base (env : PgGate) (relation : RelationData)
    (index : Option RelationData) (xs_want_itup : Bool) (camScan c1 : CamScanDescData)
    (p1 : CamScanPlanData)
    (hscan : index = none ∨ ∃ idx, index = some idx ∧ idx.indisprimary = true)
    (h : camSetupScanPlan env relation index xs_want_itup camScan = .ok (c1, p1)) :
    p1.target_relation = relation ∧ p1.bind_desc = relation.rd_att := by
  rcases hscan with hi | ⟨idx, hi, hp⟩
  · subst hi
    simp only [camSetupScanPlan] at h
    split at h
    · cases h
    · rename_i c3 p3 hl
      split at hl
      · cases hl
      · rename_i q hq
        cases hl; cases h
        exact ⟨camLoadTableInfo_target_relation env _ _ q hq, rfl⟩
  · subst hi
    simp only [camSetupScanPlan, hp, if_true] at h
    split at h
    · cases h
    · rename_i c3 p3 hl
      split at hl
      · cases hl
      · rename_i q hq
        cases hl; cases h
        exact ⟨camLoadTableInfo_target_relation env _ _ q hq, rfl⟩

/-- What a successful `camBeginScan` of a sequential or primary-index scan
leaves behind: the scan plan it worked with has the base relation as target
relation and the base descriptor as bind descriptor, and the scan descriptor
holds the constraints bound under the column set of `camSetupScanKeys`. -/
theorem camBeginScan_base_plan (env : PgGate) (relation : RelationData)
    (index : Option RelationData) (xs_want_itup : Bool) (key : List ScanKeyData)
    (camScan : CamScanDescData)
    (hscan : index = none ∨ ∃ idx, index = some idx ∧ idx.indisprimary = true)
    (hopen : camBeginScan env relation index xs_want_itup key = .ok camScan) :
    ∃ scan_plan : CamScanPlanData,
      scan_plan.sk_cols = ∅ ∧
      scan_plan.bind_key_attnums
          = key.map (fun k => (camSetupScanPlan_keyAttnums index xs_want_itup k).2) ∧
      scan_plan.target_relation = relation ∧ scan_plan.bind_desc = relation.rd_att ∧
      camScan.constraints =
        (if relation.isSystemRelation then
          camBindScanKeys_system env relation key
            { scan_plan with sk_cols := (camSetupScanKeys_loop env relation key scan_plan
                (List.range key.length)
                { limit_count := 0, limit_offset := 0, limit_use_default := false } ∅).2 }
            (List.range key.length) []
        else
          camBindScanKeys_user env relation index key
            { scan_plan with sk_cols := (camSetupScanKeys_loop env relation key scan_plan
                (List.range key.length)
                { limit_count := 0, limit_offset := 0, limit_use_default := false } ∅).2 }
            []) := by
  simp only [camBeginScan] at hopen
  split at hopen
  · cases hopen
  · split at hopen
    · cases hopen
    · rename_i c1 p1 hplan
      obtain ⟨hkey, hexec, hcons, hsk, hbind, -⟩ :=
        camSetupScanPlan_ok env relation index xs_want_itup _ c1 p1 hplan
      obtain ⟨htr, hbd⟩ :=
        camSetupScanPlan_base env relation index xs_want_itup _ c1 p1 hscan hplan
      split at hopen
      · cases hopen
      · rename_i c3 hc3
        cases hopen
        obtain ⟨-, hk3, hcs3⟩ := camBindScanKeys_ok env relation index _ c3 _ hc3
        have hk1 : c1.key = key := hkey
        have he1 : c1.exec_params
            = { limit_count := 0, limit_offset := 0, limit_use_default := false } := hexec
        have hc1 : c1.constraints = [] := hcons
        refine ⟨p1, hsk, hbind, htr, hbd, ?_⟩
        simp only [camSetupTargets, hcs3, camSetupScanKeys, CamScanDescData.nkeys, hk1, he1,
          hc1, hsk]

/-- The user branch of `camBindScanKeys` on a single equality key with flags 0
whose column is in use: it appends the constraint of `camBindColumn`. -/
theorem camBindScanKeys_user_single_equality (env : PgGate) (relation : RelationData)
    (index : Option RelationData) (scan_plan : CamScanPlanData) (k : ScanKeyData)
    (id : AttrNumber) (cs : List K2PgConstraintDef)
    (hbind : scan_plan.bind_key_attnums = [id])
    (hsel : env.K2PgAttnumToBmsIndex relation id ∈ scan_plan.sk_cols)
    (hflags : k.sk_flags = 0) (hstrategy : k.sk_strategy = BTEqualStrategyNumber) :
    camBindScanKeys_user env relation index [k] scan_plan cs =
      camBindColumn cs scan_plan.bind_desc id k.sk_argument false := by
  have heq : (([k] : List ScanKeyData).getD (0 : Int).toNat default).isEqualityKey = true := by
    show k.isEqualityKey = true
    simp [ScanKeyData.isEqualityKey, hflags, hstrategy, IsBasicOpSearch]
  have hr : List.range ([k] : List ScanKeyData).length = [0] := rfl
  have hmax : camBindScanKeys_maxIdx env relation scan_plan [0] 0
      = env.K2PgAttnumToBmsIndex relation id := by
    simp only [camBindScanKeys_maxIdx, hbind, List.getD_cons_zero, hsel, not_true_eq_false,
      if_false]
    split_ifs <;> omega
  have hoff : camBindScanKeys_offsets env relation [k] scan_plan [0] [] = [0] := by
    simp [camBindScanKeys_offsets, hbind, hsel, hflags, hstrategy, IsBasicOpSearch]
  have hq : camBindScanKeys_restore (qsort int_compar_cb [0]) = [0] := by decide
  have hb0 : (List.replicate (env.K2PgAttnumToBmsIndex relation id + 1) false).getD
      (env.K2PgAttnumToBmsIndex relation
        (scan_plan.bind_key_attnums.getD (0 : Int).toNat 0)) false = false := by
    simp only [List.getD_eq_getElem?_getD, List.getElem?_replicate]
    split_ifs <;> rfl
  simp only [camBindScanKeys_user, hr, hmax, hoff, hq]
  rw [camBindScanKeys_bind_cons,
    camBindScanKeys_bindStep_equality env relation index [k] scan_plan 0 _ hb0 heq]
  simp only [camBindScanKeys_bind, hbind, Int.toNat_zero, List.getD_cons_zero, hflags,
    camBindColumn]
  rfl

/-- C29: for a user table and a sequential or primary-index scan with the
single basic scan key `id = 42` (flags 0, strategy Equal) on a column `id`
of type `int4` with a valid attribute number, `camBeginScan` binds exactly
one constraint: kind EQ on `id` with exactly one non-null constant of type
INT4 and datum 42, and `serializePGConstToK2SKV` hands that constant to
`serializeNext` as the Int32 value 42. -/
theorem C29_equality_on_int4_key (env : PgGate) (relation : RelationData)
    (index : Option RelationData) (xs_want_itup : Bool) (k : ScanKeyData) (id : AttrNumber)
    (camScan : CamScanDescData)
    (huser : relation.isSystemRelation = false)
    (hscan : index = none ∨ ∃ idx, index = some idx ∧ idx.indisprimary = true)
    (hflags : k.sk_flags = 0) (hstrategy : k.sk_strategy = BTEqualStrategyNumber)
    (hargument : k.sk_argument = 42)
    (hid : (camSetupScanPlan_keyAttnums index xs_want_itup k).2 = id) (hpos : 0 < id)
    (htype : (TupleDescAttr relation.rd_att (id - 1)).atttypid = INT4OID)
    (hopen : camBeginScan env relation index xs_want_itup [k] = .ok camScan) :
    camScan.constraints =
      [{ attr_num := id, constraint := .K2PG_CONSTRAINT_EQ,
         constants := [{ type_id := INT4OID,
                         attr_size := (TupleDescAttr relation.rd_att (id - 1)).attlen,
                         attr_byvalue := (TupleDescAttr relation.rd_att (id - 1)).attbyval,
                         datum := 42, is_null := false }] }] ∧
    ∀ (pg_detoast_datum : Datum → Option Varlena) (builder : SKVRecordBuilder),
      serializePGConstToK2SKV pg_detoast_datum builder
          { type_id := INT4OID,
            attr_size := (TupleDescAttr relation.rd_att (id - 1)).attlen,
            attr_byvalue := (TupleDescAttr relation.rd_att (id - 1)).attbyval,
            datum := 42, is_null := false }
        = builder.serializeNext (.int32 42) := by
  obtain ⟨p1, hsk, hbind, htr, hbd, hcons⟩ :=
    camBeginScan_base_plan env relation index xs_want_itup [k] camScan hscan hopen
  have hbind1 : p1.bind_key_attnums = [id] := by
    rw [hbind]
    simp only [List.map_cons, List.map_nil, hid]
  have hne : ¬ (id = (InvalidOid : Int)) := by
    intro h0
    rw [h0] at hpos
    exact absurd hpos (by decide)
  have hpush : ∀ p : Bool, ShouldPushdownScanKey false id k p = true := by
    intro p
    simp [ShouldPushdownScanKey, IsBasicOpSearch, hflags, cam_should_pushdown_op, hstrategy]
  have hcols : (camSetupScanKeys_loop env relation [k] p1 (List.range ([k] : List _).length)
      { limit_count := 0, limit_offset := 0, limit_use_default := false } ∅).2
      = {env.K2PgAttnumToBmsIndex relation id} := by
    have hr : List.range ([k] : List ScanKeyData).length = [0] := rfl
    rw [hr]
    simp only [camSetupScanKeys_loop, hbind1, List.getD_cons_zero, if_neg hne, huser, hpush,
      Bool.not_true, Bool.false_eq_true, if_false, htr]
    rfl
  constructor
  · rw [hcons, huser]
    simp only [Bool.false_eq_true, if_false]
    refine Eq.trans (camBindScanKeys_user_single_equality env relation index _ k id [] ?_ ?_
      hflags hstrategy) ?_
    · exact hbind1
    · show env.K2PgAttnumToBmsIndex relation id ∈
        (camSetupScanKeys_loop env relation [k] p1 _ _ ∅).2
      rw [hcols]
      exact Finset.mem_singleton_self _
    have hinfo : cam_get_att_type_info relation.rd_att id =
        ((TupleDescAttr relation.rd_att (id - 1)).atttypid,
          (TupleDescAttr relation.rd_att (id - 1)).attlen,
          (TupleDescAttr relation.rd_att (id - 1)).attbyval) := by
      simp only [cam_get_att_type_info]
      rw [if_pos (show id > 0 from hpos)]
    simp only [camBindColumn, hbd, hinfo, htype, hargument, List.nil_append]
  · intro pg_detoast_datum builder
    apply serializePGConstToK2SKV_of_encode _ _ _ _ rfl
    simp [encodePGConst, isStringType, is1ByteIntType, is2ByteIntType, is4ByteIntType,
      CHAROID, INT1OID, INT2OID, INT4OID, VARCHAROID, BPCHAROID, TEXTOID, CLOBOID, BYTEAOID]
    decide

/-- C29 at a concrete scan: the example user table with `id = 42` on its `int4`
primary-key column 1; the single constraint is `EQ [42]` and the constant is
written as the Int32 value 42. -/
theorem C29_equality_on_int4_key_witness :
    exampleIdScan.constraints =
      [{ attr_num := 1, constraint := .K2PG_CONSTRAINT_EQ,
         constants := [{ type_id := INT4OID, attr_size := 4, attr_byvalue := true,
                         datum := 42, is_null := false }] }] ∧
    serializePGConstToK2SKV exampleDetoast exampleBuilderAtInt4
        { type_id := INT4OID, attr_size := 4, attr_byvalue := true, datum := 42,
          is_null := false }
      = exampleBuilderAtInt4.serializeNext (.int32 42) :=
  have h := C29_equality_on_int4_key exampleGate exampleUserTable none false exampleIdKey 1
    exampleIdScan rfl (Or.inl rfl) rfl rfl rfl rfl (by decide) rfl rfl
  ⟨h.1, h.2 exampleDetoast exampleBuilderAtInt4⟩

/-! ## Primary-key attributes of a relation -/

/-- When every `PgGate_GetColumnInfo` call succeeds, the attribute loop of
`K2PgAllPrimaryKeysProvided` adds exactly the visited attribute numbers that
are reported as primary. -/
theorem K2PgAllPrimaryKeysProvided_loop_ok (env : PgGate) (d : Nat) (l : List AttrNumber) :
    ∀ (pk : Bitmapset),
      (∀ a ∈ l, ∃ b, env.PgGate_GetColumnInfo d a = .ok b) →
      ∃ pk1, K2PgAllPrimaryKeysProvided_loop env d l pk = .ok pk1 ∧
        ∀ n, n ∈ pk1 ↔ n ∈ pk ∨ ∃ a ∈ l, reportsPrimary env d a = true ∧ a.toNat = n := by
  induction l with
  | nil =>
    intro pk _
    exact ⟨pk, rfl, by simp⟩
  | cons a rest ih =>
    intro pk hall
    obtain ⟨b, hb⟩ := hall a (List.mem_cons_self _ _)
    have hrest : ∀ a1 ∈ rest, ∃ b, env.PgGate_GetColumnInfo d a1 = .ok b :=
      fun a1 h1 => hall a1 (List.mem_cons_of_mem _ h1)
    cases b with
    | true =>
      obtain ⟨pk1, hrun, hmem⟩ := ih (insert a.toNat pk) hrest
      refine ⟨pk1, by simp only [K2PgAllPrimaryKeysProvided_loop, hb, if_true]; exact hrun, ?_⟩
      intro n
      rw [hmem n]
      have hpa : reportsPrimary env d a = true := by simp [reportsPrimary, hb]
      simp only [Finset.mem_insert, List.mem_cons, exists_eq_or_imp, hpa, true_and]
      constructor
      · rintro ((h | h) | h)
        · exact Or.inr (Or.inl h.symm)
        · exact Or.inl h
        · exact Or.inr (Or.inr h)
      · rintro (h | h | h)
        · exact Or.inl (Or.inr h)
        · exact Or.inl (Or.inl h.symm)
        · exact Or.inr h
    | false =>
      obtain ⟨pk1, hrun, hmem⟩ := ih pk hrest
      refine ⟨pk1, by
        simp only [K2PgAllPrimaryKeysProvided_loop, hb, Bool.false_eq_true, if_false]
        exact hrun, ?_⟩
      intro n
      rw [hmem n]
      have hpa : reportsPrimary env d a = false := by simp [reportsPrimary, hb]
      simp [hpa]

/-- C30: `K2PgAllPrimaryKeysProvided` returns false for an empty attribute set
whatever the relation, without asking the table descriptor; for a non-empty
set, when the gate calls succeed, it returns true exactly when the set equals
the set of attribute numbers in `1..natts` that the table descriptor reports
as primary. -/
theorem C30_all_primary_keys_provided (env : PgGate)
    (RelationIdGetRelation : Oid → RelationData) (relid : Oid) (attrs : Bitmapset) :
    K2PgAllPrimaryKeysProvided env RelationIdGetRelation relid ∅ = .ok false ∧
    (attrs ≠ ∅ →
      ∀ d, env.PgGate_GetTableDesc (env.K2PgGetDatabaseOid (RelationIdGetRelation relid)) relid
          = .ok d →
      (∀ n : Nat, 1 ≤ n → n ≤ (RelationIdGetRelation relid).rd_att.length →
        ∃ b, env.PgGate_GetColumnInfo d (n : Int) = .ok b) →
      K2PgAllPrimaryKeysProvided env RelationIdGetRelation relid attrs =
        .ok (decide (attrs =
          reportedPrimaryKey env d (RelationIdGetRelation relid).rd_att.length))) := by
  constructor
  · simp [K2PgAllPrimaryKeysProvided]
  · intro hne d hd hcols
    have hall : ∀ a ∈ (List.range (RelationIdGetRelation relid).rd_att.length).map
        (fun (n : Nat) => (n : Int) + 1), ∃ b, env.PgGate_GetColumnInfo d a = .ok b := by
      intro a ha
      obtain ⟨m, hm, rfl⟩ := List.mem_map.1 ha
      have hm1 := List.mem_range.1 hm
      have := hcols (m + 1) (by omega) (by omega)
      simpa using this
    obtain ⟨pk1, hrun, hmem⟩ := K2PgAllPrimaryKeysProvided_loop_ok env d _ ∅ hall
    have hpk : pk1 = reportedPrimaryKey env d (RelationIdGetRelation relid).rd_att.length := by
      ext n
      rw [hmem n]
      simp only [Finset.not_mem_empty, false_or, reportedPrimaryKey, Finset.mem_filter,
        Finset.mem_Icc, List.mem_map, List.mem_range]
      constructor
      · rintro ⟨a, ⟨m, hm, rfl⟩, hp, hn⟩
        have hn1 : n = m + 1 := by omega
        subst hn1
        refine ⟨⟨by omega, by omega⟩, ?_⟩
        simpa using hp
      · rintro ⟨⟨h1, h2⟩, hp⟩
        refine ⟨(n : Int), ⟨n - 1, by omega, ?_⟩, hp, by simp⟩
        show ((n - 1 : Nat) : Int) + 1 = (n : Int)
        omega
    simp only [K2PgAllPrimaryKeysProvided, if_neg hne, hd, hrun, hpk]

/-- C30 at concrete sets: for the example user table, whose column 1 is the
only primary-key column, the set `{1}` is accepted and the set `{1, 2}` is
not. -/
theorem C30_all_primary_keys_provided_witness :
    K2PgAllPrimaryKeysProvided exampleGate (fun _ => exampleUserTable) 16384 {1}
        = .ok (decide (({1} : Bitmapset) = reportedPrimaryKey exampleGate 16384 2)) ∧
    K2PgAllPrimaryKeysProvided exampleGate (fun _ => exampleUserTable) 16384 {1, 2}
        = .ok (decide (({1, 2} : Bitmapset) = reportedPrimaryKey exampleGate 16384 2)) ∧
    decide (({1} : Bitmapset) = reportedPrimaryKey exampleGate 16384 2) = true ∧
    decide (({1, 2} : Bitmapset) = reportedPrimaryKey exampleGate 16384 2) = false :=
  ⟨(C30_all_primary_keys_provided exampleGate (fun _ => exampleUserTable) 16384 {1}).2
      (by decide) 16384 rfl (fun n _ _ => ⟨_, rfl⟩),
   (C30_all_primary_keys_provided exampleGate (fun _ => exampleUserTable) 16384 {1, 2}).2
      (by decide) 16384 rfl (fun n _ _ => ⟨_, rfl⟩),
   by decide, by decide⟩

/-! ## Status conversion -/

/-- C40: `K2CodeToPGCode` returns the successful-completion code exactly for the
store codes 200, 201, 202 and 404, snapshot-invalid for 403,
serialization-failure for 409, unique-violation for 412 and internal-error
for every other integer; `K2StatusToK2PgStatus` keeps the status code of the
store in `k2_code` and its message in `msg`, and sets `pg_code` to the
converted code. -/
theorem C40_status_conversion :
    (∀ k2code : Int, K2CodeToPGCode k2code = ERRCODE_SUCCESSFUL_COMPLETION ↔
      (k2code = 200 ∨ k2code = 201 ∨ k2code = 202 ∨ k2code = 404)) ∧
    K2CodeToPGCode 403 = ERRCODE_SNAPSHOT_INVALID ∧
    K2CodeToPGCode 409 = ERRCODE_T_R_SERIALIZATION_FAILURE ∧
    K2CodeToPGCode 412 = ERRCODE_UNIQUE_VIOLATION ∧
    (∀ k2code : Int, k2code ≠ 200 → k2code ≠ 201 → k2code ≠ 202 → k2code ≠ 403 →
      k2code ≠ 404 → k2code ≠ 409 → k2code ≠ 412 →
      K2CodeToPGCode k2code = ERRCODE_INTERNAL_ERROR) ∧
    (∀ status : Status,
      (K2StatusToK2PgStatus status).k2_code = status.code ∧
      (K2StatusToK2PgStatus status).msg = status.message ∧
      (K2StatusToK2PgStatus status).pg_code = K2CodeToPGCode status.code) := by
  refine ⟨?_, by decide, by decide, by decide, ?_, fun _ => ⟨rfl, rfl, rfl⟩⟩
  · intro k2code
    unfold K2CodeToPGCode
    split_ifs with h1 h2 h3 h4
    · constructor
      · intro _
        rcases h1 with h | h | h
        · exact Or.inl h
        · exact Or.inr (Or.inl h)
        · exact Or.inr (Or.inr (Or.inl h))
      · intro _; rfl
    · exact ⟨fun h => absurd h (by decide), fun h => by omega⟩
    · exact ⟨fun h => absurd h (by decide), fun h => by omega⟩
    · exact ⟨fun _ => Or.inr (Or.inr (Or.inr h4)), fun _ => rfl⟩
    · exact ⟨fun h => absurd h (by decide), fun h => by omega⟩
    · exact ⟨fun h => absurd h (by decide), fun h => by omega⟩
    · exact ⟨fun h => absurd h (by decide), fun h => by omega⟩
    · exact ⟨fun h => absurd h (by decide), fun h => by omega⟩
    · exact ⟨fun h => absurd h (by decide), fun h => by omega⟩
  · intro k2code n200 n201 n202 n403 n404 n409 n412
    simp only [K2CodeToPGCode, n200, n201, n202, n403, n404, n409, n412, false_or, if_false]
    split_ifs <;> rfl

/-- C40 at concrete codes: the store code 410 is converted to internal-error,
and the store code 404 to successful completion. -/
theorem C40_status_conversion_witness :
    K2CodeToPGCode 410 = ERRCODE_INTERNAL_ERROR ∧
    K2CodeToPGCode 404 = ERRCODE_SUCCESSFUL_COMPLETION :=
  ⟨C40_status_conversion.2.2.2.2.1 410 (by decide) (by decide) (by decide) (by decide)
      (by decide) (by decide) (by decide),
   (C40_status_conversion.1 404).2 (Or.inr (Or.inr (Or.inr rfl)))⟩

/-! ## Local re-check, key by key -/

/-- The loop of `heaptuple_matches_key` examines only positions it is given. -/
theorem heaptuple_matches_key_examined_subset (env : PgExec) (tup : HeapTupleData)
    (tupdesc : TupleDesc) (key : List ScanKeyData) (sk_attno : List AttrNumber)
    (l : List Nat) :
    ∀ i ∈ heaptuple_matches_key_examined env tup tupdesc key sk_attno l,
      i ∈ l ∧ sk_attno.getD i 0 ≠ (InvalidOid : Int) := by
  induction l with
  | nil => intro i hi; simp [heaptuple_matches_key_examined] at hi
  | cons j rest ih =>
    intro i hi
    by_cases hattno : sk_attno.getD j 0 = (InvalidOid : Int)
    · simp only [heaptuple_matches_key_examined, if_pos hattno, List.not_mem_nil] at hi
    · have hcases : i = j ∨
          i ∈ heaptuple_matches_key_examined env tup tupdesc key sk_attno rest := by
        simp only [heaptuple_matches_key_examined, if_neg hattno] at hi
        split_ifs at hi <;>
          first
          | exact Or.inl (List.mem_singleton.1 hi)
          | exact (List.mem_cons.1 hi)
      rcases hcases with h | h
      · subst h
        exact ⟨List.mem_cons_self _ _, hattno⟩
      · exact ⟨List.mem_cons_of_mem _ (ih i h).1, (ih i h).2⟩

/-- The loops of `heaptuple_matches_key` and of `indextuple_matches_key` agree
on every list of key positions when the two accessors agree at the positions
that the heap loop examines. -/
theorem matches_key_loops_agree (env : PgExec)
    (index_getattr : IndexTupleData → AttrNumber → TupleDesc → Datum × Bool)
    (htup : HeapTupleData) (itup : IndexTupleData) (hdesc idesc : TupleDesc)
    (key : List ScanKeyData) (sk_attno : List AttrNumber) (l : List Nat) :
    (∀ i ∈ heaptuple_matches_key_examined env htup hdesc key sk_attno l,
      env.heap_getattr htup (sk_attno.getD i 0) hdesc
        = index_getattr itup (sk_attno.getD i 0) idesc) →
    ∀ recheck : Bool,
      heaptuple_matches_key_loop env htup hdesc key sk_attno l recheck =
        indextuple_matches_key_loop env index_getattr itup idesc key sk_attno l recheck := by
  induction l with
  | nil => intro _ recheck; rfl
  | cons i rest ih =>
    intro hsame recheck
    by_cases hattno : sk_attno.getD i 0 = (InvalidOid : Int)
    · simp only [heaptuple_matches_key_loop, indextuple_matches_key_loop, if_pos hattno]
    · have hmem : i ∈ heaptuple_matches_key_examined env htup hdesc key sk_attno
          (i :: rest) := by
        simp only [heaptuple_matches_key_examined, if_neg hattno]
        split_ifs <;> simp
      have hi := hsame i hmem
      simp only [heaptuple_matches_key_examined, if_neg hattno] at hsame
      simp only [heaptuple_matches_key_loop, indextuple_matches_key_loop, if_neg hattno, ← hi]
      split_ifs at hsame ⊢ <;>
        first
        | rfl
        | exact ih (fun j hj => hsame j (List.mem_cons_of_mem _ hj)) _

/-- C36: `heaptuple_matches_key` and `indextuple_matches_key` compute the same
function: for every key list, attribute-number array and pair of rows, when
the heap accessor and the index accessor return the same (value, is-null)
pair for each examined attribute (the attribute of every key position at which
the loop calls the accessor, so of no position behind the first attribute
number 0 or behind a key that rejects the row), both functions return the same
boolean and leave the same value in `*recheck`. -/
theorem C36_heap_and_index_recheck_agree (env : PgExec)
    (index_getattr : IndexTupleData → AttrNumber → TupleDesc → Datum × Bool)
    (htup : HeapTupleData) (itup : IndexTupleData) (hdesc idesc : TupleDesc) (nkeys : Nat)
    (key : List ScanKeyData) (sk_attno : List AttrNumber)
    (hsame : ∀ i ∈ heaptuple_matches_key_examined env htup hdesc key sk_attno
        (List.range nkeys),
      env.heap_getattr htup (sk_attno.getD i 0) hdesc
        = index_getattr itup (sk_attno.getD i 0) idesc) :
    heaptuple_matches_key env htup hdesc nkeys key sk_attno =
      indextuple_matches_key env index_getattr itup idesc nkeys key sk_attno :=
  matches_key_loops_agree env index_getattr htup itup hdesc idesc key sk_attno
    (List.range nkeys) hsame false

/-- C36 at concrete rows: under the keys `x > 5` on attribute 1 and `> 5` on
attribute 2, a heap tuple and an index tuple that both hold 3 in attribute 1;
the first key rejects the row, attribute 2 is not examined, and there the two
accessors differ. -/
theorem C36_heap_and_index_recheck_agree_witness :
    heaptuple_matches_key exampleExec (exampleHeapTuple 3) exampleUserTable.rd_att 2
        [exampleGreaterKey, exampleGreaterKey] [1, 2] =
      indextuple_matches_key exampleExec exampleIndexGetattr exampleWideIndexTuple
        exampleSecondaryIndex.rd_att 2 [exampleGreaterKey, exampleGreaterKey] [1, 2] ∧
    exampleExec.heap_getattr (exampleHeapTuple 3) 2 exampleUserTable.rd_att ≠
      exampleIndexGetattr exampleWideIndexTuple 2 exampleSecondaryIndex.rd_att :=
  ⟨C36_heap_and_index_recheck_agree exampleExec exampleIndexGetattr (exampleHeapTuple 3)
    exampleWideIndexTuple exampleUserTable.rd_att exampleSecondaryIndex.rd_att 2
    [exampleGreaterKey, exampleGreaterKey] [1, 2] (fun i hi => by
      have h0 : i = 0 := List.mem_singleton.1 hi
      subst h0
      rfl), by decide⟩

/-- The keys with other flags, spelled out. -/
theorem hasOtherFlags_iff (k : ScanKeyData) :
    k.hasOtherFlags = true ↔
      k.sk_flags ≠ 0 ∧ k.sk_flags &&& SK_SEARCHNULL = 0 ∧
        k.sk_flags &&& SK_SEARCHNOTNULL = 0 := by
  simp only [ScanKeyData.hasOtherFlags, Bool.and_eq_true, decide_eq_true_eq]
  tauto

/-- One step of the loop of `heaptuple_matches_key` at a key whose flags are
not 0 and hold neither null-test flag: `*recheck` is set and the loop goes on. -/
theorem heaptuple_matches_key_loop_other_flags (env : PgExec) (tup : HeapTupleData)
    (tupdesc : TupleDesc) (key : List ScanKeyData) (sk_attno : List AttrNumber) (i : Nat)
    (rest : List Nat) (recheck : Bool)
    (hattno : sk_attno.getD i 0 ≠ (InvalidOid : Int))
    (hflags : (key.getD i default).hasOtherFlags = true) :
    heaptuple_matches_key_loop env tup tupdesc key sk_attno (i :: rest) recheck =
      heaptuple_matches_key_loop env tup tupdesc key sk_attno rest true := by
  obtain ⟨h3, h1, h2⟩ := (hasOtherFlags_iff _).1 hflags
  simp only [heaptuple_matches_key_loop, if_neg hattno, h1, h2, ne_eq, not_true_eq_false,
    if_false, h3, not_false_eq_true, if_true]

/-- Whenever the loop of `heaptuple_matches_key` accepts, `*recheck` is its
initial value or-ed with the presence of a key with other flags among the
positions before the first attribute number 0. -/
theorem heaptuple_matches_key_loop_recheck (env : PgExec) (tup : HeapTupleData)
    (tupdesc : TupleDesc) (key : List ScanKeyData) (sk_attno : List AttrNumber)
    (l : List Nat) :
    ∀ recheck : Bool,
      (heaptuple_matches_key_loop env tup tupdesc key sk_attno l recheck).1 = true →
      (heaptuple_matches_key_loop env tup tupdesc key sk_attno l recheck).2 =
        (recheck || (l.takeWhile
          (fun i => decide (sk_attno.getD i 0 ≠ (InvalidOid : Int)))).any
          (fun i => (key.getD i default).hasOtherFlags)) := by
  induction l with
  | nil => intro recheck _; simp [heaptuple_matches_key_loop]
  | cons i rest ih =>
    intro recheck hacc
    by_cases hattno : sk_attno.getD i 0 = (InvalidOid : Int)
    · have htake : (i :: rest).takeWhile
          (fun i => decide (sk_attno.getD i 0 ≠ (InvalidOid : Int))) = [] :=
        List.takeWhile_cons_of_neg (by simp only [ne_eq, hattno, not_true_eq_false,
          decide_False, Bool.false_eq_true, not_false_eq_true])
      rw [htake]
      simp only [heaptuple_matches_key_loop, if_pos hattno, List.any_nil, Bool.or_false]
    · have htake : (i :: rest).takeWhile
          (fun i => decide (sk_attno.getD i 0 ≠ (InvalidOid : Int))) =
          i :: rest.takeWhile (fun i => decide (sk_attno.getD i 0 ≠ (InvalidOid : Int))) :=
        List.takeWhile_cons_of_pos (by simp only [ne_eq, hattno, not_false_eq_true,
          decide_True])
      rw [htake, List.any_cons]
      by_cases h1 : (key.getD i default).sk_flags &&& SK_SEARCHNULL = 0
      · by_cases h2 : (key.getD i default).sk_flags &&& SK_SEARCHNOTNULL = 0
        · by_cases h3 : (key.getD i default).sk_flags = 0
          · have hother : (key.getD i default).hasOtherFlags = false :=
              Bool.eq_false_iff.2 (fun h => ((hasOtherFlags_iff _).1 h).1 h3)
            rw [hother, Bool.false_or]
            simp only [heaptuple_matches_key_loop, if_neg hattno, h1, h2, h3, ne_eq,
              not_true_eq_false, if_false] at hacc ⊢
            split_ifs at hacc ⊢ <;> exact ih recheck hacc
          · have hother : (key.getD i default).hasOtherFlags = true :=
              (hasOtherFlags_iff _).2 ⟨h3, h1, h2⟩
            rw [heaptuple_matches_key_loop_other_flags env tup tupdesc key sk_attno i rest
              recheck hattno hother] at hacc ⊢
            rw [hother, ih true hacc]
            simp
        · have hother : (key.getD i default).hasOtherFlags = false :=
            Bool.eq_false_iff.2 (fun h => h2 ((hasOtherFlags_iff _).1 h).2.2)
          rw [hother, Bool.false_or]
          simp only [heaptuple_matches_key_loop, if_neg hattno, h1, h2, ne_eq,
            not_true_eq_false, if_false, not_false_eq_true, if_true] at hacc ⊢
          split_ifs at hacc ⊢
          exact ih recheck hacc
      · have hother : (key.getD i default).hasOtherFlags = false :=
          Bool.eq_false_iff.2 (fun h => h1 ((hasOtherFlags_iff _).1 h).2.1)
        rw [hother, Bool.false_or]
        simp only [heaptuple_matches_key_loop, if_neg hattno, h1, ne_eq,
          not_false_eq_true, if_true] at hacc ⊢
        split_ifs at hacc ⊢
        exact ih recheck hacc

/-- C32: in `heaptuple_matches_key`, a key at a reached position whose flags
are not 0 and hold neither `SK_SEARCHNULL` nor `SK_SEARCHNOTNULL` never rejects
the row (the loop sets `*recheck` and goes on to the next key), and whenever
the function returns true, `*recheck` is true exactly when such a key stands
before the first key whose attribute number is 0. -/
theorem C32_other_flags_only_request_recheck (env : PgExec) (tup : HeapTupleData)
    (tupdesc : TupleDesc) (nkeys : Nat) (key : List ScanKeyData)
    (sk_attno : List AttrNumber) :
    (∀ (i : Nat) (rest : List Nat) (recheck : Bool),
      sk_attno.getD i 0 ≠ (InvalidOid : Int) →
      (key.getD i default).sk_flags ≠ 0 →
      (key.getD i default).sk_flags &&& SK_SEARCHNULL = 0 →
      (key.getD i default).sk_flags &&& SK_SEARCHNOTNULL = 0 →
      heaptuple_matches_key_loop env tup tupdesc key sk_attno (i :: rest) recheck =
        heaptuple_matches_key_loop env tup tupdesc key sk_attno rest true) ∧
    ((heaptuple_matches_key env tup tupdesc nkeys key sk_attno).1 = true →
      ((heaptuple_matches_key env tup tupdesc nkeys key sk_attno).2 = true ↔
        ∃ i ∈ keysBeforeInvalid nkeys sk_attno,
          (key.getD i default).sk_flags ≠ 0 ∧
          (key.getD i default).sk_flags &&& SK_SEARCHNULL = 0 ∧
          (key.getD i default).sk_flags &&& SK_SEARCHNOTNULL = 0)) := by
  refine ⟨?_, ?_⟩
  · intro i rest recheck hattno h3 h1 h2
    exact heaptuple_matches_key_loop_other_flags env tup tupdesc key sk_attno i rest recheck
      hattno ((hasOtherFlags_iff _).2 ⟨h3, h1, h2⟩)
  · intro hacc
    have h := heaptuple_matches_key_loop_recheck env tup tupdesc key sk_attno
      (List.range nkeys) false hacc
    unfold heaptuple_matches_key
    rw [h, Bool.false_or, List.any_eq_true]
    unfold keysBeforeInvalid
    constructor
    · rintro ⟨i, hi, hflags⟩
      exact ⟨i, hi, (hasOtherFlags_iff _).1 hflags⟩
    · rintro ⟨i, hi, hflags⟩
      exact ⟨i, hi, (hasOtherFlags_iff _).2 hflags⟩

/-- C32 at a concrete row: under the keys `x = ANY (...)` and `x > 5` the row
holding 9 is accepted with `*recheck` set, the array key standing at position
0. -/
theorem C32_other_flags_only_request_recheck_witness :
    (heaptuple_matches_key exampleExec (exampleHeapTuple 9) exampleUserTable.rd_att 2
        exampleArrayAndGreaterKeys [1, 1]).2 = true ↔
      ∃ i ∈ keysBeforeInvalid 2 [1, 1],
        (exampleArrayAndGreaterKeys.getD i default).sk_flags ≠ 0 ∧
        (exampleArrayAndGreaterKeys.getD i default).sk_flags &&& SK_SEARCHNULL = 0 ∧
        (exampleArrayAndGreaterKeys.getD i default).sk_flags &&& SK_SEARCHNOTNULL = 0 :=
  (C32_other_flags_only_request_recheck exampleExec (exampleHeapTuple 9)
    exampleUserTable.rd_att 2 exampleArrayAndGreaterKeys [1, 1]).2 (by rfl)

/-- In the order in which the binding loop of the user branch visits the keys,
the equality keys stand in descending order of their positions in the key
list: their offsets are stored negated and sorted in ascending order. -/
theorem camBindScanKeys_user_equality_order (env : PgGate) (relation : RelationData)
    (key : List ScanKeyData) (scan_plan : CamScanPlanData) :
    (camBindScanKeys_restore (qsort int_compar_cb
        (camBindScanKeys_offsets env relation key scan_plan (List.range key.length) []))).Pairwise
      (fun a b => (key.getD a.toNat default).isEqualityKey = true →
        (key.getD b.toNat default).isEqualityKey = true → b.toNat ≤ a.toNat) := by
  rw [camBindScanKeys_restore_eq_map _ (qsort_sorted _), List.pairwise_map]
  refine List.Pairwise.imp_of_mem ?_ (qsort_sorted _)
  intro a b ha hb hab hEa hEb
  have hoa := camBindScanKeys_offsets_origin env relation key scan_plan _ [] a
    ((qsort_perm _).mem_iff.1 ha)
  have hob := camBindScanKeys_offsets_origin env relation key scan_plan _ [] b
    ((qsort_perm _).mem_iff.1 hb)
  rcases hob with hb0 | ⟨ib, -, -, hib⟩
  · simp at hb0
  rcases hoa with ha0 | ⟨ia, -, -, hia⟩
  · simp at ha0
  have hbn : (if b < 0 then -b else b).toNat = ib := by
    rcases hib with ⟨-, h⟩ | ⟨-, h⟩ <;> split_ifs <;> omega
  have han : (if a < 0 then -a else a).toNat = ia := by
    rcases hia with ⟨-, h⟩ | ⟨-, h⟩ <;> split_ifs <;> omega
  rw [hbn] at hEb ⊢
  rw [han] at hEa ⊢
  rcases hia with ⟨-, haeq⟩ | ⟨hna, -⟩
  · rcases hib with ⟨-, hbeq⟩ | ⟨hnb, -⟩
    · omega
    · rw [hEb] at hnb; cases hnb
  · rw [hEa] at hna; cases hna

/-- C31 (as stated, refuted): on the example user table the scan with
the keys `x = 7` at position 0 and `x = 9` at position 1, both equality keys
on the primary-key column, binds the key at position 1 (`EQ [9]`), not the one
that comes first in the key order. -/
theorem C31_counterexample :
    (camBeginScan exampleGate exampleUserTable none false
        exampleTwoEqualKeys).toOption.map (fun camScan => camScan.constraints)
      = some [{ attr_num := 1, constraint := .K2PG_CONSTRAINT_EQ,
                constants := [{ type_id := INT4OID, attr_size := 4, attr_byvalue := true,
                                datum := 9, is_null := false }] }]
    ∧ (camBeginScan exampleGate exampleUserTable none false
        exampleTwoEqualKeys).toOption.map (fun camScan => camScan.constraints)
      ≠ some [{ attr_num := 1, constraint := .K2PG_CONSTRAINT_EQ,
                constants := [{ type_id := INT4OID, attr_size := 4, attr_byvalue := true,
                                datum := 7, is_null := false }] }] := by
  decide

/-- C31, amended: for a user table, when a column selected for binding carries
equality or IS NULL keys, the one constraint that `camBindScanKeys` appends
for that column is the EQ constraint built from the equality or IS NULL key
of that column that comes last in the key order: its position `q` is at least
the position of every other such key of the column. -/
theorem C31_last_equality_key_is_bound (env : PgGate) (relation : RelationData)
    (index : Option RelationData) (camScan c3 : CamScanDescData)
    (scan_plan : CamScanPlanData) (p : Nat)
    (huser : relation.isSystemRelation = false)
    (h : camBindScanKeys env relation index camScan scan_plan = .ok c3)
    (hp : p < camScan.key.length)
    (hsel : env.K2PgAttnumToBmsIndex relation (scan_plan.bind_key_attnums.getD p 0)
      ∈ scan_plan.sk_cols)
    (heq : (camScan.key.getD p default).isEqualityKey = true) :
    ∃ (appended : List K2PgConstraintDef) (q : Nat),
      c3.constraints = camScan.constraints ++ appended ∧
      q < camScan.key.length ∧
      (camScan.key.getD q default).isEqualityKey = true ∧
      env.K2PgAttnumToBmsIndex relation (scan_plan.bind_key_attnums.getD q 0) =
        env.K2PgAttnumToBmsIndex relation (scan_plan.bind_key_attnums.getD p 0) ∧
      (∀ r, r < camScan.key.length →
        (camScan.key.getD r default).isEqualityKey = true →
        env.K2PgAttnumToBmsIndex relation (scan_plan.bind_key_attnums.getD r 0) =
          env.K2PgAttnumToBmsIndex relation (scan_plan.bind_key_attnums.getD p 0) →
        r ≤ q) ∧
      appended.filter (fun c => decide (env.K2PgAttnumToBmsIndex relation c.attr_num =
          env.K2PgAttnumToBmsIndex relation (scan_plan.bind_key_attnums.getD p 0))) =
        camBindColumn [] scan_plan.bind_desc (scan_plan.bind_key_attnums.getD q 0)
          (camScan.key.getD q default).sk_argument
          (((camScan.key.getD q default).sk_flags &&& SK_ISNULL) == SK_ISNULL) := by
  obtain ⟨-, -, hcs⟩ := camBindScanKeys_ok env relation index camScan c3 scan_plan h
  rw [huser] at hcs
  simp only [Bool.false_eq_true, if_false] at hcs
  have hmemL : ∀ r, r < camScan.key.length →
      (camScan.key.getD r default).isEqualityKey = true →
      env.K2PgAttnumToBmsIndex relation (scan_plan.bind_key_attnums.getD r 0) =
        env.K2PgAttnumToBmsIndex relation (scan_plan.bind_key_attnums.getD p 0) →
      (r : Int) ∈ camBindScanKeys_restore (qsort int_compar_cb
        (camBindScanKeys_offsets env relation camScan.key scan_plan
          (List.range camScan.key.length) [])) := by
    intro r hr hEr hcol
    have hrO : -(r : Int) ∈ camBindScanKeys_offsets env relation camScan.key scan_plan
        (List.range camScan.key.length) [] :=
      camBindScanKeys_offsets_complete env relation camScan.key scan_plan _ [] r
        (List.mem_range.2 hr) (by rw [hcol]; exact hsel) hEr
    rw [camBindScanKeys_restore_eq_map _ (qsort_sorted _)]
    refine List.mem_map.2 ⟨-(r : Int), (qsort_perm _).mem_iff.2 hrO, ?_⟩
    split_ifs <;> omega
  have hpL := hmemL p hp heq rfl
  obtain ⟨pre, o, post, hL, hpre, ho, hEo⟩ :=
    exists_first_on_column
      (fun l => env.K2PgAttnumToBmsIndex relation (scan_plan.bind_key_attnums.getD l.toNat 0))
      (fun l => (camScan.key.getD l.toNat default).isEqualityKey = true)
      (env.K2PgAttnumToBmsIndex relation (scan_plan.bind_key_attnums.getD p 0)) _
      (camBindScanKeys_user_order env relation camScan.key scan_plan) (p : Int) hpL
      (by simp) (by simpa using heq)
  have hoL : o ∈ camBindScanKeys_restore (qsort int_compar_cb
      (camBindScanKeys_offsets env relation camScan.key scan_plan
        (List.range camScan.key.length) [])) := by
    rw [hL]; simp
  obtain ⟨-, hoq, -⟩ :=
    camBindScanKeys_user_offsets_are_positions env relation camScan.key scan_plan o hoL
  have hbound := camBindScanKeys_user_offsets_in_bounds env relation camScan.key scan_plan o hoL
  have horder := camBindScanKeys_user_equality_order env relation camScan.key scan_plan
  rw [hL, List.pairwise_append, List.pairwise_cons] at horder
  refine ⟨camBindScanKeys_bind env relation index camScan.key scan_plan
      (camBindScanKeys_restore (qsort int_compar_cb
        (camBindScanKeys_offsets env relation camScan.key scan_plan
          (List.range camScan.key.length) [])))
      (List.replicate (camBindScanKeys_maxIdx env relation scan_plan
        (List.range camScan.key.length) 0 + 1) false) [], o.toNat, ?_, hoq, hEo, ho, ?_, ?_⟩
  · rw [hcs]
    exact camBindScanKeys_bind_append env relation index camScan.key scan_plan _ _ _
  · intro r hr hEr hcol
    have hrL := hmemL r hr hEr hcol
    rw [hL] at hrL
    rcases List.mem_append.1 hrL with hin | hin
    · exact absurd (by simpa using hcol) (hpre (r : Int) hin)
    · rcases List.mem_cons.1 hin with hro | hpost
      · rw [← hro]; simp
      · have := horder.2.1.1 (r : Int) hpost hEo (by simpa using hEr)
        simpa using this
  · rw [hL]
    refine camBindScanKeys_bind_first_for_column env relation index camScan.key scan_plan
      _ o post _ ho ?_ pre _ hpre ?_ ?_
    · intro b hb
      have hfree : b.getD (env.K2PgAttnumToBmsIndex relation
          (scan_plan.bind_key_attnums.getD o.toNat 0)) false = false := by
        have ho1 : env.K2PgAttnumToBmsIndex relation
            (scan_plan.bind_key_attnums.getD o.toNat 0) =
            env.K2PgAttnumToBmsIndex relation (scan_plan.bind_key_attnums.getD p 0) := ho
        rw [ho1]; exact hb
      rw [camBindScanKeys_bindStep_equality env relation index camScan.key scan_plan o b
        hfree hEo]
    · rw [List.length_replicate]
      have ho1 : env.K2PgAttnumToBmsIndex relation
          (scan_plan.bind_key_attnums.getD o.toNat 0) =
          env.K2PgAttnumToBmsIndex relation (scan_plan.bind_key_attnums.getD p 0) := ho
      rw [← ho1]; exact hbound
    · simp only [List.getD_eq_getElem?_getD, List.getElem?_replicate]
      split_ifs <;> rfl

/-- C31 (amended) at a concrete scan: the example user table with the keys
`x = 7` and `x = 9` on its primary-key column. -/
theorem C31_last_equality_key_is_bound_witness :
    ∃ (appended : List K2PgConstraintDef) (q : Nat),
      ({ camBeginScan_init exampleUserTable exampleTwoEqualKeys with
          handle := some 7
          constraints := camBindScanKeys_user exampleGate exampleUserTable none
            exampleTwoEqualKeys exampleScanPlan [] } : CamScanDescData).constraints
        = (camBeginScan_init exampleUserTable exampleTwoEqualKeys).constraints ++ appended ∧
      q < (camBeginScan_init exampleUserTable exampleTwoEqualKeys).key.length ∧
      ((camBeginScan_init exampleUserTable exampleTwoEqualKeys).key.getD q
        default).isEqualityKey = true ∧
      exampleGate.K2PgAttnumToBmsIndex exampleUserTable
          (exampleScanPlan.bind_key_attnums.getD q 0) =
        exampleGate.K2PgAttnumToBmsIndex exampleUserTable
          (exampleScanPlan.bind_key_attnums.getD 0 0) ∧
      (∀ r, r < (camBeginScan_init exampleUserTable exampleTwoEqualKeys).key.length →
        ((camBeginScan_init exampleUserTable exampleTwoEqualKeys).key.getD r
          default).isEqualityKey = true →
        exampleGate.K2PgAttnumToBmsIndex exampleUserTable
            (exampleScanPlan.bind_key_attnums.getD r 0) =
          exampleGate.K2PgAttnumToBmsIndex exampleUserTable
            (exampleScanPlan.bind_key_attnums.getD 0 0) →
        r ≤ q) ∧
      appended.filter (fun c => decide (exampleGate.K2PgAttnumToBmsIndex exampleUserTable
          c.attr_num = exampleGate.K2PgAttnumToBmsIndex exampleUserTable
            (exampleScanPlan.bind_key_attnums.getD 0 0))) =
        camBindColumn [] exampleScanPlan.bind_desc (exampleScanPlan.bind_key_attnums.getD q 0)
          ((camBeginScan_init exampleUserTable exampleTwoEqualKeys).key.getD q
            default).sk_argument
          ((((camBeginScan_init exampleUserTable exampleTwoEqualKeys).key.getD q
            default).sk_flags &&& SK_ISNULL) == SK_ISNULL) :=
  C31_last_equality_key_is_bound exampleGate exampleUserTable none
    (camBeginScan_init exampleUserTable exampleTwoEqualKeys) _ exampleScanPlan 0
    rfl rfl (by decide) (by decide) (by decide)

/-! ## Keys the classifier rejected -/

/-- C34: a key that `ShouldPushdownScanKey` rejected is bound all the same
when another key on its column was accepted, because `camSetupScanKeys`
records the accepted columns, not the accepted keys. On the example system
table the keys `x = 5` (accepted) and `x < 7` (rejected) give the two
constraints `EQ [5]` and `EQ [7]`; on the example user table the row-comparison
header key (rejected) and `x > 0` (accepted) give the single constraint
`LT [4096]`, built from the rejected key. -/
theorem C34_rejected_key_is_bound :
    ShouldPushdownScanKey true 1 (exampleEqualAndLessKeys.getD 0 default) true = true ∧
    ShouldPushdownScanKey true 1 (exampleEqualAndLessKeys.getD 1 default) true = false ∧
    (camBeginScan exampleGate exampleSystemTable none false
        exampleEqualAndLessKeys).toOption.map (fun camScan => camScan.constraints)
      = some [{ attr_num := 1, constraint := .K2PG_CONSTRAINT_EQ,
                constants := [{ type_id := INT4OID, attr_size := 4, attr_byvalue := true,
                                datum := 5, is_null := false }] },
              { attr_num := 1, constraint := .K2PG_CONSTRAINT_EQ,
                constants := [{ type_id := INT4OID, attr_size := 4, attr_byvalue := true,
                                datum := 7, is_null := false }] }] ∧
    ShouldPushdownScanKey false 1 exampleRowHeaderKey true = false ∧
    ShouldPushdownScanKey false 1 examplePositiveKey true = true ∧
    (camBeginScan exampleGate exampleUserTable none false
        [exampleRowHeaderKey, examplePositiveKey]).toOption.map
          (fun camScan => camScan.constraints)
      = some [{ attr_num := 1, constraint := .K2PG_CONSTRAINT_LT,
                constants := [{ type_id := INT4OID, attr_size := 4, attr_byvalue := true,
                                datum := 4096, is_null := false }] }] := by
  decide

/-! ## An array key without non-null elements -/

/-- For an array-membership key whose array has no non-null element, one
iteration of the binding loop appends nothing. -/
theorem camBindScanKeys_bindStep_empty_array (env : PgGate) (relation : RelationData)
    (index : Option RelationData) (key : List ScanKeyData) (scan_plan : CamScanPlanData)
    (o : Int) (b : List Bool)
    (hflags : (key.getD o.toNat default).sk_flags = SK_SEARCHARRAY)
    (hstrategy : (key.getD o.toNat default).sk_strategy = BTEqualStrategyNumber)
    (hnonnull : (env.deconstruct_array (key.getD o.toNat default).sk_argument).filter
      (fun e => !e.2) = []) :
    camBindScanKeys_bindStep env relation index key scan_plan o b = none := by
  have h1 : IsBasicOpSearch SK_SEARCHARRAY = false := by decide
  have h2 : IsSearchNull SK_SEARCHARRAY = false := by decide
  simp only [camBindScanKeys_bindStep, hflags, hstrategy, h1, h2, hnonnull, List.map_nil,
    List.length_nil, or_true, if_true, Bool.or_self, Bool.false_eq_true, if_false]
  split_ifs <;> rfl

/-- The binding loop appends nothing when every offset it visits is the
position of an array-membership key whose array has no non-null element. -/
theorem camBindScanKeys_bind_empty_arrays (env : PgGate) (relation : RelationData)
    (index : Option RelationData) (key : List ScanKeyData) (scan_plan : CamScanPlanData)
    (offsets : List Int) :
    (∀ o ∈ offsets, (key.getD o.toNat default).sk_flags = SK_SEARCHARRAY ∧
      (key.getD o.toNat default).sk_strategy = BTEqualStrategyNumber ∧
      (env.deconstruct_array (key.getD o.toNat default).sk_argument).filter
        (fun e => !e.2) = []) →
    ∀ (b : List Bool) (cs : List K2PgConstraintDef),
      camBindScanKeys_bind env relation index key scan_plan offsets b cs = cs := by
  induction offsets with
  | nil => intro _ b cs; rfl
  | cons o rest ih =>
    intro hall b cs
    obtain ⟨hflags, hstrategy, hnonnull⟩ := hall o (List.mem_cons_self _ _)
    rw [camBindScanKeys_bind_cons, camBindScanKeys_bindStep_empty_array env relation index key
      scan_plan o b hflags hstrategy hnonnull]
    exact ih (fun q hq => hall q (List.mem_cons_of_mem _ hq)) b cs

/-- Under a single key with flags `SK_SEARCHARRAY`, `heaptuple_matches_key`
accepts every tuple, and sets `*recheck` when the attribute number of the key
is not 0. -/
theorem heaptuple_matches_key_single_array (env : PgExec) (tup : HeapTupleData)
    (tupdesc : TupleDesc) (k : ScanKeyData) (sk_attno : List AttrNumber)
    (hflags : k.sk_flags = SK_SEARCHARRAY) :
    heaptuple_matches_key env tup tupdesc 1 [k] sk_attno =
      (true, decide (sk_attno.getD 0 0 ≠ (InvalidOid : Int))) := by
  have hrange : List.range 1 = [0] := rfl
  have hk : ([k] : List ScanKeyData).getD 0 default = k := rfl
  have hz0 : SK_SEARCHARRAY &&& SK_SEARCHNULL = 0 := by decide
  have hz1 : SK_SEARCHARRAY &&& SK_SEARCHNOTNULL = 0 := by decide
  have hz2 : SK_SEARCHARRAY ≠ 0 := by decide
  by_cases ha : sk_attno.getD 0 0 = (InvalidOid : Int)
  · simp only [heaptuple_matches_key, hrange, heaptuple_matches_key_loop, ne_eq,
      ha, not_true_eq_false, decide_False, if_true]
  · simp only [heaptuple_matches_key, hrange, heaptuple_matches_key_loop, hk, hflags,
      if_neg ha, hz0, hz1, ne_eq, not_true_eq_false, if_false, hz2, not_false_eq_true,
      if_true, ha, decide_True]

/-- C35 (as stated, refuted): on the example user table the scan
whose only key is `x = ANY ('{NULL, NULL}')` on the primary-key column binds no
constraint, and `cam_getnext_heaptuple` returns the row holding 3 that the
store delivers, with `*recheck` set, not NULL. -/
theorem C35_counterexample :
    camBeginScan exampleNullArrayGate exampleUserTable none false [exampleArrayKey]
      = .ok exampleNullArrayScan ∧
    exampleNullArrayScan.constraints = [] ∧
    (cam_getnext_heaptuple exampleExec exampleNullArrayScan true false
        [.ok (exampleRow 3)] 2).map
          (fun r => r.toOption.map (fun x => (x.1, x.2.1)))
      = some (some (some (exampleFetchedTuple 3), true)) :=
  ⟨rfl, rfl, by decide⟩

/-- C35, amended: for a user table scan whose only key is an array-membership
test (`SK_SEARCHARRAY`, strategy equal) whose array contains no non-null
element, `camBindScanKeys` binds no constraint, and `cam_getnext_heaptuple`
returns the first tuple that `camFetchNextHeapTuple` delivers, whatever it
holds; `*recheck` is then true when the attribute number of the key is not 0.
The call returns NULL only when the store delivers no row. -/
theorem C35_empty_array_scan_returns_rows (env : PgGate) (exec : PgExec)
    (relation : RelationData) (index : Option RelationData) (xs_want_itup : Bool)
    (k : ScanKeyData) (camScan camScan1 : CamScanDescData) (is_forward_scan recheck : Bool)
    (remote remote1 : RemoteResult) (tup : HeapTupleData) (fuel : Nat)
    (huser : relation.isSystemRelation = false)
    (hflags : k.sk_flags = SK_SEARCHARRAY)
    (hstrategy : k.sk_strategy = BTEqualStrategyNumber)
    (hnonnull : (env.deconstruct_array k.sk_argument).filter (fun e => !e.2) = [])
    (hopen : camBeginScan env relation index xs_want_itup [k] = .ok camScan)
    (hfetch : camFetchNextHeapTuple exec camScan is_forward_scan remote
      = .ok (some tup, camScan1, remote1)) :
    camScan.constraints = [] ∧
    cam_getnext_heaptuple exec camScan is_forward_scan recheck remote (fuel + 1) =
      some (.ok (some tup, decide (camScan.target_key_attnums.getD 0 0 ≠ (InvalidOid : Int)),
        camScan1, remote1)) := by
  obtain ⟨scan_plan, -, -, hkey, hcons⟩ :=
    camBeginScan_ok env relation index xs_want_itup [k] camScan hopen
  refine ⟨?_, ?_⟩
  · rw [hcons, huser]
    simp only [Bool.false_eq_true, if_false]
    unfold camBindScanKeys_user
    refine camBindScanKeys_bind_empty_arrays env relation index [k] _ _ ?_ _ _
    intro o ho
    obtain ⟨-, hlt, -⟩ := camBindScanKeys_user_offsets_are_positions env relation [k] _ o ho
    have ho0 : o.toNat = 0 := by
      have : o.toNat < 1 := hlt
      omega
    rw [ho0]
    exact ⟨hflags, hstrategy, hnonnull⟩
  · have hn : camScan.nkeys = 1 := by
      unfold CamScanDescData.nkeys
      rw [hkey]; rfl
    simp only [cam_getnext_heaptuple, cam_getnext_heaptuple_loop, hfetch, hn, hkey,
      heaptuple_matches_key_single_array exec tup _ k _ hflags, if_true]

/-- C35 (amended) at a concrete scan: the example user table with the key
`x = ANY ('{NULL, NULL}')`, the store holding the row 3. -/
theorem C35_empty_array_scan_returns_rows_witness :
    exampleNullArrayScan.constraints = [] ∧
    cam_getnext_heaptuple exampleExec exampleNullArrayScan true false [.ok (exampleRow 3)] 1 =
      some (.ok (some (exampleFetchedTuple 3),
        decide (exampleNullArrayScan.target_key_attnums.getD 0 0 ≠ (InvalidOid : Int)),
        exampleNullArrayScanDone, [])) :=
  C35_empty_array_scan_returns_rows exampleNullArrayGate exampleExec exampleUserTable none
    false exampleArrayKey exampleNullArrayScan exampleNullArrayScanDone
    true false [.ok (exampleRow 3)] [] (exampleFetchedTuple 3) 0 rfl rfl rfl rfl rfl rfl

/-! ## Expressions without column references -/

mutual
/-- On an expression without a `Var` node, `K2PgAnalyzeExpression` raises the
error or returns the boolean that `K2PgIsSupportedSingleRowModifyWhereExpr`
raises or returns, and leaves `*has_vars` as it was. -/
theorem K2PgAnalyzeExpression_no_var (pg_proc : Oid → Option Char) (t : AttrNumber) :
    ∀ (e : Expr) (hv hu : Bool), e.containsVar = false →
      (∀ err, K2PgIsSupportedSingleRowModifyWhereExpr pg_proc e = .error err →
        K2PgAnalyzeExpression pg_proc t e hv hu = .error err) ∧
      (∀ b, K2PgIsSupportedSingleRowModifyWhereExpr pg_proc e = .ok b →
        ∃ hu1, K2PgAnalyzeExpression pg_proc t e hv hu = .ok (b, hv, hu1))
  | .Const consttype constvalue constisnull, hv, hu => by
    intro _
    refine ⟨?_, ?_⟩
    · intro err h
      simp [K2PgIsSupportedSingleRowModifyWhereExpr] at h
    · intro b h
      simp only [K2PgIsSupportedSingleRowModifyWhereExpr, Except.ok.injEq] at h
      subst h
      exact ⟨hu, rfl⟩
  | .Var varattno, hv, hu => by
    intro hnv
    simp [Expr.containsVar] at hnv
  | .Param paramkind paramid paramtype, hv, hu => by
    intro _
    refine ⟨?_, ?_⟩
    · intro err h
      simp [K2PgIsSupportedSingleRowModifyWhereExpr] at h
    · intro b h
      simp only [K2PgIsSupportedSingleRowModifyWhereExpr, Except.ok.injEq] at h
      subst h
      exact ⟨hu, rfl⟩
  | .RelabelType arg, hv, hu => by
    intro hnv
    simp only [Expr.containsVar] at hnv
    simp only [K2PgIsSupportedSingleRowModifyWhereExpr, K2PgAnalyzeExpression]
    exact K2PgAnalyzeExpression_no_var pg_proc t arg hv hu hnv
  | .FuncExpr funcid args, hv, hu => by
    intro hnv
    simp only [Expr.containsVar] at hnv
    cases hp : pg_proc funcid with
    | none =>
      refine ⟨fun err h => ?_, fun b h => ?_⟩
      · simp only [K2PgIsSupportedSingleRowModifyWhereExpr, hp] at h
        simp only [K2PgAnalyzeExpression, hp]
        cases h; rfl
      · simp [K2PgIsSupportedSingleRowModifyWhereExpr, hp] at h
    | some provolatile =>
      by_cases hi : provolatile = PROVOLATILE_IMMUTABLE
      · simp only [K2PgIsSupportedSingleRowModifyWhereExpr, K2PgAnalyzeExpression, hp, hi,
          ne_eq, not_true_eq_false, if_false]
        exact K2PgAnalyzeExpression_args_no_var pg_proc t args hv _ hnv
      · refine ⟨fun err h => ?_, fun b h => ?_⟩
        · simp [K2PgIsSupportedSingleRowModifyWhereExpr, hp, hi] at h
        · simp only [K2PgIsSupportedSingleRowModifyWhereExpr, hp, ne_eq, hi,
            not_false_eq_true, if_true, Except.ok.injEq] at h
          subst h
          refine ⟨hu, ?_⟩
          simp only [K2PgAnalyzeExpression, hp, ne_eq, hi, not_false_eq_true, if_true]
  | .OpExpr opfuncid args, hv, hu => by
    intro hnv
    simp only [Expr.containsVar] at hnv
    cases hp : pg_proc opfuncid with
    | none =>
      refine ⟨fun err h => ?_, fun b h => ?_⟩
      · simp only [K2PgIsSupportedSingleRowModifyWhereExpr, hp] at h
        simp only [K2PgAnalyzeExpression, hp]
        cases h; rfl
      · simp [K2PgIsSupportedSingleRowModifyWhereExpr, hp] at h
    | some provolatile =>
      by_cases hi : provolatile = PROVOLATILE_IMMUTABLE
      · simp only [K2PgIsSupportedSingleRowModifyWhereExpr, K2PgAnalyzeExpression, hp, hi,
          ne_eq, not_true_eq_false, if_false]
        exact K2PgAnalyzeExpression_args_no_var pg_proc t args hv _ hnv
      · refine ⟨fun err h => ?_, fun b h => ?_⟩
        · simp [K2PgIsSupportedSingleRowModifyWhereExpr, hp, hi] at h
        · simp only [K2PgIsSupportedSingleRowModifyWhereExpr, hp, ne_eq, hi,
            not_false_eq_true, if_true, Except.ok.injEq] at h
          subst h
          refine ⟨hu, ?_⟩
          simp only [K2PgAnalyzeExpression, hp, ne_eq, hi, not_false_eq_true, if_true]
  | .Other tag, hv, hu => by
    intro _
    refine ⟨?_, ?_⟩
    · intro err h
      simp [K2PgIsSupportedSingleRowModifyWhereExpr] at h
    · intro b h
      simp only [K2PgIsSupportedSingleRowModifyWhereExpr, Except.ok.injEq] at h
      subst h
      exact ⟨hu, rfl⟩
/-- The argument loops of the two functions agree in the same way on
arguments without a `Var` node. -/
theorem K2PgAnalyzeExpression_args_no_var (pg_proc : Oid → Option Char) (t : AttrNumber) :
    ∀ (l : List Expr) (hv hu : Bool), Expr.containsVar_args l = false →
      (∀ err, K2PgIsSupportedSingleRowModifyWhereExpr_args pg_proc l = .error err →
        K2PgAnalyzeExpression_args pg_proc t l hv hu = .error err) ∧
      (∀ b, K2PgIsSupportedSingleRowModifyWhereExpr_args pg_proc l = .ok b →
        ∃ hu1, K2PgAnalyzeExpression_args pg_proc t l hv hu = .ok (b, hv, hu1))
  | [], hv, hu => by
    intro _
    refine ⟨?_, ?_⟩
    · intro err h
      simp [K2PgIsSupportedSingleRowModifyWhereExpr_args] at h
    · intro b h
      simp only [K2PgIsSupportedSingleRowModifyWhereExpr_args, Except.ok.injEq] at h
      subst h
      exact ⟨hu, rfl⟩
  | e :: rest, hv, hu => by
    intro hnv
    simp only [Expr.containsVar_args, Bool.or_eq_false_iff] at hnv
    obtain ⟨ihe1, ihe2⟩ := K2PgAnalyzeExpression_no_var pg_proc t e hv hu hnv.1
    cases hw : K2PgIsSupportedSingleRowModifyWhereExpr pg_proc e with
    | error x =>
      refine ⟨fun err h => ?_, fun b h => ?_⟩
      · simp only [K2PgIsSupportedSingleRowModifyWhereExpr_args, hw] at h
        simp only [K2PgAnalyzeExpression_args, ihe1 x hw]
        cases h; rfl
      · simp [K2PgIsSupportedSingleRowModifyWhereExpr_args, hw] at h
    | ok b0 =>
      obtain ⟨hu1, ha⟩ := ihe2 b0 hw
      cases b0 with
      | false =>
        refine ⟨fun err h => ?_, fun b h => ?_⟩
        · simp [K2PgIsSupportedSingleRowModifyWhereExpr_args, hw] at h
        · simp only [K2PgIsSupportedSingleRowModifyWhereExpr_args, hw, Except.ok.injEq] at h
          subst h
          refine ⟨hu1, ?_⟩
          simp only [K2PgAnalyzeExpression_args, ha]
      | true =>
        simp only [K2PgIsSupportedSingleRowModifyWhereExpr_args, K2PgAnalyzeExpression_args, hw,
          ha]
        exact K2PgAnalyzeExpression_args_no_var pg_proc t rest hv hu1 hnv.2
end

mutual
/-- An expression that `K2PgIsSupportedSingleRowModifyWhereExpr` accepts
contains no `Var` node. -/
theorem K2PgIsSupportedSingleRowModifyWhereExpr_no_var (pg_proc : Oid → Option Char) :
    ∀ e : Expr, K2PgIsSupportedSingleRowModifyWhereExpr pg_proc e = .ok true →
      e.containsVar = false
  | .Const _ _ _ => fun _ => rfl
  | .Var _ => fun h => by simp [K2PgIsSupportedSingleRowModifyWhereExpr] at h
  | .Param _ _ _ => fun _ => rfl
  | .RelabelType arg => fun h => by
    simp only [K2PgIsSupportedSingleRowModifyWhereExpr] at h
    simp only [Expr.containsVar]
    exact K2PgIsSupportedSingleRowModifyWhereExpr_no_var pg_proc arg h
  | .FuncExpr funcid args => fun h => by
    simp only [K2PgIsSupportedSingleRowModifyWhereExpr] at h
    simp only [Expr.containsVar]
    split at h
    · cases h
    · split_ifs at h
      · cases h
      · exact K2PgIsSupportedSingleRowModifyWhereExpr_args_no_var pg_proc args h
  | .OpExpr opfuncid args => fun h => by
    simp only [K2PgIsSupportedSingleRowModifyWhereExpr] at h
    simp only [Expr.containsVar]
    split at h
    · cases h
    · split_ifs at h
      · cases h
      · exact K2PgIsSupportedSingleRowModifyWhereExpr_args_no_var pg_proc args h
  | .Other _ => fun _ => rfl
/-- Arguments that the loop of `K2PgIsSupportedSingleRowModifyWhereExpr`
accepts contain no `Var` node. -/
theorem K2PgIsSupportedSingleRowModifyWhereExpr_args_no_var (pg_proc : Oid → Option Char) :
    ∀ l : List Expr, K2PgIsSupportedSingleRowModifyWhereExpr_args pg_proc l = .ok true →
      Expr.containsVar_args l = false
  | [] => fun _ => rfl
  | e :: rest => fun h => by
    simp only [K2PgIsSupportedSingleRowModifyWhereExpr_args] at h
    simp only [Expr.containsVar_args, Bool.or_eq_false_iff]
    split at h
    · cases h
    · cases h
    · rename_i hw
      exact ⟨K2PgIsSupportedSingleRowModifyWhereExpr_no_var pg_proc e hw,
        K2PgIsSupportedSingleRowModifyWhereExpr_args_no_var pg_proc rest h⟩
end

/-- The loop of `K2PgIsSupportedSingleRowModifyWhereExpr` returns false at the
first argument that is rejected, without visiting the arguments behind it. -/
theorem K2PgIsSupportedSingleRowModifyWhereExpr_args_reject (pg_proc : Oid → Option Char)
    (e : Expr) (post : List Expr)
    (he : K2PgIsSupportedSingleRowModifyWhereExpr pg_proc e = .ok false) :
    ∀ pre : List Expr,
      (∀ a ∈ pre, K2PgIsSupportedSingleRowModifyWhereExpr pg_proc a = .ok true) →
      K2PgIsSupportedSingleRowModifyWhereExpr_args pg_proc (pre ++ e :: post) = .ok false
  | [] => fun _ => by
    simp only [List.nil_append, K2PgIsSupportedSingleRowModifyWhereExpr_args, he]
  | a :: pre => fun hpre => by
    simp only [List.cons_append, K2PgIsSupportedSingleRowModifyWhereExpr_args,
      hpre a (List.mem_cons_self _ _)]
    exact K2PgIsSupportedSingleRowModifyWhereExpr_args_reject pg_proc e post he pre
      (fun x hx => hpre x (List.mem_cons_of_mem _ hx))

/-- C37: for every expression that contains no `Var` node and every target
column, `K2PgIsSupportedSingleRowModifyAssignExpr` returns the boolean that
`K2PgIsSupportedSingleRowModifyWhereExpr` returns (and raises the error that it
raises) and leaves `*needs_pushdown` false. `K2PgIsSupportedSingleRowModifyWhereExpr`
returns false on a `Var`, hands the result of its argument through a
`RelabelType`, returns false for a call of an immutable function or operator
at the first argument for which it returns false, and so accepts no expression
that contains a `Var`. -/
theorem C37_assign_and_where_agree_without_vars (pg_proc : Oid → Option Char) :
    (∀ (e : Expr) (t : AttrNumber), e.containsVar = false →
      K2PgIsSupportedSingleRowModifyAssignExpr pg_proc e t =
        match K2PgIsSupportedSingleRowModifyWhereExpr pg_proc e with
        | .error err => .error err
        | .ok b => .ok (b, false)) ∧
    (∀ varattno : AttrNumber,
      K2PgIsSupportedSingleRowModifyWhereExpr pg_proc (.Var varattno) = .ok false) ∧
    (∀ arg : Expr, K2PgIsSupportedSingleRowModifyWhereExpr pg_proc (.RelabelType arg) =
      K2PgIsSupportedSingleRowModifyWhereExpr pg_proc arg) ∧
    (∀ (funcid : Oid) (pre post : List Expr) (e : Expr),
      pg_proc funcid = some PROVOLATILE_IMMUTABLE →
      (∀ a ∈ pre, K2PgIsSupportedSingleRowModifyWhereExpr pg_proc a = .ok true) →
      K2PgIsSupportedSingleRowModifyWhereExpr pg_proc e = .ok false →
      K2PgIsSupportedSingleRowModifyWhereExpr pg_proc (.FuncExpr funcid (pre ++ e :: post))
          = .ok false ∧
        K2PgIsSupportedSingleRowModifyWhereExpr pg_proc (.OpExpr funcid (pre ++ e :: post))
          = .ok false) ∧
    (∀ e : Expr, e.containsVar = true →
      K2PgIsSupportedSingleRowModifyWhereExpr pg_proc e ≠ .ok true) := by
  refine ⟨?_, ?_, ?_, ?_, ?_⟩
  · intro e t hnv
    obtain ⟨h1, h2⟩ := K2PgAnalyzeExpression_no_var pg_proc t e false false hnv
    cases hw : K2PgIsSupportedSingleRowModifyWhereExpr pg_proc e with
    | error err =>
      simp only [K2PgIsSupportedSingleRowModifyAssignExpr, h1 err hw]
    | ok b =>
      obtain ⟨hu1, ha⟩ := h2 b hw
      simp only [K2PgIsSupportedSingleRowModifyAssignExpr, ha]
      cases b <;> simp
  · intro varattno
    simp only [K2PgIsSupportedSingleRowModifyWhereExpr]
  · intro arg
    simp only [K2PgIsSupportedSingleRowModifyWhereExpr]
  · intro funcid pre post e hp hpre he
    have hargs := K2PgIsSupportedSingleRowModifyWhereExpr_args_reject pg_proc e post he pre hpre
    constructor <;>
      simp only [K2PgIsSupportedSingleRowModifyWhereExpr, hp, ne_eq, not_true_eq_false,
        if_false, hargs]
  · intro e hv h
    rw [K2PgIsSupportedSingleRowModifyWhereExpr_no_var pg_proc e h] at hv
    cases hv

/-- C37 at a concrete expression: for `$1 + 1`, which has no column reference,
both functions return true and `*needs_pushdown` stays false. -/
theorem C37_assign_and_where_agree_without_vars_witness :
    K2PgIsSupportedSingleRowModifyAssignExpr examplePgProc exampleParamSum 2
        = .ok (true, false) ∧
      K2PgIsSupportedSingleRowModifyWhereExpr examplePgProc exampleParamSum = .ok true :=
  ⟨(C37_assign_and_where_agree_without_vars examplePgProc).1 exampleParamSum 2 rfl, rfl⟩

/-! ## Instantiating bind parameters -/

/-- Reading a list inside its bounds. -/
theorem get?_eq_some_getD {α : Type} [Inhabited α] (l : List α) (i : Nat)
    (h : i < l.length) : l.get? i = some (l.getD i default) := by
  rw [List.get?_eq_getElem?, List.getD_eq_getElem?_getD, List.getElem?_eq_getElem h]
  rfl

/-- What `K2PgExprInstantiateParamsInternal` does at a `Param` whose parameter
is usable: it leaves the parameter list as it is and stores the new `Const`
through `parent_var`, which fails when `parent_var` is NULL. -/
theorem K2PgExprInstantiateParamsInternal_param (env : DatumEnv)
    (paramFetch : Option (List ParamExternData → Int → List ParamExternData))
    (params : List ParamExternData) (paramkind : ParamKind) (paramid : Int) (paramtype : Oid)
    (parent_var : Bool)
    (h : (Expr.Param paramkind paramid paramtype).paramsUsable params = true) :
    K2PgExprInstantiateParamsInternal env paramFetch (.Param paramkind paramid paramtype)
        params parent_var =
      if parent_var then
        .ok ((Expr.Param paramkind paramid paramtype).instantiated env params, params)
      else .error .null_parent_var := by
  simp only [Expr.paramsUsable, Bool.and_eq_true, decide_eq_true_eq, beq_iff_eq, bne_iff_ne,
    ne_eq] at h
  obtain ⟨⟨⟨⟨h0, hlen⟩, hvalid⟩, htype⟩, hflag⟩ := h
  have hrange : ¬ (paramid - 1 < 0 ∨ (params.length : Int) ≤ paramid - 1) := by omega
  have hidx : (paramid - 1).toNat < params.length := by omega
  have hparams1 : (match paramFetch with
      | some hook =>
        if (!OidIsValid (params.getD (paramid - 1).toNat default).ptype) = true then
          hook params paramid
        else params
      | none => params) = params := by
    cases paramFetch with
    | none => rfl
    | some hook => simp only [hvalid, Bool.not_true, Bool.false_eq_true, if_false]
  have hcheck : (!OidIsValid (params.getD (paramid - 1).toNat default).ptype
      || (params.getD (paramid - 1).toNat default).ptype != paramtype
      || ((params.getD (paramid - 1).toNat default).pflags &&& PARAM_FLAG_CONST) == 0)
      = false := by
    rw [hvalid, htype]
    simp only [Bool.not_true, bne_self_eq_false, Bool.or_self, Bool.false_or,
      beq_eq_false_iff_ne, ne_eq]
    exact hflag
  simp only [K2PgExprInstantiateParamsInternal, if_neg hrange, hparams1,
    get?_eq_some_getD params _ hidx, hcheck, Bool.false_eq_true, if_false, Expr.instantiated]

mutual
/-- With a non-NULL `parent_var`, `K2PgExprInstantiateParamsInternal` succeeds
on every expression of the specification, leaves the parameter list as it is
and puts the instantiated expression into the slot. -/
theorem K2PgExprInstantiateParamsInternal_usable (env : DatumEnv)
    (paramFetch : Option (List ParamExternData → Int → List ParamExternData))
    (params : List ParamExternData) :
    ∀ e : Expr, e.paramsUsable params = true →
      K2PgExprInstantiateParamsInternal env paramFetch e params true =
        .ok (e.instantiated env params, params)
  | .Const _ _ _ => fun _ => rfl
  | .Var _ => fun _ => rfl
  | .Param paramkind paramid paramtype => fun h => by
    rw [K2PgExprInstantiateParamsInternal_param env paramFetch params paramkind paramid
      paramtype true h]
    rfl
  | .RelabelType arg => fun h => by
    simp only [Expr.paramsUsable] at h
    simp only [K2PgExprInstantiateParamsInternal, Expr.instantiated,
      K2PgExprInstantiateParamsInternal_usable env paramFetch params arg h]
  | .FuncExpr funcid args => fun h => by
    simp only [Expr.paramsUsable] at h
    simp only [K2PgExprInstantiateParamsInternal, Expr.instantiated,
      K2PgExprInstantiateParamsInternal_args_usable env paramFetch params args h]
  | .OpExpr opfuncid args => fun h => by
    simp only [Expr.paramsUsable] at h
    simp only [K2PgExprInstantiateParamsInternal, Expr.instantiated,
      K2PgExprInstantiateParamsInternal_args_usable env paramFetch params args h]
  | .Other _ => fun h => by simp [Expr.paramsUsable] at h
/-- The argument loops succeed in the same way. -/
theorem K2PgExprInstantiateParamsInternal_args_usable (env : DatumEnv)
    (paramFetch : Option (List ParamExternData → Int → List ParamExternData))
    (params : List ParamExternData) :
    ∀ l : List Expr, Expr.paramsUsable_args params l = true →
      K2PgExprInstantiateParamsInternal_args env paramFetch l params =
        .ok (Expr.instantiated_args env params l, params)
  | [] => fun _ => rfl
  | e :: rest => fun h => by
    simp only [Expr.paramsUsable_args, Bool.and_eq_true] at h
    simp only [K2PgExprInstantiateParamsInternal_args, Expr.instantiated_args,
      K2PgExprInstantiateParamsInternal_usable env paramFetch params e h.1,
      K2PgExprInstantiateParamsInternal_args_usable env paramFetch params rest h.2]
end

mutual
/-- The instantiated expression contains no `Param` node. -/
theorem Expr.instantiated_containsParam (env : DatumEnv) (params : List ParamExternData) :
    ∀ e : Expr, (e.instantiated env params).containsParam = false
  | .Const _ _ _ => rfl
  | .Var _ => rfl
  | .Param _ _ _ => rfl
  | .RelabelType arg => by
    simp only [Expr.instantiated, Expr.containsParam]
    exact Expr.instantiated_containsParam env params arg
  | .FuncExpr _ args => by
    simp only [Expr.instantiated, Expr.containsParam]
    exact Expr.instantiated_args_containsParam env params args
  | .OpExpr _ args => by
    simp only [Expr.instantiated, Expr.containsParam]
    exact Expr.instantiated_args_containsParam env params args
  | .Other _ => rfl
/-- The instantiated argument list contains no `Param` node. -/
theorem Expr.instantiated_args_containsParam (env : DatumEnv)
    (params : List ParamExternData) :
    ∀ l : List Expr, Expr.containsParam_args (Expr.instantiated_args env params l) = false
  | [] => rfl
  | e :: rest => by
    simp only [Expr.instantiated_args, Expr.containsParam_args, Bool.or_eq_false_iff]
    exact ⟨Expr.instantiated_containsParam env params e,
      Expr.instantiated_args_containsParam env params rest⟩
end

/-- The pointer `parent_var` is used at a `Param` node only. -/
theorem K2PgExprInstantiateParamsInternal_parent_var (env : DatumEnv)
    (paramFetch : Option (List ParamExternData → Int → List ParamExternData))
    (params : List ParamExternData) (e : Expr) (h : e.isParam = false) (parent_var : Bool) :
    K2PgExprInstantiateParamsInternal env paramFetch e params parent_var =
      K2PgExprInstantiateParamsInternal env paramFetch e params true := by
  cases e with
  | Param _ _ _ => simp [Expr.isParam] at h
  | Const _ _ _ => simp only [K2PgExprInstantiateParamsInternal]
  | Var _ => simp only [K2PgExprInstantiateParamsInternal]
  | RelabelType _ => simp only [K2PgExprInstantiateParamsInternal]
  | FuncExpr _ _ => simp only [K2PgExprInstantiateParamsInternal]
  | OpExpr _ _ => simp only [K2PgExprInstantiateParamsInternal]
  | Other _ => simp only [K2PgExprInstantiateParamsInternal]

/-- C38: for a non-null parameter list and an expression that is itself a
single `Param` whose parameter has a valid type equal to the type of the
`Param` and is flagged constant, `K2PgExprInstantiateParams` does not succeed:
it passes NULL as `parent_var` and the `Param` case stores the new `Const`
through it. On every other expression built from `Const`, `Var`, `Param`,
`RelabelType`, `FuncExpr` and `OpExpr` nodes with such parameters it succeeds,
leaves the parameter list as it is, replaces each `Param` in its parent slot by
a `Const` with the type of the `Param` and the value and null flag of the
parameter, and leaves no `Param` node; with a null parameter list the
expression is left unchanged. -/
theorem C38_top_level_param_is_stored_through_null (env : DatumEnv) :
    (∀ (li : ParamListInfoData) (paramkind : ParamKind) (paramid : Int) (paramtype : Oid),
      (Expr.Param paramkind paramid paramtype).paramsUsable li.params = true →
      K2PgExprInstantiateParams env (.Param paramkind paramid paramtype) (some li)
        = .error .null_parent_var) ∧
    (∀ (li : ParamListInfoData) (e : Expr),
      e.paramsUsable li.params = true → e.isParam = false →
      K2PgExprInstantiateParams env e (some li)
        = .ok (e.instantiated env li.params, some li) ∧
      (e.instantiated env li.params).containsParam = false) ∧
    (∀ e : Expr, K2PgExprInstantiateParams env e none = .ok (e, none)) := by
  refine ⟨?_, ?_, ?_⟩
  · intro li paramkind paramid paramtype h
    simp only [K2PgExprInstantiateParams,
      K2PgExprInstantiateParamsInternal_param env li.paramFetch li.params paramkind paramid
        paramtype false h, Bool.false_eq_true, if_false]
  · intro li e h hnp
    refine ⟨?_, Expr.instantiated_containsParam env li.params e⟩
    simp only [K2PgExprInstantiateParams,
      K2PgExprInstantiateParamsInternal_parent_var env li.paramFetch li.params e hnp false,
      K2PgExprInstantiateParamsInternal_usable env li.paramFetch li.params e h]
  · intro e
    rfl

/-- C38 at concrete expressions: with the parameter list `$1 = 42`, the
expression `$1` ends in the store through NULL, while `$1 + 1` becomes
`42 + 1`. -/
theorem C38_top_level_param_is_stored_through_null_witness :
    K2PgExprInstantiateParams exampleDatumEnv exampleSingleParam (some exampleParamList)
        = .error .null_parent_var ∧
      (K2PgExprInstantiateParams exampleDatumEnv exampleParamSum (some exampleParamList)
        = .ok (.OpExpr 177 [.Const INT4OID 42 false, .Const INT4OID 1 false],
            some exampleParamList) ∧
       (exampleParamSum.instantiated exampleDatumEnv exampleParamList.params).containsParam
        = false) :=
  ⟨(C38_top_level_param_is_stored_through_null exampleDatumEnv).1 exampleParamList
      .PARAM_EXTERN 1 INT4OID rfl,
    (C38_top_level_param_is_stored_through_null exampleDatumEnv).2.1 exampleParamList
      exampleParamSum rfl rfl⟩

/-! ## System-table scans through an index -/

/-- A successful `camBindScanKeys` leaves the target attribute numbers of the
keys as they are. -/
theorem camBindScanKeys_target_key_attnums (env : PgGate) (relation : RelationData)
    (index : Option RelationData) (camScan c3 : CamScanDescData) (scan_plan : CamScanPlanData)
    (h : camBindScanKeys env relation index camScan scan_plan = .ok c3) :
    c3.target_key_attnums = camScan.target_key_attnums := by
  simp only [camBindScanKeys] at h
  split at h
  · cases h
  · split at h <;> cases h <;> rfl

/-- The target attribute numbers that a successful `camBeginScan` leaves in
the scan descriptor are those that `camSetupScanPlan` computes from the keys. -/
theorem camBeginScan_target_key_attnums (env : PgGate) (relation : RelationData)
    (index : Option RelationData) (xs_want_itup : Bool) (key : List ScanKeyData)
    (camScan : CamScanDescData)
    (hopen : camBeginScan env relation index xs_want_itup key = .ok camScan) :
    camScan.target_key_attnums =
      key.map (fun k => (camSetupScanPlan_keyAttnums index xs_want_itup k).1) := by
  simp only [camBeginScan] at hopen
  split at hopen
  · cases hopen
  · split at hopen
    · cases hopen
    · rename_i c1 p1 hplan
      obtain ⟨-, -, -, -, -, htarget⟩ :=
        camSetupScanPlan_ok env relation index xs_want_itup _ c1 p1 hplan
      split at hopen
      · cases hopen
      · rename_i c3 hc3
        cases hopen
        have h3 := camBindScanKeys_target_key_attnums env relation index _ c3 _ hc3
        have hinit : (camBeginScan_init relation key).key = key := rfl
        simp only [camSetupTargets, h3, camSetupScanKeys, htarget, hinit]

/-- The inner loop of `cam_systable_beginscan` runs to the end exactly when
no visited index position holds the column. -/
theorem cam_systable_beginscan_column_none (index : RelationData) (a : AttrNumber)
    (l : List Nat) :
    cam_systable_beginscan_column index a l = none ↔
      ∀ j ∈ l, index.indkey_values (j : Int) ≠ a := by
  induction l with
  | nil => simp [cam_systable_beginscan_column]
  | cons j rest ih =>
    simp only [cam_systable_beginscan_column, List.mem_cons, forall_eq_or_imp]
    by_cases h : a = index.indkey_values (j : Int)
    · rw [if_pos h]
      constructor
      · intro hc; cases hc
      · intro hc; exact absurd h.symm hc.1
    · rw [if_neg h, ih]
      constructor
      · intro hc; exact ⟨fun e => h e.symm, hc⟩
      · intro hc; exact hc.2

/-- The position at which the inner loop of `cam_systable_beginscan` breaks
holds the column, and no position visited before it does. -/
theorem cam_systable_beginscan_column_some (index : RelationData) (a : AttrNumber)
    (l : List Nat) (j : Nat) :
    cam_systable_beginscan_column index a l = some j →
      ∃ pre post, l = pre ++ j :: post ∧ index.indkey_values (j : Int) = a ∧
        ∀ q ∈ pre, index.indkey_values (q : Int) ≠ a := by
  induction l with
  | nil => intro h; cases h
  | cons q rest ih =>
    intro h
    simp only [cam_systable_beginscan_column] at h
    by_cases hq : a = index.indkey_values (q : Int)
    · rw [if_pos hq] at h
      cases h
      exact ⟨[], rest, rfl, hq.symm, by simp⟩
    · rw [if_neg hq] at h
      obtain ⟨pre, post, hl, hj, hpre⟩ := ih h
      refine ⟨q :: pre, post, by rw [hl]; rfl, hj, ?_⟩
      intro x hx
      rcases List.mem_cons.1 hx with hx1 | hx1
      · rw [hx1]; exact fun e => hq e.symm
      · exact hpre x hx1

/-- Over the positions `0 .. n - 1`, the position at which the inner loop of
`cam_systable_beginscan` breaks is the first one that holds the column. -/
theorem cam_systable_beginscan_column_first (index : RelationData) (a : AttrNumber)
    (n j : Nat)
    (h : cam_systable_beginscan_column index a (List.range n) = some j) :
    j < n ∧ index.indkey_values (j : Int) = a ∧
      ∀ q, q < j → index.indkey_values (q : Int) ≠ a := by
  obtain ⟨pre, post, hl, hj, hpre⟩ := cam_systable_beginscan_column_some index a _ j h
  have hjmem : j ∈ List.range n := by rw [hl]; simp
  have hjn : j < n := List.mem_range.1 hjmem
  refine ⟨hjn, hj, ?_⟩
  intro q hq
  have hqmem : q ∈ List.range n := List.mem_range.2 (by omega)
  have hsorted : (List.range n).Pairwise (fun x y => x < y) := List.pairwise_lt_range n
  rw [hl, List.pairwise_append, List.pairwise_cons] at hsorted
  rw [hl] at hqmem
  rcases List.mem_append.1 hqmem with hin | hin
  · exact hpre q hin
  · rcases List.mem_cons.1 hin with hin1 | hin1
    · omega
    · have := hsorted.2.1.1 q hin1
      omega

/-- The outer loop of `cam_systable_beginscan` succeeds when every key column
is among the index columns, and then changes the attribute number of each key
to the first index position that holds the column, plus one. -/
theorem cam_systable_beginscan_keys_ok (index : RelationData) :
    ∀ key : List ScanKeyData,
      (∀ k ∈ key, ∃ j, j < IndexRelationGetNumberOfAttributes index ∧
        index.indkey_values (j : Int) = k.sk_attno) →
      ∃ key1 : List ScanKeyData,
        cam_systable_beginscan_keys index key = .ok key1 ∧ key1.length = key.length ∧
        ∀ i, i < key.length →
          ∃ j, j < IndexRelationGetNumberOfAttributes index ∧
            index.indkey_values (j : Int) = (key.getD i default).sk_attno ∧
            (∀ q, q < j → index.indkey_values (q : Int) ≠ (key.getD i default).sk_attno) ∧
            key1.getD i default = { key.getD i default with sk_attno := (j : Int) + 1 } := by
  intro key
  induction key with
  | nil =>
    intro _
    exact ⟨[], rfl, rfl, fun i hi => absurd hi (Nat.not_lt_zero i)⟩
  | cons k rest ih =>
    intro hall
    obtain ⟨rest1, hrest, hlen, hpos⟩ := ih (fun x hx => hall x (List.mem_cons_of_mem _ hx))
    obtain ⟨j0, hj0, hcol⟩ := hall k (List.mem_cons_self _ _)
    cases hc : cam_systable_beginscan_column index k.sk_attno
        (List.range (IndexRelationGetNumberOfAttributes index)) with
    | none =>
      exact absurd hcol ((cam_systable_beginscan_column_none index k.sk_attno _).1 hc j0
        (List.mem_range.2 hj0))
    | some j =>
      obtain ⟨hjn, hjcol, hjfirst⟩ :=
        cam_systable_beginscan_column_first index k.sk_attno _ j hc
      refine ⟨{ k with sk_attno := (j : Int) + 1 } :: rest1, ?_, ?_, ?_⟩
      · simp only [cam_systable_beginscan_keys, hc, hrest]
      · simp only [List.length_cons, hlen]
      · intro i hi
        cases i with
        | zero => exact ⟨j, hjn, hjcol, hjfirst, rfl⟩
        | succ i =>
          have hi1 : i < rest.length := by
            simp only [List.length_cons] at hi
            omega
          obtain ⟨j1, h1, h2, h3, h4⟩ := hpos i hi1
          exact ⟨j1, h1, h2, h3, h4⟩

/-- The outer loop of `cam_systable_beginscan` raises its error exactly when
some key column is not among the index columns; it raises no other error. -/
theorem cam_systable_beginscan_keys_error (index : RelationData) :
    ∀ (key : List ScanKeyData) (e : SysScanError),
      cam_systable_beginscan_keys index key = .error e →
      e = .column_not_in_index ∧
        ∃ k ∈ key, ∀ j, j < IndexRelationGetNumberOfAttributes index →
          index.indkey_values (j : Int) ≠ k.sk_attno := by
  intro key
  induction key with
  | nil => intro e h; cases h
  | cons k rest ih =>
    intro e h
    simp only [cam_systable_beginscan_keys] at h
    split at h
    · rename_i hc
      cases h
      refine ⟨rfl, k, List.mem_cons_self _ _, fun j hj => ?_⟩
      exact (cam_systable_beginscan_column_none index k.sk_attno _).1 hc j
        (List.mem_range.2 hj)
    · split at h
      · rename_i e1 hrest
        cases h
        obtain ⟨he, x, hx, hxcol⟩ := ih e hrest
        exact ⟨he, x, List.mem_cons_of_mem _ hx, hxcol⟩
      · cases h

/-- C39: for a scan through a usable secondary index whose columns include
the column of every key, `cam_systable_beginscan` changes the attribute number
`a` of each key to `j + 1` for the first index position `j` with
`indkey[j] == a` and hands these keys to `camBeginScan`; when that succeeds,
the target attribute number of every key in the scan descriptor is its
original heap attribute number. With a usable secondary index the function
raises "column is not in index" exactly when the column of some key is not
among the index columns. When the index is primary or not usable, the keys go
to `camBeginScan` unchanged, without an index. -/
theorem C39_systable_scan_key_translation (env : PgGate) (IgnoreSystemIndexes : Bool)
    (ReindexIsProcessingIndex : Oid → Bool) (RelationIdGetRelation : Oid → RelationData)
    (relation : RelationData) (indexId : Oid) (indexOK : Bool) (snapshot : Nat)
    (key : List ScanKeyData) :
    ((indexOK && !IgnoreSystemIndexes && !ReindexIsProcessingIndex indexId) = true →
      (RelationIdGetRelation indexId).indisprimary = false →
      (∀ k ∈ key, ∃ j, j < IndexRelationGetNumberOfAttributes (RelationIdGetRelation indexId) ∧
        (RelationIdGetRelation indexId).indkey_values (j : Int) = k.sk_attno) →
      ∃ key1 : List ScanKeyData,
        key1.length = key.length ∧
        (∀ i, i < key.length →
          ∃ j, j < IndexRelationGetNumberOfAttributes (RelationIdGetRelation indexId) ∧
            (RelationIdGetRelation indexId).indkey_values (j : Int)
              = (key.getD i default).sk_attno ∧
            (∀ q, q < j → (RelationIdGetRelation indexId).indkey_values (q : Int)
              ≠ (key.getD i default).sk_attno) ∧
            key1.getD i default = { key.getD i default with sk_attno := (j : Int) + 1 }) ∧
        cam_systable_beginscan env IgnoreSystemIndexes ReindexIsProcessingIndex
            RelationIdGetRelation relation indexId indexOK snapshot key =
          (match camBeginScan env relation (some (RelationIdGetRelation indexId)) false
              key1 with
           | .error e => .error (.scan e)
           | .ok camScan =>
             .ok { heap_rel := relation, snapshot := snapshot, k2scan := camScan }) ∧
        (∀ camScan, camBeginScan env relation (some (RelationIdGetRelation indexId)) false
            key1 = .ok camScan →
          camScan.key = key1 ∧
          ∀ i, i < key.length →
            camScan.target_key_attnums.getD i 0 = (key.getD i default).sk_attno)) ∧
    ((indexOK && !IgnoreSystemIndexes && !ReindexIsProcessingIndex indexId) = true →
      (RelationIdGetRelation indexId).indisprimary = false →
      (cam_systable_beginscan env IgnoreSystemIndexes ReindexIsProcessingIndex
          RelationIdGetRelation relation indexId indexOK snapshot key
            = .error .column_not_in_index ↔
        ∃ k ∈ key, ∀ j, j < IndexRelationGetNumberOfAttributes (RelationIdGetRelation indexId) →
          (RelationIdGetRelation indexId).indkey_values (j : Int) ≠ k.sk_attno)) ∧
    ((indexOK && !IgnoreSystemIndexes && !ReindexIsProcessingIndex indexId) = false ∨
        (RelationIdGetRelation indexId).indisprimary = true →
      cam_systable_beginscan env IgnoreSystemIndexes ReindexIsProcessingIndex
          RelationIdGetRelation relation indexId indexOK snapshot key =
        (match camBeginScan env relation none false key with
         | .error e => .error (.scan e)
         | .ok camScan =>
           .ok { heap_rel := relation, snapshot := snapshot, k2scan := camScan }) ∧
      (∀ camScan, camBeginScan env relation none false key = .ok camScan →
        camScan.key = key)) := by
  refine ⟨?_, ?_, ?_⟩
  · intro husable hsecondary hall
    obtain ⟨key1, hkeys, hlen, hpos⟩ :=
      cam_systable_beginscan_keys_ok (RelationIdGetRelation indexId) key hall
    refine ⟨key1, hlen, hpos, ?_, ?_⟩
    · simp only [cam_systable_beginscan, husable, hsecondary, if_true, Bool.false_eq_true,
        if_false, hkeys]
    · intro camScan hopen
      obtain ⟨-, -, -, hkey, -⟩ := camBeginScan_ok env relation _ false key1 camScan hopen
      refine ⟨hkey, ?_⟩
      intro i hi
      obtain ⟨j, -, hjcol, -, hk1⟩ := hpos i hi
      rw [camBeginScan_target_key_attnums env relation _ false key1 camScan hopen,
        getD_map_of_lt _ key1 i default 0 (by rw [hlen]; exact hi), hk1]
      simp only [camSetupScanPlan_keyAttnums, hsecondary, Bool.false_eq_true, if_false]
      rw [← hjcol]
      congr 1
      omega
  · intro husable hsecondary
    constructor
    · intro h
      simp only [cam_systable_beginscan, husable, hsecondary, if_true, Bool.false_eq_true,
        if_false] at h
      split at h
      · rename_i e he
        exact (cam_systable_beginscan_keys_error _ key e he).2
      · split at h <;> cases h
    · rintro ⟨k, hk, hcol⟩
      cases hkeys : cam_systable_beginscan_keys (RelationIdGetRelation indexId) key with
      | error e =>
        obtain ⟨he, -⟩ := cam_systable_beginscan_keys_error _ key e hkeys
        simp only [cam_systable_beginscan, husable, hsecondary, if_true, Bool.false_eq_true,
          if_false, hkeys, he]
      | ok key1 =>
        exfalso
        have hnone : ∀ (l : List ScanKeyData) (l1 : List ScanKeyData),
            cam_systable_beginscan_keys (RelationIdGetRelation indexId) l = .ok l1 →
            ∀ x ∈ l, ∃ j, j < IndexRelationGetNumberOfAttributes (RelationIdGetRelation indexId)
              ∧ (RelationIdGetRelation indexId).indkey_values (j : Int) = x.sk_attno := by
          intro l
          induction l with
          | nil => intro _ _ x hx; simp at hx
          | cons y rest ih =>
            intro l1 hl x hx
            simp only [cam_systable_beginscan_keys] at hl
            split at hl
            · cases hl
            · rename_i j hj
              split at hl
              · cases hl
              · rename_i rest1 hrest
                rcases List.mem_cons.1 hx with hx1 | hx1
                · obtain ⟨hjn, hjcol, -⟩ :=
                    cam_systable_beginscan_column_first _ y.sk_attno _ j hj
                  exact ⟨j, hjn, by rw [hx1]; exact hjcol⟩
                · exact ih rest1 hrest x hx1
        obtain ⟨j, hj, hjcol⟩ := hnone key key1 hkeys k hk
        exact hcol j hj hjcol
  · intro hunused
    have hindex : (if (indexOK && !IgnoreSystemIndexes && !ReindexIsProcessingIndex indexId)
        = true then
          (if (RelationIdGetRelation indexId).indisprimary = true then none
           else some (RelationIdGetRelation indexId))
        else (none : Option RelationData)) = none := by
      rcases hunused with h | h
      · rw [h]; rfl
      · rw [h]; simp
    refine ⟨?_, ?_⟩
    · simp only [cam_systable_beginscan, hindex]
    · intro camScan hopen
      obtain ⟨-, -, -, hkey, -⟩ := camBeginScan_ok env relation _ false key camScan hopen
      exact hkey

/-- C39 at a concrete scan: the example system table through the example
secondary index on heap column 2, with the key `= 5` on heap column 2. -/
theorem C39_systable_scan_key_translation_witness :
    ∃ key1 : List ScanKeyData,
      key1.length = [exampleHeapColumnKey].length ∧
      (∀ i, i < [exampleHeapColumnKey].length →
        ∃ j, j < IndexRelationGetNumberOfAttributes exampleSecondaryIndex ∧
          exampleSecondaryIndex.indkey_values (j : Int)
            = ([exampleHeapColumnKey].getD i default).sk_attno ∧
          (∀ q, q < j → exampleSecondaryIndex.indkey_values (q : Int)
            ≠ ([exampleHeapColumnKey].getD i default).sk_attno) ∧
          key1.getD i default =
            { [exampleHeapColumnKey].getD i default with sk_attno := (j : Int) + 1 }) ∧
      cam_systable_beginscan exampleGate false (fun _ => false)
          (fun _ => exampleSecondaryIndex) exampleSystemTable 16390 true 0
          [exampleHeapColumnKey] =
        (match camBeginScan exampleGate exampleSystemTable (some exampleSecondaryIndex) false
            key1 with
         | .error e => .error (.scan e)
         | .ok camScan =>
           .ok { heap_rel := exampleSystemTable, snapshot := 0, k2scan := camScan }) ∧
      (∀ camScan, camBeginScan exampleGate exampleSystemTable (some exampleSecondaryIndex)
          false key1 = .ok camScan →
        camScan.key = key1 ∧
        ∀ i, i < [exampleHeapColumnKey].length →
          camScan.target_key_attnums.getD i 0
            = ([exampleHeapColumnKey].getD i default).sk_attno) :=
  (C39_systable_scan_key_translation exampleGate false (fun _ => false)
    (fun _ => exampleSecondaryIndex) exampleSystemTable 16390 true 0
    [exampleHeapColumnKey]).1 rfl rfl
    (fun k hk => ⟨0, by decide, by rw [List.mem_singleton.1 hk]; rfl⟩)

/-! ## The builder after a caught exception -/

/-- When `serializePgAttributesToSKV` catches an exception, the builder keeps
the fields written before the throw: with the text attribute sent to the
`int4` field at offset 2 of the example schema, the call returns the error
status and the builder holds the two identifier fields. -/
theorem serializePgAttributesToSKV_caught_keeps_fields :
    (serializePgAttributesToSKV 2 exampleDetoast { schema := exampleSchema, written := [] }
        16384 0 exampleAttrs (fun a => if a = 2 then some 2 else none)).map
      (fun r => (r.1.pg_code, r.2.written))
      = some (ERRCODE_INTERNAL_ERROR, [SKVField.int32 16384, SKVField.int32 0]) := by
  decide

end K2
